import Mathlib

/-!
# Bytecode-to-AST lifter (`src/ast/ast.cpp`): shallow embedding and verified properties

The C++ sources `ast.h` / `ast.cpp` are embedded as pure Lean functions.

* Machine integers are `Nat`; wrap-around is written out (`% 2 ^ 32`, `% 2 ^ 16`, `% 256`).
* `double` values are carried as their 64-bit patterns (`Nat`), exactly what
  `std::bit_cast<uint64_t>` exposes to `check_special_number` and `get_constant_type`.
* Pointers become values: a `std::vector<Statement*>` is a `List Statement`, an
  `Expression**` open-slot handle is a path (`OpenSlot`) into the owning statement.
* A failed `assert(...)` is `Except.error (Error.assertion msg)`.
* `building_blocks.h`, `function.h`, `conditionBuilder.h` and the bytecode headers are not part of
  `src/`; what is taken from them is marked `Modelled from the spec:`.
-/

namespace Decompiler

/-! ## Constants of `ast.h` / `ast.cpp` -/

/-- The constant `static constexpr uint32_t INVALID_ID = -1;` (ast.h). -/
def INVALID_ID : Nat := 4294967295

/-- The constant `DOUBLE_SIGN` (ast.cpp:3). -/
def DOUBLE_SIGN : Nat := 0x8000000000000000
/-- The constant `DOUBLE_EXPONENT` (ast.cpp:4). -/
def DOUBLE_EXPONENT : Nat := 0x7FF0000000000000
/-- The constant `DOUBLE_FRACTION` (ast.cpp:5). -/
def DOUBLE_FRACTION : Nat := 0x000FFFFFFFFFFFFF
/-- The constant `DOUBLE_SPECIAL` (ast.cpp:6). -/
def DOUBLE_SPECIAL : Nat := DOUBLE_EXPONENT
/-- The constant `DOUBLE_NEGATIVE_ZERO` (ast.cpp:7). -/
def DOUBLE_NEGATIVE_ZERO : Nat := DOUBLE_SIGN

/-- The enumeration `CONSTANT_TYPE` (ast.h), in declaration order. -/
inductive CONSTANT_TYPE where
  | INVALID_CONSTANT
  | NIL_CONSTANT
  | BOOL_CONSTANT
  | NUMBER_CONSTANT
  deriving DecidableEq, Repr

/-- Enumerator value of a `CONSTANT_TYPE` (used by `>`, `<=` and truthiness tests in the source). -/
def CONSTANT_TYPE.val : CONSTANT_TYPE → Nat
  | .INVALID_CONSTANT => 0
  | .NIL_CONSTANT => 1
  | .BOOL_CONSTANT => 2
  | .NUMBER_CONSTANT => 3

/-! ## Bytecode view (external collaborator) -/

/-- Modelled from the spec: the opcodes of `Bytecode::BC_OP` (bytecode header, not in `src/`).
Every opcode named in `ast.cpp` is present; the others are the remaining opcodes of the format. -/
inductive BC_OP where
  | ISLT | ISGE | ISLE | ISGT | ISEQV | ISNEV | ISEQS | ISNES | ISEQN | ISNEN | ISEQP | ISNEP
  | ISTC | ISFC | IST | ISF | ISTYPE | ISNUM
  | MOV | NOT | UNM | LEN
  | ADDVN | SUBVN | MULVN | DIVVN | MODVN
  | ADDNV | SUBNV | MULNV | DIVNV | MODNV
  | ADDVV | SUBVV | MULVV | DIVVV | MODVV
  | POW | CAT
  | KSTR | KCDATA | KSHORT | KNUM | KPRI | KNIL
  | UGET | USETV | USETS | USETN | USETP | UCLO | FNEW
  | TNEW | TDUP | GGET | GSET | TGETV | TGETS | TGETB | TGETR | TSETV | TSETS | TSETB | TSETM | TSETR
  | CALLM | CALL | CALLMT | CALLT | ITERC | ITERN | VARG | ISNEXT
  | RETM | RET | RET0 | RET1
  | FORI | JFORI | FORL | IFORL | JFORL | ITERL | IITERL | JITERL | LOOP | ILOOP | JLOOP | JMP
  | INVALID
  deriving DecidableEq, Repr

/-- Modelled from the spec: `Bytecode::BC_OP_JMP_BIAS`, the bias of a jump displacement. -/
def BC_OP_JMP_BIAS : Nat := 0x8000

/-- Modelled from the spec: `Bytecode::BC_UV_LOCAL`, bit 15 of an upvalue descriptor. -/
def BC_UV_LOCAL : Nat := 0x8000

/-- Modelled from the spec: a raw instruction `{op, a, b, c, d}` of a prototype
(`a`, `b`, `c` are 8-bit, `d` is 16-bit). -/
structure BytecodeInstruction where
  type : BC_OP
  a : Nat := 0
  b : Nat := 0
  c : Nat := 0
  d : Nat := 0
  deriving DecidableEq, Repr

/-- Modelled from the spec: kind of a number constant (`BC_KNUM_INT` / `BC_KNUM_NUM`). -/
inductive BC_KNUM where
  | BC_KNUM_INT
  | BC_KNUM_NUM
  deriving DecidableEq, Repr

/-- Modelled from the spec: a number constant; `integer` is the raw 32-bit pattern, `number` the raw
64-bit pattern of the double. -/
structure NumberConstant where
  type : BC_KNUM
  integer : Nat := 0
  number : Nat := 0
  deriving DecidableEq, Repr

/-- Modelled from the spec: kind of a table-literal entry (`BC_KTAB_*`). -/
inductive BC_KTAB where
  | BC_KTAB_NIL | BC_KTAB_FALSE | BC_KTAB_TRUE | BC_KTAB_INT | BC_KTAB_NUM | BC_KTAB_STR
  deriving DecidableEq, Repr

/-- Modelled from the spec: one entry of a table literal. -/
structure TableConstant where
  type : BC_KTAB
  integer : Nat := 0
  number : Nat := 0
  string : String := ""
  deriving DecidableEq, Repr

/-- Modelled from the spec: kind of a garbage-collected constant (`BC_KGC_*`). -/
inductive BC_KGC where
  | BC_KGC_CHILD | BC_KGC_TAB | BC_KGC_I64 | BC_KGC_U64 | BC_KGC_COMPLEX | BC_KGC_STR
  deriving DecidableEq, Repr

/-- Modelled from the spec: a constant-pool entry (string, child prototype, cdata, table literal).
`prototype` is the index of the child prototype in the module's prototype list. -/
structure BytecodeConstant where
  type : BC_KGC
  string : String := ""
  prototype : Nat := 0
  cdata : Nat := 0
  array : List TableConstant := []
  table : List (TableConstant × TableConstant) := []
  deriving DecidableEq, Repr

/-- Modelled from the spec: kind of a variable-info record; only `BC_VAR_STR` is a named variable. -/
inductive BC_VAR where
  | BC_VAR_END | BC_VAR_FOR_IDX | BC_VAR_FOR_STOP | BC_VAR_FOR_STEP | BC_VAR_FOR_GEN
  | BC_VAR_FOR_STATE | BC_VAR_FOR_CTL | BC_VAR_STR
  deriving DecidableEq, Repr

/-- Modelled from the spec: a variable-info debug record `{name, scopeBegin, scopeEnd, kind}`. -/
structure VariableInfo where
  type : BC_VAR
  name : String := ""
  scopeBegin : Nat := 0
  scopeEnd : Nat := 0
  deriving DecidableEq, Repr

/-- Modelled from the spec: a prototype of the bytecode module. -/
structure Prototype where
  parameters : Nat := 0
  instructions : List BytecodeInstruction := []
  constants : List BytecodeConstant := []
  numberConstants : List NumberConstant := []
  upvalues : List Nat := []
  variableInfos : List VariableInfo := []
  prototypeSize : Nat := 0
  deriving DecidableEq, Repr

/-! ## Building blocks of the AST -/

/-- Modelled from the spec: statement kinds (`AST_STATEMENT_*`, building_blocks.h). -/
inductive AST_STATEMENT where
  | AST_STATEMENT_EMPTY
  | AST_STATEMENT_INSTRUCTION
  | AST_STATEMENT_RETURN
  | AST_STATEMENT_CONDITION
  | AST_STATEMENT_GOTO
  | AST_STATEMENT_BREAK
  | AST_STATEMENT_NUMERIC_FOR
  | AST_STATEMENT_GENERIC_FOR
  | AST_STATEMENT_LOOP
  | AST_STATEMENT_DECLARATION
  | AST_STATEMENT_ASSIGNMENT
  | AST_STATEMENT_FUNCTION_CALL
  | AST_STATEMENT_IF
  deriving DecidableEq, Repr

export AST_STATEMENT (AST_STATEMENT_EMPTY AST_STATEMENT_INSTRUCTION AST_STATEMENT_RETURN
  AST_STATEMENT_CONDITION AST_STATEMENT_GOTO AST_STATEMENT_BREAK AST_STATEMENT_NUMERIC_FOR
  AST_STATEMENT_GENERIC_FOR AST_STATEMENT_LOOP AST_STATEMENT_DECLARATION AST_STATEMENT_ASSIGNMENT
  AST_STATEMENT_FUNCTION_CALL AST_STATEMENT_IF)

/-- Modelled from the spec: constant kinds (`AST_CONSTANT_*`). -/
inductive AST_CONSTANT where
  | AST_CONSTANT_NIL
  | AST_CONSTANT_FALSE
  | AST_CONSTANT_TRUE
  | AST_CONSTANT_NUMBER
  | AST_CONSTANT_STRING
  | AST_CONSTANT_CDATA_SIGNED
  | AST_CONSTANT_CDATA_UNSIGNED
  | AST_CONSTANT_CDATA_IMAGINARY
  deriving DecidableEq, Repr

export AST_CONSTANT (AST_CONSTANT_NIL AST_CONSTANT_FALSE AST_CONSTANT_TRUE AST_CONSTANT_NUMBER
  AST_CONSTANT_STRING AST_CONSTANT_CDATA_SIGNED AST_CONSTANT_CDATA_UNSIGNED
  AST_CONSTANT_CDATA_IMAGINARY)

/-- Modelled from the spec: variable kinds (`AST_VARIABLE_*`). -/
inductive AST_VARIABLE where
  | AST_VARIABLE_SLOT
  | AST_VARIABLE_UPVALUE
  | AST_VARIABLE_GLOBAL
  | AST_VARIABLE_TABLE_INDEX
  deriving DecidableEq, Repr

export AST_VARIABLE (AST_VARIABLE_SLOT AST_VARIABLE_UPVALUE AST_VARIABLE_GLOBAL
  AST_VARIABLE_TABLE_INDEX)

/-- Modelled from the spec: binary operator kinds (`AST_BINARY_*`). The first seven are the kinds
named in `ast.cpp`; the comparison and logical kinds are produced by the condition builder. -/
inductive AST_BINARY where
  | AST_BINARY_ADDITION
  | AST_BINARY_SUBTRACTION
  | AST_BINARY_MULTIPLICATION
  | AST_BINARY_DIVISION
  | AST_BINARY_EXPONENTATION
  | AST_BINARY_MODULO
  | AST_BINARY_CONCATENATION
  | AST_BINARY_LESS_THAN
  | AST_BINARY_LESS_EQUAL
  | AST_BINARY_GREATER_THEN
  | AST_BINARY_GREATER_EQUAL
  | AST_BINARY_EQUAL
  | AST_BINARY_NOT_EQUAL
  | AST_BINARY_AND
  | AST_BINARY_OR
  deriving DecidableEq, Repr

export AST_BINARY (AST_BINARY_ADDITION AST_BINARY_SUBTRACTION AST_BINARY_MULTIPLICATION
  AST_BINARY_DIVISION AST_BINARY_EXPONENTATION AST_BINARY_MODULO AST_BINARY_CONCATENATION
  AST_BINARY_LESS_THAN AST_BINARY_LESS_EQUAL AST_BINARY_GREATER_THEN AST_BINARY_GREATER_EQUAL
  AST_BINARY_EQUAL AST_BINARY_NOT_EQUAL AST_BINARY_AND AST_BINARY_OR)

/-- Modelled from the spec: unary operator kinds (`AST_UNARY_*`). -/
inductive AST_UNARY where
  | AST_UNARY_NOT
  | AST_UNARY_MINUS
  | AST_UNARY_LENGTH
  deriving DecidableEq, Repr

export AST_UNARY (AST_UNARY_NOT AST_UNARY_MINUS AST_UNARY_LENGTH)

/-- Modelled from the spec: the payload of a `Constant` expression. `number` is the bit pattern of
the double; `signed_integer` / `unsigned_integer` share the raw 64-bit cdata pattern `cdata`. -/
structure Constant where
  type : AST_CONSTANT := AST_CONSTANT_NIL
  number : Nat := 0
  string : String := ""
  cdata : Nat := 0
  isName : Bool := false
  deriving DecidableEq, Repr

/-- Modelled from the spec: the tagged expression node (`Expression`, building_blocks.h). A null
`Expression*` is `null`; a `SlotScope**` handle is an index into the collector arena; a child
`Function*` is an index into `Ast.functions`. The `variable` constructor carries the fields of the
`Variable` record. -/
inductive Expression where
  | null
  | constant (constant : Constant)
  | variable (type : AST_VARIABLE) (slot : Nat) (slotScope : Option Nat) (name : String)
      (table tableIndex : Expression) (isMultres : Bool) (multresIndex : Nat)
  | function (function : Nat)
  | binaryOperation (type : AST_BINARY) (leftOperand rightOperand : Expression)
  | unaryOperation (type : AST_UNARY) (operand : Expression)
  | functionCall (function : Expression) (arguments : List Expression)
      (multresArgument : Expression) (isMethod : Bool) (returnCount : Nat)
  | table (constantsList : List Expression) (constantsFields : List (Expression × Expression))
      (fields : List (Expression × Expression)) (multresField : Expression) (multresIndex : Nat)
  | vararg (returnCount : Nat)
  deriving Repr

instance : Inhabited Expression := ⟨Expression.null⟩

/-- Modelled from the spec: the `Variable` record of an assignment target
(`{kind, slot, slotScope, name, table, tableIndex, isMultres, multresIndex}`). -/
structure Variable where
  type : AST_VARIABLE := AST_VARIABLE_SLOT
  slot : Nat := 0
  slotScope : Option Nat := none
  name : String := ""
  table : Expression := Expression.null
  tableIndex : Expression := Expression.null
  isMultres : Bool := false
  multresIndex : Nat := 0
  deriving Repr

/-- One step of an open-slot handle below an expression node: which pointer field is followed. -/
inductive Step where
  | leftOperand
  | rightOperand
  | operand
  | table
  | tableIndex
  | function
  | argument (j : Nat)
  | multresArgument
  deriving DecidableEq, Repr

/-- The pointer field of a statement's assignment record in which an open-slot handle starts. -/
inductive Root where
  | expression (k : Nat)
  | variableTable (k : Nat)
  | variableTableIndex (k : Nat)
  | multresReturn
  deriving DecidableEq, Repr

/-- An `Expression**` open-slot handle, as the location it points to inside the owning statement. -/
structure OpenSlot where
  root : Root
  path : List Step := []
  deriving DecidableEq, Repr

/-- Modelled from the spec: the `assignment` record of a statement. `allowedConstantType` defaults
to `NUMBER_CONSTANT`, the value for which the guard of `eliminate_slots` (ast.cpp:1548) is off. -/
structure Assignment where
  variables_ : List Variable := []
  expressions : List Expression := []
  openSlots : List OpenSlot := []
  usedSlots : List Nat := []
  allowedConstantType : CONSTANT_TYPE := CONSTANT_TYPE.NUMBER_CONSTANT
  isPotentialMethod : Bool := false
  isTableConstructor : Bool := false
  multresReturn : Expression := Expression.null
  needsFordwardDeclaration : Bool := false
  deriving Repr

/-- Modelled from the spec: the `condition` record of a statement. -/
structure Condition where
  allowSlotSwap : Bool := false
  swapped : Bool := false
  deriving DecidableEq, Repr

/-- Modelled from the spec: the `instruction` record of a statement
(`{op, a, b, c, d, id, target, attachedLabel}`); `a`, `b`, `c` are 8-bit, `d` is 16-bit, the ids
are 32-bit and start as `INVALID_ID`. -/
structure Instruction where
  type : BC_OP := BC_OP.INVALID
  a : Nat := 0
  b : Nat := 0
  c : Nat := 0
  d : Nat := 0
  id : Nat := INVALID_ID
  target : Nat := INVALID_ID
  attachedLabel : Nat := INVALID_ID
  deriving DecidableEq, Repr

/-- Modelled from the spec: the tagged statement record. `locals` is an index into the owning
function's `locals`, `function` an index into `Ast.functions` (both null when `none`). -/
structure Statement where
  type : AST_STATEMENT
  instruction : Instruction
  assignment : Assignment
  condition : Condition
  block : List Statement
  locals : Option Nat
  function : Option Nat
  deriving Repr

/-- Modelled from the spec: the statement constructor `Statement(type)` behind `new_statement`;
every other field has its default. -/
def Statement.new (type : AST_STATEMENT) : Statement :=
  { type := type, instruction := {}, assignment := {}, condition := {}, block := [],
    locals := none, function := none }

instance : Inhabited Statement := ⟨Statement.new AST_STATEMENT_EMPTY⟩

/-- Modelled from the spec: an upvalue binding `{slot, local, slotScope}` of a function node. -/
structure Upvalue where
  slot : Nat := 0
  local_ : Bool := false
  slotScope : Option Nat := none
  deriving DecidableEq, Repr

/-- Modelled from the spec: a local group `{baseSlot, scopeBegin, scopeEnd, names, excludeBlock}`. -/
structure Local where
  baseSlot : Nat := 0
  scopeBegin : Nat := 0
  scopeEnd : Nat := 0
  names : List String := []
  excludeBlock : Bool := false
  deriving DecidableEq, Repr

/-- Modelled from the spec: a label, keyed by its target instruction id, holding the sorted list of
the ids of the jumps that point to it. -/
structure Label where
  target : Nat
  jumpIds : List Nat := []
  deriving DecidableEq, Repr

/-- Modelled from the spec: a slot scope `[scopeBegin, scopeEnd]` with its number of read sites. -/
structure SlotScope where
  slot : Nat := 0
  scopeBegin : Nat := INVALID_ID
  scopeEnd : Nat := INVALID_ID
  usages : Nat := 0
  deriving DecidableEq, Repr

/-- Modelled from the spec: per-slot state of the collector
(`{activeSlotScope, slotScopes, minScopeBegin}`). -/
structure SlotInfo where
  activeSlotScope : Option Nat := none
  slotScopes : List Nat := []
  minScopeBegin : Nat := INVALID_ID
  deriving DecidableEq, Repr

/-- Modelled from the spec: the `SlotScopeCollector` of a function (function.h). `scopes` is the
arena the `SlotScope**` handles index; `upvalueInfos`, `jumps`, `loops` and `upvalueCloses` record
the calls `add_upvalues`, `add_jump`, `add_loop` and `add_upvalue_close` in call order,
`removedScopes` the handles released by `remove_scope`. -/
structure SlotScopeCollector where
  scopes : List SlotScope := []
  slotInfos : List SlotInfo := []
  upvalueInfos : List (Nat × List Nat) := []
  jumps : List (Nat × Nat) := []
  loops : List (Nat × Nat) := []
  upvalueCloses : List (Nat × Nat × Nat) := []
  removedScopes : List Nat := []
  previousId : Nat := INVALID_ID
  deriving DecidableEq, Repr

/-- Modelled from the spec: the function node (function.h). `childFunctions` holds indices into
`Ast.functions`. -/
structure Function where
  prototype : Prototype
  level : Nat := 0
  id : Nat := 0
  block : List Statement := []
  childFunctions : List Nat := []
  upvalues : List Upvalue := []
  locals : List Local := []
  labels : List Label := []
  usedGlobals : List String := []
  parameterNames : List String := []
  slotScopeCollector : SlotScopeCollector := {}
  hasDebugInfo : Bool := false
  assignmentSlotIsUpvalue : Bool := false
  deriving Repr

/-- Modelled from the spec: the constructor `Function(prototype, level)` behind `new_function`;
variable info is optional and `hasDebugInfo` records its presence. -/
def Function.new (prototype : Prototype) (level : Nat := 0) : Function :=
  { prototype := prototype, level := level, hasDebugInfo := !prototype.variableInfos.isEmpty }

instance : Inhabited Function := ⟨Function.new {}⟩

/-- Modelled from the spec: `Function::get_constant`, the constant-pool entry an operand denotes
(a default entry when the operand is out of range). -/
def Function.get_constant (function : Function) (index : Nat) : BytecodeConstant :=
  function.prototype.constants.getD index { type := BC_KGC.BC_KGC_STR }

/-- Modelled from the spec: `Function::get_number_constant`, the number constant an operand
denotes (a default entry when the operand is out of range). -/
def Function.get_number_constant (function : Function) (index : Nat) : NumberConstant :=
  function.prototype.numberConstants.getD index { type := BC_KNUM.BC_KNUM_INT }

/-- Modelled from the spec: `SlotScopeCollector::add_upvalues`, which registers the slots captured
by the `FNEW` at instruction `id`. -/
def SlotScopeCollector.add_upvalues (collector : SlotScopeCollector) (id : Nat)
    (upvalues : List Nat) : SlotScopeCollector :=
  { collector with upvalueInfos := collector.upvalueInfos ++ [(id, upvalues)] }

/-- Modelled from the spec: the read-only bytecode module (header version and flags, prototype
list, main prototype). -/
structure Bytecode where
  isVersion2 : Bool := true
  flags : Nat := 0
  prototypes : List Prototype := []
  main : Nat := 0
  deriving Repr

/-- The lifter object (`class Ast`, ast.h): `functions` is the arena behind every `Function*`.
The `statements` and `expressions` vectors only own memory and are not modelled. -/
structure Ast where
  bytecode : Bytecode := {}
  isFR2Enabled : Bool := false
  functions : List Function := []
  nextFunctionId : Nat := 1
  deriving Repr

/-- The allocator `Ast::new_function` (ast.cpp:25-28): appends a fresh function node and returns
its handle. -/
def new_function (ast : Ast) (prototype : Prototype) (level : Nat := 0) : Ast × Nat :=
  ({ ast with functions := ast.functions ++ [Function.new prototype level] }, ast.functions.length)

/-- The allocator `Ast::new_statement` (ast.cpp:30-33). -/
def new_statement (type : AST_STATEMENT) : Statement := Statement.new type

/-! ## P1 - instruction import: `Ast::build_instructions` (ast.cpp:72-131) -/

/-- The inner loop `for (uint8_t j = upvalues.size(); j--;)` over the upvalues of a new child
function (ast.cpp:91-101); `j` counts down, `upvalues` is the local vector of captured slots. -/
def build_instructions_upvalues (function : Function) (child : Function) :
    Nat → List Upvalue → List Nat → List Upvalue × List Nat
  | 0, childUpvalues, upvalues => (childUpvalues, upvalues)
  | j + 1, childUpvalues, upvalues =>
    let descriptor := child.prototype.upvalues.getD j 0
    let slot := descriptor % 256
    if descriptor &&& BC_UV_LOCAL = 0 then
      build_instructions_upvalues function child j
        (childUpvalues.set j { slot := slot, slotScope := (function.upvalues.getD slot {}).slotScope })
        upvalues
    else
      build_instructions_upvalues function child j
        (childUpvalues.set j { slot := slot, local_ := true })
        (if slot ≥ function.prototype.parameters then upvalues ++ [slot] else upvalues)

/-- One iteration of the import loop (ast.cpp:77-126) for index `i`: the new statement, with the
function node and the arena as updated by the `FNEW` case. -/
def build_instructions_step (ast : Ast) (function : Function) (i : Nat) :
    Ast × Function × Statement :=
  let raw := function.prototype.instructions.getD i { type := BC_OP.INVALID }
  let statement := new_statement AST_STATEMENT_INSTRUCTION
  let statement := { statement with
    instruction := { statement.instruction with
      type := raw.type, a := raw.a, b := raw.b, c := raw.c, d := raw.d, id := i } }
  match raw.type with
  | BC_OP.FNEW =>
    let prototype := ast.bytecode.prototypes.getD (function.get_constant raw.d).prototype {}
    let (ast, handle) := new_function ast prototype
    let child := ast.functions.getD handle default
    let (childUpvalues, upvalues) :=
      build_instructions_upvalues function child (child.prototype.upvalues.length % 256)
        (List.replicate child.prototype.upvalues.length {}) []
    let child := { child with upvalues := childUpvalues }
    let ast := { ast with functions := ast.functions.set handle child }
    let function := { function with childFunctions := function.childFunctions ++ [handle] }
    let function :=
      if upvalues.length ≠ 0 then
        { function with slotScopeCollector := function.slotScopeCollector.add_upvalues i upvalues }
      else function
    (ast, function, { statement with function := some handle })
  | BC_OP.CALLMT | BC_OP.CALLT | BC_OP.RETM | BC_OP.RET | BC_OP.RET0 | BC_OP.RET1 =>
    (ast, function, { statement with type := AST_STATEMENT_RETURN })
  | BC_OP.UCLO | BC_OP.ISNEXT | BC_OP.FORI | BC_OP.FORL | BC_OP.ITERL | BC_OP.LOOP | BC_OP.JMP =>
    (ast, function, { statement with
      instruction := { statement.instruction with
        target := (i + ((raw.d + (4294967296 - BC_OP_JMP_BIAS) + 1) % 4294967296)) % 4294967296 } })
  | _ => (ast, function, statement)

/-- The import loop `for (uint32_t i = function.block.size(); i--;)` (ast.cpp:76-127). The block
is filled from the last index to the first; the model conses statement `i` in front of the
statements already built for the indices above `i` (the null prefix of the vector is left out). -/
def build_instructions_loop : Nat → Ast → Function → Ast × Function
  | 0, ast, function => (ast, function)
  | i + 1, ast, function =>
    let (ast, function, statement) := build_instructions_step ast function i
    build_instructions_loop i ast { function with block := statement :: function.block }

/-- The body of `Ast::build_instructions` up to, not including, the tail call
`return assign_debug_info(function)` (ast.cpp:73-129). -/
def build_instructions_body (ast : Ast) (function : Function) : Ast × Function :=
  build_instructions_loop function.prototype.instructions.length ast { function with block := [] }

/-- The fields that instruction import copies from raw instruction `raw` into statement `s` built
for index `i`. -/
def Statement.carries (s : Statement) (raw : BytecodeInstruction) (i : Nat) : Prop :=
  s.instruction.type = raw.type ∧ s.instruction.a = raw.a ∧ s.instruction.b = raw.b ∧
    s.instruction.c = raw.c ∧ s.instruction.d = raw.d ∧ s.instruction.id = i

/-! ## IEEE-754 binary64 arithmetic on bit patterns

`number` fields hold the 64-bit pattern of a `double`. The C++ operators `+ - * /` on doubles,
`std::fmod`, unary minus and the integer-to-double conversions are modelled on patterns, with
round-to-nearest-even. Every finite double is an integer multiple of `2 ^ -1074`; `units` is that
multiple. -/

namespace Double

/-- The sign bit (bit 63). -/
def sign (x : Nat) : Nat := x / 2 ^ 63 % 2
/-- The biased exponent (bits 52..62). -/
def exponent (x : Nat) : Nat := x / 2 ^ 52 % 2 ^ 11
/-- The fraction (bits 0..51). -/
def fraction (x : Nat) : Nat := x % 2 ^ 52

/-- Exponent bits all ones and fraction non-zero. -/
def isNaN (x : Nat) : Bool := exponent x == 2047 && fraction x != 0
/-- Exponent bits all ones and fraction zero. -/
def isInfinite (x : Nat) : Bool := exponent x == 2047 && fraction x == 0
/-- Positive or negative zero. -/
def isZero (x : Nat) : Bool := exponent x == 0 && fraction x == 0

/-- The canonical quiet NaN returned by invalid operations. Only NaN-ness is observable by the
lifter (`is_valid_number_constant` rejects every NaN). -/
def nan : Nat := 0x7FF8000000000000
/-- Infinity with the given sign bit. -/
def infinity (s : Nat) : Nat := s * 2 ^ 63 + 0x7FF0000000000000
/-- Zero with the given sign bit. -/
def zero (s : Nat) : Nat := s * 2 ^ 63

/-- Magnitude of a finite double in units of `2 ^ -1074`. -/
def units (x : Nat) : Nat :=
  if exponent x = 0 then fraction x else (2 ^ 52 + fraction x) * 2 ^ (exponent x - 1)

/-- The least `t` below `4096` with `u < den * 2 ^ (53 + t)`, found by binary descent: the number
of low bits that must be dropped for the quotient `u / den` to fit 53 bits. -/
def dropBits (u den : Nat) : Nat :=
  [2048, 1024, 512, 256, 128, 64, 32, 16, 8, 4, 2, 1].foldl
    (fun t step => if u < den * 2 ^ (53 + (t + step - 1)) then t else t + step) 0

/-- Round the magnitude `u / den` (in units of `2 ^ -1074`, `den > 0`) to the nearest double, ties
to even, and attach sign bit `s`; overflow gives infinity. -/
def round (s u den : Nat) : Nat :=
  let t := dropBits u den
  let quantum := den * 2 ^ t
  let q := u / quantum
  let r := u % quantum
  let m := if 2 * r > quantum ∨ (2 * r = quantum ∧ q % 2 = 1) then q + 1 else q
  let bits := t * 2 ^ 52 + m
  if bits ≥ 0x7FF0000000000000 then infinity s else s * 2 ^ 63 + bits

/-- The C++ `x + y` on doubles. -/
def add (x y : Nat) : Nat :=
  if isNaN x || isNaN y then nan
  else if isInfinite x then
    if isInfinite y && sign x != sign y then nan else x
  else if isInfinite y then y
  else
    let ux := units x
    let uy := units y
    if sign x = sign y then round (sign x) (ux + uy) 1
    else if ux = uy then zero 0
    else if ux > uy then round (sign x) (ux - uy) 1
    else round (sign y) (uy - ux) 1

/-- The C++ unary minus on a double: the sign bit is flipped. -/
def neg (x : Nat) : Nat := if sign x = 1 then x - 2 ^ 63 else x + 2 ^ 63

/-- The C++ `x - y` on doubles. -/
def sub (x y : Nat) : Nat := if isNaN y then nan else add x (neg y)

/-- The C++ `x * y` on doubles. -/
def mul (x y : Nat) : Nat :=
  let s := (sign x + sign y) % 2
  if isNaN x || isNaN y then nan
  else if isInfinite x || isInfinite y then
    if isZero x || isZero y then nan else infinity s
  else round s (units x * units y) (2 ^ 1074)

/-- The C++ `x / y` on doubles. -/
def div (x y : Nat) : Nat :=
  let s := (sign x + sign y) % 2
  if isNaN x || isNaN y then nan
  else if isInfinite x then
    if isInfinite y then nan else infinity s
  else if isInfinite y then zero s
  else if isZero y then
    if isZero x then nan else infinity s
  else round s (units x * 2 ^ 1074) (units y)

/-- The C library `std::fmod(x, y)`: the exact remainder, with the sign of `x`. -/
def fmod (x y : Nat) : Nat :=
  if isNaN x || isNaN y then nan
  else if isInfinite x || isZero y then nan
  else if isInfinite y then x
  else round (sign x) (units x % units y) 1

/-- Conversion of an integer (of magnitude below `2 ^ 53`, as every 8-, 16- or 32-bit integer is)
to double. -/
def ofInt (n : Int) : Nat := round (if n < 0 then 1 else 0) (n.natAbs * 2 ^ 1074) 1

end Double

/-- The part of the execution platform the source leaves open: the result of `std::pow` on two
doubles, and the bits obtained when `->constant->number` is read from an expression that is not a
constant (the source does so when an operand of constant type `NUMBER_CONSTANT` is itself an
operation). Every theorem holds for all platforms. -/
structure Platform where
  pow : Nat → Nat → Nat
  aliasedNumber : Expression → Nat

/-- The read `expression->constant->number`. -/
def Expression.number (platform : Platform) : Expression → Nat
  | Expression.constant c => c.number
  | e => platform.aliasedNumber e

/-! ## Assertions -/

/-- Ways in which a pass of the lifter stops. `assertion` is a failed `assert(...)` with its
message; `outOfRange` is an access outside a vector (undefined in the source); `diverges` is
a loop of the source that does not end; `unmodelled` marks
a call into `SlotScopeCollector` or `ConditionBuilder` whose effect the spec does not determine. -/
inductive Error where
  | assertion (message : String)
  | outOfRange
  | diverges
  | unmodelled
  deriving DecidableEq, Repr

/-! ## Helpers at the end of `ast.cpp` -/

/-- The lambda `is_valid_number_constant` of `Ast::get_constant_type` (ast.cpp:2463-2466). -/
def is_valid_number_constant (number : Nat) : Bool :=
  let rawDouble := number
  if rawDouble &&& DOUBLE_EXPONENT = DOUBLE_SPECIAL then rawDouble &&& DOUBLE_FRACTION = 0
  else rawDouble ≠ DOUBLE_NEGATIVE_ZERO

/-- The function `Ast::check_special_number` (ast.cpp:2447-2460). The expression is a constant; the
result is the expression after the call (rewritten in place into `±1 / 0` for an infinity outside
cdata). -/
def check_special_number (expression : Expression) (isCdata : Bool := false) :
    Except Error Expression :=
  match expression with
  | Expression.constant c =>
    let rawDouble := c.number
    if rawDouble &&& DOUBLE_EXPONENT ≠ DOUBLE_SPECIAL then
      if rawDouble ≠ DOUBLE_NEGATIVE_ZERO ∨ isCdata = true then Except.ok expression
      else Except.error (Error.assertion "Number constant is negative zero")
    else if rawDouble &&& DOUBLE_FRACTION ≠ 0 then
      Except.error (Error.assertion "Number constant is NaN")
    else if isCdata then Except.ok expression
    else
      Except.ok (Expression.binaryOperation AST_BINARY_DIVISION
        (Expression.constant {
          type := AST_CONSTANT_NUMBER,
          number := if rawDouble &&& DOUBLE_SIGN ≠ 0 then Double.ofInt (-1) else Double.ofInt 1 })
        (Expression.constant { type := AST_CONSTANT_NUMBER, number := Double.ofInt 0 }))
  | _ => Except.error Error.outOfRange

/-- The value `number` that `Ast::get_constant_type` computes for an arithmetic kind
(ast.cpp:2493-2512); the other kinds compute nothing. -/
def binary_number (platform : Platform) (type : AST_BINARY) (left right : Nat) : Option Nat :=
  match type with
  | AST_BINARY_ADDITION => some (Double.add left right)
  | AST_BINARY_SUBTRACTION => some (Double.sub left right)
  | AST_BINARY_MULTIPLICATION => some (Double.mul left right)
  | AST_BINARY_DIVISION => some (Double.div left right)
  | AST_BINARY_EXPONENTATION => some (platform.pow left right)
  | AST_BINARY_MODULO => some (Double.fmod left right)
  | _ => none

/-- The function `Ast::get_constant_type` (ast.cpp:2462-2542). -/
def get_constant_type (platform : Platform) : Expression → CONSTANT_TYPE
  | Expression.constant c =>
    match c.type with
    | AST_CONSTANT_NIL => CONSTANT_TYPE.NIL_CONSTANT
    | AST_CONSTANT_FALSE | AST_CONSTANT_TRUE | AST_CONSTANT_STRING => CONSTANT_TYPE.BOOL_CONSTANT
    | AST_CONSTANT_NUMBER => CONSTANT_TYPE.NUMBER_CONSTANT
    | _ => CONSTANT_TYPE.INVALID_CONSTANT
  | Expression.binaryOperation type leftOperand rightOperand =>
    match type with
    | AST_BINARY_ADDITION | AST_BINARY_SUBTRACTION | AST_BINARY_MULTIPLICATION
    | AST_BINARY_DIVISION | AST_BINARY_EXPONENTATION | AST_BINARY_MODULO =>
      if get_constant_type platform leftOperand ≠ CONSTANT_TYPE.NUMBER_CONSTANT
          ∨ get_constant_type platform rightOperand ≠ CONSTANT_TYPE.NUMBER_CONSTANT then
        CONSTANT_TYPE.INVALID_CONSTANT
      else
        match binary_number platform type (leftOperand.number platform)
            (rightOperand.number platform) with
        | some number =>
          if is_valid_number_constant number then CONSTANT_TYPE.NUMBER_CONSTANT
          else CONSTANT_TYPE.INVALID_CONSTANT
        | none => CONSTANT_TYPE.INVALID_CONSTANT
    | _ => CONSTANT_TYPE.INVALID_CONSTANT
  | Expression.unaryOperation type operand =>
    match type with
    | AST_UNARY_NOT =>
      if get_constant_type platform operand ≠ CONSTANT_TYPE.INVALID_CONSTANT then
        CONSTANT_TYPE.BOOL_CONSTANT
      else CONSTANT_TYPE.INVALID_CONSTANT
    | AST_UNARY_MINUS =>
      match operand with
      | Expression.constant c =>
        match c.type with
        | AST_CONSTANT_NUMBER =>
          if is_valid_number_constant (Double.neg c.number) then CONSTANT_TYPE.NUMBER_CONSTANT
          else CONSTANT_TYPE.INVALID_CONSTANT
        | AST_CONSTANT_CDATA_SIGNED | AST_CONSTANT_CDATA_UNSIGNED
        | AST_CONSTANT_CDATA_IMAGINARY => CONSTANT_TYPE.NUMBER_CONSTANT
        | _ => CONSTANT_TYPE.INVALID_CONSTANT
      | _ => CONSTANT_TYPE.INVALID_CONSTANT
    | _ => CONSTANT_TYPE.INVALID_CONSTANT
  | _ => CONSTANT_TYPE.INVALID_CONSTANT

/-- The constructor `Ast::new_slot` (ast.cpp:2544-2549); the parameter is a `uint8_t`. -/
def new_slot (slot : Nat) : Expression :=
  Expression.variable AST_VARIABLE_SLOT (slot % 256) none "" Expression.null Expression.null false 0

/-- The constructor `Ast::new_literal` (ast.cpp:2551-2556); the parameter is a `uint8_t`. -/
def new_literal (literal : Nat) : Expression :=
  Expression.constant { type := AST_CONSTANT_NUMBER, number := Double.ofInt (literal % 256 : Nat) }

/-- The constructor `Ast::new_signed_literal` (ast.cpp:2558-2563): the `uint16_t` operand is
reinterpreted as `int16_t` and converted to double. -/
def new_signed_literal (signedLiteral : Nat) : Expression :=
  let raw := signedLiteral % 65536
  Expression.constant {
    type := AST_CONSTANT_NUMBER,
    number := Double.ofInt (if raw < 32768 then (raw : Int) else (raw : Int) - 65536) }

/-- The constructor `Ast::new_primitive` (ast.cpp:2565-2581); a fresh constant is `nil`. -/
def new_primitive (primitive : Nat) : Expression :=
  match primitive % 256 with
  | 0 => Expression.constant { type := AST_CONSTANT_NIL }
  | 1 => Expression.constant { type := AST_CONSTANT_FALSE }
  | 2 => Expression.constant { type := AST_CONSTANT_TRUE }
  | _ => Expression.constant {}

/-- The expression `-1 / 0` that `check_special_number` builds for negative infinity. -/
def minus_one_over_zero : Expression :=
  Expression.binaryOperation AST_BINARY_DIVISION
    (Expression.constant { type := AST_CONSTANT_NUMBER, number := 0xBFF0000000000000 })
    (Expression.constant { type := AST_CONSTANT_NUMBER, number := 0 })

/-- A concrete platform for closed evaluations. None of the evaluations below calls `std::pow` or
reads a number through a non-constant expression, so the two fields are never consulted. -/
def Platform.sample : Platform :=
  { pow := fun _ _ => Double.nan, aliasedNumber := fun _ => 0 }

/-! ## Labels of a function (function.h) -/

/-- Modelled from the spec: `Function::get_label_from_id`, the index of the label whose target is
`id`, or `INVALID_ID`. -/
def Function.get_label_from_id (function : Function) (id : Nat) : Nat :=
  match function.labels.findIdx? (fun label => label.target == id) with
  | some index => index
  | none => INVALID_ID

/-- Modelled from the spec: `Function::is_valid_label`; a label is present when it exists and
incoming jump edges end at it. -/
def Function.is_valid_label (function : Function) (label : Nat) : Bool :=
  match function.labels[label]? with
  | some l => !l.jumpIds.isEmpty
  | none => false

/-- Insertion of a jump id into the sorted list of jump ids of a label. -/
def insert_jump_id (id : Nat) : List Nat → List Nat
  | [] => [id]
  | x :: xs => if id ≤ x then id :: x :: xs else x :: insert_jump_id id xs

/-- Modelled from the spec: `Function::add_jump`, which registers the jump edge `(id, target)`:
the id joins the sorted jump ids of the label keyed by `target`, a label that is created at the
end of `labels` when there is none. Labels are never removed, so label indices stay stable. -/
def Function.add_jump (function : Function) (id target : Nat) : Function :=
  match function.labels.findIdx? (fun label => label.target == target) with
  | some index =>
    { function with
      labels := function.labels.modify (fun label =>
        { label with jumpIds := insert_jump_id id label.jumpIds }) index }
  | none => { function with labels := function.labels ++ [{ target := target, jumpIds := [id] }] }

/-- Modelled from the spec: `Function::remove_jump`, which removes the jump edge `(id, target)`
from the label keyed by `target`. -/
def Function.remove_jump (function : Function) (id target : Nat) : Function :=
  match function.labels.findIdx? (fun label => label.target == target) with
  | some index =>
    { function with
      labels := function.labels.modify (fun label =>
        { label with jumpIds := label.jumpIds.erase id }) index }
  | none => function

/-- Modelled from the spec: `SlotScopeCollector::add_jump`. -/
def SlotScopeCollector.add_jump (collector : SlotScopeCollector) (id target : Nat) :
    SlotScopeCollector :=
  { collector with jumps := collector.jumps ++ [(id, target)] }

/-- Modelled from the spec: `SlotScopeCollector::add_loop`. -/
def SlotScopeCollector.add_loop (collector : SlotScopeCollector) (id target : Nat) :
    SlotScopeCollector :=
  { collector with loops := collector.loops ++ [(id, target)] }

/-- Modelled from the spec: `SlotScopeCollector::add_upvalue_close`. -/
def SlotScopeCollector.add_upvalue_close (collector : SlotScopeCollector) (id target a : Nat) :
    SlotScopeCollector :=
  { collector with upvalueCloses := collector.upvalueCloses ++ [(id, target, a)] }

/-! ## Block helpers (ast.cpp:2365-2407) -/

/-- The loop of `Ast::get_block_index_from_id` (ast.cpp:2366-2368), `i` counting down. -/
def get_block_index_from_id_loop (block : List Statement) (id : Nat) : Nat → Nat
  | 0 => INVALID_ID
  | i + 1 =>
    match block[i]? with
    | some statement =>
      if statement.instruction.id = INVALID_ID ∨ statement.instruction.id ≥ id then
        if statement.instruction.id = id then i
        else get_block_index_from_id_loop block id i
      else INVALID_ID
    | none => INVALID_ID

/-- The function `Ast::get_block_index_from_id` (ast.cpp:2365-2371). -/
def get_block_index_from_id (block : List Statement) (id : Nat) : Nat :=
  get_block_index_from_id_loop block id block.length

/-- The function `Ast::get_extended_id_from_statement` (ast.cpp:2373-2381). -/
def get_extended_id_from_statement (statement : Statement) : Nat :=
  match statement.type with
  | AST_STATEMENT_GOTO | AST_STATEMENT_BREAK =>
    if statement.instruction.type = BC_OP.JMP then statement.instruction.target
    else statement.instruction.id
  | _ => statement.instruction.id

/-- A `BlockInfo` (ast.h): the block being walked and the index reached in it. The chain of
`previousBlock` pointers is the list of the enclosing `BlockInfo`s, innermost first. -/
structure BlockInfo where
  index : Nat := INVALID_ID
  block : List Statement

/-- The tail of `Ast::get_label_from_next_statement` (ast.cpp:2400-2406), once the statement has
been chosen. -/
def label_of_statement (function : Function) (statement : Statement)
    (returnExtendedLabel : Bool) : Nat :=
  match statement.type with
  | AST_STATEMENT_GOTO | AST_STATEMENT_BREAK =>
    if returnExtendedLabel ∧ statement.instruction.type = BC_OP.JMP then
      function.get_label_from_id statement.instruction.target
    else statement.instruction.attachedLabel
  | _ => statement.instruction.attachedLabel

/-- The function `Ast::get_label_from_next_statement` (ast.cpp:2383-2407); `blockInfo` is the
current `BlockInfo`, `previousBlocks` the chain behind its `previousBlock` pointer. A call with an
index that is not in the block reads out of range in the source and yields `INVALID_ID` here. -/
def get_label_from_next_statement (function : Function) (blockInfo : BlockInfo)
    (previousBlocks : List BlockInfo) (returnExtendedLabel excludeDeclaration : Bool) : Nat :=
  if blockInfo.index + 1 = blockInfo.block.length then
    match previousBlocks with
    | previous :: rest => get_label_from_next_statement function previous rest returnExtendedLabel false
    | [] => INVALID_ID
  else
    match blockInfo.block[blockInfo.index + 1]? with
    | none => INVALID_ID
    | some statement =>
      if excludeDeclaration ∧ statement.type = AST_STATEMENT_DECLARATION then
        match statement.block with
        | first :: _ => label_of_statement function first returnExtendedLabel
        | [] =>
          if blockInfo.index + 2 ≠ blockInfo.block.length then
            match blockInfo.block[blockInfo.index + 2]? with
            | some next => label_of_statement function next returnExtendedLabel
            | none => INVALID_ID
          else
            match previousBlocks with
            | previous :: rest =>
              get_label_from_next_statement function previous rest returnExtendedLabel false
            | [] => INVALID_ID
      else label_of_statement function statement returnExtendedLabel

/-! ## P3 - jump grouping: `Ast::group_jumps` (ast.cpp:207-303) -/

/-- Replace the statement at `index` by `f` of it (a write through `block[index]->`). -/
def modify_statement (block : List Statement) (index : Nat) (f : Statement → Statement) :
    List Statement :=
  block.modify f index

/-- The compare and test opcodes folded with the jump that follows them (ast.cpp:210-226). -/
def is_condition_op : BC_OP → Bool
  | BC_OP.ISTC | BC_OP.ISFC | BC_OP.ISLT | BC_OP.ISGE | BC_OP.ISLE | BC_OP.ISGT
  | BC_OP.ISEQV | BC_OP.ISNEV | BC_OP.ISEQS | BC_OP.ISNES | BC_OP.ISEQN | BC_OP.ISNEN
  | BC_OP.ISEQP | BC_OP.ISNEP | BC_OP.IST | BC_OP.ISF => true
  | _ => false

/-- One iteration of the first loop of `group_jumps` (ast.cpp:209-239) at index `i`. -/
def group_jumps_first_step (function : Function) (i : Nat) : Except Error Function :=
  match function.block[i]? with
  | none => Except.error Error.outOfRange
  | some statement =>
    let id := statement.instruction.id
    if is_condition_op statement.instruction.type then
      let function :=
        if statement.instruction.type = BC_OP.ISTC ∨ statement.instruction.type = BC_OP.ISFC then
          function.add_jump id ((id + 2) % 4294967296)
        else function
      match function.block[i + 1]? with
      | none => Except.error Error.outOfRange
      | some next =>
        let target := next.instruction.target
        let block := modify_statement function.block i (fun s =>
          { s with type := AST_STATEMENT_CONDITION,
                   instruction := { s.instruction with target := target } })
        let block := block.eraseIdx (i + 1)
        Except.ok { function with
          block := block,
          slotScopeCollector :=
            function.slotScopeCollector.add_jump ((id + 1) % 4294967296) target }
    else
      match statement.instruction.type with
      | BC_OP.UCLO =>
        let function := { function with
          slotScopeCollector := function.slotScopeCollector.add_upvalue_close id
            statement.instruction.target statement.instruction.a }
        let function := { function with
          block := modify_statement function.block i (fun s =>
            { s with type := AST_STATEMENT_GOTO }) }
        Except.ok (function.add_jump id statement.instruction.target)
      | BC_OP.JMP =>
        let function := { function with
          block := modify_statement function.block i (fun s =>
            { s with type := AST_STATEMENT_GOTO }) }
        Except.ok (function.add_jump id statement.instruction.target)
      | BC_OP.LOOP => Except.ok (function.add_jump id statement.instruction.target)
      | _ => Except.ok function

/-- The first loop of `group_jumps`, `for (uint32_t i = function.block.size(); i--;)`. -/
def group_jumps_first_loop : Nat → Function → Except Error Function
  | 0, function => Except.ok function
  | i + 1, function =>
    match group_jumps_first_step function i with
    | Except.ok function => group_jumps_first_loop i function
    | Except.error e => Except.error e

/-- One iteration of the second loop of `group_jumps` (ast.cpp:246-274) at index `i`. -/
def group_jumps_second_step (function : Function) (i : Nat) : Except Error Function :=
  match function.block[i]? with
  | none => Except.error Error.outOfRange
  | some statement =>
    let attachedLabel := function.get_label_from_id statement.instruction.id
    let function := { function with
      block := modify_statement function.block i (fun s =>
        { s with instruction := { s.instruction with attachedLabel := attachedLabel } }) }
    match statement.instruction.type with
    | BC_OP.UCLO =>
      match function.block[i + 1]? with
      | none => Except.error Error.outOfRange
      | some next =>
        if statement.instruction.target = get_extended_id_from_statement next then
          let function := { function with
            block := modify_statement function.block i (fun s =>
              { s with type := AST_STATEMENT_EMPTY }) }
          Except.ok (function.remove_jump statement.instruction.id statement.instruction.target)
        else Except.ok function
    | BC_OP.ITERC =>
      match function.labels[attachedLabel]? with
      | none => Except.error Error.outOfRange
      | some label =>
        match label.jumpIds.head? with
        | none => Except.error Error.outOfRange
        | some front =>
          let index := get_block_index_from_id function.block front
          match function.block[index]? with
          | none => Except.error Error.outOfRange
          | some source =>
            let function := { function with
              block := modify_statement function.block index (fun s =>
                { s with type := AST_STATEMENT_INSTRUCTION }) }
            Except.ok (function.remove_jump source.instruction.id source.instruction.target)
    | BC_OP.JMP =>
      if statement.type ≠ AST_STATEMENT_GOTO then Except.ok function
      else
        let function := { function with
          slotScopeCollector := function.slotScopeCollector.add_jump statement.instruction.id
            statement.instruction.target }
        if statement.instruction.target = statement.instruction.id ∨ i = 0 then
          Except.ok function
        else
          match function.block[i - 1]? with
          | none => Except.error Error.outOfRange
          | some previous =>
            if previous.instruction.type ≠ BC_OP.JMP
                ∨ previous.instruction.d ≠ BC_OP_JMP_BIAS then
              Except.ok function
            else
              let function :=
                function.remove_jump previous.instruction.id previous.instruction.id
              let block := modify_statement function.block (i - 1) (fun s =>
                { s with type := AST_STATEMENT_CONDITION,
                         instruction :=
                           { s.instruction with target := statement.instruction.target } })
              Except.ok { function with block := block.eraseIdx i }
    | _ => Except.ok function

/-- The second loop of `group_jumps`. -/
def group_jumps_second_loop : Nat → Function → Except Error Function
  | 0, function => Except.ok function
  | i + 1, function =>
    match group_jumps_second_step function i with
    | Except.ok function => group_jumps_second_loop i function
    | Except.error e => Except.error e

/-- The third loop of `group_jumps` (ast.cpp:277-300): trailing returns. -/
def group_jumps_third_loop : Nat → Function → Except Error Function
  | 0, function => Except.ok function
  | i + 1, function =>
    match function.block[i]? with
    | none => Except.error Error.outOfRange
    | some statement =>
      let previousIsReturn :=
        match function.block[i - 1]? with
        | some previous => decide (previous.type = AST_STATEMENT_RETURN)
        | none => false
      let fused : Option Function :=
        if i ≠ 0 ∧ statement.type = AST_STATEMENT_RETURN ∧ previousIsReturn = true
            ∧ function.is_valid_label statement.instruction.attachedLabel = true then
          match function.labels[statement.instruction.attachedLabel]? with
          | some label =>
            if label.jumpIds.length = 1 then
              let index := get_block_index_from_id function.block (label.jumpIds.getLastD 0)
              match function.block[index]? with
              | some source =>
                if index ≠ INVALID_ID ∧ source.instruction.type = BC_OP.UCLO then
                  let function :=
                    function.remove_jump source.instruction.id source.instruction.target
                  let block := modify_statement function.block index (fun s =>
                    { s with instruction := { s.instruction with
                        type := statement.instruction.type, a := statement.instruction.a,
                        b := statement.instruction.b, c := statement.instruction.c,
                        d := statement.instruction.d } })
                  let block := modify_statement block i (fun s =>
                    { s with type := AST_STATEMENT_EMPTY })
                  some { function with block := block }
                else none
              | none => none
            else none
          | none => none
        else none
      match fused with
      | some function => group_jumps_third_loop i function
      | none =>
        if statement.instruction.type = BC_OP.RET0 then
          Except.ok { function with
            block := modify_statement function.block i (fun s =>
              { s with type := AST_STATEMENT_EMPTY }) }
        else Except.ok function

/-- The three loops of `Ast::group_jumps` up to, not including, the tail call
`return build_loops(function)` (ast.cpp:208-300). -/
def group_jumps_body (function : Function) : Except Error Function := do
  let function ← group_jumps_first_loop function.block.length function
  let function ← group_jumps_second_loop function.block.length function
  group_jumps_third_loop function.block.length function

/-! ## Constant constructors (ast.cpp:2409-2445, 2583-2677) -/

/-- The reserved words `KEYWORDS` of `Ast::check_valid_name` (ast.cpp:2412-2416). -/
def KEYWORDS : List String :=
  ["and", "break", "do", "else", "elseif", "end", "false",
   "for", "function", "if", "in", "local", "nil", "not",
   "or", "repeat", "return", "then", "true", "until", "while"]

/-- The per-character test of `Ast::check_valid_name` (ast.cpp:2421-2437): `false` when the
loop returns at this character. -/
def is_name_char (c : Char) : Bool :=
  if c.toNat < '0'.toNat ∨ c.toNat > 'z'.toNat then false
  else
    !(c == ':' || c == ';' || c == '<' || c == '=' || c == '>' || c == '?' || c == '@'
      || c == '[' || c == '\\' || c == ']' || c == '^' || c == Char.ofNat 96)

/-- The function `Ast::check_valid_name` (ast.cpp:2409-2445): the constant after the call. -/
def check_valid_name (constant : Constant) : Constant :=
  match constant.string.toList with
  | [] => constant
  | front :: rest =>
    if front.toNat < 'A'.toNat then constant
    else if !(front :: rest).all is_name_char then constant
    else if KEYWORDS.contains constant.string then constant
    else { constant with isName := true }

/-- The same call on an expression that holds a constant (`->constant`). -/
def Expression.check_valid_name : Expression → Expression
  | Expression.constant c => Expression.constant (Decompiler.check_valid_name c)
  | e => e

/-- Reinterpretation of a 32-bit pattern as `int32_t` (`std::bit_cast<int32_t>`). -/
def int32_of_bits (raw : Nat) : Int :=
  if raw % 4294967296 < 2147483648 then (raw % 4294967296 : Nat)
  else ((raw % 4294967296 : Nat) : Int) - 4294967296

/-- The constructor `Ast::new_number` (ast.cpp:2583-2598). -/
def new_number (function : Function) (index : Nat) : Except Error Expression :=
  let constant := function.get_number_constant index
  match constant.type with
  | BC_KNUM.BC_KNUM_INT =>
    Except.ok (Expression.constant {
      type := AST_CONSTANT_NUMBER,
      number := Double.ofInt (int32_of_bits constant.integer) })
  | BC_KNUM.BC_KNUM_NUM =>
    check_special_number
      (Expression.constant { type := AST_CONSTANT_NUMBER, number := constant.number })

/-- The constructor `Ast::new_string` (ast.cpp:2600-2605). -/
def new_string (function : Function) (index : Nat) : Expression :=
  Expression.constant { type := AST_CONSTANT_STRING, string := (function.get_constant index).string }

/-- The lambda `new_table_constant` of `Ast::new_table` (ast.cpp:2608-2637). -/
def new_table_constant (constant : TableConstant) : Except Error Expression :=
  match constant.type with
  | BC_KTAB.BC_KTAB_NIL => Except.ok (Expression.constant { type := AST_CONSTANT_NIL })
  | BC_KTAB.BC_KTAB_FALSE => Except.ok (Expression.constant { type := AST_CONSTANT_FALSE })
  | BC_KTAB.BC_KTAB_TRUE => Except.ok (Expression.constant { type := AST_CONSTANT_TRUE })
  | BC_KTAB.BC_KTAB_INT =>
    Except.ok (Expression.constant {
      type := AST_CONSTANT_NUMBER,
      number := Double.ofInt (int32_of_bits constant.integer) })
  | BC_KTAB.BC_KTAB_NUM =>
    check_special_number
      (Expression.constant { type := AST_CONSTANT_NUMBER, number := constant.number })
  | BC_KTAB.BC_KTAB_STR =>
    Except.ok (Expression.constant { type := AST_CONSTANT_STRING, string := constant.string })

/-- The loop over the array part of a table literal (ast.cpp:2642-2644), last entry first. -/
def new_table_list : List TableConstant → Except Error (List Expression)
  | [] => Except.ok []
  | constant :: rest =>
    match new_table_list rest with
    | Except.error e => Except.error e
    | Except.ok built =>
      match new_table_constant constant with
      | Except.error e => Except.error e
      | Except.ok expression => Except.ok (expression :: built)

/-- The loop over the hash part of a table literal (ast.cpp:2648-2652), last entry first. -/
def new_table_fields :
    List (TableConstant × TableConstant) → Except Error (List (Expression × Expression))
  | [] => Except.ok []
  | (key, value) :: rest =>
    match new_table_fields rest with
    | Except.error e => Except.error e
    | Except.ok built =>
      match new_table_constant key with
      | Except.error e => Except.error e
      | Except.ok keyExpression =>
        match new_table_constant value with
        | Except.error e => Except.error e
        | Except.ok valueExpression =>
          Except.ok ((keyExpression.check_valid_name, valueExpression) :: built)

/-- The constructor `Ast::new_table` (ast.cpp:2607-2655). -/
def new_table (function : Function) (index : Nat) : Except Error Expression :=
  match new_table_list (function.get_constant index).array with
  | Except.error e => Except.error e
  | Except.ok list =>
    match new_table_fields (function.get_constant index).table with
    | Except.error e => Except.error e
    | Except.ok fields => Except.ok (Expression.table list fields [] Expression.null 0)

/-- The constructor `Ast::new_cdata` (ast.cpp:2657-2677). -/
def new_cdata (function : Function) (index : Nat) : Except Error Expression :=
  let constant := function.get_constant index
  match constant.type with
  | BC_KGC.BC_KGC_I64 =>
    Except.ok (Expression.constant { type := AST_CONSTANT_CDATA_SIGNED, cdata := constant.cdata })
  | BC_KGC.BC_KGC_U64 =>
    Except.ok (Expression.constant { type := AST_CONSTANT_CDATA_UNSIGNED, cdata := constant.cdata })
  | BC_KGC.BC_KGC_COMPLEX =>
    check_special_number
      (Expression.constant { type := AST_CONSTANT_CDATA_IMAGINARY, number := constant.cdata }) true
  | _ => Except.ok (Expression.constant {})

/-! ## Open-slot handles -/

/-- The pointer field of an expression node that a step follows. -/
def Expression.child? : Expression → Step → Option Expression
  | Expression.binaryOperation _ l _, Step.leftOperand => some l
  | Expression.binaryOperation _ _ r, Step.rightOperand => some r
  | Expression.unaryOperation _ o, Step.operand => some o
  | Expression.variable _ _ _ _ t _ _ _, Step.table => some t
  | Expression.variable _ _ _ _ _ ti _ _, Step.tableIndex => some ti
  | Expression.functionCall f _ _ _ _, Step.function => some f
  | Expression.functionCall _ args _ _ _, Step.argument j => args[j]?
  | Expression.functionCall _ _ m _ _, Step.multresArgument => some m
  | _, _ => none

/-- A write to the pointer field of an expression node that a step follows. -/
def Expression.setChild : Expression → Step → Expression → Expression
  | Expression.binaryOperation k _ r, Step.leftOperand, v => Expression.binaryOperation k v r
  | Expression.binaryOperation k l _, Step.rightOperand, v => Expression.binaryOperation k l v
  | Expression.unaryOperation k _, Step.operand, v => Expression.unaryOperation k v
  | Expression.variable k s sc n _ ti m mi, Step.table, v => Expression.variable k s sc n v ti m mi
  | Expression.variable k s sc n t _ m mi, Step.tableIndex, v =>
    Expression.variable k s sc n t v m mi
  | Expression.functionCall _ args m im rc, Step.function, v =>
    Expression.functionCall v args m im rc
  | Expression.functionCall f args m im rc, Step.argument j, v =>
    Expression.functionCall f (args.set j v) m im rc
  | Expression.functionCall f args _ im rc, Step.multresArgument, v =>
    Expression.functionCall f args v im rc
  | e, _, _ => e

/-- The expression a path leads to. -/
def Expression.get? : Expression → List Step → Option Expression
  | e, [] => some e
  | e, step :: path =>
    match e.child? step with
    | some child => child.get? path
    | none => none

/-- A write through a path (`*handle = value`). -/
def Expression.set : Expression → List Step → Expression → Expression
  | _, [], v => v
  | e, step :: path, v =>
    match e.child? step with
    | some child => e.setChild step (child.set path v)
    | none => e

/-- The slot of a slot variable (`->variable->slot`); `0` for other expressions. -/
def Expression.slot : Expression → Nat
  | Expression.variable _ slot _ _ _ _ _ _ => slot
  | _ => 0

/-- The scope handle of a variable (`->variable->slotScope`). -/
def Expression.slotScope : Expression → Option Nat
  | Expression.variable _ _ slotScope _ _ _ _ _ => slotScope
  | _ => none

/-- The flag `->variable->isMultres`. -/
def Expression.isMultres : Expression → Bool
  | Expression.variable _ _ _ _ _ _ isMultres _ => isMultres
  | _ => false

/-- A write of the flag `->variable->isMultres = true`. -/
def Expression.setMultres : Expression → Expression
  | Expression.variable k s sc n t ti _ mi => Expression.variable k s sc n t ti true mi
  | e => e

/-- A write of `->variable->slotScope`. -/
def Expression.setSlotScope (slotScope : Option Nat) : Expression → Expression
  | Expression.variable k s _ n t ti m mi => Expression.variable k s slotScope n t ti m mi
  | e => e

/-- The expression stored at an open-slot handle of an assignment record (`*handle`). -/
def Assignment.get? (assignment : Assignment) (handle : OpenSlot) : Option Expression :=
  match handle.root with
  | Root.expression k =>
    match assignment.expressions[k]? with
    | some e => e.get? handle.path
    | none => none
  | Root.variableTable k =>
    match assignment.variables_[k]? with
    | some v => v.table.get? handle.path
    | none => none
  | Root.variableTableIndex k =>
    match assignment.variables_[k]? with
    | some v => v.tableIndex.get? handle.path
    | none => none
  | Root.multresReturn => assignment.multresReturn.get? handle.path

/-- A write through an open-slot handle of an assignment record (`*handle = value`). -/
def Assignment.set (assignment : Assignment) (handle : OpenSlot) (value : Expression) :
    Assignment :=
  match handle.root with
  | Root.expression k =>
    { assignment with
      expressions := assignment.expressions.modify (fun e => e.set handle.path value) k }
  | Root.variableTable k =>
    { assignment with
      variables_ := assignment.variables_.modify
        (fun v => { v with table := v.table.set handle.path value }) k }
  | Root.variableTableIndex k =>
    { assignment with
      variables_ := assignment.variables_.modify
        (fun v => { v with tableIndex := v.tableIndex.set handle.path value }) k }
  | Root.multresReturn =>
    { assignment with multresReturn := assignment.multresReturn.set handle.path value }

/-- Modelled from the spec: `register_open_slots` for one handle; the handle joins `openSlots`
and the slot it reads joins `usedSlots`. -/
def Assignment.register_open_slot (assignment : Assignment) (handle : OpenSlot) : Assignment :=
  { assignment with
    openSlots := assignment.openSlots ++ [handle],
    usedSlots := assignment.usedSlots ++ [((assignment.get? handle).getD Expression.null).slot] }

/-- Modelled from the spec: the variadic `register_open_slots(a, b, ...)`, which registers its
arguments from left to right. -/
def Assignment.register_open_slots (assignment : Assignment) (handles : List OpenSlot) :
    Assignment :=
  handles.foldl Assignment.register_open_slot assignment

/-! ## P6 - expression materialization: `Ast::build_expressions` (ast.cpp:441-942) -/

/-- A slot variable as an assignment target (`type = AST_VARIABLE_SLOT; slot = ...`); the slot
field is 8-bit. -/
def slot_variable (slot : Nat) : Variable := { type := AST_VARIABLE_SLOT, slot := slot % 256 }

/-- The handle of `assignment.expressions[k]`. -/
def expression_handle (k : Nat) (path : List Step := []) : OpenSlot :=
  { root := Root.expression k, path := path }

/-- The concatenation chain built by the `for` loop of the `BC_OP_CAT` case (ast.cpp:559-573),
from the node whose left operand is slot `slot` on. `depth` is the number of `rightOperand`
steps from the root to that node; the result is the node and the handles registered from there
on, in registration order. The loop ends when the left operand is slot `c - 1`; `fuel` bounds the
number of nodes (the 8-bit slot makes the loop periodic, so 256 nodes suffice when it ends). -/
def cat_chain (c : Nat) : Nat → Nat → Nat → Option (Expression × List OpenSlot)
  | 0, _, _ => none
  | fuel + 1, slot, depth =>
    let left := new_slot slot
    let path := List.replicate depth Step.rightOperand
    if slot % 256 + 1 = c then
      some (Expression.binaryOperation AST_BINARY_CONCATENATION left (new_slot c),
        [expression_handle 0 (path ++ [Step.leftOperand]),
         expression_handle 0 (path ++ [Step.rightOperand])])
    else
      match cat_chain c fuel ((slot % 256 + 1) % 256) (depth + 1) with
      | some (right, handles) =>
        some (Expression.binaryOperation AST_BINARY_CONCATENATION left right,
          expression_handle 0 (path ++ [Step.leftOperand]) :: handles)
      | none => none

/-- The operator kind chosen by the first inner switch of the arithmetic case
(ast.cpp:495-527). -/
def binary_kind_of_op : BC_OP → AST_BINARY
  | BC_OP.ADDVN | BC_OP.ADDNV | BC_OP.ADDVV => AST_BINARY_ADDITION
  | BC_OP.SUBVN | BC_OP.SUBNV | BC_OP.SUBVV => AST_BINARY_SUBTRACTION
  | BC_OP.MULVN | BC_OP.MULNV | BC_OP.MULVV => AST_BINARY_MULTIPLICATION
  | BC_OP.DIVVN | BC_OP.DIVNV | BC_OP.DIVVV => AST_BINARY_DIVISION
  | BC_OP.MODVN | BC_OP.MODNV | BC_OP.MODVV => AST_BINARY_MODULO
  | BC_OP.POW => AST_BINARY_EXPONENTATION
  | _ => AST_BINARY_CONCATENATION

/-- The variables of a statement with `B - 1` results starting at slot `A`
(ast.cpp:727-732, 767-772, 913-918). -/
def result_variables (a count : Nat) : List Variable :=
  (List.range count).map (fun j => slot_variable (a + j))

/-- The fixed arguments of a call: `count` slot reads starting at `base` (ast.cpp:748-751,
810-813), with their handles below the call expression `expressions[0]`. -/
def call_arguments (base count : Nat) : List Expression × List OpenSlot :=
  ((List.range count).map (fun j => new_slot (base + j)),
   (List.range count).map (fun j => expression_handle 0 [Step.argument j]))

/-- The outcome of the `AST_STATEMENT_INSTRUCTION` case for one statement: the switch either
leaves by `break`, after which the default slot variable `A` is set (ast.cpp:786-788), or by
`continue`. -/
inductive Exit where
  | break_
  | continue_
  deriving DecidableEq, Repr

/-- The call expression of `CALL`/`CALLM` (ast.cpp:743-757) or `CALLT`/`CALLMT`
(ast.cpp:804-819): `count` is the operand that gives the number of arguments (`C` or `D`),
`isMultresCall` tells the `M` forms. The result is the assignment record after the expression
and its open slots have been set. With `count = 0` in a form without multres the `resize` to
`count - 1` fails; with more than 255 fixed arguments the 8-bit counter `j` of the argument loop
wraps and the loop does not end. -/
def build_call (ast : Ast) (assignment : Assignment) (a count : Nat) (isMultresCall : Bool)
    (returnCount : Nat) : Except Error Assignment :=
  if count = 0 ∧ isMultresCall = false then Except.error Error.outOfRange
  else
    let argumentCount := if isMultresCall then count else count - 1
    if argumentCount > 255 then Except.error Error.diverges
    else
      let base := a + (if ast.isFR2Enabled then 2 else 1)
      let (arguments, argumentHandles) := call_arguments base argumentCount
      let multresArgument :=
        if isMultresCall then (new_slot (base + count)).setMultres else Expression.null
      let call := Expression.functionCall (new_slot a) arguments multresArgument false returnCount
      let assignment := { assignment with expressions := [call] }
      let assignment := assignment.register_open_slots [expression_handle 0 [Step.function]]
      let assignment :=
        if argumentCount ≠ 0 then { assignment with isPotentialMethod := true } else assignment
      let assignment := assignment.register_open_slots argumentHandles
      let assignment :=
        if isMultresCall then
          assignment.register_open_slots [expression_handle 0 [Step.multresArgument]]
        else assignment
      Except.ok assignment

/-- The `AST_STATEMENT_INSTRUCTION` case of `build_expressions` for every opcode but `KNIL`
(ast.cpp:445-784): the function node (its `usedGlobals` may grow), the statement with its
assignment record filled in, and how the switch is left. -/
def build_instruction_expression (ast : Ast) (function : Function) (statement : Statement) :
    Except Error (Function × Statement × Exit) :=
  let instruction := statement.instruction
  let statement := { statement with
    type := AST_STATEMENT_ASSIGNMENT,
    assignment := { statement.assignment with expressions := [Expression.null] } }
  let assignment := statement.assignment
  let done (assignment : Assignment) (exit : Exit) :
      Except Error (Function × Statement × Exit) :=
    Except.ok (function, { statement with assignment := assignment }, exit)
  match instruction.type with
  | BC_OP.MOV =>
    done (({ assignment with expressions := [new_slot instruction.d] }).register_open_slots
      [expression_handle 0]) Exit.break_
  | BC_OP.NOT =>
    done (({ assignment with
      expressions := [Expression.unaryOperation AST_UNARY_NOT (new_slot instruction.d)],
      allowedConstantType := CONSTANT_TYPE.INVALID_CONSTANT }).register_open_slots
        [expression_handle 0 [Step.operand]]) Exit.break_
  | BC_OP.UNM =>
    done (({ assignment with
      expressions := [Expression.unaryOperation AST_UNARY_MINUS (new_slot instruction.d)],
      allowedConstantType := CONSTANT_TYPE.BOOL_CONSTANT }).register_open_slots
        [expression_handle 0 [Step.operand]]) Exit.break_
  | BC_OP.LEN =>
    done (({ assignment with
      expressions := [Expression.unaryOperation AST_UNARY_LENGTH (new_slot instruction.d)]
      }).register_open_slots [expression_handle 0 [Step.operand]]) Exit.break_
  | BC_OP.ADDVN | BC_OP.SUBVN | BC_OP.MULVN | BC_OP.DIVVN | BC_OP.MODVN =>
    match new_number function instruction.c with
    | Except.error e => Except.error e
    | Except.ok number =>
      done (({ assignment with
        allowedConstantType := CONSTANT_TYPE.BOOL_CONSTANT,
        expressions := [Expression.binaryOperation (binary_kind_of_op instruction.type)
          (new_slot instruction.b) number] }).register_open_slots
          [expression_handle 0 [Step.leftOperand]]) Exit.break_
  | BC_OP.ADDNV | BC_OP.SUBNV | BC_OP.MULNV | BC_OP.DIVNV | BC_OP.MODNV =>
    match new_number function instruction.c with
    | Except.error e => Except.error e
    | Except.ok number =>
      done (({ assignment with
        allowedConstantType := CONSTANT_TYPE.BOOL_CONSTANT,
        expressions := [Expression.binaryOperation (binary_kind_of_op instruction.type)
          number (new_slot instruction.b)] }).register_open_slots
          [expression_handle 0 [Step.rightOperand]]) Exit.break_
  | BC_OP.ADDVV | BC_OP.SUBVV | BC_OP.MULVV | BC_OP.DIVVV | BC_OP.MODVV | BC_OP.POW =>
    done (({ assignment with
      allowedConstantType := CONSTANT_TYPE.BOOL_CONSTANT,
      expressions := [Expression.binaryOperation (binary_kind_of_op instruction.type)
        (new_slot instruction.b) (new_slot instruction.c)] }).register_open_slots
        [expression_handle 0 [Step.leftOperand], expression_handle 0 [Step.rightOperand]])
      Exit.break_
  | BC_OP.CAT =>
    match cat_chain instruction.c 256 instruction.b 0 with
    | none => Except.error Error.diverges
    | some (chain, handles) =>
      done (({ assignment with expressions := [chain] }).register_open_slots handles) Exit.break_
  | BC_OP.KSTR =>
    done { assignment with expressions := [new_string function instruction.d] } Exit.break_
  | BC_OP.KCDATA =>
    match new_cdata function instruction.d with
    | Except.error e => Except.error e
    | Except.ok cdata => done { assignment with expressions := [cdata] } Exit.break_
  | BC_OP.KSHORT =>
    done { assignment with expressions := [new_signed_literal instruction.d] } Exit.break_
  | BC_OP.KNUM =>
    match new_number function instruction.d with
    | Except.error e => Except.error e
    | Except.ok number => done { assignment with expressions := [number] } Exit.break_
  | BC_OP.KPRI =>
    done { assignment with expressions := [new_primitive instruction.d] } Exit.break_
  | BC_OP.UGET =>
    done { assignment with
      expressions := [Expression.variable AST_VARIABLE_UPVALUE 0
        (function.upvalues.getD instruction.d {}).slotScope "" Expression.null Expression.null
        false 0] } Exit.break_
  | BC_OP.USETV | BC_OP.USETS | BC_OP.USETN | BC_OP.USETP =>
    let assignment := { assignment with
      variables_ := [{ type := AST_VARIABLE_UPVALUE,
                       slotScope := (function.upvalues.getD instruction.a {}).slotScope }] }
    match instruction.type with
    | BC_OP.USETV =>
      done (({ assignment with expressions := [new_slot instruction.d] }).register_open_slots
        [expression_handle 0]) Exit.continue_
    | BC_OP.USETS =>
      done { assignment with expressions := [new_string function instruction.d] } Exit.continue_
    | BC_OP.USETN =>
      match new_number function instruction.d with
      | Except.error e => Except.error e
      | Except.ok number => done { assignment with expressions := [number] } Exit.continue_
    | _ =>
      done { assignment with expressions := [new_primitive instruction.d] } Exit.continue_
  | BC_OP.FNEW =>
    done { assignment with
      expressions := [match statement.function with
        | some child => Expression.function child
        | none => Expression.null] } Exit.break_
  | BC_OP.TNEW =>
    done { assignment with
      expressions := [Expression.table [] [] [] Expression.null 0],
      isTableConstructor := true } Exit.break_
  | BC_OP.TDUP =>
    match new_table function instruction.d with
    | Except.error e => Except.error e
    | Except.ok table =>
      done { assignment with expressions := [table], isTableConstructor := true } Exit.break_
  | BC_OP.GGET =>
    let name := (function.get_constant instruction.d).string
    let function :=
      if function.hasDebugInfo then
        { function with usedGlobals := function.usedGlobals ++ [name] }
      else function
    Except.ok (function, { statement with assignment := { assignment with
      expressions := [Expression.variable AST_VARIABLE_GLOBAL 0 none name Expression.null
        Expression.null false 0] } }, Exit.break_)
  | BC_OP.GSET =>
    let name := (function.get_constant instruction.d).string
    let function :=
      if function.hasDebugInfo then
        { function with usedGlobals := function.usedGlobals ++ [name] }
      else function
    Except.ok (function, { statement with assignment := ({ assignment with
      variables_ := [{ type := AST_VARIABLE_GLOBAL, name := name }],
      expressions := [new_slot instruction.a] }).register_open_slots [expression_handle 0] },
      Exit.continue_)
  | BC_OP.TGETV =>
    done (({ assignment with
      expressions := [Expression.variable AST_VARIABLE_TABLE_INDEX 0 none ""
        (new_slot instruction.b) (new_slot instruction.c) false 0] }).register_open_slots
        [expression_handle 0 [Step.table], expression_handle 0 [Step.tableIndex]]) Exit.break_
  | BC_OP.TGETS =>
    done (({ assignment with
      expressions := [Expression.variable AST_VARIABLE_TABLE_INDEX 0 none ""
        (new_slot instruction.b) (new_string function instruction.c).check_valid_name false 0]
      }).register_open_slots [expression_handle 0 [Step.table]]) Exit.break_
  | BC_OP.TGETB =>
    done (({ assignment with
      expressions := [Expression.variable AST_VARIABLE_TABLE_INDEX 0 none ""
        (new_slot instruction.b) (new_literal instruction.c) false 0]
      }).register_open_slots [expression_handle 0 [Step.table]]) Exit.break_
  | BC_OP.TSETV =>
    done (({ assignment with
      variables_ := [{ type := AST_VARIABLE_TABLE_INDEX, table := new_slot instruction.b,
                       tableIndex := new_slot instruction.c }],
      expressions := [Expression.null] }).register_open_slots
        [{ root := Root.variableTableIndex 0 }]
      |> fun assignment => ({ assignment with
          expressions := [new_slot instruction.a] }).register_open_slots [expression_handle 0])
      Exit.continue_
  | BC_OP.TSETS =>
    done (({ assignment with
      variables_ := [{ type := AST_VARIABLE_TABLE_INDEX, table := new_slot instruction.b,
                       tableIndex := (new_string function instruction.c).check_valid_name }],
      expressions := [new_slot instruction.a] }).register_open_slots [expression_handle 0])
      Exit.continue_
  | BC_OP.TSETB =>
    done (({ assignment with
      variables_ := [{ type := AST_VARIABLE_TABLE_INDEX, table := new_slot instruction.b,
                       tableIndex := new_literal instruction.c }],
      expressions := [new_slot instruction.a] }).register_open_slots [expression_handle 0])
      Exit.continue_
  | BC_OP.TSETM =>
    if (function.get_number_constant instruction.d).type ≠ BC_KNUM.BC_KNUM_NUM then
      Except.error (Error.assertion "Multres table index is not a valid number constant")
    else
      done (({ assignment with
        variables_ := [{ type := AST_VARIABLE_TABLE_INDEX, isMultres := true,
                         table := new_slot (instruction.a + 255),
                         multresIndex := (function.get_number_constant instruction.d).number }],
        expressions := [(new_slot instruction.a).setMultres] }).register_open_slots
          [expression_handle 0]) Exit.continue_
  | BC_OP.CALLM | BC_OP.CALL =>
    let isMultresCall := decide (instruction.type = BC_OP.CALLM)
    let (kind, targets, returnCount) :=
      if instruction.b ≠ 0 then
        if instruction.b = 1 then (AST_STATEMENT_FUNCTION_CALL, [], 0)
        else
          (AST_STATEMENT_ASSIGNMENT, result_variables instruction.a (instruction.b - 1),
            instruction.b - 1)
      else
        (AST_STATEMENT_ASSIGNMENT, [{ slot_variable instruction.a with isMultres := true }], 0)
    match build_call ast { assignment with variables_ := targets } instruction.a
        instruction.c isMultresCall returnCount with
    | Except.error e => Except.error e
    | Except.ok assignment =>
      Except.ok (function, { statement with type := kind, assignment := assignment },
        Exit.continue_)
  | BC_OP.VARG =>
    let (kind, targets, returnCount) :=
      if instruction.b ≠ 0 then
        if instruction.b = 1 then (AST_STATEMENT_FUNCTION_CALL, [], 0)
        else
          (AST_STATEMENT_ASSIGNMENT, result_variables instruction.a (instruction.b - 1),
            instruction.b - 1)
      else
        (AST_STATEMENT_ASSIGNMENT, [{ slot_variable instruction.a with isMultres := true }], 0)
    Except.ok (function, { statement with
      type := kind,
      assignment := { assignment with
        variables_ := targets, expressions := [Expression.vararg returnCount] } },
      Exit.continue_)
  | _ => done assignment Exit.break_

/-- The expression list of `RETM`/`RET`/`RET1` (ast.cpp:825-836): `count` slot reads starting at
slot `A`, then the multres slot for `RETM`. -/
def build_return_values (assignment : Assignment) (instruction : Instruction) :
    Except Error Assignment :=
  let isMultresReturn := decide (instruction.type = BC_OP.RETM)
  if instruction.d = 0 ∧ isMultresReturn = false then Except.error Error.outOfRange
  else
    let count := if isMultresReturn then instruction.d else instruction.d - 1
    if count > 255 then Except.error Error.diverges
    else
      let assignment := { assignment with
        expressions := (List.range count).map (fun j => new_slot (instruction.a + j)) }
      let assignment :=
        assignment.register_open_slots ((List.range count).map (fun j => expression_handle j))
      if isMultresReturn then
        Except.ok (({ assignment with
          multresReturn := (new_slot (instruction.a + instruction.d)).setMultres
          }).register_open_slots [{ root := Root.multresReturn }])
      else Except.ok assignment

/-- The switch of the `AST_STATEMENT_RETURN` case (ast.cpp:801-839). -/
def build_return_expression (ast : Ast) (statement : Statement) : Except Error Statement :=
  let instruction := statement.instruction
  match instruction.type with
  | BC_OP.CALLMT | BC_OP.CALLT =>
    match build_call ast statement.assignment instruction.a instruction.d
        (decide (instruction.type = BC_OP.CALLMT)) 0 with
    | Except.error e => Except.error e
    | Except.ok assignment => Except.ok { statement with assignment := assignment }
  | BC_OP.RETM | BC_OP.RET | BC_OP.RET1 =>
    match build_return_values statement.assignment instruction with
    | Except.error e => Except.error e
    | Except.ok assignment => Except.ok { statement with assignment := assignment }
  | _ => Except.ok statement

/-- The `AST_STATEMENT_CONDITION` case (ast.cpp:842-899). -/
def build_condition_expression (function : Function) (statement : Statement) :
    Except Error Statement :=
  let instruction := statement.instruction
  let assignment := statement.assignment
  let compare (right : Expression) (rightIsSlot allowSlotSwap : Bool) : Except Error Statement :=
    let assignment := { assignment with expressions := [new_slot instruction.a, Expression.null] }
    let assignment := assignment.register_open_slots [expression_handle 0]
    let assignment := { assignment with expressions := [new_slot instruction.a, right] }
    let assignment :=
      if rightIsSlot then assignment.register_open_slots [expression_handle 1] else assignment
    Except.ok { statement with
      assignment := assignment,
      condition := if allowSlotSwap then { statement.condition with allowSlotSwap := true }
                   else statement.condition }
  match instruction.type with
  | BC_OP.ISLT | BC_OP.ISGE | BC_OP.ISLE | BC_OP.ISGT =>
    compare (new_slot instruction.d) true true
  | BC_OP.ISEQV | BC_OP.ISNEV => compare (new_slot instruction.d) true false
  | BC_OP.ISEQS | BC_OP.ISNES => compare (new_string function instruction.d) false false
  | BC_OP.ISEQN | BC_OP.ISNEN =>
    match new_number function instruction.d with
    | Except.error e => Except.error e
    | Except.ok number => compare number false false
  | BC_OP.ISEQP | BC_OP.ISNEP => compare (new_primitive instruction.d) false false
  | BC_OP.ISTC | BC_OP.ISFC =>
    Except.ok { statement with
      assignment := { ({ assignment with
          variables_ := [slot_variable instruction.a],
          expressions := [new_slot instruction.d] }).register_open_slots [expression_handle 0]
        with allowedConstantType := CONSTANT_TYPE.INVALID_CONSTANT } }
  | BC_OP.IST | BC_OP.ISF =>
    Except.ok { statement with
      assignment := { ({ assignment with
          expressions := [new_slot instruction.d] }).register_open_slots [expression_handle 0]
        with allowedConstantType := CONSTANT_TYPE.INVALID_CONSTANT } }
  | _ => Except.ok statement

/-- The three control expressions of a loop header, slots `base`, `base + 1`, `base + 2`, all
registered as open slots (ast.cpp:906-910, 922-926). -/
def build_for_expressions (assignment : Assignment) (base : Nat) : Assignment :=
  ({ assignment with
    expressions := [new_slot base, new_slot (base + 1), new_slot (base + 2)]
    }).register_open_slots [expression_handle 0, expression_handle 1, expression_handle 2]

/-- The `AST_STATEMENT_NUMERIC_FOR` case (ast.cpp:900-911). -/
def build_numeric_for_expression (function : Function) (statement : Statement) :
    Except Error Statement :=
  let variable_ := slot_variable (statement.instruction.a + 3)
  let agrees :=
    match statement.locals with
    | some index =>
      match function.locals[index]? with
      | some group => decide (variable_.slot = group.baseSlot ∧ group.names.length = 1)
      | none => false
    | none => false
  if function.hasDebugInfo ∧ agrees = false then
    Except.error (Error.assertion "Numeric for loop variable does not match with debug info")
  else
    Except.ok { statement with
      assignment := build_for_expressions
        { statement.assignment with variables_ := [variable_] } statement.instruction.a }

/-- The `AST_STATEMENT_GENERIC_FOR` case (ast.cpp:912-927). -/
def build_generic_for_expression (function : Function) (statement : Statement) :
    Except Error Statement :=
  if statement.instruction.b = 0 then Except.error Error.outOfRange
  else
    let targets := result_variables statement.instruction.a (statement.instruction.b - 1)
    let agrees :=
      match statement.locals, targets.head? with
      | some index, some front =>
        match function.locals[index]? with
        | some group =>
          decide (front.slot = group.baseSlot ∧ group.names.length = targets.length)
        | none => false
      | _, _ => false
    if function.hasDebugInfo ∧ agrees = false then
      Except.error (Error.assertion "Generic for loop variables do not match with debug info")
    else
      Except.ok { statement with
        assignment := build_for_expressions
          { statement.assignment with variables_ := targets }
          (statement.instruction.a + 253) }

/-- The `AST_STATEMENT_DECLARATION` case (ast.cpp:928-939). -/
def build_declaration_expression (function : Function) (statement : Statement) :
    Except Error Statement :=
  match statement.locals with
  | none => Except.error Error.outOfRange
  | some index =>
    match function.locals[index]? with
    | none => Except.error Error.outOfRange
    | some group =>
      let count := group.names.length
      if count > 255 then Except.error Error.diverges
      else
        let targets := result_variables group.baseSlot count
        let assignment := { statement.assignment with
          variables_ := targets,
          expressions := targets.map (fun (target : Variable) => new_slot target.slot) }
        Except.ok { statement with
          assignment := assignment.register_open_slots
            ((List.range count).map (fun j => expression_handle j)) }

/-- One iteration of the loop of `build_expressions` (ast.cpp:443-940) at index `i`: the function
node, the block, and the value of `i` when the iteration ends (`i + 1` after a `KNIL` expansion,
`i - 1` after a return has absorbed an elided `UCLO`). -/
def build_expressions_step (ast : Ast) (function : Function) (block : List Statement) (i : Nat) :
    Except Error (Function × List Statement × Nat) :=
  match block[i]? with
  | none => Except.error Error.outOfRange
  | some statement =>
    match statement.type with
    | AST_STATEMENT_INSTRUCTION =>
      if statement.instruction.type = BC_OP.KNIL then
        let statement := { statement with
          type := AST_STATEMENT_ASSIGNMENT,
          assignment := { statement.assignment with expressions := [new_primitive 0] } }
        if statement.instruction.a = statement.instruction.d then
          let statement := { statement with
            assignment := { statement.assignment with
              variables_ := [slot_variable statement.instruction.a] } }
          Except.ok (function, block.set i statement, i)
        else
          let inserted := new_statement AST_STATEMENT_INSTRUCTION
          let inserted := { inserted with
            instruction := { statement.instruction with
              d := (statement.instruction.d + 65535) % 65536 } }
          let statement := { statement with
            instruction := { statement.instruction with
              a := statement.instruction.d % 256, id := INVALID_ID, attachedLabel := INVALID_ID } }
          let statement := { statement with
            assignment := { statement.assignment with
              variables_ := [slot_variable statement.instruction.a] } }
          Except.ok (function, block.take i ++ inserted :: statement :: block.drop (i + 1), i + 1)
      else
        match build_instruction_expression ast function statement with
        | Except.error e => Except.error e
        | Except.ok (function, statement, exit) =>
          let statement :=
            match exit with
            | Exit.break_ => { statement with
                assignment := { statement.assignment with
                  variables_ := [slot_variable statement.instruction.a] } }
            | Exit.continue_ => statement
          Except.ok (function, block.set i statement, i)
    | AST_STATEMENT_RETURN =>
      let absorbed : Option Statement :=
        if i ≠ 0 ∧ function.is_valid_label statement.instruction.attachedLabel = false then
          match block[i - 1]? with
          | some previous =>
            if previous.type = AST_STATEMENT_EMPTY ∧ previous.instruction.type = BC_OP.UCLO then
              some previous
            else none
          | none => none
        else none
      match absorbed with
      | some previous =>
        let statement := { statement with
          instruction := { statement.instruction with
            id := previous.instruction.id,
            attachedLabel := previous.instruction.attachedLabel } }
        match build_return_expression ast statement with
        | Except.error e => Except.error e
        | Except.ok statement =>
          Except.ok (function, (block.set i statement).eraseIdx (i - 1), i - 1)
      | none =>
        match build_return_expression ast statement with
        | Except.error e => Except.error e
        | Except.ok statement => Except.ok (function, block.set i statement, i)
    | AST_STATEMENT_CONDITION =>
      match build_condition_expression function statement with
      | Except.error e => Except.error e
      | Except.ok statement => Except.ok (function, block.set i statement, i)
    | AST_STATEMENT_NUMERIC_FOR =>
      match build_numeric_for_expression function statement with
      | Except.error e => Except.error e
      | Except.ok statement => Except.ok (function, block.set i statement, i)
    | AST_STATEMENT_GENERIC_FOR =>
      match build_generic_for_expression function statement with
      | Except.error e => Except.error e
      | Except.ok statement => Except.ok (function, block.set i statement, i)
    | AST_STATEMENT_DECLARATION =>
      match build_declaration_expression function statement with
      | Except.error e => Except.error e
      | Except.ok statement => Except.ok (function, block.set i statement, i)
    | _ => Except.ok (function, block, i)

/-- The loop `for (uint32_t i = block.size(); i--;)` of `build_expressions`. The second argument
is the value of `i` before the next `i--`; `fuel` bounds the number of iterations (an iteration
can raise `i`), and running out of it means that the loop of the source does not end. -/
def build_expressions_loop (ast : Ast) :
    Nat → Nat → Function → List Statement → Except Error (Function × List Statement)
  | 0, _, _, _ => Except.error Error.diverges
  | _ + 1, 0, function, block => Except.ok (function, block)
  | fuel + 1, i + 1, function, block =>
    match build_expressions_step ast function block i with
    | Except.error e => Except.error e
    | Except.ok (function, block, next) => build_expressions_loop ast fuel next function block

/-- The number of statements a `KNIL` statement expands into beyond itself: the number of times
the 16-bit operand `D` is decremented until it equals `A`. -/
def knil_extra (statement : Statement) : Nat :=
  if statement.type = AST_STATEMENT_INSTRUCTION ∧ statement.instruction.type = BC_OP.KNIL then
    (statement.instruction.d + 65536 - statement.instruction.a % 65536) % 65536
  else 0

/-- The number of iterations that suffices for the loop of `build_expressions` on a block: one per
statement, one more per statement a `KNIL` inserts, and the final test. -/
def build_expressions_fuel (block : List Statement) : Nat :=
  block.length + (block.map knil_extra).sum + 1

/-- The function `Ast::build_expressions` (ast.cpp:441-942). -/
def build_expressions (ast : Ast) (function : Function) (block : List Statement) :
    Except Error (Function × List Statement) :=
  build_expressions_loop ast (build_expressions_fuel block) block.length function block

/-! ## P5 - local-scope nesting: `Ast::build_local_scopes` (ast.cpp:403-439) -/

/-- The loop `while (block[scopeEndIndex - 1]->type == AST_STATEMENT_DECLARATION && ...)` of
`build_local_scopes` (ast.cpp:427-429): the final `scopeEndIndex`. -/
def skip_excluded_declarations (function : Function) (block : List Statement) : Nat → Nat
  | 0 => 0
  | scopeEndIndex + 1 =>
    match block[scopeEndIndex]? with
    | some statement =>
      let excluded :=
        match statement.locals with
        | some index => (function.locals.getD index {}).excludeBlock
        | none => false
      if statement.type = AST_STATEMENT_DECLARATION ∧ excluded = true then
        skip_excluded_declarations function block scopeEndIndex
      else scopeEndIndex + 1
    | none => scopeEndIndex + 1

/-- One iteration of the loop of `build_local_scopes` (ast.cpp:408-435) for local group `i`. -/
def build_local_scopes_step (ast : Ast) (function : Function) (block : List Statement)
    (i : Nat) : Except Error (Function × List Statement) :=
  let group := function.locals.getD i {}
  let scopeBeginIndex := get_block_index_from_id block group.scopeBegin
  if scopeBeginIndex = INVALID_ID then Except.ok (function, block)
  else
    match block[scopeBeginIndex]? with
    | none => Except.error Error.outOfRange
    | some first =>
      if first.type = AST_STATEMENT_NUMERIC_FOR ∨ first.type = AST_STATEMENT_GENERIC_FOR then
        Except.ok (function,
          modify_statement block scopeBeginIndex (fun s => { s with locals := some i }))
      else
        let scopeBeginIndex := scopeBeginIndex + 1
        let declaration := { new_statement AST_STATEMENT_DECLARATION with locals := some i }
        let block := block.take scopeBeginIndex ++ declaration :: block.drop scopeBeginIndex
        if group.scopeEnd > group.scopeBegin then
          let declaration := { declaration with
            instruction := { declaration.instruction with
              id := (group.scopeBegin + 1) % 4294967296 } }
          let block := block.set scopeBeginIndex declaration
          let scopeEndIndex :=
            get_block_index_from_id block ((group.scopeEnd + 1) % 4294967296)
          let scopeEndIndex := if scopeEndIndex = INVALID_ID then block.length else scopeEndIndex
          let scopeEndIndex := skip_excluded_declarations function block scopeEndIndex
          if scopeEndIndex < scopeBeginIndex + 1 then Except.error Error.outOfRange
          else
            let body := (block.take scopeEndIndex).drop (scopeBeginIndex + 1)
            let block := block.take (scopeBeginIndex + 1) ++ block.drop scopeEndIndex
            match build_expressions ast function body with
            | Except.error e => Except.error e
            | Except.ok (function, body) =>
              Except.ok (function,
                block.set scopeBeginIndex { declaration with block := body })
        else Except.ok (function, block)

/-- The loop `for (uint32_t i = function.locals.size(); i--;)` of `build_local_scopes`. -/
def build_local_scopes_loop (ast : Ast) :
    Nat → Function → List Statement → Except Error (Function × List Statement)
  | 0, function, block => Except.ok (function, block)
  | i + 1, function, block =>
    match build_local_scopes_step ast function block i with
    | Except.error e => Except.error e
    | Except.ok (function, block) => build_local_scopes_loop ast i function block

/-- The function `Ast::build_local_scopes` (ast.cpp:403-439), with its tail call
`return build_expressions(function, block)`. -/
def build_local_scopes (ast : Ast) (function : Function) (block : List Statement) :
    Except Error (Function × List Statement) :=
  if function.hasDebugInfo = false then build_expressions ast function block
  else
    match build_local_scopes_loop ast function.locals.length function block with
    | Except.error e => Except.error e
    | Except.ok (function, block) => build_expressions ast function block

/-! ## P4 - loop extraction: `Ast::build_loops` (ast.cpp:305-401) -/

/-- The lambda `build_break_statements` (ast.cpp:306-311): every top-level `Goto` of the body
whose target is `breakTarget` becomes a `Break`. -/
def build_break_statements (block : List Statement) (breakTarget : Nat) : List Statement :=
  block.map (fun statement =>
    if statement.type ≠ AST_STATEMENT_GOTO ∨ statement.instruction.target ≠ breakTarget then
      statement
    else { statement with type := AST_STATEMENT_BREAK })

/-- The loop over the jump ids of the label attached to a `LOOP` statement (ast.cpp:375-391),
`j` counting down: `true` when the two synthetic statements are to be appended. -/
def loop_needs_sentinels (body : List Statement) (jumpIds : List Nat) (id target : Nat) :
    Nat → Bool
  | 0 => false
  | j + 1 =>
    match jumpIds[j]? with
    | none => false
    | some jumpId =>
      if jumpId > id then
        if jumpId ≥ target then loop_needs_sentinels body jumpIds id target j
        else
          let targetIndex := get_block_index_from_id body ((jumpId + 4294967295) % 4294967296)
          match body[targetIndex]? with
          | some statement =>
            decide (targetIndex ≠ INVALID_ID ∧ statement.type = AST_STATEMENT_CONDITION)
          | none => false
      else false

/-- Extraction of the statements `i + 1 .. last - 1` of the parent block as the body of the loop
statement at index `i`, followed by `collector.add_loop`, the break pass, `extra` (the sentinels
of a `LOOP`) and `build_local_scopes` on the body; the statements `i + 1 .. erasedEnd - 1` leave
the parent block. -/
def extract_loop_body (ast : Ast) (function : Function) (i last erasedEnd breakTarget : Nat)
    (extra : List Statement → List Statement) : Except Error Function :=
  match function.block[i]? with
  | none => Except.error Error.outOfRange
  | some header =>
    if last < i + 1 ∨ erasedEnd > function.block.length then Except.error Error.outOfRange
    else
      let body := (function.block.take last).drop (i + 1)
      let block := function.block.take (i + 1) ++ function.block.drop erasedEnd
      let function := { function with
        block := block,
        slotScopeCollector := function.slotScopeCollector.add_loop header.instruction.id
          header.instruction.target }
      let body := extra (build_break_statements body breakTarget)
      match build_local_scopes ast function body with
      | Except.error e => Except.error e
      | Except.ok (function, body) =>
        Except.ok { function with
          block := modify_statement function.block i (fun s => { s with block := body }) }

/-- One iteration of the loop of `build_loops` (ast.cpp:316-396) at index `i`. -/
def build_loops_step (ast : Ast) (function : Function) (i : Nat) : Except Error Function :=
  match function.block[i]? with
  | none => Except.error Error.outOfRange
  | some statement =>
    if statement.type ≠ AST_STATEMENT_INSTRUCTION then Except.ok function
    else
      match statement.instruction.type with
      | BC_OP.ISNEXT | BC_OP.JMP =>
        let targetIndex := get_block_index_from_id function.block statement.instruction.target
        match function.block[targetIndex]?, function.block[targetIndex + 1]?,
            function.block[targetIndex + 2]? with
        | some iterator, some back, some after =>
          let breakTarget := get_extended_id_from_statement after
          let header := { statement with
            type := AST_STATEMENT_GENERIC_FOR,
            instruction := { iterator.instruction with
              id := (back.instruction.target + 4294967295) % 4294967296,
              target := (back.instruction.id + 1) % 4294967296 } }
          let function := { function with
            block := modify_statement (function.block.set i header) targetIndex (fun s =>
              { s with type := AST_STATEMENT_EMPTY }) }
          extract_loop_body ast function i (targetIndex + 1) (targetIndex + 2) breakTarget id
        | _, _, _ => Except.error Error.outOfRange
      | BC_OP.FORI =>
        let targetIndex := get_block_index_from_id function.block statement.instruction.target
        match function.block[targetIndex]? with
        | some after =>
          if targetIndex = 0 then Except.error Error.outOfRange
          else
            let breakTarget := get_extended_id_from_statement after
            let header := { statement with type := AST_STATEMENT_NUMERIC_FOR }
            let function := { function with
              block := modify_statement (function.block.set i header) (targetIndex - 1) (fun s =>
                { s with type := AST_STATEMENT_EMPTY }) }
            extract_loop_body ast function i targetIndex targetIndex breakTarget id
        | none => Except.error Error.outOfRange
      | BC_OP.LOOP =>
        if statement.instruction.target < statement.instruction.id then
          Except.error (Error.assertion "LOOP instruction has invalid jump target")
        else
          let function :=
            function.remove_jump statement.instruction.id statement.instruction.target
          if statement.instruction.target = statement.instruction.id then
            match function.block[i + 1]? with
            | some next =>
              if next.type = AST_STATEMENT_GOTO
                  ∧ next.instruction.target ≤ statement.instruction.id
                  ∧ function.is_valid_label next.instruction.attachedLabel = false then
                let block := modify_statement function.block i (fun s =>
                  { s with type := AST_STATEMENT_EMPTY })
                let block := modify_statement block (i + 1) (fun s =>
                  { s with instruction := { s.instruction with
                      type := statement.instruction.type } })
                Except.ok { function with block := block }
              else Except.error (Error.assertion "Invalid goto loop")
            | none => Except.error (Error.assertion "Invalid goto loop")
          else
            let header := { statement with type := AST_STATEMENT_LOOP }
            let function := { function with block := function.block.set i header }
            let targetIndex :=
              get_block_index_from_id function.block statement.instruction.target
            match function.block[targetIndex]? with
            | some after =>
              let breakTarget := get_extended_id_from_statement after
              let extra (body : List Statement) : List Statement :=
                let lastIsCondition :=
                  match body.getLast? with
                  | some last => decide (last.type = AST_STATEMENT_CONDITION)
                  | none => false
                if lastIsCondition = true
                    ∧ function.is_valid_label statement.instruction.attachedLabel = true
                    ∧ breakTarget ≠ statement.instruction.id then
                  let jumpIds :=
                    (function.labels.getD statement.instruction.attachedLabel
                      { target := 0 }).jumpIds
                  if loop_needs_sentinels body jumpIds statement.instruction.id
                      statement.instruction.target jumpIds.length then
                    let sentinel (type : AST_STATEMENT) (target : Nat) : Statement :=
                      { new_statement type with
                        instruction := { type := BC_OP.JMP, target := target } }
                    body ++ [sentinel AST_STATEMENT_BREAK breakTarget,
                             sentinel AST_STATEMENT_GOTO statement.instruction.id]
                  else body
                else body
              extract_loop_body ast function i targetIndex targetIndex breakTarget extra
            | none => Except.error Error.outOfRange
      | _ => Except.ok function

/-- The loop `for (uint32_t i = function.block.size(); i--;)` of `build_loops`. -/
def build_loops_loop (ast : Ast) : Nat → Function → Except Error Function
  | 0, function => Except.ok function
  | i + 1, function =>
    match build_loops_step ast function i with
    | Except.error e => Except.error e
    | Except.ok function => build_loops_loop ast i function

/-- The function `Ast::build_loops` (ast.cpp:305-401), with its tail call
`return build_local_scopes(function, function.block)`. -/
def build_loops (ast : Ast) (function : Function) : Except Error Function :=
  match build_loops_loop ast function.block.length function with
  | Except.error e => Except.error e
  | Except.ok function =>
    match build_local_scopes ast function function.block with
    | Except.error e => Except.error e
    | Except.ok (function, block) => Except.ok { function with block := block }

/-- The function `Ast::group_jumps` (ast.cpp:207-303), with its tail call
`return build_loops(function)`. -/
def group_jumps (ast : Ast) (function : Function) : Except Error Function :=
  match group_jumps_body function with
  | Except.error e => Except.error e
  | Except.ok function => build_loops ast function

/-! ## P2 - debug-info digestion: `Ast::assign_debug_info` (ast.cpp:133-205)

The vector `activeLocalScopes` is a list whose head is the back of the vector. -/

/-- The loop `while (activeLocalScopes.size() && scopeEnd > activeLocalScopes.back())`
(ast.cpp:152-154). -/
def pop_ended_scopes (scopeEnd : Nat) : List Nat → List Nat
  | [] => []
  | back :: rest => if scopeEnd > back then pop_ended_scopes scopeEnd rest else back :: rest

/-- The loop `while (activeLocalScopes.size() != function.locals.back().baseSlot)` with its
assertion (ast.cpp:171-174). -/
def pop_to_base_slot (baseSlot scopeEnd : Nat) : List Nat → Except Error (List Nat)
  | [] =>
    if baseSlot = 0 then Except.ok []
    else Except.error (Error.assertion "Unable to build variable scope")
  | back :: rest =>
    if (back :: rest).length = baseSlot then Except.ok (back :: rest)
    else if back = scopeEnd then pop_to_base_slot baseSlot scopeEnd rest
    else Except.error (Error.assertion "Unable to build variable scope")

/-- The zero-span special case (ast.cpp:161-184) for record `info`: the active stack and the
local groups after it. -/
def assign_debug_info_zero_span (function : Function) (info : VariableInfo)
    (activeLocalScopes : List Nat) : Except Error (List Nat × List Local) :=
  match function.locals.getLast? with
  | none => Except.ok (activeLocalScopes, function.locals)
  | some last =>
    if info.scopeBegin = info.scopeEnd ∧ last.scopeEnd = info.scopeEnd then
      let index := get_block_index_from_id function.block info.scopeBegin
      match function.block[index]? with
      | none => Except.error Error.outOfRange
      | some statement =>
        let applies :=
          match statement.instruction.type with
          | BC_OP.KPRI =>
            decide (statement.instruction.d = 0 ∧ statement.instruction.a < activeLocalScopes.length)
          | BC_OP.KNIL => decide (statement.instruction.d < activeLocalScopes.length)
          | _ => false
        if applies then
          match pop_to_base_slot last.baseSlot info.scopeEnd activeLocalScopes with
          | Except.error e => Except.error e
          | Except.ok activeLocalScopes =>
            Except.ok (activeLocalScopes, function.locals ++ [{
              baseSlot := activeLocalScopes.length,
              scopeBegin := info.scopeBegin,
              scopeEnd := info.scopeEnd,
              excludeBlock :=
                if last.scopeBegin = last.scopeEnd then last.excludeBlock else true }])
        else Except.ok (activeLocalScopes, function.locals)
    else Except.ok (activeLocalScopes, function.locals)

/-- One iteration of the loop over the non-parameter records (ast.cpp:146-196). -/
def assign_debug_info_step (function : Function) (info : VariableInfo)
    (activeLocalScopes : List Nat) : Except Error (Function × List Nat) :=
  let legal :=
    match activeLocalScopes with
    | [] => true
    | back :: _ =>
      decide (info.scopeBegin > back ∨ info.scopeEnd ≤ back ∨ info.scopeBegin = back)
  if legal = false then
    Except.error (Error.assertion "Illegal variable scope border overlap")
  else
    let activeLocalScopes := pop_ended_scopes info.scopeEnd activeLocalScopes
    if info.type ≠ BC_VAR.BC_VAR_STR then
      Except.ok (function, info.scopeEnd :: activeLocalScopes)
    else
      match assign_debug_info_zero_span function info activeLocalScopes with
      | Except.error e => Except.error e
      | Except.ok (activeLocalScopes, locals) =>
        let opens :=
          match locals.getLast? with
          | none => true
          | some last =>
            decide (info.scopeBegin ≠ last.scopeBegin ∨ info.scopeEnd ≠ last.scopeEnd)
        let locals :=
          if opens then
            locals ++ [{ baseSlot := activeLocalScopes.length, scopeBegin := info.scopeBegin,
                         scopeEnd := info.scopeEnd }]
          else locals
        let locals := locals.modify (fun group =>
          { group with names := group.names ++ [info.name] }) (locals.length - 1)
        let scopeEnd := (locals.getLast?.getD {}).scopeEnd
        Except.ok ({ function with locals := locals }, scopeEnd :: activeLocalScopes)

/-- The loop over the non-parameter records, in order (ast.cpp:145-197). -/
def assign_debug_info_loop :
    List VariableInfo → Function → List Nat → Except Error Function
  | [], function, _ => Except.ok function
  | info :: rest, function, activeLocalScopes =>
    match assign_debug_info_step function info activeLocalScopes with
    | Except.error e => Except.error e
    | Except.ok (function, activeLocalScopes) =>
      assign_debug_info_loop rest function activeLocalScopes

/-- The body of `Ast::assign_debug_info` for a function with debug info (ast.cpp:135-203). The
parameter loop runs from the last parameter to the first, so the scope end of the first parameter
ends up at the back of `activeLocalScopes`. -/
def assign_debug_info_body (function : Function) : Except Error Function :=
  let parameters := function.prototype.parameters % 256
  if parameters > function.prototype.variableInfos.length then Except.error Error.outOfRange
  else
    let parameterInfos := function.prototype.variableInfos.take parameters
    let function := { function with parameterNames := parameterInfos.map (fun info => info.name) }
    assign_debug_info_loop (function.prototype.variableInfos.drop parameters) function
      (parameterInfos.map (fun info => info.scopeEnd))

/-- The function `Ast::assign_debug_info` (ast.cpp:133-205), with its tail call
`return group_jumps(function)`. -/
def assign_debug_info (ast : Ast) (function : Function) : Except Error Function :=
  if function.hasDebugInfo = false then group_jumps ast function
  else
    match assign_debug_info_body function with
    | Except.error e => Except.error e
    | Except.ok function => group_jumps ast function

/-- The function `Ast::build_instructions` (ast.cpp:72-131), with its tail call
`return assign_debug_info(function)`: passes P1 to P6. -/
def build_instructions (ast : Ast) (function : Function) : Except Error (Ast × Function) :=
  let (ast, function) := build_instructions_body ast function
  match assign_debug_info ast function with
  | Except.error e => Except.error e
  | Except.ok function => Except.ok (ast, function)

/-! ## P7 - slot-scope collection: `Ast::collect_slot_scopes` (ast.cpp:944-1396)

`SlotScopeCollector` lives in `function.h`, which is not part of `src/`. The three operations the
spec describes (`begin_scope`, `complete_scope`, `add_to_scope`) are modelled from it. The spec
does not determine `extend_scopes`, `merge_scopes`, `begin_upvalue_scopes`,
`build_upvalue_scopes`, `get_scope_begin_from_label`, `get_scope_end_from_label` and
`is_valid_block_range`; where the source reaches one of them with something to do (a loop or
declaration statement, a statement with a label attached or followed by one, a captured slot) the
model stops with `Error.unmodelled`. -/

/-- The state of slot `slot` (`slotInfos[slot]`, a fresh entry when the vector is shorter). -/
def SlotScopeCollector.info (collector : SlotScopeCollector) (slot : Nat) : SlotInfo :=
  collector.slotInfos.getD slot ({} : SlotInfo)

/-- A write to `slotInfos[slot]`, growing the vector when needed. -/
def SlotScopeCollector.setInfo (collector : SlotScopeCollector) (slot : Nat) (info : SlotInfo) :
    SlotScopeCollector :=
  { collector with
    slotInfos := (collector.slotInfos ++
      List.replicate (slot + 1 - collector.slotInfos.length) ({} : SlotInfo)).set slot info }

/-- Modelled from the spec: `begin_scope(slot, endId)` opens a new scope ending at `endId` and
stacks the previous active handle. -/
def SlotScopeCollector.begin_scope (collector : SlotScopeCollector) (slot endId : Nat) :
    SlotScopeCollector :=
  let handle := collector.scopes.length
  let info := collector.info slot
  let collector := { collector with
    scopes := collector.scopes ++ [({ slot := slot, scopeEnd := endId } : SlotScope)] }
  collector.setInfo slot { info with
    activeSlotScope := some handle,
    slotScopes :=
      match info.activeSlotScope with
      | some previous => previous :: info.slotScopes
      | none => info.slotScopes }

/-- Modelled from the spec: `complete_scope(slot, handleRef, beginId)` closes the active scope of
the slot, assigning `scopeBegin = beginId`, and binds `handleRef` (the result) to it. A write that
no later read uses closes a scope of its own with no usages. -/
def SlotScopeCollector.complete_scope (collector : SlotScopeCollector) (slot beginId : Nat) :
    SlotScopeCollector × Nat :=
  let collector :=
    match (collector.info slot).activeSlotScope with
    | some _ => collector
    | none => collector.begin_scope slot beginId
  let info := collector.info slot
  let handle := info.activeSlotScope.getD 0
  let collector := { collector with
    scopes := collector.scopes.modify (fun scope => { scope with scopeBegin := beginId }) handle }
  (collector.setInfo slot { info with
    activeSlotScope := info.slotScopes.head?,
    slotScopes := info.slotScopes.tail }, handle)

/-- Modelled from the spec: `add_to_scope(slot, handleRef, id)` records a read at `id` in the
active scope of the slot (opened at `id` when there is none), extends `scopeBegin` leftward if
needed, increments `usages` and binds `handleRef` (the result) to the scope. -/
def SlotScopeCollector.add_to_scope (collector : SlotScopeCollector) (slot id : Nat) :
    SlotScopeCollector × Nat :=
  let collector :=
    match (collector.info slot).activeSlotScope with
    | some _ => collector
    | none => collector.begin_scope slot id
  let handle := (collector.info slot).activeSlotScope.getD 0
  ({ collector with
    scopes := collector.scopes.modify (fun scope =>
      { scope with
        scopeBegin := if id < scope.scopeBegin then id else scope.scopeBegin,
        usages := scope.usages + 1 }) handle }, handle)

/-- Modelled from the spec: `assert_scopes_closed()`, no `slotInfos[*].activeSlotScope` remains. -/
def SlotScopeCollector.assert_scopes_closed (collector : SlotScopeCollector) : Bool :=
  collector.slotInfos.all (fun info => info.activeSlotScope.isNone)

/-- The usages of the scope behind a handle (`(*slotScope)->usages`). -/
def SlotScopeCollector.usages (collector : SlotScopeCollector) (slotScope : Option Nat) : Nat :=
  match slotScope with
  | some handle => (collector.scopes.getD handle ({} : SlotScope)).usages
  | none => 0

/-- The write of the loop over the targets of a statement (ast.cpp:1355-1364), `j` counting
down. -/
def collect_variables (id : Nat) :
    Nat → SlotScopeCollector → List Variable → SlotScopeCollector × List Variable
  | 0, collector, targets => (collector, targets)
  | j + 1, collector, targets =>
    match targets[j]? with
    | none => collect_variables id j collector targets
    | some target =>
      match target.type with
      | AST_VARIABLE_SLOT =>
        let (collector, handle) := collector.complete_scope target.slot id
        collect_variables id j collector
          (targets.set j { target with slotScope := some handle })
      | AST_VARIABLE_TABLE_INDEX =>
        let (collector, handle) := collector.add_to_scope target.table.slot id
        collect_variables id j collector
          (targets.set j { target with table := target.table.setSlotScope (some handle) })
      | _ => collect_variables id j collector targets

/-- The loop over the open slots of a statement (ast.cpp:1382-1384), `j` counting down. -/
def collect_open_slots (id : Nat) :
    Nat → SlotScopeCollector → Assignment → SlotScopeCollector × Assignment
  | 0, collector, assignment => (collector, assignment)
  | j + 1, collector, assignment =>
    match assignment.openSlots[j]? with
    | none => collect_open_slots id j collector assignment
    | some handle =>
      let read := (assignment.get? handle).getD Expression.null
      let (collector, scope) := collector.add_to_scope read.slot id
      collect_open_slots id j collector (assignment.set handle (read.setSlotScope (some scope)))

/-- One iteration of the loop of `collect_slot_scopes` (ast.cpp:963-1394) at index `i`, for the
statements whose treatment the spec determines. -/
def collect_slot_scopes_step (ast : Ast) (function : Function) (block : List Statement)
    (previousBlocks : List BlockInfo) (i : Nat) : Except Error (Function × List Statement) :=
  match block[i]? with
  | none => Except.error Error.outOfRange
  | some statement =>
    if statement.type = AST_STATEMENT_NUMERIC_FOR ∨ statement.type = AST_STATEMENT_GENERIC_FOR
        ∨ statement.type = AST_STATEMENT_LOOP ∨ statement.type = AST_STATEMENT_DECLARATION then
      Except.error Error.unmodelled
    else
      let blockInfo : BlockInfo := { index := i, block := block }
      let targetLabel := get_label_from_next_statement function blockInfo previousBlocks false true
      if statement.instruction.id ≠ INVALID_ID ∧ function.is_valid_label targetLabel = true then
        Except.error Error.unmodelled
      else if statement.instruction.id ≠ INVALID_ID
          ∧ function.is_valid_label statement.instruction.attachedLabel = true then
        Except.error Error.unmodelled
      else if function.slotScopeCollector.upvalueInfos ≠ []
          ∨ function.slotScopeCollector.upvalueCloses ≠ [] then
        Except.error Error.unmodelled
      else
        let capturesLocal :=
          match statement.function with
          | some child => (ast.functions.getD child default).upvalues.any (fun u => u.local_)
          | none => false
        if capturesLocal then Except.error Error.unmodelled
        else
          let collector := function.slotScopeCollector
          let id :=
            if statement.instruction.id ≠ INVALID_ID then statement.instruction.id
            else (collector.previousId + 4294967295) % 4294967296
          let (collector, targets) :=
            collect_variables id (statement.assignment.variables_.length % 256) collector
              statement.assignment.variables_
          let assignment := { statement.assignment with variables_ := targets }
          let multresAllowed :=
            match targets.head? with
            | none => true
            | some front =>
              decide (front.type ≠ AST_VARIABLE_SLOT) || !front.isMultres
                || (decide (collector.usages front.slotScope = 1)
                  && decide ((collector.info front.slot).activeSlotScope ≠ front.slotScope))
          if multresAllowed = false then
            Except.error (Error.assertion "Multres assignment has invalid number of usages")
          else
            let (collector, assignment) :=
              collect_open_slots id (assignment.openSlots.length % 256) collector assignment
            let collector :=
              if statement.instruction.id ≠ INVALID_ID then { collector with previousId := id }
              else collector
            Except.ok ({ function with slotScopeCollector := collector },
              block.set i { statement with assignment := assignment })

/-- The loop `for (uint32_t i = block.size(); i--;)` of `collect_slot_scopes`. -/
def collect_slot_scopes_loop (ast : Ast) (previousBlocks : List BlockInfo) :
    Nat → Function → List Statement → Except Error (Function × List Statement)
  | 0, function, block => Except.ok (function, block)
  | i + 1, function, block =>
    match collect_slot_scopes_step ast function block previousBlocks i with
    | Except.error e => Except.error e
    | Except.ok (function, block) => collect_slot_scopes_loop ast previousBlocks i function block

/-- The function `Ast::collect_slot_scopes` (ast.cpp:944-1396), for the statements whose
treatment the spec determines. -/
def collect_slot_scopes (ast : Ast) (function : Function) (block : List Statement)
    (previousBlocks : List BlockInfo := []) : Except Error (Function × List Statement) :=
  collect_slot_scopes_loop ast previousBlocks block.length function block

/-! ## P8 - slot elimination: `Ast::eliminate_slots` (ast.cpp:1398-1908)

The rebuild of an assignment from a region of conditions (ast.cpp:1585-1846) goes through
`ConditionBuilder`, which is not part of `src/`; the model stops with `Error.unmodelled` when
the statement after an assignment carries a label (the guard at ast.cpp:1583). Loop and
declaration statements never come out of the modelled part of `collect_slot_scopes`, and stop
the model in the same way. -/

/-- Modelled from the spec: `remove_scope(slot, handle)`, called when inlining collapses a
definition; the released handle is recorded. -/
def SlotScopeCollector.remove_scope (collector : SlotScopeCollector) (_slot : Nat)
    (slotScope : Option Nat) : SlotScopeCollector :=
  match slotScope with
  | some handle => { collector with removedScopes := collector.removedScopes ++ [handle] }
  | none => collector

/-- The statement `(*slotScope)->usages--`. -/
def SlotScopeCollector.decrement_usages (collector : SlotScopeCollector)
    (slotScope : Option Nat) : SlotScopeCollector :=
  match slotScope with
  | some handle =>
    { collector with
      scopes := collector.scopes.modify (fun scope =>
        { scope with usages := (scope.usages + 4294967295) % 4294967296 }) handle }
  | none => collector

/-- A null `Expression*`. -/
def Expression.isNull : Expression → Bool
  | Expression.null => true
  | _ => false

/-- The field `->table->multresField` (null for an expression that is not a table). -/
def Expression.multresField : Expression → Expression
  | Expression.table _ _ _ multresField _ => multresField
  | _ => Expression.null

/-- The test shared by the conditions of `eliminate_slots`: the statement is an `Assignment` to
exactly one slot variable whose scope has `usages == 1` (ast.cpp:1410-1413, 1504-1507). -/
def is_single_use_slot_assignment (function : Function) (statement : Statement) : Bool :=
  decide (statement.type = AST_STATEMENT_ASSIGNMENT)
    && decide (statement.assignment.variables_.length = 1)
    && (match statement.assignment.variables_.getLast? with
        | some target =>
          decide (target.type = AST_VARIABLE_SLOT)
            && decide (function.slotScopeCollector.usages target.slotScope = 1)
        | none => false)

/-- The slot of the last variable of a statement (`assignment.variables.back().slot`). -/
def Statement.target_slot (statement : Statement) : Nat :=
  (statement.assignment.variables_.getLast?.getD {}).slot

/-- The last expression of a statement (`assignment.expressions.back()`). -/
def Statement.last_expression (statement : Statement) : Expression :=
  statement.assignment.expressions.getLast?.getD Expression.null

/-- The `AST_STATEMENT_CONDITION` case of the first switch (ast.cpp:1406-1421): the operand swap
of an ordered compare. -/
def eliminate_slots_swap (function : Function) (block : List Statement) (i : Nat) :
    List Statement :=
  match block[i]?, block[i - 1]? with
  | some statement, some previous =>
    if statement.condition.allowSlotSwap = true ∧ i ≠ 0
        ∧ function.is_valid_label statement.instruction.attachedLabel = false
        ∧ is_single_use_slot_assignment function previous = true
        ∧ previous.target_slot = (statement.assignment.expressions.getD 0 Expression.null).slot
    then
      let left := statement.assignment.expressions.getD 0 Expression.null
      let right := statement.assignment.expressions.getD 1 Expression.null
      block.set i { statement with
        assignment := { statement.assignment with
          expressions := (statement.assignment.expressions.set 0 right).set 1 left },
        condition := { statement.condition with swapped := true } }
    else block
  | _, _ => block

/-- The `AST_STATEMENT_ASSIGNMENT` case of the first switch (ast.cpp:1471-1497): the two open
slots of a table-index assignment are re-pointed when its key and value were just defined and the
table constructor stands three statements back. -/
def eliminate_slots_table_setter (platform : Platform) (function : Function)
    (block : List Statement) (i : Nat) : Except Error (List Statement) :=
  match block[i]? with
  | none => Except.error Error.outOfRange
  | some statement =>
    match statement.assignment.variables_.getLast? with
    | none => Except.error Error.outOfRange
    | some target =>
      if target.type = AST_VARIABLE_TABLE_INDEX ∧ target.isMultres = false ∧ i ≥ 3 then
        match block[i - 1]?, block[i - 2]?, block[i - 3]? with
        | some key, some value, some constructor =>
          if function.is_valid_label statement.instruction.attachedLabel = false
              ∧ function.is_valid_label key.instruction.attachedLabel = false
              ∧ function.is_valid_label value.instruction.attachedLabel = false
              ∧ is_single_use_slot_assignment function key = true
              ∧ key.target_slot = target.tableIndex.slot
              ∧ get_constant_type platform key.last_expression
                  ≠ CONSTANT_TYPE.INVALID_CONSTANT
              ∧ is_single_use_slot_assignment function value = true
              ∧ value.target_slot = statement.last_expression.slot
              ∧ get_constant_type platform value.last_expression
                  = CONSTANT_TYPE.INVALID_CONSTANT
              ∧ constructor.assignment.isTableConstructor = true
              ∧ constructor.target_slot = target.table.slot
              ∧ constructor.last_expression.multresField.isNull = true
          then
            Except.ok (block.set i { statement with
              assignment := { statement.assignment with
                openSlots := (statement.assignment.openSlots.set 0
                  (expression_handle (statement.assignment.expressions.length - 1))).set 1
                  { root := Root.variableTableIndex
                      (statement.assignment.variables_.length - 1) } } })
          else Except.ok block
        | _, _, _ => Except.error Error.outOfRange
      else Except.ok block

/-- The method-call idiom test of the inlining loop (ast.cpp:1508-1529) for the call statement
`statement` at index `i ≥ 2`, the method load `load` before it and the receiver copy `copy`
before that. -/
def is_method_call_idiom (function : Function) (statement load copy : Statement) : Bool :=
  match statement.last_expression, load.last_expression, copy.last_expression with
  | Expression.functionCall callee arguments _ _ _,
    Expression.variable AST_VARIABLE_TABLE_INDEX _ _ _
      (Expression.variable AST_VARIABLE_SLOT tableSlot _ _ _ _ _ _)
      (Expression.constant key) _ _,
    Expression.variable AST_VARIABLE_SLOT copiedSlot _ _ _ _ _ _ =>
    !function.is_valid_label load.instruction.attachedLabel
      && decide (load.target_slot = callee.slot)
      && decide (load.assignment.usedSlots.length = 1)
      && decide (key.type = AST_CONSTANT_STRING) && key.isName
      && is_single_use_slot_assignment function copy
      && decide (copy.target_slot = (arguments.headD Expression.null).slot)
      && decide (copy.assignment.usedSlots.length = 1)
      && decide (copiedSlot = tableSlot)
  | _, _, _ => false

/-- The method-call fusion (ast.cpp:1530-1538): the block after it; the call statement moves
from index `i` to `i - 1`. -/
def fuse_method_call (function : Function) (block : List Statement) (i j : Nat)
    (statement load copy : Statement) : Function × List Statement :=
  let last := statement.assignment.expressions.length - 1
  let call :=
    match statement.last_expression with
    | Expression.functionCall callee arguments multresArgument _ returnCount =>
      Expression.functionCall callee arguments.tail multresArgument true returnCount
    | e => e
  let openSlots := statement.assignment.openSlots.eraseIdx j
  let openSlots := expression_handle last [Step.function, Step.table] :: openSlots
  let statement := { statement with
    assignment := { statement.assignment with
      expressions := statement.assignment.expressions.set last call,
      openSlots := openSlots } }
  let collector := function.slotScopeCollector.remove_scope copy.target_slot
    (copy.assignment.variables_.getLast?.getD {}).slotScope
  let load := { load with
    instruction := { load.instruction with
      attachedLabel := copy.instruction.attachedLabel } }
  let collector := collector.decrement_usages copy.last_expression.slotScope
  ({ function with slotScopeCollector := collector },
    (((block.set i statement).set (i - 1) load).eraseIdx (i - 2)))

/-- The inlining loop of `eliminate_slots` (ast.cpp:1500-1560). The first argument is the value of
`j` before `j--`; the result carries the final `i`. The handle that the fusion puts in front of
`openSlots` points into the method load, which the same iteration inlines as the callee, so it is
the location `function.table` below the call. -/
def eliminate_slots_inline (platform : Platform) :
    Nat → Function → List Statement → Nat → Except Error (Function × List Statement × Nat)
  | 0, function, block, i => Except.ok (function, block, i)
  | j + 1, function, block, i =>
    match block[i]?, block[i - 1]? with
    | some statement, some previous =>
      if i = 0 ∨ function.is_valid_label statement.instruction.attachedLabel = true
          ∨ is_single_use_slot_assignment function previous = false then
        Except.ok (function, block, i)
      else
        let fused : Option (Function × List Statement × Nat) :=
          if j = 1 ∧ statement.assignment.isPotentialMethod = true ∧ i ≥ 2 then
            match block[i - 2]? with
            | some copy =>
              if is_method_call_idiom function statement previous copy then
                let (function, block) := fuse_method_call function block i j statement previous copy
                some (function, block, i - 1)
              else none
            | none => none
          else none
        let (function, block, i) := fused.getD (function, block, i)
        match block[i]?, block[i - 1]? with
        | some statement, some previous =>
          match statement.assignment.openSlots[j]? with
          | none => Except.error Error.outOfRange
          | some handle =>
            let read := (statement.assignment.get? handle).getD Expression.null
            if previous.target_slot ≠ read.slot then
              eliminate_slots_inline platform j function block i
            else if (previous.assignment.variables_.getLast?.getD {}).isMultres
                ≠ read.isMultres then
              Except.error (Error.assertion "Multres type mismatch when trying to eliminate slot")
            else
              let inlined := statement.assignment.set handle previous.last_expression
              if j = 0
                  ∧ statement.assignment.allowedConstantType ≠ CONSTANT_TYPE.NUMBER_CONSTANT
                  ∧ (get_constant_type platform
                      (inlined.expressions.getLast?.getD Expression.null)).val
                    > statement.assignment.allowedConstantType.val then
                Except.ok (function, block, i)
              else
                let collector := function.slotScopeCollector.remove_scope previous.target_slot
                  (previous.assignment.variables_.getLast?.getD {}).slotScope
                let statement := { statement with
                  assignment := { inlined with
                    usedSlots := inlined.usedSlots ++ previous.assignment.usedSlots },
                  instruction := { statement.instruction with
                    attachedLabel := previous.instruction.attachedLabel } }
                eliminate_slots_inline platform j
                  { function with slotScopeCollector := collector }
                  ((block.set i statement).eraseIdx (i - 1)) (i - 1)
        | _, _ => Except.error Error.outOfRange
    | some _, none => Except.ok (function, block, i)
    | none, _ => Except.error Error.outOfRange

/-- The trimming loop of the table-constructor fold (ast.cpp:1868-1871): trailing entries of
`usedSlots` are erased until one equals the table slot; `usedSlots` is given reversed. -/
def trim_used_slots (tableSlot : Nat) : List Nat → List Nat
  | [] => []
  | slot :: rest => if slot ≠ tableSlot then trim_used_slots tableSlot rest else slot :: rest

/-- A write of `->table->fields.emplace_back({key, value})` on the table expression `table`. -/
def Expression.add_field (table key value : Expression) : Expression :=
  match table with
  | Expression.table list constantFields fields multresField multresIndex =>
    Expression.table list constantFields (fields ++ [(key, value)]) multresField multresIndex
  | e => e

/-- A write of `->table->multresIndex` and `->table->multresField` on the table expression
`table`. -/
def Expression.set_multres_field (table : Expression) (index : Nat) (value : Expression) :
    Expression :=
  match table with
  | Expression.table list constantFields fields _ _ =>
    Expression.table list constantFields fields value index
  | e => e

/-- The `AST_VARIABLE_TABLE_INDEX` case of the last switch (ast.cpp:1856-1901) for the statement
at index `i`: the table-constructor fold and the inlining of the table operand. -/
def eliminate_slots_table_index (platform : Platform) (function : Function)
    (block : List Statement) (i : Nat) : Except Error (Function × List Statement × Nat) :=
  match block[i]?, block[i - 1]? with
  | some statement, some previous =>
    let target := statement.assignment.variables_.getLast?.getD {}
    let multresCheck : Except Error (Function × List Statement × Nat) :=
      if target.isMultres then
        Except.error (Error.assertion "Unable to eliminate multres table index")
      else Except.ok (function, block, i)
    if i ≠ 0 ∧ function.is_valid_label statement.instruction.attachedLabel = false
        ∧ previous.type = AST_STATEMENT_ASSIGNMENT
        ∧ previous.assignment.variables_.length = 1
        ∧ (previous.assignment.variables_.getLast?.getD {}).type = AST_VARIABLE_SLOT
        ∧ previous.target_slot = target.table.slot then
      let previousScope := (previous.assignment.variables_.getLast?.getD {}).slotScope
      let usedSlots :=
        if previous.assignment.isTableConstructor = true
            ∧ previous.last_expression.multresField.isNull = true
            ∧ (target.isMultres = true
              ∨ (get_constant_type platform target.tableIndex).val
                  ≤ CONSTANT_TYPE.NIL_CONSTANT.val
              ∨ get_constant_type platform statement.last_expression
                  = CONSTANT_TYPE.INVALID_CONSTANT) then
          some (trim_used_slots target.table.slot statement.assignment.usedSlots.reverse).reverse
        else none
      let statement :=
        match usedSlots with
        | some trimmed =>
          { statement with assignment := { statement.assignment with usedSlots := trimmed } }
        | none => statement
      let block := block.set i statement
      if usedSlots = some [] then
        let constructor :=
          if target.isMultres then
            previous.last_expression.set_multres_field target.multresIndex
              statement.last_expression
          else previous.last_expression.add_field target.tableIndex statement.last_expression
        let previous := { previous with
          assignment := { previous.assignment with
            expressions := previous.assignment.expressions.set
              (previous.assignment.expressions.length - 1) constructor } }
        Except.ok ({ function with
            slotScopeCollector := function.slotScopeCollector.decrement_usages previousScope },
          (block.set (i - 1) previous).eraseIdx i, i - 1)
      else if target.isMultres = false
          ∧ function.slotScopeCollector.usages previousScope = 1 then
        let statement := { statement with
          assignment := { statement.assignment with
            variables_ := statement.assignment.variables_.set
              (statement.assignment.variables_.length - 1)
              { target with table := previous.last_expression } },
          instruction := { statement.instruction with
            attachedLabel := previous.instruction.attachedLabel } }
        Except.ok ({ function with
            slotScopeCollector :=
              function.slotScopeCollector.remove_scope previous.target_slot previousScope },
          (block.set i statement).eraseIdx (i - 1), i - 1)
      else
        match multresCheck with
        | Except.error e => Except.error e
        | Except.ok _ => Except.ok (function, block, i)
    else multresCheck
  | some statement, none =>
    if (statement.assignment.variables_.getLast?.getD {}).isMultres then
      Except.error (Error.assertion "Unable to eliminate multres table index")
    else Except.ok (function, block, i)
  | none, _ => Except.error Error.outOfRange

/-- One iteration of the loop of `eliminate_slots` (ast.cpp:1405-1906) at index `i`; the result
carries the value of `i` before the `i++` of the loop. -/
def eliminate_slots_step (platform : Platform) (function : Function) (block : List Statement)
    (previousBlocks : List BlockInfo) (i : Nat) :
    Except Error (Function × List Statement × Nat) :=
  match block[i]? with
  | none => Except.error Error.outOfRange
  | some statement =>
    let prepared : Except Error (List Statement) :=
      match statement.type with
      | AST_STATEMENT_CONDITION => Except.ok (eliminate_slots_swap function block i)
      | AST_STATEMENT_GENERIC_FOR | AST_STATEMENT_DECLARATION => Except.error Error.unmodelled
      | AST_STATEMENT_ASSIGNMENT => eliminate_slots_table_setter platform function block i
      | _ => Except.ok block
    match prepared with
    | Except.error e => Except.error e
    | Except.ok block =>
      let openSlotCount := ((block[i]?.getD statement).assignment.openSlots.length) % 256
      match eliminate_slots_inline platform openSlotCount function block i with
      | Except.error e => Except.error e
      | Except.ok (function, block, i) =>
        match block[i]? with
        | none => Except.error Error.outOfRange
        | some statement =>
          let lastOpenSlot :=
            match statement.assignment.openSlots.getLast? with
            | some handle => (statement.assignment.get? handle).getD Expression.null
            | none => Expression.null
          if lastOpenSlot.isMultres then
            Except.error (Error.assertion "Unable to eliminate multres slot")
          else
            match statement.type with
            | AST_STATEMENT_NUMERIC_FOR | AST_STATEMENT_GENERIC_FOR | AST_STATEMENT_LOOP
            | AST_STATEMENT_DECLARATION => Except.error Error.unmodelled
            | AST_STATEMENT_ASSIGNMENT =>
              if statement.assignment.variables_.length = 1 then
                let target := statement.assignment.variables_.getLast?.getD {}
                match target.type with
                | AST_VARIABLE_SLOT =>
                  if statement.instruction.id = INVALID_ID then Except.ok (function, block, i)
                  else
                    let blockInfo : BlockInfo := { index := i, block := block }
                    let targetLabel :=
                      get_label_from_next_statement function blockInfo previousBlocks false true
                    if function.is_valid_label targetLabel = false
                        ∨ ((function.labels.getD targetLabel { target := 0 }).jumpIds.headD 0)
                            > statement.instruction.id then
                      Except.ok (function, block, i)
                    else if function.slotScopeCollector.usages target.slotScope ≥ 2 then
                      Except.error Error.unmodelled
                    else Except.ok (function, block, i)
                | AST_VARIABLE_TABLE_INDEX => eliminate_slots_table_index platform function block i
                | _ => Except.ok (function, block, i)
              else Except.ok (function, block, i)
            | _ => Except.ok (function, block, i)

/-- The loop `for (uint32_t i = 0; i < block.size(); i++)` of `eliminate_slots`. Every `i--` of
an iteration comes with the erasure of one statement, so `block.size() - i` drops by one per
iteration; `remaining` counts the iterations left. -/
def eliminate_slots_loop (platform : Platform) (previousBlocks : List BlockInfo) :
    Nat → Nat → Function → List Statement → Except Error (Function × List Statement)
  | 0, _, function, block => Except.ok (function, block)
  | remaining + 1, i, function, block =>
    if i < block.length then
      match eliminate_slots_step platform function block previousBlocks i with
      | Except.error e => Except.error e
      | Except.ok (function, block, i) =>
        eliminate_slots_loop platform previousBlocks remaining (i + 1) function block
    else Except.ok (function, block)

/-- The function `Ast::eliminate_slots` (ast.cpp:1398-1908), for the statements the model
covers. -/
def eliminate_slots (platform : Platform) (function : Function) (block : List Statement)
    (previousBlocks : List BlockInfo := []) : Except Error (Function × List Statement) :=
  eliminate_slots_loop platform previousBlocks block.length 0 function block

/-! ## P9 - condition elimination: `Ast::eliminate_conditions` (ast.cpp:1910-2328)

Both loops hand the statements they select to `ConditionBuilder`, which is not part of `src/`; the
model covers the iterations that end before that and stops with `Error.unmodelled` at the
others. -/

/-- One iteration of the first loop of `eliminate_conditions` (ast.cpp:1917-1980) at index `i`:
`true` when the iteration ends at one of the `continue`s before line 1982. -/
def eliminate_conditions_skips (function : Function) (block : List Statement)
    (previousBlocks : List BlockInfo) (i : Nat) : Bool :=
  match block[i]? with
  | none => false
  | some statement =>
    if statement.instruction.id = INVALID_ID then true
    else
      let blockInfo : BlockInfo := { index := i, block := block }
      let targetLabel :=
        get_label_from_next_statement function blockInfo previousBlocks false false
      if function.is_valid_label targetLabel = false
          ∨ ((function.labels.getD targetLabel { target := 0 }).jumpIds.headD 0)
              > statement.instruction.id then
        true
      else
        match statement.type with
        | AST_STATEMENT_CONDITION | AST_STATEMENT_GOTO | AST_STATEMENT_BREAK => false
        | AST_STATEMENT_ASSIGNMENT =>
          decide (statement.assignment.variables_.length ≠ 1)
            || decide ((statement.assignment.variables_.getLast?.getD {}).type
                ≠ AST_VARIABLE_SLOT)
        | _ => true

/-- The first loop of `eliminate_conditions`. -/
def eliminate_conditions_first_loop (function : Function) (block : List Statement)
    (previousBlocks : List BlockInfo) : Nat → Except Error Unit
  | 0 => Except.ok ()
  | i + 1 =>
    if eliminate_conditions_skips function block previousBlocks i then
      eliminate_conditions_first_loop function block previousBlocks i
    else Except.error Error.unmodelled

/-- The second loop of `eliminate_conditions` (ast.cpp:2239-2327): a `Condition`, or a statement
with a nested block, goes to the condition builder or to the recursive call. -/
def eliminate_conditions_second_loop (block : List Statement) : Nat → Except Error Unit
  | 0 => Except.ok ()
  | i + 1 =>
    match block[i]? with
    | none => Except.error Error.outOfRange
    | some statement =>
      match statement.type with
      | AST_STATEMENT_CONDITION | AST_STATEMENT_NUMERIC_FOR | AST_STATEMENT_GENERIC_FOR
      | AST_STATEMENT_LOOP | AST_STATEMENT_DECLARATION => Except.error Error.unmodelled
      | _ => eliminate_conditions_second_loop block i

/-- The function `Ast::eliminate_conditions` (ast.cpp:1910-2328), for the blocks on which it
changes nothing. -/
def eliminate_conditions (function : Function) (block : List Statement)
    (previousBlocks : List BlockInfo := []) : Except Error (Function × List Statement) :=
  match eliminate_conditions_first_loop function block previousBlocks block.length with
  | Except.error e => Except.error e
  | Except.ok _ =>
    match eliminate_conditions_second_loop block block.length with
    | Except.error e => Except.error e
    | Except.ok _ => Except.ok (function, block)

/-! ## P10 - if-statement framing: `Ast::build_if_statements` (ast.cpp:2330-2363) -/

/-- The search loop `for (index = i; index < block.size(); index++)` (ast.cpp:2341-2345).
`count` is the number of indices left; the result is the final `index` and `targetLabel`. -/
def find_if_end (function : Function) (block : List Statement) (previousBlocks : List BlockInfo)
    (target : Nat) : Nat → Nat → Nat → Nat × Nat
  | 0, index, targetLabel => (index, targetLabel)
  | count + 1, index, _ =>
    let blockInfo : BlockInfo := { index := index, block := block }
    let targetLabel := get_label_from_next_statement function blockInfo previousBlocks true false
    if targetLabel ≠ INVALID_ID
        ∧ (function.labels.getD targetLabel { target := INVALID_ID }).target = target then
      (index, targetLabel)
    else find_if_end function block previousBlocks target count (index + 1) targetLabel

/-- One iteration of the loop of `build_if_statements` (ast.cpp:2335-2361) at index `i`;
`recurse` is the recursive call on a nested block. -/
def build_if_statements_step
    (recurse : Function → List Statement → List BlockInfo →
      Except Error (Function × List Statement))
    (function : Function) (block : List Statement) (previousBlocks : List BlockInfo) (i : Nat) :
    Except Error (Function × List Statement) :=
  match block[i]? with
  | none => Except.error Error.outOfRange
  | some statement =>
    match statement.type with
    | AST_STATEMENT_CONDITION =>
      let block := block.set i { statement with type := AST_STATEMENT_IF }
      let (index, targetLabel) :=
        find_if_end function block previousBlocks statement.instruction.target
          (block.length - i) i INVALID_ID
      if targetLabel ≠ INVALID_ID
          ∧ (function.labels.getD targetLabel { target := INVALID_ID }).target
            = statement.instruction.target then
        let body := (block.take (index + 1)).drop (i + 1)
        let block := block.take (i + 1) ++ block.drop (index + 1)
        let block := modify_statement block i (fun s => { s with block := body ++ s.block })
        Except.ok (function.remove_jump statement.instruction.id statement.instruction.target,
          block)
      else Except.error (Error.assertion "Failed to build if statement")
    | AST_STATEMENT_BREAK =>
      Except.ok (function.remove_jump statement.instruction.id statement.instruction.target,
        block)
    | AST_STATEMENT_NUMERIC_FOR | AST_STATEMENT_GENERIC_FOR | AST_STATEMENT_LOOP
    | AST_STATEMENT_DECLARATION =>
      match recurse function statement.block ({ index := i, block := block } :: previousBlocks) with
      | Except.error e => Except.error e
      | Except.ok (function, nested) =>
        Except.ok (function, modify_statement block i (fun s => { s with block := nested }))
    | _ => Except.ok (function, block)

/-- The loop `for (uint32_t i = block.size(); i--;)` of `build_if_statements`. -/
def build_if_statements_loop
    (recurse : Function → List Statement → List BlockInfo →
      Except Error (Function × List Statement))
    (previousBlocks : List BlockInfo) :
    Nat → Function → List Statement → Except Error (Function × List Statement)
  | 0, function, block => Except.ok (function, block)
  | i + 1, function, block =>
    match build_if_statements_step recurse function block previousBlocks i with
    | Except.error e => Except.error e
    | Except.ok (function, block) =>
      build_if_statements_loop recurse previousBlocks i function block

/-- The function `Ast::build_if_statements` (ast.cpp:2330-2363). `depth` bounds the nesting of
the recursive calls; running out of it is `Error.diverges`. -/
def build_if_statements_depth :
    Nat → Function → List Statement → List BlockInfo → Except Error (Function × List Statement)
  | 0, _, _, _ => Except.error Error.diverges
  | depth + 1, function, block, previousBlocks =>
    build_if_statements_loop (build_if_statements_depth depth) previousBlocks block.length
      function block

mutual
/-- The nesting depth of a statement: one more than that of its block. -/
def Statement.depth : Statement → Nat
  | ⟨_, _, _, _, block, _, _⟩ => block_depth block + 1
/-- The nesting depth of a block: the largest depth of its statements. -/
def block_depth : List Statement → Nat
  | [] => 0
  | statement :: rest => max statement.depth (block_depth rest)
end

/-- The function `Ast::build_if_statements` on a block, with the nesting bound the block needs. -/
def build_if_statements (function : Function) (block : List Statement)
    (previousBlocks : List BlockInfo := []) : Except Error (Function × List Statement) :=
  build_if_statements_depth (block_depth block + 1) function block previousBlocks

/-! ## The pipeline: `Ast::build_functions` (ast.cpp:52-70) -/

/-- The passes `Ast::build_functions` runs on one function node before it turns to the child
functions (ast.cpp:53-60). `build_upvalue_scopes` and the closing of parameter scopes are not
determined by the spec: the model stops with `Error.unmodelled` when a slot is captured or when
a parameter slot is still open after collection. -/
def build_functions_body (platform : Platform) (ast : Ast) (function : Function) :
    Except Error (Ast × Function) :=
  match build_instructions ast function with
  | Except.error e => Except.error e
  | Except.ok (ast, function) =>
    if function.hasDebugInfo = false
        ∧ (function.slotScopeCollector.upvalueInfos ≠ []
          ∨ function.slotScopeCollector.upvalueCloses ≠ []) then
      Except.error Error.unmodelled
    else
      match collect_slot_scopes ast function function.block with
      | Except.error e => Except.error e
      | Except.ok (function, block) =>
        if function.slotScopeCollector.assert_scopes_closed = false then
          if (function.slotScopeCollector.slotInfos.drop function.prototype.parameters).all
              (fun info => info.activeSlotScope.isNone) then
            Except.error Error.unmodelled
          else Except.error (Error.assertion "Failed to close slot scopes")
        else
          match eliminate_slots platform function block with
          | Except.error e => Except.error e
          | Except.ok (function, block) =>
            match eliminate_conditions function block with
            | Except.error e => Except.error e
            | Except.ok (function, block) =>
              match build_if_statements function block with
              | Except.error e => Except.error e
              | Except.ok (function, block) => Except.ok (ast, { function with block := block })

/-- The lifted body of a prototype taken as the main function of a module without FR2:
`new_function` followed by the passes of `build_functions`. -/
def lift (platform : Platform) (prototype : Prototype) : Except Error (List Statement) :=
  match build_functions_body platform {} (Function.new prototype) with
  | Except.error e => Except.error e
  | Except.ok (_, function) => Except.ok function.block

/-! ## Boolean equality of AST values

`Expression` and `Statement` are nested through lists, so their equality tests are written out.
They are used to compare the result of a pass on a concrete input with the expected value. -/

mutual
/-- Structural equality test on expressions. -/
def Expression.beq : Expression → Expression → Bool
  | Expression.null, Expression.null => true
  | Expression.constant x0a, Expression.constant x0b =>
    decide (x0a = x0b)
  | Expression.variable x0a x1a x2a x3a x4a x5a x6a x7a, Expression.variable x0b x1b x2b x3b x4b x5b x6b x7b =>
    decide (x0a = x0b) && decide (x1a = x1b) && decide (x2a = x2b) && decide (x3a = x3b) && Expression.beq x4a x4b && Expression.beq x5a x5b && decide (x6a = x6b) && decide (x7a = x7b)
  | Expression.function x0a, Expression.function x0b =>
    decide (x0a = x0b)
  | Expression.binaryOperation x0a x1a x2a, Expression.binaryOperation x0b x1b x2b =>
    decide (x0a = x0b) && Expression.beq x1a x1b && Expression.beq x2a x2b
  | Expression.unaryOperation x0a x1a, Expression.unaryOperation x0b x1b =>
    decide (x0a = x0b) && Expression.beq x1a x1b
  | Expression.functionCall x0a x1a x2a x3a x4a, Expression.functionCall x0b x1b x2b x3b x4b =>
    Expression.beq x0a x0b && Expression.beq_list x1a x1b && Expression.beq x2a x2b && decide (x3a = x3b) && decide (x4a = x4b)
  | Expression.table x0a x1a x2a x3a x4a, Expression.table x0b x1b x2b x3b x4b =>
    Expression.beq_list x0a x0b && Expression.beq_pairs x1a x1b && Expression.beq_pairs x2a x2b && Expression.beq x3a x3b && decide (x4a = x4b)
  | Expression.vararg x0a, Expression.vararg x0b =>
    decide (x0a = x0b)
  | _, _ => false
/-- Structural equality test on lists of expressions. -/
def Expression.beq_list : List Expression → List Expression → Bool
  | [], [] => true
  | a :: as, b :: bs => Expression.beq a b && Expression.beq_list as bs
  | _, _ => false
/-- Structural equality test on lists of pairs of expressions. -/
def Expression.beq_pairs :
    List (Expression × Expression) → List (Expression × Expression) → Bool
  | [], [] => true
  | (a, b) :: r, (a', b') :: r' =>
    Expression.beq a a' && Expression.beq b b' && Expression.beq_pairs r r'
  | _, _ => false
end

/-- Structural equality test on assignment targets. -/
def Variable.beq (a b : Variable) : Bool :=
  decide (a.type = b.type) && decide (a.slot = b.slot) && decide (a.slotScope = b.slotScope)
    && decide (a.name = b.name) && Expression.beq a.table b.table
    && Expression.beq a.tableIndex b.tableIndex && decide (a.isMultres = b.isMultres)
    && decide (a.multresIndex = b.multresIndex)

/-- Structural equality test on lists of assignment targets. -/
def Variable.beq_list : List Variable → List Variable → Bool
  | [], [] => true
  | a :: as, b :: bs => Variable.beq a b && Variable.beq_list as bs
  | _, _ => false

/-- Structural equality test on assignment records. -/
def Assignment.beq (a b : Assignment) : Bool :=
  Variable.beq_list a.variables_ b.variables_ && Expression.beq_list a.expressions b.expressions
    && decide (a.openSlots = b.openSlots) && decide (a.usedSlots = b.usedSlots)
    && decide (a.allowedConstantType = b.allowedConstantType)
    && decide (a.isPotentialMethod = b.isPotentialMethod)
    && decide (a.isTableConstructor = b.isTableConstructor)
    && Expression.beq a.multresReturn b.multresReturn
    && decide (a.needsFordwardDeclaration = b.needsFordwardDeclaration)

mutual
/-- Structural equality test on statements. -/
def Statement.beq : Statement → Statement → Bool
  | ⟨t, i, a, c, b, l, f⟩, ⟨t', i', a', c', b', l', f'⟩ =>
    decide (t = t') && decide (i = i') && Assignment.beq a a' && decide (c = c')
      && Statement.beq_list b b' && decide (l = l') && decide (f = f')
/-- Structural equality test on blocks. -/
def Statement.beq_list : List Statement → List Statement → Bool
  | [], [] => true
  | a :: as, b :: bs => Statement.beq a b && Statement.beq_list as bs
  | _, _ => false
end

/-- The test that a pass returned the block `expected`. -/
def returns_block (result : Except Error (List Statement)) (expected : List Statement) : Bool :=
  match result with
  | Except.ok block => Statement.beq_list block expected
  | Except.error _ => false

/-! ## Concrete inputs and expected results used by the theorems -/

/-- A slot read as `build_expressions` leaves it in the tree once the collector has bound it to
scope `scope`. -/
def slot_read (slot scope : Nat) : Expression :=
  Expression.variable AST_VARIABLE_SLOT slot (some scope) "" Expression.null Expression.null
    false 0

/-- A number constant with the given bit pattern. -/
def number_constant (bits : Nat) : Expression :=
  Expression.constant { type := AST_CONSTANT_NUMBER, number := bits }

/-- The prototype of scenario 1: `KSHORT 0, 5 ; KSHORT 1, 3 ; ADDVV 2, 0, 1 ; RET1 2, 2`. -/
def scenario_local_arithmetic : Prototype :=
  { instructions := [
      { type := BC_OP.KSHORT, a := 0, d := 5 },
      { type := BC_OP.KSHORT, a := 1, d := 3 },
      { type := BC_OP.ADDVV, a := 2, b := 0, c := 1 },
      { type := BC_OP.RET1, a := 2, d := 2 }] }

/-- What the lifter returns for scenario 1: the assignment `slot0 = 5` followed by
`return slot0 + 3`. -/
def lifted_local_arithmetic : List Statement :=
  [ { new_statement AST_STATEMENT_ASSIGNMENT with
      instruction := { type := BC_OP.KSHORT, a := 0, d := 5, id := 0 },
      assignment := {
        variables_ := [{ type := AST_VARIABLE_SLOT, slot := 0, slotScope := some 2 }],
        expressions := [number_constant 0x4014000000000000] } },
    { new_statement AST_STATEMENT_RETURN with
      instruction := { type := BC_OP.RET1, a := 2, d := 2, id := 3 },
      assignment := {
        expressions := [Expression.binaryOperation AST_BINARY_ADDITION
          (slot_read 0 2) (number_constant 0x4008000000000000)],
        openSlots := [expression_handle 0],
        usedSlots := [2, 0, 1] } } ]

/-- The statement created for a lone `RET0 a d`, reclassified as `Empty`. -/
def empty_ret0 (a b c d : Nat) : Statement :=
  { new_statement AST_STATEMENT_EMPTY with
    instruction := { type := BC_OP.RET0, a := a, b := b, c := c, d := d, id := 0 } }

/-- A `KNIL` statement as it reaches `build_expressions`: the `Instruction`-kind statement that
instruction import created for the instruction record `instruction`. -/
def knil_statement (instruction : Instruction) : Statement :=
  { new_statement AST_STATEMENT_INSTRUCTION with instruction := instruction }

/-- The assignment `slot = nil` that the expansion of a `KNIL` leaves for slot `slot`. The first
one (`first = true`, slot `A`) keeps the instruction id and label of the `KNIL`; the others carry
`INVALID_ID` and have both operands set to their slot. -/
def nil_assignment (instruction : Instruction) (slot : Nat) (first : Bool) : Statement :=
  { new_statement AST_STATEMENT_ASSIGNMENT with
    instruction :=
      if first then { instruction with d := slot }
      else { instruction with
        a := slot, d := slot, id := INVALID_ID, attachedLabel := INVALID_ID },
    assignment := {
      variables_ := [{ type := AST_VARIABLE_SLOT, slot := slot }],
      expressions := [Expression.constant { type := AST_CONSTANT_NIL }] } }

/-- The nil assignments of the slots `A`, `A + 1`, ..., `A + count` in increasing order, `A` the
first operand of `instruction`; only the one of slot `A` is marked as first. -/
def knil_assignments (instruction : Instruction) (count : Nat) : List Statement :=
  (List.range (count + 1)).map
    (fun k => nil_assignment instruction (instruction.a + k) (k == 0))

/-- The statements a `KNIL A D` expands into: one nil assignment per slot `A`, `A + 1`, ..., `D`,
in increasing order. -/
def knil_expansion (instruction : Instruction) : List Statement :=
  knil_assignments instruction (instruction.d - instruction.a)

/-- The instruction ids of the statements of a block, in order. -/
def instruction_ids (block : List Statement) : List Nat :=
  block.map (fun statement => statement.instruction.id)

/-- The function `local x = 5; return x` of a prototype that has child functions: `KSHORT 0 5`,
`UCLO 0 => 0002`, `RET1 0 2`. -/
def uclo_return : Prototype :=
  { instructions := [
      { type := BC_OP.KSHORT, a := 0, d := 5 },
      { type := BC_OP.UCLO, a := 0, d := BC_OP_JMP_BIAS },
      { type := BC_OP.RET1, a := 0, d := 2 }] }

/-- A function node whose only label, the target of an elided `UCLO`, has no jump left. -/
def absorbing_function : Function :=
  { Function.new uclo_return with labels := [{ target := 2, jumpIds := [] }] }

/-- The elided `UCLO` of instruction 1 followed by the `RET1` of instruction 2, as
`build_expressions` finds them. -/
def absorbing_block : List Statement :=
  [{ new_statement AST_STATEMENT_EMPTY with
      instruction := { type := BC_OP.UCLO, a := 0, d := BC_OP_JMP_BIAS, id := 1, target := 2 } },
   { new_statement AST_STATEMENT_RETURN with
      instruction := { type := BC_OP.RET1, a := 0, d := 2, id := 2, attachedLabel := 0 } }]

/-- The return statement of `absorbing_block` after it has absorbed the `UCLO`: it carries
id 1. -/
def absorbed_return : Statement :=
  { new_statement AST_STATEMENT_RETURN with
    instruction := { type := BC_OP.RET1, a := 0, d := 2, id := 1 },
    assignment := {
      expressions := [new_slot 0],
      openSlots := [expression_handle 0],
      usedSlots := [0] } }


/-! ## Statement trees without a kind of statement -/

mutual
/-- No statement of kind `kind` in the tree of a statement: the statement itself and every
statement of its nested blocks, at any depth. -/
def Statement.free_of (kind : AST_STATEMENT) : Statement → Bool
  | ⟨type, _, _, _, block, _, _⟩ => decide (type ≠ kind) && block_free_of kind block
/-- No statement of kind `kind` in the tree of a block. -/
def block_free_of (kind : AST_STATEMENT) : List Statement → Bool
  | [] => true
  | statement :: rest => statement.free_of kind && block_free_of kind rest
end

/-- The statement kinds into whose nested block `build_if_statements` descends
(ast.cpp:2354-2360). -/
def holds_block : AST_STATEMENT → Bool
  | AST_STATEMENT_NUMERIC_FOR | AST_STATEMENT_GENERIC_FOR | AST_STATEMENT_LOOP
  | AST_STATEMENT_DECLARATION => true
  | _ => false

mutual
/-- Every `Condition` in the tree of the statement stands where `build_if_statements` gets to:
below loop and declaration statements only. -/
def Statement.conditions_in_reach : Statement → Bool
  | ⟨type, _, _, _, block, _, _⟩ =>
    if holds_block type then block_conditions_in_reach block
    else block_free_of AST_STATEMENT_CONDITION block
/-- Every `Condition` in the tree of the block stands in the block itself or below loop and
declaration statements only. -/
def block_conditions_in_reach : List Statement → Bool
  | [] => true
  | statement :: rest => statement.conditions_in_reach && block_conditions_in_reach rest
end

/-- What `build_if_statements` leaves: no `Condition` and no `Instruction` in the tree of the
statement. -/
def Statement.framed (statement : Statement) : Bool :=
  statement.free_of AST_STATEMENT_CONDITION && statement.free_of AST_STATEMENT_INSTRUCTION

/-- What `build_if_statements` expects: no `Instruction` in the tree of the statement, and its
conditions in reach. -/
def Statement.frameable (statement : Statement) : Bool :=
  statement.conditions_in_reach && statement.free_of AST_STATEMENT_INSTRUCTION

/-- The nested blocks of the statements of a block hold no `Instruction`: what holds of a block
before `build_expressions` runs on it. -/
def nested_free (kind : AST_STATEMENT) (block : List Statement) : Prop :=
  ∀ s ∈ block, block_free_of kind s.block = true

/-- Every statement of the block that holds a nested block is a loop or a declaration. -/
def blocks_under_loops (block : List Statement) : Prop :=
  ∀ s ∈ block, s.block = [] ∨ holds_block s.type = true

/-- Every statement of `block'` has the kind and the nested block of a statement of `block`. -/
def kinds_kept (block block' : List Statement) : Prop :=
  ∀ s' ∈ block', ∃ s ∈ block, s'.type = s.type ∧ s'.block = s.block

/-- A function node with one label, at instruction 5, that the condition of instruction 1 jumps
to. -/
def guarded_function : Function :=
  { Function.new {} with labels := [{ target := 5, jumpIds := [1] }] }

/-- The block `if not slot0 then slot0 = 7 end; return` before `build_if_statements`: the
condition, the guarded assignment, and the return that carries the label. -/
def guarded_block : List Statement :=
  [{ new_statement AST_STATEMENT_CONDITION with
      instruction := { type := BC_OP.IST, a := 0, d := 0, id := 1, target := 5 } },
   { new_statement AST_STATEMENT_ASSIGNMENT with
      instruction := { type := BC_OP.KSHORT, a := 0, d := 7, id := 3 } },
   { new_statement AST_STATEMENT_RETURN with
      instruction := { type := BC_OP.RET0, a := 0, d := 1, id := 5, attachedLabel := 0 } }]

/-- The block of `guarded_block` after `build_if_statements`: the condition is an `If` that holds
the assignment. -/
def framed_block : List Statement :=
  [{ new_statement AST_STATEMENT_IF with
      instruction := { type := BC_OP.IST, a := 0, d := 0, id := 1, target := 5 },
      block := [{ new_statement AST_STATEMENT_ASSIGNMENT with
        instruction := { type := BC_OP.KSHORT, a := 0, d := 7, id := 3 } }] },
   { new_statement AST_STATEMENT_RETURN with
      instruction := { type := BC_OP.RET0, a := 0, d := 1, id := 5, attachedLabel := 0 } }]

/-! ## Definitions for the jump targets of instruction import -/

/-- The opcodes for which instruction import computes a jump target (the case labels at
ast.cpp:117-123). -/
def is_jump_kind : BC_OP → Bool
  | BC_OP.UCLO | BC_OP.ISNEXT | BC_OP.FORI | BC_OP.FORL | BC_OP.ITERL | BC_OP.LOOP | BC_OP.JMP =>
    true
  | _ => false

/-- A prototype of `2^32 - 1` jumps with the largest displacement. -/
def far_jumps : Prototype :=
  { instructions := List.replicate 4294967295 { type := BC_OP.JMP, d := 65535 } }

/-- A prototype whose only instruction is a jump three instructions ahead. -/
def short_jump : Prototype :=
  { instructions := [{ type := BC_OP.JMP, d := 32770 }] }

/-! ## The iterations of the loop of `build_loops` -/

/-- The states of the loop `for (uint32_t i = function.block.size(); i--;)` of `build_loops`
(ast.cpp:315-397): `build_loops_reaches ast k function k' function'` holds when the loop, with `i`
equal to `k` and the function node `function`, gets, after iterations that raise no error, to
`i` equal to `k'` with the function node `function'`. -/
inductive build_loops_reaches (ast : Ast) : Nat → Function → Nat → Function → Prop where
  | here (k : Nat) (function : Function) : build_loops_reaches ast k function k function
  | next (k : Nat) (function function' : Function) (k' : Nat) (last : Function) :
      build_loops_step ast function k = Except.ok function' →
      build_loops_reaches ast k function' k' last →
      build_loops_reaches ast (k + 1) function k' last

/-! ## The driver: `Ast::operator()` and the recursion of `Ast::build_functions`
(ast.cpp:40-70) -/

/-- Modelled from the spec: `Bytecode::BC_F_FR2`, the FR2 bit of the header flags. -/
def BC_F_FR2 : Nat := 0x08

/-- The first two statements of `Ast::operator()` (ast.cpp:41-42): the chunk is allocated for the
main prototype and FR2 is read from the header; the result carries the handle of the chunk. -/
def operator_call_begin (bytecode : Bytecode) : Ast × Nat :=
  let ast : Ast := { bytecode := bytecode }
  let (ast, chunk) := new_function ast (bytecode.prototypes.getD bytecode.main {})
  let ast :=
    if bytecode.isVersion2 then
      { ast with isFR2Enabled := decide (bytecode.flags &&& BC_F_FR2 ≠ 0) }
    else ast
  (ast, chunk)

mutual

/-- The function `Ast::build_functions` (ast.cpp:52-70) on the function node behind `handle`:
the passes of `build_functions_body`, then the loop over the child functions. `fuel` bounds the
number of calls; the function tree of a module is finite, so running out of it does not happen
with enough fuel. -/
def build_functions : Nat → Platform → Ast → Nat → Except Error Ast
  | 0, _, _, _ => Except.error Error.diverges
  | fuel + 1, platform, ast, handle =>
    match build_functions_body platform ast (ast.functions.getD handle default) with
    | Except.error e => Except.error e
    | Except.ok (ast, function) =>
      build_functions_children fuel platform
        { ast with functions := ast.functions.set handle function }
        function.childFunctions function.childFunctions.length

/-- The loop `for (uint32_t i = function.childFunctions.size(); i--;)` of `build_functions`
(ast.cpp:65-69); the last argument is the value of `i` before `i--`. The child gets the next
function id, then `build_functions` runs on it. -/
def build_functions_children : Nat → Platform → Ast → List Nat → Nat → Except Error Ast
  | 0, _, _, _, _ => Except.error Error.diverges
  | _ + 1, _, ast, _, 0 => Except.ok ast
  | fuel + 1, platform, ast, childFunctions, i + 1 =>
    match childFunctions[i]? with
    | none => Except.error Error.outOfRange
    | some child =>
      let ast := { ast with
        functions := ast.functions.modify (fun function =>
          { function with id := ast.nextFunctionId }) child,
        nextFunctionId := (ast.nextFunctionId + 1) % 4294967296 }
      match build_functions fuel platform ast child with
      | Except.error e => Except.error e
      | Except.ok ast => build_functions_children fuel platform ast childFunctions i

end

mutual

/-- The function `Ast::build_functions` (ast.cpp:52-70) with the passes that it runs on the
function node (ast.cpp:53-60) as the parameter `body`, which takes the arena and the node and
returns them as the passes leave them, or the fatal error. The loop over the child functions
(ast.cpp:65-69) is that of `build_functions`. -/
def build_functions_with (body : Ast → Function → Except Error (Ast × Function)) :
    Nat → Ast → Nat → Except Error Ast
  | 0, _, _ => Except.error Error.diverges
  | fuel + 1, ast, handle =>
    match body ast (ast.functions.getD handle default) with
    | Except.error e => Except.error e
    | Except.ok (ast, function) =>
      build_functions_children_with body fuel
        { ast with functions := ast.functions.set handle function }
        function.childFunctions function.childFunctions.length

/-- The loop `for (uint32_t i = function.childFunctions.size(); i--;)` of `build_functions`
(ast.cpp:65-69) with the passes as the parameter `body`: the child gets the next function id,
then `build_functions` runs on it. -/
def build_functions_children_with (body : Ast → Function → Except Error (Ast × Function)) :
    Nat → Ast → List Nat → Nat → Except Error Ast
  | 0, _, _, _ => Except.error Error.diverges
  | _ + 1, ast, _, 0 => Except.ok ast
  | fuel + 1, ast, childFunctions, i + 1 =>
    match childFunctions[i]? with
    | none => Except.error Error.outOfRange
    | some child =>
      let ast := { ast with
        functions := ast.functions.modify (fun function =>
          { function with id := ast.nextFunctionId }) child,
        nextFunctionId := (ast.nextFunctionId + 1) % 4294967296 }
      match build_functions_with body fuel ast child with
      | Except.error e => Except.error e
      | Except.ok ast => build_functions_children_with body fuel ast childFunctions i

end

/-- The fixed arguments of a call expression (`->functionCall->arguments`). -/
def Expression.arguments : Expression → List Expression
  | Expression.functionCall _ arguments _ _ _ => arguments
  | _ => []

/-- The slots that the fixed arguments of the call expression of a statement read. -/
def Statement.argument_slots (statement : Statement) : List Nat :=
  statement.last_expression.arguments.map Expression.slot

/-- The header of a module of the first bytecode version whose flags have the FR2 bit set. -/
def version_one_with_FR2_bit : Bytecode :=
  { isVersion2 := false, flags := BC_F_FR2 }

/-- An `Instruction` statement for the raw instruction `{op, a, b, c, d}`. -/
def instruction_statement (type : BC_OP) (a b c d : Nat) : Statement :=
  { new_statement AST_STATEMENT_INSTRUCTION with
    instruction := { type := type, a := a, b := b, c := c, d := d } }

/-! ## Definitions for the constant-type guard of `eliminate_slots` -/

/-- The opcodes of binary arithmetic with the slot operand on the left and an immediate number
operand on the right (ast.cpp:475-479). -/
def is_VN_op : BC_OP → Bool
  | BC_OP.ADDVN | BC_OP.SUBVN | BC_OP.MULVN | BC_OP.DIVVN | BC_OP.MODVN => true
  | _ => false

/-- The opcodes of binary arithmetic with an immediate number operand on the left and the slot
operand on the right (ast.cpp:480-484). -/
def is_NV_op : BC_OP → Bool
  | BC_OP.ADDNV | BC_OP.SUBNV | BC_OP.MULNV | BC_OP.DIVNV | BC_OP.MODNV => true
  | _ => false

/-- The operation of a statement built from a `VN` (`slotOnLeft`) or `NV` opcode. -/
def immediate_operation (kind : AST_BINARY) (slotOnLeft : Bool) (slot immediate : Expression) :
    Expression :=
  if slotOnLeft then Expression.binaryOperation kind slot immediate
  else Expression.binaryOperation kind immediate slot

/-- The open slot of a statement built from a `VN` (`slotOnLeft`) or `NV` opcode. -/
def immediate_handle (slotOnLeft : Bool) : OpenSlot :=
  expression_handle 0 [if slotOnLeft then Step.leftOperand else Step.rightOperand]

/-- The value `get_constant_type` computes for the operation once the constant `constant` stands
in the slot operand. -/
def immediate_fold (platform : Platform) (kind : AST_BINARY) (slotOnLeft : Bool)
    (constant immediate : Nat) : Option Nat :=
  if slotOnLeft then binary_number platform kind constant immediate
  else binary_number platform kind immediate constant

/-- The scenario `KSHORT 0, 0 ; MULVN 1, 0, -1 ; RET1 1, 2`: `local x = 0; return x * -1`. -/
def scenario_zero_times_minus_one : Prototype :=
  { instructions := [
      { type := BC_OP.KSHORT, a := 0, d := 0 },
      { type := BC_OP.MULVN, a := 1, b := 0, c := 0 },
      { type := BC_OP.RET1, a := 1, d := 2 }],
    numberConstants := [{ type := BC_KNUM.BC_KNUM_NUM, number := 0xBFF0000000000000 }] }

/-- The lifted body of `scenario_zero_times_minus_one`: the one statement `return 0 * -1`. -/
def lifted_zero_times_minus_one : List Statement :=
  [{ new_statement AST_STATEMENT_RETURN with
      instruction := { type := BC_OP.RET1, a := 1, d := 2, id := 2, attachedLabel := INVALID_ID },
      assignment := {
        expressions := [Expression.binaryOperation AST_BINARY_MULTIPLICATION
          (number_constant 0) (number_constant 0xBFF0000000000000)],
        openSlots := [expression_handle 0],
        usedSlots := [1, 0] } }]

/-- A function node whose collector holds one scope with a single usage. -/
def single_use_function : Function :=
  { Function.new {} with slotScopeCollector := { scopes := [{ usages := 1 }] } }

/-- The assignment `slot0 = bits` of a number constant, with the single-use scope 0. -/
def constant_definition (bits : Nat) : Statement :=
  { new_statement AST_STATEMENT_ASSIGNMENT with
    assignment := {
      variables_ := [{ type := AST_VARIABLE_SLOT, slot := 0, slotScope := some 0 }],
      expressions := [number_constant bits] } }

/-- The statement `slot1 = slot0 <kind> bits` as built from a `VN` opcode, slot 0 read in
scope 0. -/
def immediate_statement (kind : AST_BINARY) (bits : Nat) : Statement :=
  { new_statement AST_STATEMENT_ASSIGNMENT with
    assignment := {
      variables_ := [{ type := AST_VARIABLE_SLOT, slot := 1, slotScope := none }],
      expressions := [immediate_operation kind true (slot_read 0 0) (number_constant bits)],
      openSlots := [immediate_handle true],
      usedSlots := [0],
      allowedConstantType := CONSTANT_TYPE.BOOL_CONSTANT } }

/-! ## Definitions for the inlining loop of `eliminate_slots` -/

/-- The error a pass stops with, if any. -/
def raised_error {α : Type} : Except Error α → Option Error
  | Except.error e => some e
  | Except.ok _ => none

/-- The assignment `slot0 = ...` of a vararg expression to the multres variable of slot 0, with
the single-use scope 0. -/
def multres_definition : Statement :=
  { new_statement AST_STATEMENT_ASSIGNMENT with
    assignment := {
      variables_ := [{ type := AST_VARIABLE_SLOT, slot := 0, slotScope := some 0,
                       isMultres := true }],
      expressions := [Expression.vararg 0] } }

/-- The statement `slot1 = slot0` as built from `MOV 1, 0`, slot 0 read in scope 0. -/
def move_statement : Statement :=
  { new_statement AST_STATEMENT_ASSIGNMENT with
    assignment := {
      variables_ := [{ type := AST_VARIABLE_SLOT, slot := 1, slotScope := none }],
      expressions := [slot_read 0 0],
      openSlots := [expression_handle 0],
      usedSlots := [0] } }

/-- The prototype `VARG 0, 0, 0 ; MOV 1, 0 ; RET0`. -/
def multres_move : Prototype :=
  { instructions := [
      { type := BC_OP.VARG, a := 0, b := 0 },
      { type := BC_OP.MOV, a := 1, d := 0 },
      { type := BC_OP.RET0, d := 1 }] }

/-- A function node with one valid label, index 0, and three scopes: scope 0 of the callee slot
and scope 1 of the receiver copy have one usage, scope 2 of the receiver has two. -/
def method_function : Function :=
  { Function.new {} with
    labels := [{ target := 1, jumpIds := [0] }],
    slotScopeCollector := { scopes := [{ usages := 1 }, { usages := 1 }, { usages := 2 }] } }

/-- The receiver copy `slot2 = slot0` of a method call, carrying the valid label 0. -/
def method_copy : Statement :=
  { new_statement AST_STATEMENT_ASSIGNMENT with
    instruction := { type := BC_OP.MOV, a := 2, d := 0, id := 1, attachedLabel := 0 },
    assignment := {
      variables_ := [{ type := AST_VARIABLE_SLOT, slot := 2, slotScope := some 1 }],
      expressions := [slot_read 0 2],
      openSlots := [expression_handle 0],
      usedSlots := [0] } }

/-- The method load `slot1 = slot0.m`, carrying no label. -/
def method_load : Statement :=
  { new_statement AST_STATEMENT_ASSIGNMENT with
    instruction := { type := BC_OP.TGETS, a := 1, b := 0, c := 0, id := 2 },
    assignment := {
      variables_ := [{ type := AST_VARIABLE_SLOT, slot := 1, slotScope := some 0 }],
      expressions := [Expression.variable AST_VARIABLE_TABLE_INDEX 0 none "" (slot_read 0 2)
        (Expression.constant { type := AST_CONSTANT_STRING, string := "m", isName := true })
        false 0],
      openSlots := [expression_handle 0 [Step.table]],
      usedSlots := [0] } }

/-- The call `slot1(slot2)` as built from `CALL 1, 1, 2`, carrying no label. -/
def method_call : Statement :=
  { new_statement AST_STATEMENT_FUNCTION_CALL with
    instruction := { type := BC_OP.CALL, a := 1, b := 1, c := 2, id := 3 },
    assignment := {
      expressions := [Expression.functionCall (slot_read 1 0) [slot_read 2 1] Expression.null
        false 0],
      openSlots := [expression_handle 0 [Step.function], expression_handle 0 [Step.argument 0]],
      usedSlots := [1, 2],
      isPotentialMethod := true } }

/-- The statements of a block as their kinds, attached labels and last expressions' slots. -/
def attached_labels (block : List Statement) : List Nat :=
  block.map (fun statement => statement.instruction.attachedLabel)

/-- The statement `block[i]` once the inlining loop has put the last expression of its
predecessor `previous` at the open slot `handle` (ast.cpp:1545, 1555-1557). -/
def inlined_statement (statement previous : Statement) (handle : OpenSlot) : Statement :=
  { statement with
    assignment := { statement.assignment.set handle previous.last_expression with
      usedSlots := statement.assignment.usedSlots ++ previous.assignment.usedSlots },
    instruction := { statement.instruction with
      attachedLabel := previous.instruction.attachedLabel } }

/-! ## Definitions for the body of an `If` statement -/

/-- The test of the search loop of `build_if_statements` at `index` (ast.cpp:2342-2344): the
extended label of the statement after `index` is valid as an index and its label has the target
`target`. -/
def is_if_end (function : Function) (block : List Statement) (previousBlocks : List BlockInfo)
    (target index : Nat) : Prop :=
  get_label_from_next_statement function { index := index, block := block } previousBlocks
      true false ≠ INVALID_ID
    ∧ (function.labels.getD
        (get_label_from_next_statement function { index := index, block := block }
          previousBlocks true false) { target := INVALID_ID }).target = target

/-! ## Definitions for running a pass once more on a lifted block -/

/-- The function node after the passes of `build_functions` on a prototype. -/
def lift_function (platform : Platform) (prototype : Prototype) : Except Error Function :=
  match build_functions_body platform {} (Function.new prototype) with
  | Except.error e => Except.error e
  | Except.ok (_, function) => Except.ok function

/-- The block a pass returns when it is run on the block of a function node. -/
def run_on_block (pass : Function → List Statement → Except Error (Function × List Statement))
    (function : Except Error Function) : Except Error (List Statement) :=
  match function with
  | Except.error e => Except.error e
  | Except.ok function =>
    match pass function function.block with
    | Except.error e => Except.error e
    | Except.ok (_, block) => Except.ok block

/-- The scope handles of the targets and of the expressions of the statements of a block. -/
def scope_handles (block : List Statement) : List (List (Option Nat) × List (Option Nat)) :=
  block.map (fun statement =>
    (statement.assignment.variables_.map (fun target => target.slotScope),
      statement.assignment.expressions.map (fun expression => expression.slotScope)))

/-- The scenario `KSHORT 0, 5 ; MOV 1, 0 ; RET1 0, 2`: `local x = 5; local y = x; return x`. -/
def scenario_copied_local : Prototype :=
  { instructions := [
      { type := BC_OP.KSHORT, a := 0, d := 5 },
      { type := BC_OP.MOV, a := 1, d := 0 },
      { type := BC_OP.RET1, a := 0, d := 2 }] }

/-- The block `return slot1` that `build_expressions` makes of the lifted body of
`scenario_zero_times_minus_one`: the expression of the return is a fresh read of slot 1, and a
second open slot is registered for it. -/
def reread_zero_times_minus_one : List Statement :=
  [{ new_statement AST_STATEMENT_RETURN with
      instruction := { type := BC_OP.RET1, a := 1, d := 2, id := 2, attachedLabel := INVALID_ID },
      assignment := {
        expressions := [new_slot 1],
        openSlots := [expression_handle 0, expression_handle 0],
        usedSlots := [1, 0, 1] } }]

/-! ## Definitions for the order of the function ids -/

/-- A `Goto` statement as `group_jumps` makes it of an `UCLO a => target` instruction at `id`. -/
def uclo_goto (id a target : Nat) : Statement :=
  { new_statement AST_STATEMENT_GOTO with
    instruction := { type := BC_OP.UCLO, a := a, id := id, target := target } }

/-- A `Goto` statement as `group_jumps` makes it of a `JMP => target` instruction at `id`. -/
def jmp_goto (id target : Nat) : Statement :=
  { new_statement AST_STATEMENT_GOTO with
    instruction := { type := BC_OP.JMP, id := id, target := target } }

/-! ## Definitions for the second loop of `group_jumps` -/

/-- The scenario `UCLO 0 => 0001 ; JMP => 0003 ; RET0 ; RET0`: the `UCLO` at id 0 jumps to the
instruction after it, which is a jump to the instruction 3. -/
def scenario_uclo_before_jump : Prototype :=
  { instructions := [
      { type := BC_OP.UCLO, a := 0, d := 32768 },
      { type := BC_OP.JMP, a := 0, d := 32769 },
      { type := BC_OP.RET0, a := 0, d := 1 },
      { type := BC_OP.RET0, a := 0, d := 1 }] }

/-- The kind, the instruction id and the target of the statements of a block. -/
def kinds_and_targets (block : List Statement) : List (AST_STATEMENT × Nat × Nat) :=
  block.map (fun statement =>
    (statement.type, statement.instruction.id, statement.instruction.target))

/-- The jump edges of a function node: the target and the jump ids of each label. -/
def jump_edges (function : Function) : List (Nat × List Nat) :=
  function.labels.map (fun label => (label.target, label.jumpIds))

/-- A function node whose block is the `Goto` of `UCLO 0 => 0001` at id 0 and a return at id 1,
with the jump edge from 0 to 1 registered. -/
def uclo_before_return : Function :=
  { Function.new {} with
    block := [uclo_goto 0 0 1,
      { new_statement AST_STATEMENT_RETURN with instruction := { type := BC_OP.RET0, id := 1 } }],
    labels := [{ target := 1, jumpIds := [0] }] }

/-! ## Definitions for the first loop of `group_jumps` -/

/-- What the first loop of `group_jumps` does to the kind of a statement that is not a compare
or test (ast.cpp:232-238): an `UCLO` or `JMP` becomes a `Goto`. -/
def retype_jump (statement : Statement) : Statement :=
  match statement.instruction.type with
  | BC_OP.UCLO | BC_OP.JMP => { statement with type := AST_STATEMENT_GOTO }
  | _ => statement

/-- The condition that the first loop of `group_jumps` makes of a compare or test statement and
the statement `next` that follows it (ast.cpp:227-228). -/
def fold_condition (statement next : Statement) : Statement :=
  { statement with
    type := AST_STATEMENT_CONDITION,
    instruction := { statement.instruction with target := next.instruction.target } }

/-- The block that the first loop of `group_jumps` leaves of a block: the loop runs from the
last statement to the first, so a compare or test statement meets the statements behind it as
the loop has left them, takes the target of the first of them and removes it. -/
def fold_jumps : List Statement → List Statement
  | [] => []
  | statement :: rest =>
    if is_condition_op statement.instruction.type then
      match fold_jumps rest with
      | next :: processed => fold_condition statement next :: processed
      | [] => [statement]
    else retype_jump statement :: fold_jumps rest

/-- Every compare or test statement of the block is immediately followed by a jump. -/
def jumps_follow (block : List Statement) : Prop :=
  ∀ (k : Nat) (statement : Statement), block[k]? = some statement →
    is_condition_op statement.instruction.type = true →
    ∃ next, block[k + 1]? = some next ∧ is_jump_kind next.instruction.type = true

/-- A function node whose block is the statements of
`ISGE 0 1 ; JMP => 0003 ; KSHORT 2 1 ; RET1 2 2`, one per instruction. -/
def compare_and_jump : Function :=
  { Function.new {} with
    block := [
      { new_statement AST_STATEMENT_INSTRUCTION with
        instruction := { type := BC_OP.ISGE, a := 0, d := 1, id := 0 } },
      { new_statement AST_STATEMENT_INSTRUCTION with
        instruction := { type := BC_OP.JMP, a := 0, d := 32769, id := 1, target := 3 } },
      { new_statement AST_STATEMENT_INSTRUCTION with
        instruction := { type := BC_OP.KSHORT, a := 2, d := 1, id := 2 } },
      { new_statement AST_STATEMENT_RETURN with
        instruction := { type := BC_OP.RET1, a := 2, d := 2, id := 3 } }] }

/-! ## Definitions for the numeric `for` of `build_loops` -/

/-- The statements `i + 1 .. t - 1` of a block in their order, the last of them reclassified as
`Empty`: what the `FORI` case of `build_loops` moves into the loop statement (ast.cpp:338-341). -/
def former_loop_body (block : List Statement) (i t : Nat) : List Statement :=
  modify_statement ((block.take t).drop (i + 1)) (t - 2 - i)
    (fun s => { s with type := AST_STATEMENT_EMPTY })

/-- The scenario
`KSHORT 0 1 ; KSHORT 1 3 ; KSHORT 2 1 ; FORI 0 => 0006 ; KNIL 4 5 ; FORL 0 => 0004 ; RET0`:
a numeric `for` whose body sets two slots to nil. -/
def scenario_for_with_knil : Prototype :=
  { instructions := [
      { type := BC_OP.KSHORT, a := 0, d := 1 },
      { type := BC_OP.KSHORT, a := 1, d := 3 },
      { type := BC_OP.KSHORT, a := 2, d := 1 },
      { type := BC_OP.FORI, a := 0, d := 32770 },
      { type := BC_OP.KNIL, a := 4, d := 5 },
      { type := BC_OP.FORL, a := 0, d := 32766 },
      { type := BC_OP.RET0, a := 0, d := 1 }] }

/-- The kind and the instruction id of the statements of a block. -/
def kinds_and_ids (block : List Statement) : List (AST_STATEMENT × Nat) :=
  block.map (fun statement => (statement.type, statement.instruction.id))

/-- A function node whose block is the statements of
`FORI 0 => 0003 ; KSHORT 4 1 ; FORL 0 => 0001 ; RET0`, one per instruction. -/
def numeric_for_of_one_statement : Function :=
  { Function.new {} with
    block := [
      { new_statement AST_STATEMENT_INSTRUCTION with
        instruction := { type := BC_OP.FORI, a := 0, d := 32770, id := 0, target := 3 } },
      { new_statement AST_STATEMENT_INSTRUCTION with
        instruction := { type := BC_OP.KSHORT, a := 4, d := 1, id := 1 } },
      { new_statement AST_STATEMENT_INSTRUCTION with
        instruction := { type := BC_OP.FORL, a := 0, d := 32766, id := 2, target := 1 } },
      { new_statement AST_STATEMENT_RETURN with
        instruction := { type := BC_OP.RET0, a := 0, d := 1, id := 3 } }] }

/-! ## Definitions for the local groups of `assign_debug_info` -/

/-- The guard of the zero-span special case of `assign_debug_info` (ast.cpp:161-168): there is a
last group, the record has `scopeBegin == scopeEnd` equal to the `scopeEnd` of that group, and the
statement at `scopeBegin` is a nil-valued `KPRI` whose `A` or a `KNIL` whose `D` is below the size
of the active stack. -/
def zero_span_applies (function : Function) (info : VariableInfo)
    (activeLocalScopes : List Nat) : Bool :=
  match function.locals.getLast? with
  | none => false
  | some last =>
    if info.scopeBegin = info.scopeEnd ∧ last.scopeEnd = info.scopeEnd then
      match function.block[get_block_index_from_id function.block info.scopeBegin]? with
      | none => false
      | some statement =>
        match statement.instruction.type with
        | BC_OP.KPRI =>
          decide (statement.instruction.d = 0 ∧ statement.instruction.a < activeLocalScopes.length)
        | BC_OP.KNIL => decide (statement.instruction.d < activeLocalScopes.length)
        | _ => false
    else false

/-- The scenario `KSHORT 0 1 ; KPRI 1 nil ; KPRI 1 nil ; RET0` with the variable records
`x` over (1, 3), `a` over (2, 2) and `b` over (2, 2). -/
def scenario_two_zero_span_records : Prototype :=
  { instructions := [
      { type := BC_OP.KSHORT, a := 0, d := 1 },
      { type := BC_OP.KPRI, a := 1, d := 0 },
      { type := BC_OP.KPRI, a := 1, d := 0 },
      { type := BC_OP.RET0, a := 0, d := 1 }],
    variableInfos := [
      { type := BC_VAR.BC_VAR_STR, name := "x", scopeBegin := 1, scopeEnd := 3 },
      { type := BC_VAR.BC_VAR_STR, name := "a", scopeBegin := 2, scopeEnd := 2 },
      { type := BC_VAR.BC_VAR_STR, name := "b", scopeBegin := 2, scopeEnd := 2 }] }

/-- The scenario `KPRI 0 nil ; KPRI 0 nil ; RET0` with the variable records `a` over (1, 1) and
`b` over (1, 1). -/
def scenario_zero_span_after_zero_span : Prototype :=
  { instructions := [
      { type := BC_OP.KPRI, a := 0, d := 0 },
      { type := BC_OP.KPRI, a := 0, d := 0 },
      { type := BC_OP.RET0, a := 0, d := 1 }],
    variableInfos := [
      { type := BC_VAR.BC_VAR_STR, name := "a", scopeBegin := 1, scopeEnd := 1 },
      { type := BC_VAR.BC_VAR_STR, name := "b", scopeBegin := 1, scopeEnd := 1 }] }

/-- A function node with the one local group `x` over (1, 3) at base slot 0. -/
def one_group_function : Function :=
  { Function.new {} with
    locals := [{ baseSlot := 0, scopeBegin := 1, scopeEnd := 3, names := ["x"] }] }

/-- A function node whose block is the statements of `KSHORT 0 1 ; KPRI 0 nil ; RET0`, with the
one local group `a` over (0, 1) at base slot 0. -/
def nil_after_group_function : Function :=
  { Function.new {} with
    block := [
      { new_statement AST_STATEMENT_INSTRUCTION with
        instruction := { type := BC_OP.KSHORT, a := 0, d := 1, id := 0 } },
      { new_statement AST_STATEMENT_INSTRUCTION with
        instruction := { type := BC_OP.KPRI, a := 0, d := 0, id := 1 } },
      { new_statement AST_STATEMENT_RETURN with
        instruction := { type := BC_OP.RET0, a := 0, d := 1, id := 2 } }],
    locals := [{ baseSlot := 0, scopeBegin := 0, scopeEnd := 1, names := ["a"] }] }

/-! ## Definitions for the operand swap of `eliminate_slots` -/

/-- The ordered compares, the opcodes for which `build_expressions` sets `allowSlotSwap`
(ast.cpp:861-865). -/
def is_ordered_compare : BC_OP → Bool
  | BC_OP.ISLT | BC_OP.ISGE | BC_OP.ISLE | BC_OP.ISGT => true
  | _ => false

/-- The condition statement of `opcode 0 1` at id 1 as `group_jumps` leaves it, before its
expressions are built. -/
def compare_statement (opcode : BC_OP) : Statement :=
  { new_statement AST_STATEMENT_CONDITION with
    instruction := { type := opcode, a := 0, d := 1, id := 1, target := 3 } }

/-- The condition statement `slot0 <opcode> slot1` as `build_expressions` makes it of
`compare_statement`, for an opcode with two slot operands. -/
def built_compare (opcode : BC_OP) (allowSlotSwap : Bool) : Statement :=
  { compare_statement opcode with
    assignment := {
      expressions := [new_slot 0, new_slot 1],
      openSlots := [expression_handle 0, expression_handle 1],
      usedSlots := [0, 1] },
    condition := { allowSlotSwap := allowSlotSwap } }

/-! ## Definitions for the table-constructor fold of `eliminate_slots` -/

/-- A function node with one scope of `usages == 2`. -/
def table_function : Function :=
  { Function.new {} with slotScopeCollector := { scopes := [{ usages := 2 }] } }

/-- The table-constructor assignment `slot0 = {}` in scope 0. -/
def table_constructor : Statement :=
  { new_statement AST_STATEMENT_ASSIGNMENT with
    instruction := { type := BC_OP.TNEW, a := 0, id := 0 },
    assignment := {
      variables_ := [{ type := AST_VARIABLE_SLOT, slot := 0, slotScope := some 0 }],
      expressions := [Expression.table [] [] [] Expression.null 0],
      isTableConstructor := true } }

/-- The setter `slot0[slot1] = 5`: its key is a slot, which is not a constant, and its used
slots do not hold the table slot. -/
def table_setter : Statement :=
  { new_statement AST_STATEMENT_ASSIGNMENT with
    instruction := { type := BC_OP.TSETV, a := 2, b := 0, c := 1, id := 1 },
    assignment := {
      variables_ := [{ type := AST_VARIABLE_TABLE_INDEX, table := slot_read 0 0,
                       tableIndex := slot_read 1 1 }],
      expressions := [number_constant 5] } }

/-! ## Definitions for the method-call fusion of `eliminate_slots` -/

/-- Following the words of the claim: a character of the class `[A-Za-z_]`. -/
def is_identifier_start (c : Char) : Bool :=
  decide (('A'.toNat ≤ c.toNat ∧ c.toNat ≤ 'Z'.toNat)
    ∨ ('a'.toNat ≤ c.toNat ∧ c.toNat ≤ 'z'.toNat) ∨ c.toNat = '_'.toNat)

/-- Following the words of the claim: a character of the class `[A-Za-z0-9_]`. -/
def is_identifier_char (c : Char) : Bool :=
  is_identifier_start c || decide ('0'.toNat ≤ c.toNat ∧ c.toNat ≤ '9'.toNat)

/-- Following the words of the claim: the string matches the identifier pattern
`[A-Za-z_][A-Za-z0-9_]*`. -/
def matches_identifier_pattern (string : String) : Bool :=
  match string.toList with
  | [] => false
  | front :: rest => is_identifier_start front && rest.all is_identifier_char

/-! ## Definitions for `new_signed_literal` -/

/-- The value of a finite double in units of `2 ^ -1074`, with its sign. -/
def Double.signed_units (x : Nat) : Int :=
  if Double.sign x = 1 then -(Double.units x : Int) else (Double.units x : Int)

/-- Following the words of the claim: the two's-complement interpretation of a 16-bit
operand. -/
def twos_complement_16 (d : Nat) : Int :=
  if d < 32768 then (d : Int) else (d : Int) - 65536

/-! ## Definitions for the concatenation chain -/

/-- Following the words of the claim: the right-nested tree of concatenation nodes whose
leaves, read left to right, are `first` and then those of `rest`; it has one node per element of
`rest`. -/
def right_nested_concatenation : Expression → List Expression → Expression
  | first, [] => first
  | first, next :: rest =>
    Expression.binaryOperation AST_BINARY_CONCATENATION first
      (right_nested_concatenation next rest)

/-- The handles of the leaves of a right-nested tree of `nodes` nodes that hangs `depth` right
steps below `expressions[0]`, read left to right: the left operand of every node and the right
operand of the last one. -/
def concatenation_leaf_handles (depth nodes : Nat) : List OpenSlot :=
  (List.range nodes).map (fun k =>
      expression_handle 0 (List.replicate (depth + k) Step.rightOperand ++ [Step.leftOperand]))
    ++ [expression_handle 0 (List.replicate (depth + nodes) Step.rightOperand)]

/-- The instruction `CAT 0, 1, 3` as a statement before `build_expressions`. -/
def concatenation_of_three : Statement :=
  { new_statement AST_STATEMENT_INSTRUCTION with
    instruction := { type := BC_OP.CAT, a := 0, b := 1, c := 3, id := 0 } }

/-! ## Scenario for the arithmetic opcodes -/

/-- A function whose number constants are the integer `7` and the double `0.5`. -/
def function_with_numbers : Function :=
  Function.new { numberConstants := [
    { type := BC_KNUM.BC_KNUM_INT, integer := 7 },
    { type := BC_KNUM.BC_KNUM_NUM, number := 0x3FE0000000000000 }] }

/-- The instruction `SUBNV 2, 1, 0` as a statement before `build_expressions`. -/
def subtract_from_number : Statement :=
  { new_statement AST_STATEMENT_INSTRUCTION with
    instruction := { type := BC_OP.SUBNV, a := 2, b := 1, c := 0, id := 0 } }


/-! ## Scenario for the results of a call -/

/-- The instruction `CALL 1, b, 2` as a statement before `build_expressions`. -/
def call_with_results (b : Nat) : Statement :=
  { new_statement AST_STATEMENT_INSTRUCTION with
    instruction := { type := BC_OP.CALL, a := 1, b := b, c := 2, id := 0 } }

/-! ## Definitions for the order of the inlined definitions -/

/-- One inlining of the loop of `eliminate_slots`: the index `j` of the open slot that received
the definition, the position that the defining statement had in the block when the loop was
entered, and the expression that was inlined. -/
structure Inlining where
  openSlot : Nat
  position : Nat
  definition : Expression

/-- The inlining loop of `eliminate_slots` (ast.cpp:1500-1560) as `eliminate_slots_inline`,
with a record of its inlinings: `origins` holds, for every statement of the current block, the
position it had when the loop was entered, and follows the `block.erase` calls of the loop;
`events` is the list of the inlinings so far, in the order in which they happen. -/
def eliminate_slots_inline_trace (platform : Platform) :
    Nat → Function → List Statement → Nat → List Nat → List Inlining →
      Except Error ((Function × List Statement × Nat) × List Inlining)
  | 0, function, block, i, _, events => Except.ok ((function, block, i), events)
  | j + 1, function, block, i, origins, events =>
    match block[i]?, block[i - 1]? with
    | some statement, some previous =>
      if i = 0 ∨ function.is_valid_label statement.instruction.attachedLabel = true
          ∨ is_single_use_slot_assignment function previous = false then
        Except.ok ((function, block, i), events)
      else
        let fused : Option (Function × List Statement × Nat) :=
          if j = 1 ∧ statement.assignment.isPotentialMethod = true ∧ i ≥ 2 then
            match block[i - 2]? with
            | some copy =>
              if is_method_call_idiom function statement previous copy then
                let (function, block) := fuse_method_call function block i j statement previous copy
                some (function, block, i - 1)
              else none
            | none => none
          else none
        let origins := if fused.isSome then origins.eraseIdx (i - 2) else origins
        let (function, block, i) := fused.getD (function, block, i)
        match block[i]?, block[i - 1]? with
        | some statement, some previous =>
          match statement.assignment.openSlots[j]? with
          | none => Except.error Error.outOfRange
          | some handle =>
            let read := (statement.assignment.get? handle).getD Expression.null
            if previous.target_slot ≠ read.slot then
              eliminate_slots_inline_trace platform j function block i origins events
            else if (previous.assignment.variables_.getLast?.getD {}).isMultres
                ≠ read.isMultres then
              Except.error (Error.assertion "Multres type mismatch when trying to eliminate slot")
            else
              let inlined := statement.assignment.set handle previous.last_expression
              if j = 0
                  ∧ statement.assignment.allowedConstantType ≠ CONSTANT_TYPE.NUMBER_CONSTANT
                  ∧ (get_constant_type platform
                      (inlined.expressions.getLast?.getD Expression.null)).val
                    > statement.assignment.allowedConstantType.val then
                Except.ok ((function, block, i), events)
              else
                let collector := function.slotScopeCollector.remove_scope previous.target_slot
                  (previous.assignment.variables_.getLast?.getD {}).slotScope
                let statement := { statement with
                  assignment := { inlined with
                    usedSlots := inlined.usedSlots ++ previous.assignment.usedSlots },
                  instruction := { statement.instruction with
                    attachedLabel := previous.instruction.attachedLabel } }
                eliminate_slots_inline_trace platform j
                  { function with slotScopeCollector := collector }
                  ((block.set i statement).eraseIdx (i - 1)) (i - 1)
                  (origins.eraseIdx (i - 1))
                  (events ++ [{ openSlot := j, position := origins.getD (i - 1) 0,
                                definition := previous.last_expression }])
        | _, _ => Except.error Error.outOfRange
    | some _, none => Except.ok ((function, block, i), events)
    | none, _ => Except.error Error.outOfRange

/-- The relation between an earlier and a later inlining of one run of the loop: the later one
fills an open slot of smaller index with a definition that stood earlier in the block. -/
def inlined_in_order (first second : Inlining) : Prop :=
  second.openSlot < first.openSlot ∧ second.position < first.position

/-! ## Definitions for `get_block_index_from_id` -/

/-- The valid instruction ids of the statements of a block are strictly increasing with the
position; statements with `INVALID_ID` may stand anywhere. -/
def valid_ids_increasing (block : List Statement) : Prop :=
  ∀ (i j : Nat) (first second : Statement), i < j →
    block[i]? = some first → block[j]? = some second →
    first.instruction.id ≠ INVALID_ID → second.instruction.id ≠ INVALID_ID →
    first.instruction.id < second.instruction.id

/-- A statement that carries the instruction id `id` and nothing else. -/
def statement_with_id (id : Nat) : Statement :=
  { new_statement AST_STATEMENT_INSTRUCTION with instruction := { id := id } }

/-- A block whose statements carry the ids 2, none, 5, 7, none. -/
def block_with_gaps : List Statement :=
  [statement_with_id 2, statement_with_id INVALID_ID, statement_with_id 5,
    statement_with_id 7, statement_with_id INVALID_ID]

/-- The state of the inlining loop that is kept by every iteration, for the block `original`
at loop entry: `origins` is increasing; every statement before index `i` is, as far as its last
expression goes, the statement of `original` at its origin, which lies below `bound`; and every
inlining so far filled an open slot from `j` on, below `count`, with the last expression of the
statement of `original` at its position, which lies after the origins of the statements before
index `i`; the inlinings so far are in order. -/
def inlining_invariant (original : List Statement) (bound count : Nat)
    (block : List Statement) (i : Nat) (origins : List Nat) (j : Nat)
    (events : List Inlining) : Prop :=
  origins.Pairwise (fun first second => first < second)
  ∧ (∀ k statement, k < i → block[k]? = some statement →
      ∃ origin source, origins[k]? = some origin ∧ origin < bound
        ∧ original[origin]? = some source
        ∧ source.last_expression = statement.last_expression)
  ∧ (∀ event ∈ events, j ≤ event.openSlot ∧ event.openSlot < count ∧ event.position < bound
      ∧ (∃ source, original[event.position]? = some source
          ∧ source.last_expression = event.definition)
      ∧ ∀ k origin, k < i → origins[k]? = some origin → origin < event.position)
  ∧ events.Pairwise inlined_in_order

/-- A function node whose collector holds two scopes with a single usage each. -/
def two_definitions_function : Function :=
  { Function.new {} with
    slotScopeCollector := { scopes := [{ usages := 1 }, { usages := 1 }] } }

/-- The assignment `slot0 = 5` of a number constant, with the single-use scope 0. -/
def first_definition : Statement :=
  { new_statement AST_STATEMENT_ASSIGNMENT with
    assignment := {
      variables_ := [{ type := AST_VARIABLE_SLOT, slot := 0, slotScope := some 0 }],
      expressions := [number_constant 0x4014000000000000] } }

/-- The assignment `slot1 = g` of a global, with the single-use scope 1. -/
def second_definition : Statement :=
  { new_statement AST_STATEMENT_ASSIGNMENT with
    assignment := {
      variables_ := [{ type := AST_VARIABLE_SLOT, slot := 1, slotScope := some 1 }],
      expressions := [Expression.variable AST_VARIABLE_GLOBAL 0 none "g" Expression.null
        Expression.null false 0] } }

/-- The statement `slot2 = slot0 + slot1` as built from `ADDVV 2, 0, 1`, slot 0 read in scope 0
and slot 1 in scope 1. -/
def sum_statement : Statement :=
  { new_statement AST_STATEMENT_ASSIGNMENT with
    assignment := {
      variables_ := [{ type := AST_VARIABLE_SLOT, slot := 2, slotScope := none }],
      expressions := [Expression.binaryOperation AST_BINARY_ADDITION (slot_read 0 0)
        (slot_read 1 1)],
      openSlots := [expression_handle 0 [Step.leftOperand],
        expression_handle 0 [Step.rightOperand]],
      usedSlots := [0, 1],
      allowedConstantType := CONSTANT_TYPE.BOOL_CONSTANT } }

/-- The block `slot0 = 5 ; slot1 = g ; slot2 = slot0 + slot1`. -/
def block_of_sum : List Statement :=
  [first_definition, second_definition, sum_statement]

mutual
theorem expression_eq_of_beq : ∀ (a b : Expression), Expression.beq a b = true → a = b
  | Expression.null, Expression.null, _ => rfl
  | Expression.constant x0a, Expression.constant x0b, h => by
    simp only [Expression.beq, Bool.and_eq_true, decide_eq_true_eq] at h
    have h0 := h
    subst h0
    rfl
  | Expression.variable x0a x1a x2a x3a x4a x5a x6a x7a, Expression.variable x0b x1b x2b x3b x4b x5b x6b x7b, h => by
    simp only [Expression.beq, Bool.and_eq_true, decide_eq_true_eq] at h
    obtain ⟨⟨⟨⟨⟨⟨⟨h0, h1⟩, h2⟩, h3⟩, h4⟩, h5⟩, h6⟩, h7⟩ := h
    subst h0
    subst h1
    subst h2
    subst h3
    have e4 := expression_eq_of_beq x4a x4b h4
    have e5 := expression_eq_of_beq x5a x5b h5
    subst h6
    subst h7
    subst e4
    subst e5
    rfl
  | Expression.function x0a, Expression.function x0b, h => by
    simp only [Expression.beq, Bool.and_eq_true, decide_eq_true_eq] at h
    have h0 := h
    subst h0
    rfl
  | Expression.binaryOperation x0a x1a x2a, Expression.binaryOperation x0b x1b x2b, h => by
    simp only [Expression.beq, Bool.and_eq_true, decide_eq_true_eq] at h
    obtain ⟨⟨h0, h1⟩, h2⟩ := h
    subst h0
    have e1 := expression_eq_of_beq x1a x1b h1
    have e2 := expression_eq_of_beq x2a x2b h2
    subst e1
    subst e2
    rfl
  | Expression.unaryOperation x0a x1a, Expression.unaryOperation x0b x1b, h => by
    simp only [Expression.beq, Bool.and_eq_true, decide_eq_true_eq] at h
    obtain ⟨h0, h1⟩ := h
    subst h0
    have e1 := expression_eq_of_beq x1a x1b h1
    subst e1
    rfl
  | Expression.functionCall x0a x1a x2a x3a x4a, Expression.functionCall x0b x1b x2b x3b x4b, h => by
    simp only [Expression.beq, Bool.and_eq_true, decide_eq_true_eq] at h
    obtain ⟨⟨⟨⟨h0, h1⟩, h2⟩, h3⟩, h4⟩ := h
    have e0 := expression_eq_of_beq x0a x0b h0
    have e1 := expression_eq_of_beq_list x1a x1b h1
    have e2 := expression_eq_of_beq x2a x2b h2
    subst h3
    subst h4
    subst e0
    subst e1
    subst e2
    rfl
  | Expression.table x0a x1a x2a x3a x4a, Expression.table x0b x1b x2b x3b x4b, h => by
    simp only [Expression.beq, Bool.and_eq_true, decide_eq_true_eq] at h
    obtain ⟨⟨⟨⟨h0, h1⟩, h2⟩, h3⟩, h4⟩ := h
    have e0 := expression_eq_of_beq_list x0a x0b h0
    have e1 := expression_eq_of_beq_pairs x1a x1b h1
    have e2 := expression_eq_of_beq_pairs x2a x2b h2
    have e3 := expression_eq_of_beq x3a x3b h3
    subst h4
    subst e0
    subst e1
    subst e2
    subst e3
    rfl
  | Expression.vararg x0a, Expression.vararg x0b, h => by
    simp only [Expression.beq, Bool.and_eq_true, decide_eq_true_eq] at h
    have h0 := h
    subst h0
    rfl
  | Expression.null, Expression.constant _, h
  | Expression.null, Expression.variable _ _ _ _ _ _ _ _, h
  | Expression.null, Expression.function _, h
  | Expression.null, Expression.binaryOperation _ _ _, h
  | Expression.null, Expression.unaryOperation _ _, h
  | Expression.null, Expression.functionCall _ _ _ _ _, h
  | Expression.null, Expression.table _ _ _ _ _, h
  | Expression.null, Expression.vararg _, h => by
    simp [Expression.beq] at h
  | Expression.constant _, Expression.null, h
  | Expression.constant _, Expression.variable _ _ _ _ _ _ _ _, h
  | Expression.constant _, Expression.function _, h
  | Expression.constant _, Expression.binaryOperation _ _ _, h
  | Expression.constant _, Expression.unaryOperation _ _, h
  | Expression.constant _, Expression.functionCall _ _ _ _ _, h
  | Expression.constant _, Expression.table _ _ _ _ _, h
  | Expression.constant _, Expression.vararg _, h => by
    simp [Expression.beq] at h
  | Expression.variable _ _ _ _ _ _ _ _, Expression.null, h
  | Expression.variable _ _ _ _ _ _ _ _, Expression.constant _, h
  | Expression.variable _ _ _ _ _ _ _ _, Expression.function _, h
  | Expression.variable _ _ _ _ _ _ _ _, Expression.binaryOperation _ _ _, h
  | Expression.variable _ _ _ _ _ _ _ _, Expression.unaryOperation _ _, h
  | Expression.variable _ _ _ _ _ _ _ _, Expression.functionCall _ _ _ _ _, h
  | Expression.variable _ _ _ _ _ _ _ _, Expression.table _ _ _ _ _, h
  | Expression.variable _ _ _ _ _ _ _ _, Expression.vararg _, h => by
    simp [Expression.beq] at h
  | Expression.function _, Expression.null, h
  | Expression.function _, Expression.constant _, h
  | Expression.function _, Expression.variable _ _ _ _ _ _ _ _, h
  | Expression.function _, Expression.binaryOperation _ _ _, h
  | Expression.function _, Expression.unaryOperation _ _, h
  | Expression.function _, Expression.functionCall _ _ _ _ _, h
  | Expression.function _, Expression.table _ _ _ _ _, h
  | Expression.function _, Expression.vararg _, h => by
    simp [Expression.beq] at h
  | Expression.binaryOperation _ _ _, Expression.null, h
  | Expression.binaryOperation _ _ _, Expression.constant _, h
  | Expression.binaryOperation _ _ _, Expression.variable _ _ _ _ _ _ _ _, h
  | Expression.binaryOperation _ _ _, Expression.function _, h
  | Expression.binaryOperation _ _ _, Expression.unaryOperation _ _, h
  | Expression.binaryOperation _ _ _, Expression.functionCall _ _ _ _ _, h
  | Expression.binaryOperation _ _ _, Expression.table _ _ _ _ _, h
  | Expression.binaryOperation _ _ _, Expression.vararg _, h => by
    simp [Expression.beq] at h
  | Expression.unaryOperation _ _, Expression.null, h
  | Expression.unaryOperation _ _, Expression.constant _, h
  | Expression.unaryOperation _ _, Expression.variable _ _ _ _ _ _ _ _, h
  | Expression.unaryOperation _ _, Expression.function _, h
  | Expression.unaryOperation _ _, Expression.binaryOperation _ _ _, h
  | Expression.unaryOperation _ _, Expression.functionCall _ _ _ _ _, h
  | Expression.unaryOperation _ _, Expression.table _ _ _ _ _, h
  | Expression.unaryOperation _ _, Expression.vararg _, h => by
    simp [Expression.beq] at h
  | Expression.functionCall _ _ _ _ _, Expression.null, h
  | Expression.functionCall _ _ _ _ _, Expression.constant _, h
  | Expression.functionCall _ _ _ _ _, Expression.variable _ _ _ _ _ _ _ _, h
  | Expression.functionCall _ _ _ _ _, Expression.function _, h
  | Expression.functionCall _ _ _ _ _, Expression.binaryOperation _ _ _, h
  | Expression.functionCall _ _ _ _ _, Expression.unaryOperation _ _, h
  | Expression.functionCall _ _ _ _ _, Expression.table _ _ _ _ _, h
  | Expression.functionCall _ _ _ _ _, Expression.vararg _, h => by
    simp [Expression.beq] at h
  | Expression.table _ _ _ _ _, Expression.null, h
  | Expression.table _ _ _ _ _, Expression.constant _, h
  | Expression.table _ _ _ _ _, Expression.variable _ _ _ _ _ _ _ _, h
  | Expression.table _ _ _ _ _, Expression.function _, h
  | Expression.table _ _ _ _ _, Expression.binaryOperation _ _ _, h
  | Expression.table _ _ _ _ _, Expression.unaryOperation _ _, h
  | Expression.table _ _ _ _ _, Expression.functionCall _ _ _ _ _, h
  | Expression.table _ _ _ _ _, Expression.vararg _, h => by
    simp [Expression.beq] at h
  | Expression.vararg _, Expression.null, h
  | Expression.vararg _, Expression.constant _, h
  | Expression.vararg _, Expression.variable _ _ _ _ _ _ _ _, h
  | Expression.vararg _, Expression.function _, h
  | Expression.vararg _, Expression.binaryOperation _ _ _, h
  | Expression.vararg _, Expression.unaryOperation _ _, h
  | Expression.vararg _, Expression.functionCall _ _ _ _ _, h
  | Expression.vararg _, Expression.table _ _ _ _ _, h => by
    simp [Expression.beq] at h
theorem expression_eq_of_beq_list :
    ∀ (a b : List Expression), Expression.beq_list a b = true → a = b
  | [], [], _ => rfl
  | a :: as, b :: bs, h => by
    simp only [Expression.beq_list, Bool.and_eq_true] at h
    rw [expression_eq_of_beq a b h.1, expression_eq_of_beq_list as bs h.2]
  | [], _ :: _, h | _ :: _, [], h => by simp [Expression.beq_list] at h
theorem expression_eq_of_beq_pairs :
    ∀ (a b : List (Expression × Expression)), Expression.beq_pairs a b = true → a = b
  | [], [], _ => rfl
  | (a, b) :: r, (a', b') :: r', h => by
    simp only [Expression.beq_pairs, Bool.and_eq_true] at h
    rw [expression_eq_of_beq a a' h.1.1, expression_eq_of_beq b b' h.1.2,
      expression_eq_of_beq_pairs r r' h.2]
  | [], _ :: _, h | _ :: _, [], h => by simp [Expression.beq_pairs] at h
end

theorem variable_eq_of_beq (a b : Variable) (h : Variable.beq a b = true) : a = b := by
  obtain ⟨t, s, sc, n, tb, ti, m, mi⟩ := a
  obtain ⟨t', s', sc', n', tb', ti', m', mi'⟩ := b
  simp only [Variable.beq, Bool.and_eq_true, decide_eq_true_eq] at h
  obtain ⟨⟨⟨⟨⟨⟨⟨h0, h1⟩, h2⟩, h3⟩, h4⟩, h5⟩, h6⟩, h7⟩ := h
  subst h0 h1 h2 h3 h6 h7
  rw [expression_eq_of_beq tb tb' h4, expression_eq_of_beq ti ti' h5]

theorem variable_eq_of_beq_list :
    ∀ (a b : List Variable), Variable.beq_list a b = true → a = b
  | [], [], _ => rfl
  | a :: as, b :: bs, h => by
    simp only [Variable.beq_list, Bool.and_eq_true] at h
    rw [variable_eq_of_beq a b h.1, variable_eq_of_beq_list as bs h.2]
  | [], _ :: _, h | _ :: _, [], h => by simp [Variable.beq_list] at h

theorem assignment_eq_of_beq (a b : Assignment) (h : Assignment.beq a b = true) : a = b := by
  obtain ⟨v, e, o, u, al, p, tc, mr, fd⟩ := a
  obtain ⟨v', e', o', u', al', p', tc', mr', fd'⟩ := b
  simp only [Assignment.beq, Bool.and_eq_true, decide_eq_true_eq] at h
  obtain ⟨⟨⟨⟨⟨⟨⟨⟨h0, h1⟩, h2⟩, h3⟩, h4⟩, h5⟩, h6⟩, h7⟩, h8⟩ := h
  subst h2 h3 h4 h5 h6 h8
  rw [variable_eq_of_beq_list v v' h0, expression_eq_of_beq_list e e' h1,
    expression_eq_of_beq mr mr' h7]

mutual
theorem statement_eq_of_beq : ∀ (a b : Statement), Statement.beq a b = true → a = b
  | ⟨t, i, a, c, b, l, f⟩, ⟨t', i', a', c', b', l', f'⟩, h => by
    simp only [Statement.beq, Bool.and_eq_true, decide_eq_true_eq] at h
    obtain ⟨⟨⟨⟨⟨⟨h0, h1⟩, h2⟩, h3⟩, h4⟩, h5⟩, h6⟩ := h
    subst h0 h1 h3 h5 h6
    rw [assignment_eq_of_beq a a' h2, statement_eq_of_beq_list b b' h4]
theorem statement_eq_of_beq_list :
    ∀ (a b : List Statement), Statement.beq_list a b = true → a = b
  | [], [], _ => rfl
  | a :: as, b :: bs, h => by
    simp only [Statement.beq_list, Bool.and_eq_true] at h
    rw [statement_eq_of_beq a b h.1, statement_eq_of_beq_list as bs h.2]
  | [], _ :: _, h | _ :: _, [], h => by simp [Statement.beq_list] at h
end

/-- A pass whose result passes `returns_block` returned that block. -/
theorem eq_of_returns_block (result : Except Error (List Statement))
    (expected : List Statement) (h : returns_block result expected = true) :
    result = Except.ok expected := by
  cases result with
  | error e => simp [returns_block] at h
  | ok block =>
    simp only [returns_block] at h
    rw [statement_eq_of_beq_list block expected h]


/-! ### Properties of the instruction import -/

theorem build_instructions_step_prototype (ast : Ast) (function : Function) (i : Nat) :
    (build_instructions_step ast function i).2.1.prototype = function.prototype ∧
      (build_instructions_step ast function i).2.1.block = function.block := by
  unfold build_instructions_step
  simp only [new_function]
  split <;> (try split) <;> simp

theorem build_instructions_step_carries (ast : Ast) (function : Function) (i : Nat) :
    (build_instructions_step ast function i).2.2.carries
      (function.prototype.instructions.getD i { type := BC_OP.INVALID }) i := by
  unfold build_instructions_step Statement.carries
  simp only [new_function, new_statement, Statement.new]
  split <;> simp

theorem build_instructions_loop_spec (n : Nat) :
    ∀ (ast : Ast) (function : Function),
      (build_instructions_loop n ast function).2.prototype = function.prototype ∧
      (build_instructions_loop n ast function).2.block.length = n + function.block.length ∧
      (∀ i, i < n → ∃ s, (build_instructions_loop n ast function).2.block[i]? = some s ∧
        s.carries (function.prototype.instructions.getD i { type := BC_OP.INVALID }) i) ∧
      (∀ j, (build_instructions_loop n ast function).2.block[n + j]? = function.block[j]?) := by
  induction n with
  | zero =>
    intro ast function
    simp [build_instructions_loop]
  | succ n ih =>
    intro ast function
    obtain ⟨hp, hb⟩ := build_instructions_step_prototype ast function n
    have hc := build_instructions_step_carries ast function n
    simp only [build_instructions_loop]
    generalize build_instructions_step ast function n = r at hp hb hc
    obtain ⟨ast1, function1, statement⟩ := r
    simp only at hp hb hc ⊢
    obtain ⟨h1, h2, h3, h4⟩ := ih ast1 { function1 with block := statement :: function1.block }
    simp only [List.length_cons] at h1 h2 h3 h4
    rw [← hp, ← hb]
    rw [← hp] at hc
    refine ⟨h1, by omega, ?_, ?_⟩
    · intro i hi
      rcases Nat.lt_succ_iff_lt_or_eq.mp hi with hlt | heq
      · exact h3 i hlt
      · subst heq
        have := h4 0
        simp only [Nat.add_zero, List.getElem?_cons_zero] at this
        exact ⟨statement, this, hc⟩
    · intro j
      have := h4 (j + 1)
      simp only [List.getElem?_cons_succ] at this
      rw [← this]
      congr 1
      omega

/-- Claim C1. Immediately after instruction import (the body of `build_instructions`, before the
later passes run) the block has exactly as many statements as the prototype has instructions, and
statement `i` carries the op, a, b, c, d of instruction `i` with instruction id `i`. -/
theorem C1_build_instructions_one_statement_per_instruction (ast : Ast) (function : Function) :
    (build_instructions_body ast function).2.block.length
        = function.prototype.instructions.length ∧
      ∀ (i : Nat) (raw : BytecodeInstruction), function.prototype.instructions[i]? = some raw →
        ∃ s : Statement, (build_instructions_body ast function).2.block[i]? = some s ∧ s.carries raw i := by
  obtain ⟨_, h2, h3, _⟩ :=
    build_instructions_loop_spec function.prototype.instructions.length ast
      { function with block := [] }
  refine ⟨by simpa [build_instructions_body] using h2, ?_⟩
  intro i raw hraw
  have hi : i < function.prototype.instructions.length := by
    rcases Nat.lt_or_ge i function.prototype.instructions.length with h | h
    · exact h
    · rw [List.getElem?_eq_none h] at hraw
      cases hraw
  obtain ⟨s, hs, hc⟩ := h3 i hi
  refine ⟨s, by simpa [build_instructions_body] using hs, ?_⟩
  have hget : function.prototype.instructions.getD i { type := BC_OP.INVALID } = raw := by
    simp [List.getD, hraw]
  rw [hget] at hc
  exact hc

/-! ### Bit-level facts about the masks of `ast.cpp` -/

theorem and_shifted_mask (x m k : Nat) : x &&& (m <<< k) = ((x >>> k) &&& m) <<< k := by
  apply Nat.eq_of_testBit_eq
  intro i
  simp only [Nat.testBit_and, Nat.testBit_shiftLeft, Nat.testBit_shiftRight]
  by_cases h : i ≥ k
  · have : k + (i - k) = i := by omega
    simp [h, this]
  · simp [h]

theorem and_DOUBLE_EXPONENT (x : Nat) : x &&& DOUBLE_EXPONENT = Double.exponent x * 2 ^ 52 := by
  have h : DOUBLE_EXPONENT = (2 ^ 11 - 1) <<< 52 := by decide
  rw [h, and_shifted_mask, Nat.and_pow_two_sub_one_eq_mod, Nat.shiftLeft_eq,
    Nat.shiftRight_eq_div_pow]
  rfl

theorem and_DOUBLE_FRACTION (x : Nat) : x &&& DOUBLE_FRACTION = Double.fraction x := by
  have h : DOUBLE_FRACTION = 2 ^ 52 - 1 := by decide
  rw [h, Nat.and_pow_two_sub_one_eq_mod]
  rfl

theorem and_DOUBLE_SIGN (x : Nat) : x &&& DOUBLE_SIGN = Double.sign x * 2 ^ 63 := by
  have h : DOUBLE_SIGN = (2 ^ 1 - 1) <<< 63 := by decide
  rw [h, and_shifted_mask, Nat.and_pow_two_sub_one_eq_mod, Nat.shiftLeft_eq,
    Nat.shiftRight_eq_div_pow]
  rfl

theorem exponent_special_iff (x : Nat) :
    x &&& DOUBLE_EXPONENT = DOUBLE_SPECIAL ↔ Double.exponent x = 2047 := by
  rw [and_DOUBLE_EXPONENT]
  have h : DOUBLE_SPECIAL = 2047 * 2 ^ 52 := by decide
  rw [h]
  constructor
  · intro hx
    exact Nat.eq_of_mul_eq_mul_right (by decide) hx
  · intro hx
    rw [hx]

theorem exponent_DOUBLE_NEGATIVE_ZERO : Double.exponent DOUBLE_NEGATIVE_ZERO = 0 := by decide

theorem isNaN_iff (x : Nat) :
    Double.isNaN x = true ↔ Double.exponent x = 2047 ∧ Double.fraction x ≠ 0 := by
  simp [Double.isNaN]

/-- What `check_special_number` does on a constant, case by case. -/
theorem check_special_number_constant (c : Constant) (isCdata : Bool) :
    check_special_number (Expression.constant c) isCdata =
      if Double.exponent c.number ≠ 2047 then
        if c.number ≠ DOUBLE_NEGATIVE_ZERO ∨ isCdata = true then
          Except.ok (Expression.constant c)
        else Except.error (Error.assertion "Number constant is negative zero")
      else if Double.fraction c.number ≠ 0 then
        Except.error (Error.assertion "Number constant is NaN")
      else if isCdata then Except.ok (Expression.constant c)
      else
        Except.ok (Expression.binaryOperation AST_BINARY_DIVISION
          (Expression.constant {
            type := AST_CONSTANT_NUMBER,
            number := if Double.sign c.number ≠ 0 then Double.ofInt (-1) else Double.ofInt 1 })
          (Expression.constant { type := AST_CONSTANT_NUMBER, number := Double.ofInt 0 })) := by
  have hs : (c.number &&& DOUBLE_SIGN ≠ 0) ↔ Double.sign c.number ≠ 0 := by
    rw [and_DOUBLE_SIGN]
    simp
  have he : (c.number &&& DOUBLE_EXPONENT ≠ DOUBLE_SPECIAL) ↔ Double.exponent c.number ≠ 2047 :=
    not_congr (exponent_special_iff _)
  simp only [check_special_number, he, and_DOUBLE_FRACTION, hs]

/-- Claim C5. For every 64-bit double bit pattern, `check_special_number` raises a fatal error
exactly when the value is NaN (exponent bits all ones and fraction non-zero), or the value is
negative zero and the context is not cdata; every other pattern is accepted without error. -/
theorem C5_check_special_number_error_iff (c : Constant) (isCdata : Bool) :
    (∃ e, check_special_number (Expression.constant c) isCdata = Except.error e) ↔
      ((Double.exponent c.number = 2047 ∧ Double.fraction c.number ≠ 0) ∨
        (c.number = DOUBLE_NEGATIVE_ZERO ∧ isCdata = false)) := by
  rw [check_special_number_constant]
  by_cases he : Double.exponent c.number = 2047
  · have hz : c.number ≠ DOUBLE_NEGATIVE_ZERO := by
      intro h
      rw [h, exponent_DOUBLE_NEGATIVE_ZERO] at he
      cases he
    by_cases hf : Double.fraction c.number = 0
    · cases isCdata <;> simp [he, hf, hz]
    · simp [he, hf]
  · by_cases hz : c.number = DOUBLE_NEGATIVE_ZERO
    · have hz0 : Double.exponent DOUBLE_NEGATIVE_ZERO ≠ 2047 := by decide
      rw [hz]
      cases isCdata <;> simp [hz0]
    · simp [he, hz]

/-! ### Values of the double model used below -/

theorem ofInt_neg_one : Double.ofInt (-1) = 0xBFF0000000000000 := by decide!
theorem ofInt_one : Double.ofInt 1 = 0x3FF0000000000000 := by decide!
theorem ofInt_zero : Double.ofInt 0 = 0 := by decide!
theorem ofInt_five : Double.ofInt 5 = 0x4014000000000000 := by decide!
theorem ofInt_three : Double.ofInt 3 = 0x4008000000000000 := by decide!
theorem add_five_three :
    Double.add 0x4014000000000000 0x4008000000000000 = 0x4020000000000000 := by decide!

/-- Counterexample to claim C4 as stated: on the number constant `-0.0` outside cdata,
`check_special_number` does not return the rewritten expression `-1 / 0`. -/
theorem C4_counterexample_negative_zero_not_rewritten :
    check_special_number
        (Expression.constant { type := AST_CONSTANT_NUMBER, number := DOUBLE_NEGATIVE_ZERO }) false
      ≠ Except.ok minus_one_over_zero := by
  rw [check_special_number_constant]
  have h : Double.exponent DOUBLE_NEGATIVE_ZERO ≠ 2047 := by decide
  simp [h]

/-- Claim C4, amended. For a number constant whose value is `-0.0` in a non-cdata context,
`check_special_number` raises the fatal error "Number constant is negative zero" and rewrites
nothing; the rewrite into the binary division `-1 / 0` is what it does for negative infinity. -/
theorem C4_negative_zero_raises_negative_infinity_rewritten (c : Constant) :
    check_special_number (Expression.constant { c with number := DOUBLE_NEGATIVE_ZERO }) false
        = Except.error (Error.assertion "Number constant is negative zero") ∧
      check_special_number (Expression.constant { c with number := 0xFFF0000000000000 }) false
        = Except.ok minus_one_over_zero := by
  constructor
  · rw [check_special_number_constant]
    have h : Double.exponent DOUBLE_NEGATIVE_ZERO ≠ 2047 := by decide
    simp [h]
  · rw [check_special_number_constant]
    have h1 : Double.exponent 0xFFF0000000000000 = 2047 := by decide
    have h2 : Double.fraction 0xFFF0000000000000 = 0 := by decide
    have h3 : Double.sign 0xFFF0000000000000 ≠ 0 := by decide
    simp [h1, h2, h3, ofInt_neg_one, ofInt_zero, minus_one_over_zero]

/-- Counterexample to claim C7 as stated: `1 or 2` has two valid number constants as operands
and the valid number 1 as its value, and `get_constant_type` returns `INVALID_CONSTANT` for it,
not `NUMBER_CONSTANT`. -/
theorem C7_counterexample_or_of_valid_numbers :
    is_valid_number_constant 0x3FF0000000000000 = true ∧
      is_valid_number_constant 0x4000000000000000 = true ∧
      get_constant_type Platform.sample
          (Expression.binaryOperation AST_BINARY_OR
            (Expression.constant { type := AST_CONSTANT_NUMBER, number := 0x3FF0000000000000 })
            (Expression.constant { type := AST_CONSTANT_NUMBER, number := 0x4000000000000000 }))
        = CONSTANT_TYPE.INVALID_CONSTANT ∧
      get_constant_type Platform.sample
          (Expression.binaryOperation AST_BINARY_OR
            (Expression.constant { type := AST_CONSTANT_NUMBER, number := 0x3FF0000000000000 })
            (Expression.constant { type := AST_CONSTANT_NUMBER, number := 0x4000000000000000 }))
        ≠ CONSTANT_TYPE.NUMBER_CONSTANT := by
  refine ⟨by decide, by decide, ?_, ?_⟩ <;> simp [get_constant_type]

/-- Claim C7, amended. For a binary operation whose two operands are number constants:
when the kind is addition, subtraction, multiplication, division, exponentiation or modulo, a
result `number` is computed from the two operand values, and `get_constant_type` returns
`NUMBER_CONSTANT` when that result is a valid number (neither NaN nor negative zero) and
`INVALID_CONSTANT` when it is not; for every other kind (concatenation, the six comparisons,
`and`, `or`) no result is computed and `get_constant_type` returns `INVALID_CONSTANT`. -/
theorem C7_get_constant_type_of_binary_numbers (platform : Platform) (type : AST_BINARY)
    (left right : Constant)
    (hleft : left.type = AST_CONSTANT_NUMBER) (hright : right.type = AST_CONSTANT_NUMBER) :
    ((type = AST_BINARY_ADDITION ∨ type = AST_BINARY_SUBTRACTION
          ∨ type = AST_BINARY_MULTIPLICATION ∨ type = AST_BINARY_DIVISION
          ∨ type = AST_BINARY_EXPONENTATION ∨ type = AST_BINARY_MODULO) →
        ∃ number, binary_number platform type left.number right.number = some number ∧
          (is_valid_number_constant number = true →
            get_constant_type platform
                (Expression.binaryOperation type (Expression.constant left)
                  (Expression.constant right))
              = CONSTANT_TYPE.NUMBER_CONSTANT) ∧
          (is_valid_number_constant number = false →
            get_constant_type platform
                (Expression.binaryOperation type (Expression.constant left)
                  (Expression.constant right))
              = CONSTANT_TYPE.INVALID_CONSTANT)) ∧
      (¬ (type = AST_BINARY_ADDITION ∨ type = AST_BINARY_SUBTRACTION
          ∨ type = AST_BINARY_MULTIPLICATION ∨ type = AST_BINARY_DIVISION
          ∨ type = AST_BINARY_EXPONENTATION ∨ type = AST_BINARY_MODULO) →
        binary_number platform type left.number right.number = none ∧
          get_constant_type platform
              (Expression.binaryOperation type (Expression.constant left)
                (Expression.constant right))
            = CONSTANT_TYPE.INVALID_CONSTANT) := by
  cases type <;>
    simp_all [get_constant_type, binary_number, Expression.number]

/-- Witness for claim C7: `5 + 3` computes `8`, a valid number, and has constant type
`NUMBER_CONSTANT`. -/
theorem C7_witness :
    is_valid_number_constant 0x4020000000000000 = true ∧
      get_constant_type Platform.sample
          (Expression.binaryOperation AST_BINARY_ADDITION
            (Expression.constant { type := AST_CONSTANT_NUMBER, number := 0x4014000000000000 })
            (Expression.constant { type := AST_CONSTANT_NUMBER, number := 0x4008000000000000 }))
        = CONSTANT_TYPE.NUMBER_CONSTANT := by
  obtain ⟨number, hn, hvalid, _⟩ :=
    (C7_get_constant_type_of_binary_numbers Platform.sample AST_BINARY_ADDITION
      { type := AST_CONSTANT_NUMBER, number := 0x4014000000000000 }
      { type := AST_CONSTANT_NUMBER, number := 0x4008000000000000 } rfl rfl).1 (Or.inl rfl)
  have h8 : number = 0x4020000000000000 := by
    simp only [binary_number, add_five_three, Option.some.injEq] at hn
    exact hn.symm
  subst h8
  exact ⟨by decide, hvalid (by decide)⟩

/-! ### End-to-end scenarios -/

/-- The lifted body of scenario 1, computed by the model. -/
theorem lift_local_arithmetic :
    lift Platform.sample scenario_local_arithmetic = Except.ok lifted_local_arithmetic :=
  eq_of_returns_block _ _ (by decide!)

/-- Counterexample to claim C3 as stated: the lifted body of
`KSHORT 0,5 ; KSHORT 1,3 ; ADDVV 2,0,1 ; RET1 2,2` is not a single statement, so it is not the
single statement `return 5 + 3`. -/
theorem C3_counterexample_not_a_single_return :
    ¬ ∃ statement, lift Platform.sample scenario_local_arithmetic = Except.ok [statement] := by
  rw [lift_local_arithmetic]
  rintro ⟨statement, h⟩
  have hlen := congrArg (fun r => r.toOption.map List.length) h
  simp [Except.toOption, lifted_local_arithmetic] at hlen

/-- Claim C3, amended. Lifting `KSHORT 0,5 ; KSHORT 1,3 ; ADDVV 2,0,1 ; RET1 2,2` yields the two
statements `slot0 = 5` and `return slot0 + 3`: the constant 3 is inlined into the addition and
the addition into the return, and the constant 5 stays in its own assignment. -/
theorem C3_lift_local_arithmetic :
    lift Platform.sample scenario_local_arithmetic = Except.ok lifted_local_arithmetic :=
  eq_of_returns_block _ _ (by decide!)

/-- Counterexample to claim C9 as stated: the lifted body of a prototype without instructions
is not a single statement. -/
theorem C9_counterexample_no_statement :
    ¬ ∃ statement, lift Platform.sample {} = Except.ok [statement] := by
  have h : lift Platform.sample {} = Except.ok [] := eq_of_returns_block _ _ (by decide!)
  rw [h]
  rintro ⟨statement, hs⟩
  cases hs

/-- For a function whose variable info consists of its parameters' records only,
`assign_debug_info` records the parameter names and creates no local scope. -/
theorem assign_debug_info_body_parameters_only (function : Function)
    (h : function.prototype.variableInfos.length = function.prototype.parameters % 256) :
    assign_debug_info_body function
      = Except.ok { function with
          parameterNames := function.prototype.variableInfos.map (fun info => info.name) } := by
  unfold assign_debug_info_body
  have h1 : ¬ (function.prototype.parameters % 256 > function.prototype.variableInfos.length) := by
    omega
  simp only [h1, if_false]
  rw [← h]
  simp [assign_debug_info_loop]

/-- Claim C9, amended. For a function whose prototype has zero instructions, and whose variable
info, if any, consists of its parameters' records only, the lifted body is empty: it has no
statement at all, so in particular no Return statement. -/
theorem C9_lift_no_instructions (platform : Platform) (prototype : Prototype)
    (hins : prototype.instructions = [])
    (hinfos : prototype.variableInfos = []
      ∨ prototype.variableInfos.length = prototype.parameters % 256) :
    lift platform prototype = Except.ok [] := by
  obtain ⟨parameters, instructions, constants, numberConstants, upvalues, variableInfos,
    prototypeSize⟩ := prototype
  simp only at hins hinfos
  subst hins
  cases variableInfos with
  | nil => rfl
  | cons info rest =>
    have hlen : (info :: rest).length = parameters % 256 := by
      rcases hinfos with h | h
      · cases h
      · exact h
    unfold lift build_functions_body build_instructions assign_debug_info
    rw [show build_instructions_body {} (Function.new
          { parameters := parameters, instructions := [], constants := constants,
            numberConstants := numberConstants, upvalues := upvalues,
            variableInfos := info :: rest, prototypeSize := prototypeSize })
        = ({}, Function.new
          { parameters := parameters, instructions := [], constants := constants,
            numberConstants := numberConstants, upvalues := upvalues,
            variableInfos := info :: rest, prototypeSize := prototypeSize }) from rfl]
    simp only []
    rw [assign_debug_info_body_parameters_only _ hlen]
    rfl

/-- A function without instructions that has one parameter `a`, with and without its variable
info record, lifts to the empty body. -/
theorem C9_witness :
    lift Platform.sample
        { parameters := 1, variableInfos := [{ type := BC_VAR.BC_VAR_STR, name := "a" }] }
      = Except.ok []
    ∧ lift Platform.sample { parameters := 1 } = Except.ok [] :=
  ⟨C9_lift_no_instructions Platform.sample
      { parameters := 1, variableInfos := [{ type := BC_VAR.BC_VAR_STR, name := "a" }] }
      rfl (Or.inr rfl),
    C9_lift_no_instructions Platform.sample { parameters := 1 } rfl (Or.inl rfl)⟩

/-- Claim C10. For a function whose only instruction is `RET0` (with any operands, and with no
variable info beyond its parameters' records), the lifted body is empty: it consists of the one
statement created for the `RET0`, reclassified as Empty, so it contains no Return statement and
no statement other than an Empty placeholder. -/
theorem C10_lift_only_ret0 (platform : Platform) (prototype : Prototype) (a b c d : Nat)
    (hins : prototype.instructions = [{ type := BC_OP.RET0, a := a, b := b, c := c, d := d }])
    (hinfos : prototype.variableInfos = []
      ∨ prototype.variableInfos.length = prototype.parameters % 256) :
    lift platform prototype = Except.ok [empty_ret0 a b c d] := by
  obtain ⟨parameters, instructions, constants, numberConstants, upvalues, variableInfos,
    prototypeSize⟩ := prototype
  simp only at hins hinfos
  subst hins
  cases variableInfos with
  | nil => rfl
  | cons info rest =>
    have hlen : (info :: rest).length = parameters % 256 := by
      rcases hinfos with h | h
      · cases h
      · exact h
    unfold lift build_functions_body build_instructions assign_debug_info
    rw [show build_instructions_body {} (Function.new
          { parameters := parameters,
            instructions := [{ type := BC_OP.RET0, a := a, b := b, c := c, d := d }],
            constants := constants,
            numberConstants := numberConstants, upvalues := upvalues,
            variableInfos := info :: rest, prototypeSize := prototypeSize })
        = ({}, { Function.new
          { parameters := parameters,
            instructions := [{ type := BC_OP.RET0, a := a, b := b, c := c, d := d }],
            constants := constants,
            numberConstants := numberConstants, upvalues := upvalues,
            variableInfos := info :: rest, prototypeSize := prototypeSize } with
            block := [{ new_statement AST_STATEMENT_RETURN with
              instruction := { type := BC_OP.RET0, a := a, b := b, c := c, d := d, id := 0 } }] })
        from rfl]
    simp only []
    rw [assign_debug_info_body_parameters_only _ hlen]
    rfl

/-- The function `function(a) end`, with and without its variable info record, lifts to the one
Empty statement. -/
theorem C10_witness :
    lift Platform.sample
        { parameters := 1, instructions := [{ type := BC_OP.RET0, a := 0, d := 1 }],
          variableInfos := [{ type := BC_VAR.BC_VAR_STR, name := "a", scopeEnd := 1 }] }
      = Except.ok [empty_ret0 0 0 0 1]
    ∧ lift Platform.sample
        { parameters := 1, instructions := [{ type := BC_OP.RET0, a := 0, d := 1 }] }
      = Except.ok [empty_ret0 0 0 0 1] :=
  ⟨C10_lift_only_ret0 Platform.sample
      { parameters := 1, instructions := [{ type := BC_OP.RET0, a := 0, d := 1 }],
        variableInfos := [{ type := BC_VAR.BC_VAR_STR, name := "a", scopeEnd := 1 }] }
      0 0 0 1 rfl (Or.inr rfl),
    C10_lift_only_ret0 Platform.sample
      { parameters := 1, instructions := [{ type := BC_OP.RET0, a := 0, d := 1 }] }
      0 0 0 1 rfl (Or.inl rfl)⟩

/-! ### `KNIL` expansion in `build_expressions` -/

theorem getElem?_append_cons_length {α : Type} (pre : List α) (x : α) (rest : List α) :
    (pre ++ x :: rest)[pre.length]? = some x := by
  rw [List.getElem?_append_right (le_refl _)]
  simp

/-- The iteration of `build_expressions` on a `KNIL` whose operands differ: a fresh `KNIL`
statement with `D - 1` is inserted in front and the statement itself becomes the nil assignment
of slot `D`; `i` is raised so that the inserted statement comes next. -/
theorem build_expressions_step_knil_split (ast : Ast) (function : Function)
    (pre rest : List Statement) (instruction : Instruction)
    (hop : instruction.type = BC_OP.KNIL) (hne : instruction.a ≠ instruction.d)
    (hd : 0 < instruction.d) (hd256 : instruction.d < 256) :
    build_expressions_step ast function (pre ++ knil_statement instruction :: rest) pre.length
      = Except.ok (function,
          pre ++ knil_statement { instruction with d := instruction.d - 1 }
            :: nil_assignment instruction instruction.d false :: rest,
          pre.length + 1) := by
  have h1 : (instruction.d + 65535) % 65536 = instruction.d - 1 := by omega
  have h2 : instruction.d % 256 = instruction.d := Nat.mod_eq_of_lt hd256
  rw [build_expressions_step, getElem?_append_cons_length]
  simp [knil_statement, new_statement, Statement.new, hop, hne,
    nil_assignment, slot_variable, new_primitive, h1, h2]

/-- The iteration of `build_expressions` on a `KNIL` whose operands are equal: the statement
becomes the nil assignment of slot `A`. -/
theorem build_expressions_step_knil_last (ast : Ast) (function : Function)
    (pre rest : List Statement) (instruction : Instruction)
    (hop : instruction.type = BC_OP.KNIL) (heq : instruction.a = instruction.d)
    (hd256 : instruction.d < 256) :
    build_expressions_step ast function (pre ++ knil_statement instruction :: rest) pre.length
      = Except.ok (function,
          pre ++ nil_assignment instruction instruction.a true :: rest, pre.length) := by
  have h2 : instruction.a % 256 = instruction.a := by
    rw [heq]
    exact Nat.mod_eq_of_lt hd256
  rw [build_expressions_step, getElem?_append_cons_length]
  simp [knil_statement, new_statement, Statement.new, hop, heq,
    nil_assignment, slot_variable, new_primitive]
  refine ⟨?_, hd256⟩
  cases instruction
  simp_all

theorem nil_assignment_d (instruction : Instruction) (d slot : Nat) (first : Bool) :
    nil_assignment { instruction with d := d } slot first
      = nil_assignment instruction slot first := by
  cases first <;> simp [nil_assignment]

theorem knil_assignments_succ (instruction : Instruction) (count d : Nat) :
    knil_assignments { instruction with d := d } count
        ++ [nil_assignment instruction (instruction.a + (count + 1)) false]
      = knil_assignments instruction (count + 1) := by
  unfold knil_assignments
  rw [List.range_succ (count + 1), List.map_append]
  simp [nil_assignment_d]

/-- The iterations of `build_expressions` on a `KNIL A D` with `D = A + count`: after
`count + 1` of them the statement is replaced by the nil assignments of the slots `A` to `D` and
the loop stands at the statement in front of them. -/
theorem build_expressions_loop_knil (ast : Ast) (function : Function) (pre : List Statement) :
    ∀ (count : Nat) (rest : List Statement) (instruction : Instruction) (fuel : Nat),
      instruction.type = BC_OP.KNIL → instruction.d = instruction.a + count →
      instruction.d < 256 →
      build_expressions_loop ast (fuel + (count + 1)) (pre.length + 1) function
          (pre ++ knil_statement instruction :: rest)
        = build_expressions_loop ast fuel pre.length function
            (pre ++ knil_assignments instruction count ++ rest) := by
  intro count
  induction count with
  | zero =>
    intro rest instruction fuel hop hd h256
    have heq : instruction.a = instruction.d := by omega
    rw [build_expressions_loop,
      build_expressions_step_knil_last ast function pre rest instruction hop heq h256]
    simp [knil_assignments, List.range_succ]
  | succ count ih =>
    intro rest instruction fuel hop hd h256
    have hne : instruction.a ≠ instruction.d := by omega
    have hpos : 0 < instruction.d := by omega
    rw [show fuel + (count + 1 + 1) = (fuel + (count + 1)) + 1 from rfl, build_expressions_loop,
      build_expressions_step_knil_split ast function pre rest instruction hop hne hpos h256]
    have hd1 : instruction.d - 1 = instruction.a + count := by omega
    have h := ih (nil_assignment instruction instruction.d false :: rest)
      { instruction with d := instruction.d - 1 } fuel hop hd1 (by simp; omega)
    show build_expressions_loop ast (fuel + (count + 1)) (pre.length + 1) function _ = _
    rw [h, ← knil_assignments_succ instruction count (instruction.d - 1), hd]
    simp

/-- Claim C6. For a `KNIL` instruction statement with operands `A < D`, `build_expressions`
produces exactly `D - A + 1` consecutive Assignment statements, each assigning the constant nil
to exactly one slot variable, covering the slots `A`, `A + 1`, ..., `D` once each in increasing
order: wherever the statement stands in a block, the `D - A + 1` iterations that start at it
replace it by these assignments and leave the loop at the statement in front of them; and a block
that consists of the `KNIL` alone is built into exactly these assignments. -/
theorem C6_knil_expands_to_nil_assignments (ast : Ast) (function : Function)
    (pre rest : List Statement) (instruction : Instruction) (fuel : Nat)
    (hop : instruction.type = BC_OP.KNIL) (hlt : instruction.a < instruction.d)
    (h256 : instruction.d < 256) :
    build_expressions_loop ast (fuel + (instruction.d - instruction.a + 1)) (pre.length + 1)
        function (pre ++ knil_statement instruction :: rest)
      = build_expressions_loop ast fuel pre.length function
          (pre ++ knil_expansion instruction ++ rest)
    ∧ build_expressions ast function [knil_statement instruction]
      = Except.ok (function, knil_expansion instruction)
    ∧ (knil_expansion instruction).length = instruction.d - instruction.a + 1
    ∧ ∀ k, k ≤ instruction.d - instruction.a →
        ∃ statement, (knil_expansion instruction)[k]? = some statement
          ∧ statement.type = AST_STATEMENT_ASSIGNMENT
          ∧ statement.assignment.variables_
            = [{ type := AST_VARIABLE_SLOT, slot := instruction.a + k }]
          ∧ statement.assignment.expressions
            = [Expression.constant { type := AST_CONSTANT_NIL }] := by
  have hd : instruction.d = instruction.a + (instruction.d - instruction.a) := by omega
  refine ⟨?_, ?_, ?_, ?_⟩
  · exact build_expressions_loop_knil ast function pre _ rest instruction fuel hop hd h256
  · have hextra : knil_extra (knil_statement instruction) = instruction.d - instruction.a := by
      simp [knil_extra, knil_statement, new_statement, Statement.new, hop]
      omega
    have h := build_expressions_loop_knil ast function [] _ [] instruction 1 hop hd h256
    simp only [List.length_nil, List.nil_append, List.append_nil] at h
    rw [build_expressions, build_expressions_fuel]
    simp only [List.length_singleton, List.map_cons, List.map_nil, List.sum_cons, List.sum_nil,
      hextra]
    rw [show 1 + (instruction.d - instruction.a + 0) + 1
        = 1 + (instruction.d - instruction.a + 1) by omega, h]
    rfl
  · simp [knil_expansion, knil_assignments]
  · intro k hk
    refine ⟨nil_assignment instruction (instruction.a + k) (k == 0), ?_, ?_, ?_, ?_⟩
    · have hr : (List.range (instruction.d - instruction.a + 1))[k]? = some k :=
        List.getElem?_range (by omega)
      simp [knil_expansion, knil_assignments, List.getElem?_map, hr]
    · rfl
    · rfl
    · rfl

/-- The expansion of `KNIL 2 4` (instruction id 7): the three statements `slot2 = nil`,
`slot3 = nil`, `slot4 = nil`. -/
theorem C6_witness :
    (2 < 4 ∧ 4 < 256)
    ∧ build_expressions {} (Function.new {})
        [knil_statement { type := BC_OP.KNIL, a := 2, d := 4, id := 7 }]
      = Except.ok (Function.new {},
          knil_expansion { type := BC_OP.KNIL, a := 2, d := 4, id := 7 }) :=
  ⟨⟨by decide, by decide⟩,
    (C6_knil_expands_to_nil_assignments {} (Function.new {}) [] []
      { type := BC_OP.KNIL, a := 2, d := 4, id := 7 } 0 rfl (by decide) (by decide)).2.1⟩

/-! ### Instruction ids in `build_expressions` -/

set_option maxHeartbeats 4000000 in
theorem build_instruction_expression_instruction (ast : Ast) (function function' : Function)
    (statement statement' : Statement) (exit : Exit)
    (h : build_instruction_expression ast function statement
      = Except.ok (function', statement', exit)) :
    statement'.instruction = statement.instruction := by
  unfold build_instruction_expression at h
  simp only [] at h
  repeat' split at h
  all_goals first
    | (cases h; rfl)
    | (exfalso; cases h)

theorem build_return_expression_instruction (ast : Ast) (statement statement' : Statement)
    (h : build_return_expression ast statement = Except.ok statement') :
    statement'.instruction = statement.instruction ∧ statement'.type = statement.type := by
  unfold build_return_expression at h
  simp only [] at h
  repeat' split at h
  all_goals first
    | (cases h; exact ⟨rfl, rfl⟩)
    | (exfalso; cases h)

theorem build_condition_expression_instruction (function : Function)
    (statement statement' : Statement)
    (h : build_condition_expression function statement = Except.ok statement') :
    statement'.instruction = statement.instruction := by
  unfold build_condition_expression at h
  simp only [] at h
  repeat' split at h
  all_goals first
    | (cases h; rfl)
    | (exfalso; cases h)

theorem build_numeric_for_expression_instruction (function : Function)
    (statement statement' : Statement)
    (h : build_numeric_for_expression function statement = Except.ok statement') :
    statement'.instruction = statement.instruction := by
  unfold build_numeric_for_expression at h
  simp only [] at h
  repeat' split at h
  all_goals first
    | (cases h; rfl)
    | (exfalso; cases h)

theorem build_generic_for_expression_instruction (function : Function)
    (statement statement' : Statement)
    (h : build_generic_for_expression function statement = Except.ok statement') :
    statement'.instruction = statement.instruction := by
  unfold build_generic_for_expression at h
  simp only [] at h
  repeat' split at h
  all_goals first
    | (cases h; rfl)
    | (exfalso; cases h)

theorem build_declaration_expression_instruction (function : Function)
    (statement statement' : Statement)
    (h : build_declaration_expression function statement = Except.ok statement') :
    statement'.instruction = statement.instruction := by
  unfold build_declaration_expression at h
  simp only [] at h
  repeat' split at h
  all_goals first
    | (cases h; rfl)
    | (exfalso; cases h)

/-- Replacing a statement by one with the same instruction id leaves the ids of the block as
they are. -/
theorem instruction_ids_set (block : List Statement) (i : Nat) (statement statement' : Statement)
    (hs : block[i]? = some statement)
    (hid : statement'.instruction.id = statement.instruction.id) :
    instruction_ids (block.set i statement') = instruction_ids block := by
  unfold instruction_ids
  apply List.ext_getElem?
  intro j
  rw [List.getElem?_map, List.getElem?_map, List.getElem?_set]
  by_cases hij : i = j
  · subst hij
    have hlt : i < block.length := by
      rcases Nat.lt_or_ge i block.length with h | h
      · exact h
      · rw [List.getElem?_eq_none h] at hs
        cases hs
    simp [hlt, hs, hid]
  · simp [hij]

/-- The ids of the block after a return has absorbed the elided `UCLO` in front of it: the ids
of the block without the id at the index of the return. -/
theorem instruction_ids_absorb (block : List Statement) (i : Nat)
    (previous statement statement' : Statement)
    (hs : block[i]? = some statement) (hp : block[i - 1]? = some previous)
    (hid : statement'.instruction.id = previous.instruction.id) :
    instruction_ids ((block.set i statement').eraseIdx (i - 1))
      = (instruction_ids block).eraseIdx i := by
  unfold instruction_ids
  apply List.ext_getElem?
  intro j
  rw [List.getElem?_map, List.getElem?_eraseIdx, List.getElem?_eraseIdx]
  by_cases h1 : j < i - 1
  · have h2 : j < i := by omega
    have h3 : i ≠ j := by omega
    simp [h1, h2, List.getElem?_set, h3]
  · by_cases h2 : j < i
    · have h3 : j = i - 1 := by omega
      have h4 : j + 1 = i := by omega
      subst h3
      simp only [h1, h2, if_false, if_true, h4, List.getElem?_map, hp, Option.map_some']
      rw [List.getElem?_set]
      simp only [if_true]
      split
      · simp [hid]
      · rename_i hlen
        exfalso
        rw [List.getElem?_eq_none (Nat.le_of_not_lt hlen)] at hs
        cases hs
    · have h3 : i ≠ j + 1 := by omega
      simp [h1, h2, List.getElem?_set, h3]

theorem getElem?_set_eraseIdx_pred {α : Type} (block : List α) (i : Nat) (x y : α)
    (hi : i ≠ 0) (hs : block[i]? = some x) :
    ((block.set i y).eraseIdx (i - 1))[i - 1]? = some y := by
  have hlt : i < block.length := by
    rcases Nat.lt_or_ge i block.length with h | h
    · exact h
    · rw [List.getElem?_eq_none h] at hs
      cases hs
  rw [List.getElem?_eraseIdx]
  have h1 : i - 1 + 1 = i := by omega
  simp [h1, List.getElem?_set, hlt]

/-- What an iteration of `build_expressions` does to the ids of the block: it keeps the id of
every statement, or a Return statement that directly follows an elided `UCLO` (an Empty
statement whose opcode is `UCLO`) and whose attached label is not valid takes over the id and
the attached label of that `UCLO` statement, which is deleted, or a `KNIL` statement with
`A ≠ D` is given `INVALID_ID`, while the statement inserted in front of it carries its id. -/
theorem build_expressions_step_ids (ast : Ast) (function function' : Function)
    (block block' : List Statement) (i next : Nat) (statement : Statement)
    (hs : block[i]? = some statement)
    (h : build_expressions_step ast function block i = Except.ok (function', block', next)) :
    (statement.type = AST_STATEMENT_RETURN ∧ i ≠ 0
      ∧ function.is_valid_label statement.instruction.attachedLabel = false
      ∧ ∃ previous merged, block[i - 1]? = some previous
        ∧ previous.type = AST_STATEMENT_EMPTY ∧ previous.instruction.type = BC_OP.UCLO
        ∧ next = i - 1 ∧ block'[i - 1]? = some merged
        ∧ merged.type = AST_STATEMENT_RETURN
        ∧ merged.instruction = { statement.instruction with
            id := previous.instruction.id,
            attachedLabel := previous.instruction.attachedLabel }
        ∧ instruction_ids block' = (instruction_ids block).eraseIdx i)
    ∨ (statement.type = AST_STATEMENT_INSTRUCTION ∧ statement.instruction.type = BC_OP.KNIL
      ∧ statement.instruction.a ≠ statement.instruction.d ∧ next = i + 1
      ∧ instruction_ids block'
        = (instruction_ids block).take i
          ++ statement.instruction.id :: INVALID_ID :: (instruction_ids block).drop (i + 1))
    ∨ (next = i ∧ instruction_ids block' = instruction_ids block) := by
  unfold build_expressions_step at h
  rw [hs] at h
  simp only [] at h
  split at h
  · -- Instruction
    rename_i htype
    by_cases hop : statement.instruction.type = BC_OP.KNIL
    · simp only [hop, if_true] at h
      by_cases had : statement.instruction.a = statement.instruction.d
      · simp only [had, if_true] at h
        cases h
        exact Or.inr (Or.inr ⟨rfl, instruction_ids_set block i statement _ hs rfl⟩)
      · simp only [had, if_false] at h
        cases h
        refine Or.inr (Or.inl ⟨htype, hop, had, rfl, ?_⟩)
        simp [instruction_ids, new_statement, Statement.new]
    · simp only [hop, if_false] at h
      split at h
      · cases h
      · rename_i f s e hb
        have hi := build_instruction_expression_instruction ast function f statement s e hb
        cases h
        refine Or.inr (Or.inr ⟨rfl, instruction_ids_set block i statement _ hs ?_⟩)
        cases e <;> simp [hi]
  · -- Return
    rename_i htype
    split at h
    · rename_i previous habsorbed
      split at h
      · cases h
      · rename_i merged hb
        have hm := build_return_expression_instruction ast _ merged hb
        cases h
        have hcond : (i ≠ 0 ∧ function.is_valid_label statement.instruction.attachedLabel = false)
            ∧ block[i - 1]? = some previous
            ∧ previous.type = AST_STATEMENT_EMPTY ∧ previous.instruction.type = BC_OP.UCLO := by
          split at habsorbed
          · rename_i hc
            refine ⟨hc, ?_⟩
            split at habsorbed
            · rename_i p hp
              split at habsorbed
              · rename_i hpt
                cases habsorbed
                exact ⟨hp, hpt⟩
              · cases habsorbed
            · cases habsorbed
          · cases habsorbed
        obtain ⟨⟨hi0, hlabel⟩, hp, hpt, hpo⟩ := hcond
        refine Or.inl ⟨htype, hi0, hlabel, previous, merged, hp, hpt, hpo, rfl,
          getElem?_set_eraseIdx_pred block i statement merged hi0 hs, ?_, hm.1, ?_⟩
        · rw [hm.2]
          exact htype
        · exact instruction_ids_absorb block i previous statement merged hs hp
            (by rw [hm.1])
    · split at h
      · cases h
      · rename_i merged hb
        have hm := build_return_expression_instruction ast _ merged hb
        cases h
        exact Or.inr (Or.inr ⟨rfl, instruction_ids_set block i statement _ hs (by rw [hm.1])⟩)
  · split at h
    · cases h
    · rename_i s hb
      have hi := build_condition_expression_instruction function statement s hb
      cases h
      exact Or.inr (Or.inr ⟨rfl, instruction_ids_set block i statement _ hs (by rw [hi])⟩)
  · split at h
    · cases h
    · rename_i s hb
      have hi := build_numeric_for_expression_instruction function statement s hb
      cases h
      exact Or.inr (Or.inr ⟨rfl, instruction_ids_set block i statement _ hs (by rw [hi])⟩)
  · split at h
    · cases h
    · rename_i s hb
      have hi := build_generic_for_expression_instruction function statement s hb
      cases h
      exact Or.inr (Or.inr ⟨rfl, instruction_ids_set block i statement _ hs (by rw [hi])⟩)
  · split at h
    · cases h
    · rename_i s hb
      have hi := build_declaration_expression_instruction function statement s hb
      cases h
      exact Or.inr (Or.inr ⟨rfl, instruction_ids_set block i statement _ hs (by rw [hi])⟩)
  · cases h
    exact Or.inr (Or.inr ⟨rfl, rfl⟩)

/-- The iteration on the `RET1` of `absorbing_block`: the return absorbs the `UCLO` and the ids
of the block are those it had without the id of the return. -/
theorem build_expressions_step_ids_absorbing :
    build_expressions_step {} absorbing_function absorbing_block 1
      = Except.ok (absorbing_function, [absorbed_return], 0)
    ∧ instruction_ids [absorbed_return] = (instruction_ids absorbing_block).eraseIdx 1 :=
  ⟨rfl,
    (build_expressions_step_ids {} absorbing_function absorbing_function
        absorbing_block [absorbed_return] 1 0
        { new_statement AST_STATEMENT_RETURN with
          instruction := { type := BC_OP.RET1, a := 0, d := 2, id := 2, attachedLabel := 0 } }
        rfl rfl).elim
      (fun h => by
        obtain ⟨_, _, _, _, _, _, _, _, _, _, _, _, h⟩ := h
        exact h)
      (fun h => h.elim (fun h => absurd h.1 (by decide)) (fun h => absurd h.1 (by decide)))⟩

theorem Statement.free_of_eq (kind : AST_STATEMENT) (statement : Statement) :
    statement.free_of kind
      = (decide (statement.type ≠ kind) && block_free_of kind statement.block) := by
  cases statement
  simp [Statement.free_of]

theorem Statement.conditions_in_reach_eq (statement : Statement) :
    statement.conditions_in_reach
      = if holds_block statement.type then block_conditions_in_reach statement.block
        else block_free_of AST_STATEMENT_CONDITION statement.block := by
  cases statement
  simp [Statement.conditions_in_reach]

theorem block_free_of_iff (kind : AST_STATEMENT) (block : List Statement) :
    block_free_of kind block = true ↔ ∀ s ∈ block, s.free_of kind = true := by
  induction block with
  | nil => simp [block_free_of]
  | cons statement rest ih => simp [block_free_of, ih]

theorem block_conditions_in_reach_iff (block : List Statement) :
    block_conditions_in_reach block = true ↔ ∀ s ∈ block, s.conditions_in_reach = true := by
  induction block with
  | nil => simp [block_conditions_in_reach]
  | cons statement rest ih => simp [block_conditions_in_reach, ih]

theorem modify_statement_append_cons_length (pre : List Statement) (x : Statement)
    (rest : List Statement) (f : Statement → Statement) :
    modify_statement (pre ++ x :: rest) pre.length f = pre ++ f x :: rest := by
  unfold modify_statement
  induction pre with
  | nil => rfl
  | cons a pre ih => simpa [List.modify] using ih

theorem set_append_cons_length {α : Type} (pre : List α) (x y : α) (rest : List α) :
    (pre ++ x :: rest).set pre.length y = pre ++ y :: rest := by
  simp

theorem find_if_end_ge (function : Function) (block : List Statement)
    (previousBlocks : List BlockInfo) (target : Nat) :
    ∀ (count index targetLabel : Nat),
      index ≤ (find_if_end function block previousBlocks target count index targetLabel).1 := by
  intro count
  induction count with
  | zero =>
    intro index targetLabel
    simp [find_if_end]
  | succ count ih =>
    intro index targetLabel
    unfold find_if_end
    simp only []
    split
    · exact le_refl _
    · exact le_trans (Nat.le_succ index) (ih (index + 1) _)

theorem framed_of_frameable (statement : Statement) (h : statement.frameable = true)
    (hb : holds_block statement.type = false)
    (hc : statement.type ≠ AST_STATEMENT_CONDITION) : statement.framed = true := by
  simp only [Statement.frameable, Statement.framed, Bool.and_eq_true,
    Statement.conditions_in_reach_eq, Statement.free_of_eq, hb] at h ⊢
  simp only [Bool.false_eq_true, if_false] at h
  exact ⟨⟨by simpa using hc, h.1⟩, h.2⟩

theorem framed_loop (statement : Statement) (nested : List Statement)
    (h : statement.frameable = true) (hb : holds_block statement.type = true)
    (hn : ∀ s ∈ nested, s.framed = true) :
    Statement.framed { statement with block := nested } = true := by
  simp only [Statement.frameable, Statement.framed, Bool.and_eq_true,
    Statement.conditions_in_reach_eq, Statement.free_of_eq, hb] at h ⊢
  have hc : statement.type ≠ AST_STATEMENT_CONDITION := by
    intro hc
    rw [hc] at hb
    cases hb
  refine ⟨⟨by simpa using hc, ?_⟩, h.2.1, ?_⟩
  · rw [block_free_of_iff]
    intro s hs
    have := hn s hs
    simp only [Statement.framed, Bool.and_eq_true] at this
    exact this.1
  · rw [block_free_of_iff]
    intro s hs
    have := hn s hs
    simp only [Statement.framed, Bool.and_eq_true] at this
    exact this.2

theorem framed_if (statement : Statement) (body : List Statement)
    (h : statement.frameable = true) (hc : statement.type = AST_STATEMENT_CONDITION)
    (hn : ∀ s ∈ body, s.framed = true) :
    Statement.framed { statement with
      type := AST_STATEMENT_IF, block := body ++ statement.block } = true := by
  simp only [Statement.frameable, Statement.framed, Bool.and_eq_true,
    Statement.conditions_in_reach_eq, Statement.free_of_eq, hc, holds_block] at h ⊢
  simp only [Bool.false_eq_true, if_false] at h
  refine ⟨⟨by simp, ?_⟩, by simp, ?_⟩
  · rw [block_free_of_iff]
    intro s hs
    rcases List.mem_append.1 hs with hs | hs
    · have := hn s hs
      simp only [Statement.framed, Bool.and_eq_true] at this
      exact this.1
    · exact (block_free_of_iff _ _).1 h.1 s hs
  · rw [block_free_of_iff]
    intro s hs
    rcases List.mem_append.1 hs with hs | hs
    · have := hn s hs
      simp only [Statement.framed, Bool.and_eq_true] at this
      exact this.2
    · exact (block_free_of_iff _ _).1 h.2.2 s hs

theorem frameable_block (statement : Statement) (h : statement.frameable = true)
    (hb : holds_block statement.type = true) :
    ∀ s ∈ statement.block, s.frameable = true := by
  simp only [Statement.frameable, Bool.and_eq_true,
    Statement.conditions_in_reach_eq, Statement.free_of_eq, hb, if_true] at h
  intro s hs
  simp only [Statement.frameable, Bool.and_eq_true]
  exact ⟨(block_conditions_in_reach_iff _).1 h.1 s hs, (block_free_of_iff _ _).1 h.2.2 s hs⟩

/-- One iteration of `build_if_statements` at the statement that follows `pre`: the statements
in front of it stay as they are, and the statement joins the framed ones behind it. -/
theorem build_if_statements_step_framed
    (recurse : Function → List Statement → List BlockInfo →
      Except Error (Function × List Statement))
    (hrec : ∀ function block previousBlocks function' block',
      (∀ s ∈ block, s.frameable = true) →
      recurse function block previousBlocks = Except.ok (function', block') →
      ∀ s ∈ block', s.framed = true)
    (function function' : Function) (pre post block' : List Statement) (statement : Statement)
    (previousBlocks : List BlockInfo)
    (hst : statement.frameable = true) (hpost : ∀ s ∈ post, s.framed = true)
    (h : build_if_statements_step recurse function (pre ++ statement :: post) previousBlocks
      pre.length = Except.ok (function', block')) :
    ∃ post', block' = pre ++ post' ∧ ∀ s ∈ post', s.framed = true := by
  unfold build_if_statements_step at h
  rw [getElem?_append_cons_length] at h
  simp only [] at h
  cases hty : statement.type <;> simp only [hty] at h
  case AST_STATEMENT_CONDITION =>
    rw [set_append_cons_length] at h
    generalize hfe : find_if_end function
      (pre ++ { statement with type := AST_STATEMENT_IF } :: post) previousBlocks
      statement.instruction.target
      ((pre ++ { statement with type := AST_STATEMENT_IF } :: post).length - pre.length)
      pre.length INVALID_ID = found at h
    obtain ⟨index, targetLabel⟩ := found
    have hge : pre.length ≤ index := by
      have := find_if_end_ge function
        (pre ++ { statement with type := AST_STATEMENT_IF } :: post) previousBlocks
        statement.instruction.target
        ((pre ++ { statement with type := AST_STATEMENT_IF } :: post).length - pre.length)
        pre.length INVALID_ID
      rw [hfe] at this
      exact this
    simp only [] at h
    split at h
    · cases h
      obtain ⟨k, rfl⟩ := Nat.exists_eq_add_of_le hge
      have htake : (pre ++ { statement with type := AST_STATEMENT_IF } :: post).take
          (pre.length + 1) = pre ++ [{ statement with type := AST_STATEMENT_IF }] := by
        simp [List.take_append]
      have hdrop : (pre ++ { statement with type := AST_STATEMENT_IF } :: post).drop
          (pre.length + k + 1) = post.drop k := by
        rw [show pre.length + k + 1 = pre.length + (k + 1) by omega, List.drop_append]
        rfl
      have hbody : ((pre ++ { statement with type := AST_STATEMENT_IF } :: post).take
          (pre.length + k + 1)).drop (pre.length + 1) = post.take k := by
        rw [show pre.length + k + 1 = pre.length + (k + 1) by omega, List.take_append,
          show pre.length + 1 = pre.length + 1 from rfl, List.drop_append]
        rfl
      rw [htake, hdrop, hbody, List.append_assoc, List.singleton_append,
        modify_statement_append_cons_length]
      refine ⟨_, rfl, ?_⟩
      intro s hs
      rcases List.mem_cons.1 hs with hs | hs
      · rw [hs]
        exact framed_if statement (post.take k) hst hty
          (fun s hs => hpost s (List.mem_of_mem_take hs))
      · exact hpost s (List.mem_of_mem_drop hs)
    · cases h
  case AST_STATEMENT_NUMERIC_FOR | AST_STATEMENT_GENERIC_FOR | AST_STATEMENT_LOOP
      | AST_STATEMENT_DECLARATION =>
    split at h
    · cases h
    · rename_i f nested hr
      cases h
      have hb : holds_block statement.type = true := by
        rw [hty]
        rfl
      rw [modify_statement_append_cons_length]
      refine ⟨_, rfl, ?_⟩
      intro s hs
      rcases List.mem_cons.1 hs with hs | hs
      · rw [hs]
        exact framed_loop statement nested hst hb
          (hrec _ _ _ _ _ (frameable_block statement hst hb) hr)
      · exact hpost s hs
  all_goals
    cases h
    refine ⟨_, rfl, ?_⟩
    intro s hs
    rcases List.mem_cons.1 hs with hs | hs
    · rw [hs]
      exact framed_of_frameable statement hst (by rw [hty]; rfl) (by rw [hty]; decide)
    · exact hpost s hs

/-- The loop of `build_if_statements`, with the statements of `pre` still to visit and those of
`post` framed: every statement of the result is framed. -/
theorem build_if_statements_loop_framed
    (recurse : Function → List Statement → List BlockInfo →
      Except Error (Function × List Statement))
    (hrec : ∀ function block previousBlocks function' block',
      (∀ s ∈ block, s.frameable = true) →
      recurse function block previousBlocks = Except.ok (function', block') →
      ∀ s ∈ block', s.framed = true)
    (previousBlocks : List BlockInfo) (function' : Function) (block' : List Statement) :
    ∀ (pre : List Statement) (function : Function) (post : List Statement),
      (∀ s ∈ pre, s.frameable = true) → (∀ s ∈ post, s.framed = true) →
      build_if_statements_loop recurse previousBlocks pre.length function (pre ++ post)
        = Except.ok (function', block') →
      ∀ s ∈ block', s.framed = true := by
  intro pre
  induction pre using List.reverseRecOn with
  | nil =>
    intro function post _ hpost h
    simp only [List.length_nil, List.nil_append, build_if_statements_loop] at h
    cases h
    exact hpost
  | append_singleton pre statement ih =>
    intro function post hpre hpost h
    rw [List.length_append, List.length_singleton, build_if_statements_loop,
      List.append_assoc, List.singleton_append] at h
    split at h
    · cases h
    · rename_i function₁ block₁ hstep
      obtain ⟨post', rfl, hpost'⟩ := build_if_statements_step_framed recurse hrec function
        function₁ pre post block₁ statement previousBlocks
        (hpre statement (by simp)) hpost hstep
      exact ih function₁ post' (fun s hs => hpre s (by simp [hs])) hpost' h

/-- The function `build_if_statements` at any nesting bound: a block whose statements are
frameable comes out framed. -/
theorem build_if_statements_depth_framed :
    ∀ (depth : Nat) (function : Function) (block : List Statement)
      (previousBlocks : List BlockInfo) (function' : Function) (block' : List Statement),
      (∀ s ∈ block, s.frameable = true) →
      build_if_statements_depth depth function block previousBlocks
        = Except.ok (function', block') →
      ∀ s ∈ block', s.framed = true := by
  intro depth
  induction depth with
  | zero =>
    intro function block previousBlocks function' block' _ h
    cases h
  | succ depth ih =>
    intro function block previousBlocks function' block' hblock h
    rw [build_if_statements_depth] at h
    have h' : build_if_statements_loop (build_if_statements_depth depth) previousBlocks
        block.length function (block ++ []) = Except.ok (function', block') := by
      rw [List.append_nil]
      exact h
    exact build_if_statements_loop_framed (build_if_statements_depth depth) ih previousBlocks
      function' block' block function [] hblock (by simp) h'

/-- After `build_if_statements` no `Condition` and no `Instruction` is left anywhere in the tree
of the block, when the block comes without an `Instruction` and with its conditions in reach. -/
theorem build_if_statements_framed (function function' : Function)
    (block block' : List Statement) (previousBlocks : List BlockInfo)
    (hreach : block_conditions_in_reach block = true)
    (hfree : block_free_of AST_STATEMENT_INSTRUCTION block = true)
    (h : build_if_statements function block previousBlocks = Except.ok (function', block')) :
    block_free_of AST_STATEMENT_CONDITION block' = true
      ∧ block_free_of AST_STATEMENT_INSTRUCTION block' = true := by
  have hall := build_if_statements_depth_framed _ function block previousBlocks function' block'
    (fun s hs => by
      simp only [Statement.frameable, Bool.and_eq_true]
      exact ⟨(block_conditions_in_reach_iff _).1 hreach s hs,
        (block_free_of_iff _ _).1 hfree s hs⟩) h
  constructor
  · rw [block_free_of_iff]
    intro s hs
    have := hall s hs
    simp only [Statement.framed, Bool.and_eq_true] at this
    exact this.1
  · rw [block_free_of_iff]
    intro s hs
    have := hall s hs
    simp only [Statement.framed, Bool.and_eq_true] at this
    exact this.2

/-! ### No `Instruction` after `build_expressions` -/

theorem nested_free_nil {kind : AST_STATEMENT} : nested_free kind [] := by
  intro s hs
  cases hs

theorem nested_free_cons {kind : AST_STATEMENT} (statement : Statement) (block : List Statement) :
    nested_free kind (statement :: block)
      ↔ block_free_of kind statement.block = true ∧ nested_free kind block := by
  simp [nested_free]

theorem nested_free_append {kind : AST_STATEMENT} (front back : List Statement) :
    nested_free kind (front ++ back) ↔ nested_free kind front ∧ nested_free kind back := by
  simp only [nested_free, List.mem_append]
  constructor
  · intro h
    exact ⟨fun s hs => h s (Or.inl hs), fun s hs => h s (Or.inr hs)⟩
  · rintro ⟨h1, h2⟩ s (hs | hs)
    · exact h1 s hs
    · exact h2 s hs

theorem nested_free_take {kind : AST_STATEMENT}
    (block : List Statement) (n : Nat) (h : nested_free kind block) :
    nested_free kind (block.take n) :=
  fun s hs => h s (List.mem_of_mem_take hs)

theorem nested_free_drop {kind : AST_STATEMENT}
    (block : List Statement) (n : Nat) (h : nested_free kind block) :
    nested_free kind (block.drop n) :=
  fun s hs => h s (List.mem_of_mem_drop hs)

theorem nested_free_eraseIdx {kind : AST_STATEMENT}
    (block : List Statement) (n : Nat) (h : nested_free kind block) :
    nested_free kind (block.eraseIdx n) :=
  fun s hs => h s (List.mem_of_mem_eraseIdx hs)

theorem nested_free_set {kind : AST_STATEMENT}
    (block : List Statement) (n : Nat) (statement : Statement)
    (h : nested_free kind block)
    (hs : block_free_of kind statement.block = true) :
    nested_free kind (block.set n statement) := by
  intro s hmem
  rcases List.mem_or_eq_of_mem_set hmem with hmem | rfl
  · exact h s hmem
  · exact hs

theorem nested_free_map {kind : AST_STATEMENT} (block : List Statement)
    (f : Statement → Statement)
    (hf : ∀ s, (f s).block = s.block) (h : nested_free kind block) :
    nested_free kind (block.map f) := by
  intro s hmem
  obtain ⟨x, hx, rfl⟩ := List.mem_map.1 hmem
  rw [hf]
  exact h x hx

theorem nested_free_modify {kind : AST_STATEMENT}
    (block : List Statement) (n : Nat) (f : Statement → Statement)
    (hf : ∀ s, (f s).block = s.block) (h : nested_free kind block) :
    nested_free kind (modify_statement block n f) := by
  unfold modify_statement
  induction block generalizing n with
  | nil =>
    rw [List.modify_nil]
    exact h
  | cons a block ih =>
    rw [nested_free_cons] at h
    cases n with
    | zero =>
      rw [List.modify_zero_cons, nested_free_cons, hf]
      exact h
    | succ n =>
      rw [List.modify_succ_cons, nested_free_cons]
      exact ⟨h.1, ih n h.2⟩

theorem nested_free_of_free {kind : AST_STATEMENT} (block : List Statement)
    (h : block_free_of kind block = true) : nested_free kind block := by
  intro s hs
  have := (block_free_of_iff _ _).1 h s hs
  rw [Statement.free_of_eq, Bool.and_eq_true] at this
  exact this.2

/-! #### Passes P1 to P3 leave every statement without a nested block -/

theorem build_instructions_step_flat (ast : Ast) (function : Function) (i : Nat) :
    (build_instructions_step ast function i).2.2.block = [] := by
  unfold build_instructions_step
  simp only [new_function, new_statement, Statement.new]
  split <;> simp

theorem build_instructions_loop_nested_free {kind : AST_STATEMENT} (n : Nat) :
    ∀ (ast : Ast) (function : Function), nested_free kind function.block →
      nested_free kind (build_instructions_loop n ast function).2.block := by
  induction n with
  | zero =>
    intro ast function h
    exact h
  | succ n ih =>
    intro ast function h
    obtain ⟨_, hb⟩ := build_instructions_step_prototype ast function n
    have hf := build_instructions_step_flat ast function n
    simp only [build_instructions_loop]
    generalize build_instructions_step ast function n = r at hb hf
    obtain ⟨ast1, function1, statement⟩ := r
    simp only at hb hf ⊢
    apply ih
    simp only []
    rw [nested_free_cons, hf, hb]
    exact ⟨rfl, h⟩

theorem build_instructions_body_nested_free {kind : AST_STATEMENT}
    (ast : Ast) (function : Function) :
    nested_free kind (build_instructions_body ast function).2.block :=
  build_instructions_loop_nested_free _ ast _ nested_free_nil

theorem assign_debug_info_step_block (function function' : Function) (info : VariableInfo)
    (active active' : List Nat)
    (h : assign_debug_info_step function info active = Except.ok (function', active')) :
    function'.block = function.block := by
  unfold assign_debug_info_step at h
  simp only [] at h
  repeat' split at h
  all_goals first
    | (cases h; rfl)
    | (exfalso; cases h)

theorem assign_debug_info_loop_block :
    ∀ (infos : List VariableInfo) (function function' : Function) (active : List Nat),
      assign_debug_info_loop infos function active = Except.ok function' →
      function'.block = function.block := by
  intro infos
  induction infos with
  | nil =>
    intro function function' active h
    cases h
    rfl
  | cons info rest ih =>
    intro function function' active h
    rw [assign_debug_info_loop] at h
    split at h
    · cases h
    · rename_i function₁ active₁ hstep
      rw [ih function₁ function' active₁ h,
        assign_debug_info_step_block function function₁ info active active₁ hstep]

theorem assign_debug_info_body_block (function function' : Function)
    (h : assign_debug_info_body function = Except.ok function') :
    function'.block = function.block := by
  unfold assign_debug_info_body at h
  simp only [] at h
  split at h
  · cases h
  · have := assign_debug_info_loop_block _ _ _ _ h
    exact this

theorem add_jump_block (function : Function) (id target : Nat) :
    (function.add_jump id target).block = function.block := by
  unfold Function.add_jump
  split <;> rfl

theorem remove_jump_block (function : Function) (id target : Nat) :
    (function.remove_jump id target).block = function.block := by
  unfold Function.remove_jump
  split <;> rfl

theorem group_jumps_first_step_nested_free {kind : AST_STATEMENT}
    (function function' : Function) (i : Nat)
    (hf : nested_free kind function.block)
    (h : group_jumps_first_step function i = Except.ok function') :
    nested_free kind function'.block := by
  unfold group_jumps_first_step at h
  simp only [] at h
  repeat' split at h
  all_goals first
    | (exfalso; cases h; done)
    | (cases h
       try simp only [add_jump_block, apply_ite Function.block, ite_self]
       first
         | exact hf
         | exact nested_free_modify _ _ _ (fun _ => rfl) hf
         | exact nested_free_eraseIdx _ _ (nested_free_modify _ _ _ (fun _ => rfl) hf))

theorem group_jumps_first_loop_nested_free {kind : AST_STATEMENT} :
    ∀ (i : Nat) (function function' : Function), nested_free kind function.block →
      group_jumps_first_loop i function = Except.ok function' →
      nested_free kind function'.block := by
  intro i
  induction i with
  | zero =>
    intro function function' hf h
    cases h
    exact hf
  | succ i ih =>
    intro function function' hf h
    rw [group_jumps_first_loop] at h
    split at h
    · rename_i function₁ hstep
      exact ih function₁ function'
        (group_jumps_first_step_nested_free function function₁ i hf hstep) h
    · cases h

theorem group_jumps_second_step_nested_free {kind : AST_STATEMENT}
    (function function' : Function) (i : Nat)
    (hf : nested_free kind function.block)
    (h : group_jumps_second_step function i = Except.ok function') :
    nested_free kind function'.block := by
  unfold group_jumps_second_step at h
  simp only [] at h
  repeat' split at h
  all_goals first
    | (exfalso; cases h; done)
    | (cases h
       try simp only [add_jump_block, remove_jump_block]
       repeat first
         | exact hf
         | refine nested_free_eraseIdx _ _ ?_
         | refine nested_free_modify _ _ _ (fun _ => rfl) ?_)

theorem group_jumps_second_loop_nested_free {kind : AST_STATEMENT} :
    ∀ (i : Nat) (function function' : Function), nested_free kind function.block →
      group_jumps_second_loop i function = Except.ok function' →
      nested_free kind function'.block := by
  intro i
  induction i with
  | zero =>
    intro function function' hf h
    cases h
    exact hf
  | succ i ih =>
    intro function function' hf h
    rw [group_jumps_second_loop] at h
    split at h
    · rename_i function₁ hstep
      exact ih function₁ function'
        (group_jumps_second_step_nested_free function function₁ i hf hstep) h
    · cases h

theorem group_jumps_third_loop_nested_free {kind : AST_STATEMENT} :
    ∀ (i : Nat) (function function' : Function), nested_free kind function.block →
      group_jumps_third_loop i function = Except.ok function' →
      nested_free kind function'.block := by
  intro i
  induction i with
  | zero =>
    intro function function' hf h
    cases h
    exact hf
  | succ i ih =>
    intro function function' hf h
    rw [group_jumps_third_loop] at h
    simp only [] at h
    split at h
    · cases h
    · split at h
      · rename_i function₁ hfused
        refine ih function₁ function' ?_ h
        repeat' split at hfused
        all_goals first
          | (exfalso; cases hfused; done)
          | (cases hfused
             try simp only [add_jump_block, remove_jump_block]
             repeat first
               | exact hf
               | refine nested_free_modify _ _ _ (fun _ => rfl) ?_)
      · split at h
        · cases h
          exact nested_free_modify _ _ _ (fun _ => rfl) hf
        · cases h
          exact hf

theorem group_jumps_body_nested_free {kind : AST_STATEMENT} (function function' : Function)
    (hf : nested_free kind function.block)
    (h : group_jumps_body function = Except.ok function') :
    nested_free kind function'.block := by
  unfold group_jumps_body at h
  cases h1 : group_jumps_first_loop function.block.length function with
  | error e =>
    rw [h1] at h
    cases h
  | ok function₁ =>
    rw [h1] at h
    cases h2 : group_jumps_second_loop function₁.block.length function₁ with
    | error e =>
      simp only [bind, Except.bind, h2] at h
      cases h
    | ok function₂ =>
      simp only [bind, Except.bind, h2] at h
      exact group_jumps_third_loop_nested_free _ function₂ function'
        (group_jumps_second_loop_nested_free _ function₁ function₂
          (group_jumps_first_loop_nested_free _ function function₁ hf h1) h2) h

theorem take_append_cons_length {α : Type} (pre : List α) (x : α) (rest : List α) :
    (pre ++ x :: rest).take pre.length = pre := by
  simp

theorem drop_append_cons_length {α : Type} (pre : List α) (x : α) (rest : List α) :
    (pre ++ x :: rest).drop (pre.length + 1) = rest := by
  simp

/-! #### `build_expressions` turns every `Instruction` of its block into an assignment -/

set_option maxHeartbeats 4000000 in
theorem build_instruction_expression_frame (ast : Ast) (function function' : Function)
    (statement statement' : Statement) (exit : Exit)
    (h : build_instruction_expression ast function statement
      = Except.ok (function', statement', exit)) :
    statement'.type ≠ AST_STATEMENT_INSTRUCTION ∧ statement'.block = statement.block := by
  unfold build_instruction_expression at h
  simp only [] at h
  repeat' split at h
  all_goals first
    | (exfalso; cases h; done)
    | (cases h
       refine ⟨?_, rfl⟩
       first
         | decide
         | (simp only []
            decide))

theorem build_return_expression_frame (ast : Ast) (statement statement' : Statement)
    (h : build_return_expression ast statement = Except.ok statement') :
    statement'.type = statement.type ∧ statement'.block = statement.block := by
  unfold build_return_expression at h
  simp only [] at h
  repeat' split at h
  all_goals first
    | (cases h; exact ⟨rfl, rfl⟩)
    | (exfalso; cases h)

theorem build_condition_expression_frame (function : Function)
    (statement statement' : Statement)
    (h : build_condition_expression function statement = Except.ok statement') :
    statement'.type = statement.type ∧ statement'.block = statement.block := by
  unfold build_condition_expression at h
  simp only [] at h
  repeat' split at h
  all_goals first
    | (cases h; exact ⟨rfl, rfl⟩)
    | (exfalso; cases h)

theorem build_numeric_for_expression_frame (function : Function)
    (statement statement' : Statement)
    (h : build_numeric_for_expression function statement = Except.ok statement') :
    statement'.type = statement.type ∧ statement'.block = statement.block := by
  unfold build_numeric_for_expression at h
  simp only [] at h
  repeat' split at h
  all_goals first
    | (cases h; exact ⟨rfl, rfl⟩)
    | (exfalso; cases h)

theorem build_generic_for_expression_frame (function : Function)
    (statement statement' : Statement)
    (h : build_generic_for_expression function statement = Except.ok statement') :
    statement'.type = statement.type ∧ statement'.block = statement.block := by
  unfold build_generic_for_expression at h
  simp only [] at h
  repeat' split at h
  all_goals first
    | (cases h; exact ⟨rfl, rfl⟩)
    | (exfalso; cases h)

theorem build_declaration_expression_frame (function : Function)
    (statement statement' : Statement)
    (h : build_declaration_expression function statement = Except.ok statement') :
    statement'.type = statement.type ∧ statement'.block = statement.block := by
  unfold build_declaration_expression at h
  simp only [] at h
  repeat' split at h
  all_goals first
    | (cases h; exact ⟨rfl, rfl⟩)
    | (exfalso; cases h)

theorem free_of_instruction_of_frame (statement statement' : Statement)
    (hst : block_free_of AST_STATEMENT_INSTRUCTION statement.block = true)
    (htype : statement'.type ≠ AST_STATEMENT_INSTRUCTION)
    (hblock : statement'.block = statement.block) :
    statement'.free_of AST_STATEMENT_INSTRUCTION = true := by
  rw [Statement.free_of_eq, hblock, hst]
  simpa using htype

theorem eraseIdx_length_pred_append {α : Type} (pre : List α) (rest : List α)
    (h : pre.length ≠ 0) :
    (pre ++ rest).eraseIdx (pre.length - 1) = pre.eraseIdx (pre.length - 1) ++ rest :=
  List.eraseIdx_append_of_lt_length (by omega) rest

/-- One iteration of `build_expressions` at the statement that follows `pre`, when the
statements behind it hold no `Instruction`: the block splits again at the index the iteration
ends with, the statement has joined the ones without `Instruction`, and a statement that a `KNIL`
inserts stands in front, to be visited next. -/
theorem build_expressions_step_free (ast : Ast) (function function' : Function)
    (pre post block' : List Statement) (statement : Statement) (next : Nat)
    (hpre : nested_free AST_STATEMENT_INSTRUCTION pre)
    (hst : block_free_of AST_STATEMENT_INSTRUCTION statement.block = true)
    (hpost : ∀ s ∈ post, s.free_of AST_STATEMENT_INSTRUCTION = true)
    (h : build_expressions_step ast function (pre ++ statement :: post) pre.length
      = Except.ok (function', block', next)) :
    ∃ pre' post', block' = pre' ++ post' ∧ pre'.length = next
      ∧ nested_free AST_STATEMENT_INSTRUCTION pre'
      ∧ ∀ s ∈ post', s.free_of AST_STATEMENT_INSTRUCTION = true := by
  have hcons : ∀ s' : Statement, s'.type ≠ AST_STATEMENT_INSTRUCTION →
      s'.block = statement.block →
      ∀ s ∈ s' :: post, s.free_of AST_STATEMENT_INSTRUCTION = true := by
    intro s' htype hblock s hs
    rcases List.mem_cons.1 hs with hs | hs
    · rw [hs]
      exact free_of_instruction_of_frame statement s' hst htype hblock
    · exact hpost s hs
  unfold build_expressions_step at h
  rw [getElem?_append_cons_length] at h
  simp only [set_append_cons_length, take_append_cons_length, drop_append_cons_length] at h
  cases hty : statement.type <;> simp only [hty] at h
  case AST_STATEMENT_INSTRUCTION =>
    by_cases hop : statement.instruction.type = BC_OP.KNIL
    · simp only [hop, if_true] at h
      by_cases had : statement.instruction.a = statement.instruction.d
      · simp only [had, if_true] at h
        cases h
        exact ⟨pre, _, rfl, rfl, hpre, hcons _ (by simp) rfl⟩
      · simp only [had, if_false] at h
        cases h
        rw [show ∀ (a b : Statement), pre ++ a :: b :: post = (pre ++ [a]) ++ b :: post from
          fun a b => by simp]
        refine ⟨_, _, rfl, by simp, ?_, hcons _ (by simp) rfl⟩
        rw [nested_free_append]
        refine ⟨hpre, ?_⟩
        intro s hs
        rw [List.mem_singleton] at hs
        rw [hs]
        rfl
    · simp only [hop, if_false] at h
      split at h
      · cases h
      · rename_i f s e hb
        have hframe := build_instruction_expression_frame ast function f statement s e hb
        cases h
        refine ⟨pre, _, rfl, rfl, hpre, hcons _ ?_ ?_⟩
        · cases e <;> exact hframe.1
        · cases e <;> exact hframe.2
  case AST_STATEMENT_RETURN =>
    split at h
    · rename_i previous habsorbed
      split at h
      · cases h
      · rename_i merged hb
        have hm := build_return_expression_frame ast _ merged hb
        cases h
        have hi0 : pre.length ≠ 0 := by
          split at habsorbed
          · rename_i hc
            exact hc.1
          · cases habsorbed
        rw [eraseIdx_length_pred_append pre _ hi0]
        refine ⟨_, _, rfl, ?_, nested_free_eraseIdx _ _ hpre, hcons _ ?_ hm.2⟩
        · rw [List.length_eraseIdx, if_pos (by omega)]
        · rw [hm.1]
          simp [hty]
    · split at h
      · cases h
      · rename_i merged hb
        have hm := build_return_expression_frame ast _ merged hb
        cases h
        exact ⟨pre, _, rfl, rfl, hpre, hcons _ (by rw [hm.1, hty]; decide) hm.2⟩
  case AST_STATEMENT_CONDITION =>
    split at h
    · cases h
    · rename_i s hb
      have hm := build_condition_expression_frame function statement s hb
      cases h
      exact ⟨pre, _, rfl, rfl, hpre, hcons _ (by rw [hm.1, hty]; decide) hm.2⟩
  case AST_STATEMENT_NUMERIC_FOR =>
    split at h
    · cases h
    · rename_i s hb
      have hm := build_numeric_for_expression_frame function statement s hb
      cases h
      exact ⟨pre, _, rfl, rfl, hpre, hcons _ (by rw [hm.1, hty]; decide) hm.2⟩
  case AST_STATEMENT_GENERIC_FOR =>
    split at h
    · cases h
    · rename_i s hb
      have hm := build_generic_for_expression_frame function statement s hb
      cases h
      exact ⟨pre, _, rfl, rfl, hpre, hcons _ (by rw [hm.1, hty]; decide) hm.2⟩
  case AST_STATEMENT_DECLARATION =>
    split at h
    · cases h
    · rename_i s hb
      have hm := build_declaration_expression_frame function statement s hb
      cases h
      exact ⟨pre, _, rfl, rfl, hpre, hcons _ (by rw [hm.1, hty]; decide) hm.2⟩
  all_goals
    cases h
    exact ⟨pre, _, rfl, rfl, hpre, hcons _ (by rw [hty]; decide) rfl⟩

theorem build_expressions_loop_free (ast : Ast) (function' : Function)
    (block' : List Statement) :
    ∀ (fuel : Nat) (pre post : List Statement) (function : Function),
      nested_free AST_STATEMENT_INSTRUCTION pre →
      (∀ s ∈ post, s.free_of AST_STATEMENT_INSTRUCTION = true) →
      build_expressions_loop ast fuel pre.length function (pre ++ post)
        = Except.ok (function', block') →
      ∀ s ∈ block', s.free_of AST_STATEMENT_INSTRUCTION = true := by
  intro fuel
  induction fuel with
  | zero =>
    intro pre post function _ _ h
    cases h
  | succ fuel ih =>
    intro pre post function hpre hpost h
    rcases List.eq_nil_or_concat pre with rfl | ⟨pre₀, statement, rfl⟩
    · simp only [List.length_nil, List.nil_append, build_expressions_loop] at h
      cases h
      exact hpost
    · rw [List.concat_eq_append] at h hpre
      rw [List.length_append, List.length_singleton, build_expressions_loop,
        List.append_assoc, List.singleton_append] at h
      rw [nested_free_append] at hpre
      split at h
      · cases h
      · rename_i function₁ block₁ next hstep
        obtain ⟨pre', post', rfl, rfl, hpre', hpost'⟩ := build_expressions_step_free ast
          function
          function₁ pre₀ post block₁ statement next hpre.1
          (hpre.2 statement (by simp)) hpost hstep
        exact ih pre' post' function₁ hpre' hpost' h

/-- After `build_expressions` no `Instruction` is left anywhere in the tree of the block, when
the nested blocks held none before. -/
theorem build_expressions_free (ast : Ast) (function function' : Function)
    (block block' : List Statement) (hblock : nested_free AST_STATEMENT_INSTRUCTION block)
    (h : build_expressions ast function block = Except.ok (function', block')) :
    block_free_of AST_STATEMENT_INSTRUCTION block' = true := by
  rw [block_free_of_iff]
  unfold build_expressions at h
  have h' : build_expressions_loop ast (build_expressions_fuel block) block.length function
      (block ++ []) = Except.ok (function', block') := by
    rw [List.append_nil]
    exact h
  exact build_expressions_loop_free ast function' block' _ block [] function hblock
    (by simp) h'

/-! #### Local scopes and loops keep the nested blocks without `Instruction` -/

theorem build_local_scopes_step_nested_free (ast : Ast) (function function' : Function)
    (block block' : List Statement) (i : Nat) (hblock : nested_free AST_STATEMENT_INSTRUCTION block)
    (h : build_local_scopes_step ast function block i = Except.ok (function', block')) :
    nested_free AST_STATEMENT_INSTRUCTION block' := by
  unfold build_local_scopes_step at h
  simp only [] at h
  have hins : ∀ (d : Statement), d.block = [] → ∀ n,
      nested_free AST_STATEMENT_INSTRUCTION (block.take n ++ d :: block.drop n) := by
    intro d hd n
    rw [nested_free_append, nested_free_cons, hd]
    exact ⟨nested_free_take _ _ hblock, rfl, nested_free_drop _ _ hblock⟩
  have hset : ∀ (d d' : Statement), d.block = [] → d'.block = [] → ∀ n m,
      nested_free AST_STATEMENT_INSTRUCTION ((block.take n ++ d :: block.drop n).set m d') := by
    intro d d' hd hd' n m
    refine nested_free_set _ _ _ (hins d hd n) ?_
    rw [hd']
    rfl
  repeat' split at h
  all_goals first
    | (exfalso; cases h; done)
    | (cases h; exact hblock)
    | (cases h; exact nested_free_modify _ _ _ (fun _ => rfl) hblock)
    | (cases h; exact hins _ rfl _)
    | (cases h
       refine nested_free_set _ _ _ ?_ ?_
       · rw [nested_free_append]
         exact ⟨nested_free_take _ _ (hset _ _ rfl rfl _ _),
           nested_free_drop _ _ (hset _ _ rfl rfl _ _)⟩
       · exact build_expressions_free ast _ _ _ _
           (nested_free_drop _ _ (nested_free_take _ _ (hset _ _ rfl rfl _ _)))
           (by assumption))

theorem build_local_scopes_loop_nested_free (ast : Ast) :
    ∀ (i : Nat) (function function' : Function) (block block' : List Statement),
      nested_free AST_STATEMENT_INSTRUCTION block →
      build_local_scopes_loop ast i function block = Except.ok (function', block') →
      nested_free AST_STATEMENT_INSTRUCTION block' := by
  intro i
  induction i with
  | zero =>
    intro function function' block block' hblock h
    cases h
    exact hblock
  | succ i ih =>
    intro function function' block block' hblock h
    rw [build_local_scopes_loop] at h
    split at h
    · cases h
    · rename_i function₁ block₁ hstep
      exact ih function₁ function' block₁ block'
        (build_local_scopes_step_nested_free ast function function₁ block block₁ i hblock hstep)
        h

/-- After `build_local_scopes` no `Instruction` is left anywhere in the tree of the block, when
the nested blocks held none before. -/
theorem build_local_scopes_free (ast : Ast) (function function' : Function)
    (block block' : List Statement) (hblock : nested_free AST_STATEMENT_INSTRUCTION block)
    (h : build_local_scopes ast function block = Except.ok (function', block')) :
    block_free_of AST_STATEMENT_INSTRUCTION block' = true := by
  unfold build_local_scopes at h
  split at h
  · exact build_expressions_free ast function function' block block' hblock h
  · split at h
    · cases h
    · rename_i function₁ block₁ hloop
      exact build_expressions_free ast function₁ function' block₁ block'
        (build_local_scopes_loop_nested_free ast _ function function₁ block block₁ hblock hloop)
        h

/-! #### The function node keeps its block while a nested block is built -/

set_option maxHeartbeats 4000000 in
theorem build_instruction_expression_block (ast : Ast) (function function' : Function)
    (statement statement' : Statement) (exit : Exit)
    (h : build_instruction_expression ast function statement
      = Except.ok (function', statement', exit)) :
    function'.block = function.block := by
  unfold build_instruction_expression at h
  simp only [] at h
  repeat' split at h
  all_goals first
    | (exfalso; cases h; done)
    | (cases h; rfl)

theorem build_expressions_step_block (ast : Ast) (function function' : Function)
    (block block' : List Statement) (i next : Nat)
    (h : build_expressions_step ast function block i = Except.ok (function', block', next)) :
    function'.block = function.block := by
  unfold build_expressions_step at h
  simp only [] at h
  repeat' split at h
  all_goals first
    | (exfalso; cases h; done)
    | (cases h; rfl)
    | (cases h
       exact build_instruction_expression_block ast _ _ _ _ _ (by assumption))

theorem build_expressions_loop_block (ast : Ast) :
    ∀ (fuel i : Nat) (function function' : Function) (block block' : List Statement),
      build_expressions_loop ast fuel i function block = Except.ok (function', block') →
      function'.block = function.block := by
  intro fuel
  induction fuel with
  | zero =>
    intro i function function' block block' h
    cases h
  | succ fuel ih =>
    intro i function function' block block' h
    cases i with
    | zero =>
      rw [build_expressions_loop] at h
      cases h
      rfl
    | succ i =>
      rw [build_expressions_loop] at h
      split at h
      · cases h
      · rename_i function₁ block₁ next hstep
        rw [ih next function₁ function' block₁ block' h,
          build_expressions_step_block ast function function₁ block block₁ i next hstep]

theorem build_expressions_block (ast : Ast) (function function' : Function)
    (block block' : List Statement)
    (h : build_expressions ast function block = Except.ok (function', block')) :
    function'.block = function.block :=
  build_expressions_loop_block ast _ _ function function' block block' h

theorem build_local_scopes_step_block (ast : Ast) (function function' : Function)
    (block block' : List Statement) (i : Nat)
    (h : build_local_scopes_step ast function block i = Except.ok (function', block')) :
    function'.block = function.block := by
  unfold build_local_scopes_step at h
  simp only [] at h
  repeat' split at h
  all_goals first
    | (exfalso; cases h; done)
    | (cases h; rfl)
    | (cases h
       exact build_expressions_block ast _ _ _ _ (by assumption))

theorem build_local_scopes_loop_block (ast : Ast) :
    ∀ (i : Nat) (function function' : Function) (block block' : List Statement),
      build_local_scopes_loop ast i function block = Except.ok (function', block') →
      function'.block = function.block := by
  intro i
  induction i with
  | zero =>
    intro function function' block block' h
    cases h
    rfl
  | succ i ih =>
    intro function function' block block' h
    rw [build_local_scopes_loop] at h
    split at h
    · cases h
    · rename_i function₁ block₁ hstep
      rw [ih function₁ function' block₁ block' h,
        build_local_scopes_step_block ast function function₁ block block₁ i hstep]

theorem build_local_scopes_block (ast : Ast) (function function' : Function)
    (block block' : List Statement)
    (h : build_local_scopes ast function block = Except.ok (function', block')) :
    function'.block = function.block := by
  unfold build_local_scopes at h
  split at h
  · exact build_expressions_block ast function function' block block' h
  · split at h
    · cases h
    · rename_i function₁ block₁ hloop
      rw [build_expressions_block ast function₁ function' block₁ block' h,
        build_local_scopes_loop_block ast _ function function₁ block block₁ hloop]

/-! #### `build_loops` -/

theorem nested_free_modify_block (block : List Statement) (n : Nat) (body : List Statement)
    (hbody : block_free_of AST_STATEMENT_INSTRUCTION body = true)
    (h : nested_free AST_STATEMENT_INSTRUCTION block) :
    nested_free AST_STATEMENT_INSTRUCTION
      (modify_statement block n (fun s => { s with block := body })) := by
  unfold modify_statement
  induction block generalizing n with
  | nil =>
    rw [List.modify_nil]
    exact h
  | cons a block ih =>
    rw [nested_free_cons] at h
    cases n with
    | zero =>
      rw [List.modify_zero_cons, nested_free_cons]
      exact ⟨hbody, h.2⟩
    | succ n =>
      rw [List.modify_succ_cons, nested_free_cons]
      exact ⟨h.1, ih n h.2⟩

theorem build_break_statements_nested_free (block : List Statement) (breakTarget : Nat)
    (h : nested_free AST_STATEMENT_INSTRUCTION block) :
    nested_free AST_STATEMENT_INSTRUCTION (build_break_statements block breakTarget) := by
  unfold build_break_statements
  refine nested_free_map _ _ ?_ h
  intro s
  split <;> rfl

theorem extract_loop_body_nested_free (ast : Ast) (function function' : Function)
    (i last erasedEnd breakTarget : Nat) (extra : List Statement → List Statement)
    (hf : nested_free AST_STATEMENT_INSTRUCTION function.block)
    (hextra : ∀ b, nested_free AST_STATEMENT_INSTRUCTION b →
      nested_free AST_STATEMENT_INSTRUCTION (extra b))
    (h : extract_loop_body ast function i last erasedEnd breakTarget extra
      = Except.ok function') :
    nested_free AST_STATEMENT_INSTRUCTION function'.block := by
  unfold extract_loop_body at h
  simp only [] at h
  split at h
  · cases h
  · split at h
    · cases h
    · split at h
      · cases h
      · rename_i function₁ body hbody
        cases h
        have hfree := build_local_scopes_free ast _ function₁ _ body
          (hextra _ (build_break_statements_nested_free _ breakTarget
            (nested_free_drop _ _ (nested_free_take _ _ hf)))) hbody
        have hblock := build_local_scopes_block ast _ function₁ _ body hbody
        simp only [] at hblock ⊢
        rw [hblock]
        refine nested_free_modify_block _ _ _ hfree ?_
        rw [nested_free_append]
        exact ⟨nested_free_take _ _ hf, nested_free_drop _ _ hf⟩

theorem nested_free_getElem? (block : List Statement) (i : Nat) (statement : Statement)
    (h : nested_free AST_STATEMENT_INSTRUCTION block) (hs : block[i]? = some statement) :
    block_free_of AST_STATEMENT_INSTRUCTION statement.block = true :=
  h statement (List.getElem?_mem hs)

theorem build_loops_step_nested_free (ast : Ast) (function function' : Function) (i : Nat)
    (hf : nested_free AST_STATEMENT_INSTRUCTION function.block)
    (h : build_loops_step ast function i = Except.ok function') :
    nested_free AST_STATEMENT_INSTRUCTION function'.block := by
  unfold build_loops_step at h
  simp only [] at h
  split at h
  · cases h
  · rename_i statement hs
    have hst := nested_free_getElem? _ _ _ hf hs
    have hheader : ∀ (header : Statement) (n : Nat), header.block = statement.block →
        nested_free AST_STATEMENT_INSTRUCTION
          (modify_statement (function.block.set i header) n (fun s =>
            { s with type := AST_STATEMENT_EMPTY })) := by
      intro header n hh
      refine nested_free_modify _ _ _ (fun _ => rfl) (nested_free_set _ _ _ hf ?_)
      rw [hh]
      exact hst
    split at h
    · cases h
      exact hf
    · split at h
      · split at h
        · refine extract_loop_body_nested_free ast _ function' _ _ _ _ _ ?_
            (fun _ hb => hb) h
          exact hheader _ _ rfl
        · cases h
      · split at h
        · refine extract_loop_body_nested_free ast _ function' _ _ _ _ _ ?_
            (fun _ hb => hb) h
          exact hheader _ _ rfl
        · cases h
      · split at h
        · split at h
          · cases h
          · refine extract_loop_body_nested_free ast _ function' _ _ _ _ _ ?_
              (fun _ hb => hb) h
            exact hheader _ _ rfl
        · cases h
      · split at h
        · cases h
        · split at h
          · split at h
            · split at h
              · cases h
                have hblock : (function.remove_jump statement.instruction.id
                    statement.instruction.target).block = function.block :=
                  remove_jump_block _ _ _
                simp only [hblock]
                exact nested_free_modify _ _ _ (fun _ => rfl)
                  (nested_free_modify _ _ _ (fun _ => rfl) hf)
              · cases h
            · cases h
          · split at h
            · refine extract_loop_body_nested_free ast _ function' _ _ _ _ _ ?_ ?_ h
              · have hblock : (function.remove_jump statement.instruction.id
                    statement.instruction.target).block = function.block :=
                  remove_jump_block _ _ _
                simp only [hblock]
                exact nested_free_set _ _ _ hf hst
              · intro b hb
                split_ifs
                · rw [nested_free_append]
                  refine ⟨hb, ?_⟩
                  intro s hs
                  simp only [List.mem_cons, List.mem_singleton, List.not_mem_nil,
                    or_false] at hs
                  rcases hs with rfl | rfl <;> rfl
                · exact hb
                · exact hb
            · cases h
      · cases h
        exact hf

theorem build_loops_loop_nested_free (ast : Ast) :
    ∀ (i : Nat) (function function' : Function),
      nested_free AST_STATEMENT_INSTRUCTION function.block →
      build_loops_loop ast i function = Except.ok function' →
      nested_free AST_STATEMENT_INSTRUCTION function'.block := by
  intro i
  induction i with
  | zero =>
    intro function function' hf h
    cases h
    exact hf
  | succ i ih =>
    intro function function' hf h
    rw [build_loops_loop] at h
    split at h
    · cases h
    · rename_i function₁ hstep
      exact ih function₁ function'
        (build_loops_step_nested_free ast function function₁ i hf hstep) h

theorem build_loops_free (ast : Ast) (function function' : Function)
    (hf : nested_free AST_STATEMENT_INSTRUCTION function.block)
    (h : build_loops ast function = Except.ok function') :
    block_free_of AST_STATEMENT_INSTRUCTION function'.block = true := by
  unfold build_loops at h
  split at h
  · cases h
  · rename_i function₁ hloop
    split at h
    · cases h
    · rename_i function₂ block hscopes
      cases h
      exact build_local_scopes_free ast function₁ function₂ _ block
        (build_loops_loop_nested_free ast _ function function₁ hf hloop) hscopes

/-- The chain of tail calls of `build_instructions`: when it completes, `build_loops` has run on
a function node whose statements, after import, debug info and jump grouping, have no nested
block. -/
theorem build_instructions_chain (ast ast' : Ast) (function function' : Function)
    (h : build_instructions ast function = Except.ok (ast', function')) :
    ∃ grouped : Function, (∀ kind, nested_free kind grouped.block)
      ∧ build_loops ast' grouped = Except.ok function' := by
  have hjumps : ∀ (a : Ast) (f f' : Function), (∀ kind, nested_free kind f.block) →
      group_jumps a f = Except.ok f' →
      ∃ grouped : Function, (∀ kind, nested_free kind grouped.block)
        ∧ build_loops a grouped = Except.ok f' := by
    intro a f f' hf hg
    unfold group_jumps at hg
    split at hg
    · cases hg
    · rename_i f₁ hgb
      exact ⟨f₁, fun kind => group_jumps_body_nested_free f f₁ (hf kind) hgb, hg⟩
  unfold build_instructions at h
  have hbody : ∀ kind, nested_free kind (build_instructions_body ast function).2.block :=
    fun kind => build_instructions_body_nested_free ast function
  generalize build_instructions_body ast function = imported at h hbody
  obtain ⟨ast₁, function₁⟩ := imported
  simp only [] at h hbody
  split at h
  · cases h
  · rename_i function₂ hdebug
    cases h
    unfold assign_debug_info at hdebug
    split at hdebug
    · exact hjumps _ _ _ hbody hdebug
    · split at hdebug
      · cases hdebug
      · rename_i f₁ hadi
        refine hjumps _ f₁ _ ?_ hdebug
        rw [assign_debug_info_body_block _ f₁ hadi]
        exact hbody

/-- After `build_instructions` has run its chain of passes (P1 to P6), no `Instruction` is left
anywhere in the statement tree of the function. -/
theorem build_instructions_free (ast ast' : Ast) (function function' : Function)
    (h : build_instructions ast function = Except.ok (ast', function')) :
    block_free_of AST_STATEMENT_INSTRUCTION function'.block = true := by
  obtain ⟨grouped, hflat, hloops⟩ := build_instructions_chain ast ast' function function' h
  exact build_loops_free ast' grouped function' (hflat _) hloops

/-! #### Only loop and declaration statements hold a block -/

theorem blocks_under_loops_cons (statement : Statement) (block : List Statement) :
    blocks_under_loops (statement :: block)
      ↔ (statement.block = [] ∨ holds_block statement.type = true)
        ∧ blocks_under_loops block := by
  simp [blocks_under_loops]

theorem blocks_under_loops_append (front back : List Statement) :
    blocks_under_loops (front ++ back)
      ↔ blocks_under_loops front ∧ blocks_under_loops back := by
  simp only [blocks_under_loops, List.mem_append]
  constructor
  · intro h
    exact ⟨fun s hs => h s (Or.inl hs), fun s hs => h s (Or.inr hs)⟩
  · rintro ⟨h1, h2⟩ s (hs | hs)
    · exact h1 s hs
    · exact h2 s hs

theorem blocks_under_loops_take (block : List Statement) (n : Nat)
    (h : blocks_under_loops block) : blocks_under_loops (block.take n) :=
  fun s hs => h s (List.mem_of_mem_take hs)

theorem blocks_under_loops_drop (block : List Statement) (n : Nat)
    (h : blocks_under_loops block) : blocks_under_loops (block.drop n) :=
  fun s hs => h s (List.mem_of_mem_drop hs)

theorem blocks_under_loops_eraseIdx (block : List Statement) (n : Nat)
    (h : blocks_under_loops block) : blocks_under_loops (block.eraseIdx n) :=
  fun s hs => h s (List.mem_of_mem_eraseIdx hs)

theorem blocks_under_loops_set (block : List Statement) (n : Nat) (statement : Statement)
    (h : blocks_under_loops block)
    (hs : statement.block = [] ∨ holds_block statement.type = true) :
    blocks_under_loops (block.set n statement) := by
  intro s hmem
  rcases List.mem_or_eq_of_mem_set hmem with hmem | rfl
  · exact h s hmem
  · exact hs

theorem blocks_under_loops_modify (block : List Statement) (n : Nat)
    (f : Statement → Statement)
    (hf : ∀ s, (s.block = [] ∨ holds_block s.type = true) →
      ((f s).block = [] ∨ holds_block (f s).type = true))
    (h : blocks_under_loops block) :
    blocks_under_loops (modify_statement block n f) := by
  unfold modify_statement
  induction block generalizing n with
  | nil =>
    rw [List.modify_nil]
    exact h
  | cons a block ih =>
    rw [blocks_under_loops_cons] at h
    cases n with
    | zero =>
      rw [List.modify_zero_cons, blocks_under_loops_cons]
      exact ⟨hf a h.1, h.2⟩
    | succ n =>
      rw [List.modify_succ_cons, blocks_under_loops_cons]
      exact ⟨h.1, ih n h.2⟩

theorem eq_nil_of_free_of_every_kind (block : List Statement)
    (h : ∀ kind, block_free_of kind block = true) : block = [] := by
  cases block with
  | nil => rfl
  | cons statement rest =>
    have := h statement.type
    rw [block_free_of, Statement.free_of_eq] at this
    simp at this

theorem blocks_under_loops_of_flat (block : List Statement)
    (h : ∀ kind, nested_free kind block) : blocks_under_loops block :=
  fun s hs => Or.inl (eq_nil_of_free_of_every_kind s.block (fun kind => h kind s hs))

theorem set_eq_self_of_getElem? {α : Type} (block : List α) (i : Nat) (x : α)
    (h : block[i]? = some x) : block.set i x = block := by
  apply List.ext_getElem?
  intro j
  rw [List.getElem?_set]
  split
  · rename_i hij
    subst hij
    split
    · exact h.symm
    · rename_i hlen
      rw [List.getElem?_eq_none (Nat.le_of_not_lt hlen)] at h
      cases h
  · rfl

/-- The shape of one iteration of `build_expressions`: the statement at `i` is replaced by one
with the same nested block and, unless it was an `Instruction`, the same kind; a `KNIL` may
insert a statement without nested block in front of it, and a return may erase the statement
before it. -/
theorem build_expressions_step_shape (ast : Ast) (function function' : Function)
    (block block' : List Statement) (i next : Nat) (statement : Statement)
    (hs : block[i]? = some statement)
    (h : build_expressions_step ast function block i = Except.ok (function', block', next)) :
    ∃ s' : Statement, s'.block = statement.block
      ∧ (s'.type = statement.type ∨ statement.type = AST_STATEMENT_INSTRUCTION)
      ∧ (block' = block.set i s'
        ∨ (∃ inserted : Statement, inserted.block = []
            ∧ block' = block.take i ++ inserted :: s' :: block.drop (i + 1))
        ∨ block' = (block.set i s').eraseIdx (i - 1)) := by
  unfold build_expressions_step at h
  rw [hs] at h
  simp only [] at h
  cases hty : statement.type <;> simp only [hty] at h
  case AST_STATEMENT_INSTRUCTION =>
    by_cases hop : statement.instruction.type = BC_OP.KNIL
    · simp only [hop, if_true] at h
      by_cases had : statement.instruction.a = statement.instruction.d
      · simp only [had, if_true] at h
        cases h
        refine ⟨_, ?_, Or.inr rfl, Or.inl rfl⟩
        rfl
      · simp only [had, if_false] at h
        cases h
        refine ⟨_, ?_, Or.inr rfl, Or.inr (Or.inl ⟨_, ?_, rfl⟩)⟩
        · rfl
        · rfl
    · simp only [hop, if_false] at h
      split at h
      · cases h
      · rename_i f s e hb
        have hframe := build_instruction_expression_frame ast function f statement s e hb
        cases h
        refine ⟨_, ?_, Or.inr rfl, Or.inl rfl⟩
        cases e <;> exact hframe.2
  case AST_STATEMENT_RETURN =>
    split at h
    · split at h
      · cases h
      · rename_i merged hb
        have hm := build_return_expression_frame ast _ merged hb
        cases h
        exact ⟨merged, hm.2, Or.inl hm.1, Or.inr (Or.inr rfl)⟩
    · split at h
      · cases h
      · rename_i merged hb
        have hm := build_return_expression_frame ast _ merged hb
        cases h
        exact ⟨merged, hm.2, Or.inl (by first | exact hm.1 | exact hm.1.trans hty), Or.inl rfl⟩
  case AST_STATEMENT_CONDITION =>
    split at h
    · cases h
    · rename_i s hb
      have hm := build_condition_expression_frame function statement s hb
      cases h
      exact ⟨s, hm.2, Or.inl (by first | exact hm.1 | exact hm.1.trans hty), Or.inl rfl⟩
  case AST_STATEMENT_NUMERIC_FOR =>
    split at h
    · cases h
    · rename_i s hb
      have hm := build_numeric_for_expression_frame function statement s hb
      cases h
      exact ⟨s, hm.2, Or.inl (by first | exact hm.1 | exact hm.1.trans hty), Or.inl rfl⟩
  case AST_STATEMENT_GENERIC_FOR =>
    split at h
    · cases h
    · rename_i s hb
      have hm := build_generic_for_expression_frame function statement s hb
      cases h
      exact ⟨s, hm.2, Or.inl (by first | exact hm.1 | exact hm.1.trans hty), Or.inl rfl⟩
  case AST_STATEMENT_DECLARATION =>
    split at h
    · cases h
    · rename_i s hb
      have hm := build_declaration_expression_frame function statement s hb
      cases h
      exact ⟨s, hm.2, Or.inl (by first | exact hm.1 | exact hm.1.trans hty), Or.inl rfl⟩
  all_goals
    cases h
    exact ⟨statement, rfl, Or.inl hty, Or.inl (set_eq_self_of_getElem? _ _ _ hs).symm⟩

theorem build_expressions_step_blocks_under_loops (ast : Ast) (function function' : Function)
    (block block' : List Statement) (i next : Nat) (hblock : blocks_under_loops block)
    (h : build_expressions_step ast function block i = Except.ok (function', block', next)) :
    blocks_under_loops block' := by
  cases hs : block[i]? with
  | none =>
    unfold build_expressions_step at h
    rw [hs] at h
    cases h
  | some statement =>
    obtain ⟨s', hb, ht, hshape⟩ := build_expressions_step_shape ast function function' block
      block' i next statement hs h
    have hst := hblock statement (List.getElem?_mem hs)
    have hs' : s'.block = [] ∨ holds_block s'.type = true := by
      rcases hst with hst | hst
      · exact Or.inl (hb.trans hst)
      · rcases ht with ht | ht
        · exact Or.inr (by rw [ht]; exact hst)
        · rw [ht] at hst
          cases hst
    rcases hshape with rfl | ⟨inserted, hi, rfl⟩ | rfl
    · exact blocks_under_loops_set _ _ _ hblock hs'
    · rw [blocks_under_loops_append, blocks_under_loops_cons, blocks_under_loops_cons]
      exact ⟨blocks_under_loops_take _ _ hblock, Or.inl hi, hs',
        blocks_under_loops_drop _ _ hblock⟩
    · exact blocks_under_loops_eraseIdx _ _ (blocks_under_loops_set _ _ _ hblock hs')

theorem build_expressions_loop_blocks_under_loops (ast : Ast) :
    ∀ (fuel i : Nat) (function function' : Function) (block block' : List Statement),
      blocks_under_loops block →
      build_expressions_loop ast fuel i function block = Except.ok (function', block') →
      blocks_under_loops block' := by
  intro fuel
  induction fuel with
  | zero =>
    intro i function function' block block' _ h
    cases h
  | succ fuel ih =>
    intro i function function' block block' hblock h
    cases i with
    | zero =>
      rw [build_expressions_loop] at h
      cases h
      exact hblock
    | succ i =>
      rw [build_expressions_loop] at h
      split at h
      · cases h
      · rename_i function₁ block₁ next hstep
        exact ih next function₁ function' block₁ block'
          (build_expressions_step_blocks_under_loops ast function function₁ block block₁ i next
            hblock hstep) h

theorem build_expressions_blocks_under_loops (ast : Ast) (function function' : Function)
    (block block' : List Statement) (hblock : blocks_under_loops block)
    (h : build_expressions ast function block = Except.ok (function', block')) :
    blocks_under_loops block' :=
  build_expressions_loop_blocks_under_loops ast _ _ function function' block block' hblock h

theorem build_local_scopes_step_blocks_under_loops (ast : Ast) (function function' : Function)
    (block block' : List Statement) (i : Nat) (hblock : blocks_under_loops block)
    (h : build_local_scopes_step ast function block i = Except.ok (function', block')) :
    blocks_under_loops block' := by
  unfold build_local_scopes_step at h
  simp only [] at h
  have hins : ∀ (d : Statement), (d.block = [] ∨ holds_block d.type = true) → ∀ n,
      blocks_under_loops (block.take n ++ d :: block.drop n) := by
    intro d hd n
    rw [blocks_under_loops_append, blocks_under_loops_cons]
    exact ⟨blocks_under_loops_take _ _ hblock, hd, blocks_under_loops_drop _ _ hblock⟩
  have hset : ∀ (d d' : Statement), (d.block = [] ∨ holds_block d.type = true) →
      (d'.block = [] ∨ holds_block d'.type = true) → ∀ n m,
      blocks_under_loops ((block.take n ++ d :: block.drop n).set m d') := by
    intro d d' hd hd' n m
    exact blocks_under_loops_set _ _ _ (hins d hd n) hd'
  repeat' split at h
  all_goals first
    | (exfalso; cases h; done)
    | (cases h; exact hblock)
    | (cases h; exact blocks_under_loops_modify _ _ _ (fun _ hs => hs) hblock)
    | (cases h; exact hins _ (Or.inl rfl) _)
    | (cases h
       refine blocks_under_loops_set _ _ _ ?_ (Or.inr rfl)
       rw [blocks_under_loops_append]
       exact ⟨blocks_under_loops_take _ _ (hset _ _ (Or.inl rfl) (Or.inl rfl) _ _),
         blocks_under_loops_drop _ _ (hset _ _ (Or.inl rfl) (Or.inl rfl) _ _)⟩)

theorem build_local_scopes_loop_blocks_under_loops (ast : Ast) :
    ∀ (i : Nat) (function function' : Function) (block block' : List Statement),
      blocks_under_loops block →
      build_local_scopes_loop ast i function block = Except.ok (function', block') →
      blocks_under_loops block' := by
  intro i
  induction i with
  | zero =>
    intro function function' block block' hblock h
    cases h
    exact hblock
  | succ i ih =>
    intro function function' block block' hblock h
    rw [build_local_scopes_loop] at h
    split at h
    · cases h
    · rename_i function₁ block₁ hstep
      exact ih function₁ function' block₁ block'
        (build_local_scopes_step_blocks_under_loops ast function function₁ block block₁ i
          hblock hstep) h

theorem build_local_scopes_blocks_under_loops (ast : Ast) (function function' : Function)
    (block block' : List Statement) (hblock : blocks_under_loops block)
    (h : build_local_scopes ast function block = Except.ok (function', block')) :
    blocks_under_loops block' := by
  unfold build_local_scopes at h
  split at h
  · exact build_expressions_blocks_under_loops ast function function' block block' hblock h
  · split at h
    · cases h
    · rename_i function₁ block₁ hloop
      exact build_expressions_blocks_under_loops ast function₁ function' block₁ block'
        (build_local_scopes_loop_blocks_under_loops ast _ function function₁ block block₁
          hblock hloop) h

/-! #### `build_loops` keeps nested blocks under loop statements -/

theorem take_modify_statement_of_le (block : List Statement) (f : Statement → Statement)
    (i t : Nat) (h : i ≤ t) : (modify_statement block t f).take i = block.take i := by
  unfold modify_statement
  apply List.ext_getElem?
  intro j
  rw [List.getElem?_take, List.getElem?_take, List.getElem?_modify]
  split
  · rename_i hj
    have : t ≠ j := by omega
    simp [this]
  · rfl

theorem drop_modify_statement_of_lt (block : List Statement) (f : Statement → Statement)
    (e t : Nat) (h : t < e) : (modify_statement block t f).drop e = block.drop e := by
  unfold modify_statement
  apply List.ext_getElem?
  intro j
  rw [List.getElem?_drop, List.getElem?_drop, List.getElem?_modify]
  have : t ≠ e + j := by omega
  simp [this]

theorem take_set_self (block : List Statement) (i : Nat) (x : Statement) :
    (block.set i x).take i = block.take i := by
  apply List.ext_getElem?
  intro j
  rw [List.getElem?_take, List.getElem?_take, List.getElem?_set]
  split
  · rename_i hj
    have : i ≠ j := by omega
    simp [this]
  · rfl

theorem build_expressions_nil (ast : Ast) (function function' : Function)
    (block' : List Statement)
    (h : build_expressions ast function [] = Except.ok (function', block')) : block' = [] := by
  simp only [build_expressions, build_expressions_fuel, List.length_nil, List.map_nil,
    List.sum_nil, Nat.zero_add, build_expressions_loop, Except.ok.injEq, Prod.mk.injEq] at h
  exact h.2.symm

theorem build_local_scopes_loop_nil (ast : Ast) :
    ∀ (i : Nat) (function function' : Function) (block' : List Statement),
      build_local_scopes_loop ast i function [] = Except.ok (function', block') →
      block' = [] := by
  intro i
  induction i with
  | zero =>
    intro function function' block' h
    cases h
    rfl
  | succ i ih =>
    intro function function' block' h
    rw [build_local_scopes_loop] at h
    have hstep : build_local_scopes_step ast function [] i = Except.ok (function, []) := by
      simp [build_local_scopes_step, get_block_index_from_id, get_block_index_from_id_loop]
    rw [hstep] at h
    exact ih function function' block' h

theorem build_local_scopes_nil (ast : Ast) (function function' : Function)
    (block' : List Statement)
    (h : build_local_scopes ast function [] = Except.ok (function', block')) :
    block' = [] := by
  unfold build_local_scopes at h
  split at h
  · exact build_expressions_nil ast function function' block' h
  · split at h
    · cases h
    · rename_i function₁ block₁ hloop
      rw [build_local_scopes_loop_nil ast _ function function₁ block₁ hloop] at h
      exact build_expressions_nil ast function₁ function' block' h

theorem extract_loop_body_bounds (ast : Ast) (function function' : Function)
    (i last erasedEnd breakTarget : Nat) (extra : List Statement → List Statement)
    (h : extract_loop_body ast function i last erasedEnd breakTarget extra
      = Except.ok function') :
    i + 1 ≤ last ∧ erasedEnd ≤ function.block.length := by
  unfold extract_loop_body at h
  simp only [] at h
  split at h
  · cases h
  · split at h
    · cases h
    · rename_i hbounds
      omega

theorem extract_loop_body_blocks_under_loops (ast : Ast) (function function' : Function)
    (i last erasedEnd breakTarget : Nat) (extra : List Statement → List Statement)
    (hpre : blocks_under_loops (function.block.take i))
    (hpost : blocks_under_loops (function.block.drop erasedEnd))
    (hheader : ∀ header, function.block[i]? = some header →
      holds_block header.type = true ∨ (last = i + 1 ∧ extra [] = []))
    (h : extract_loop_body ast function i last erasedEnd breakTarget extra
      = Except.ok function') :
    blocks_under_loops function'.block := by
  unfold extract_loop_body at h
  simp only [] at h
  split at h
  · cases h
  · rename_i header hs
    split at h
    · cases h
    · split at h
      · cases h
      · rename_i function₁ body hbody
        cases h
        have hblock := build_local_scopes_block ast _ function₁ _ body hbody
        simp only [] at hblock ⊢
        have hlen : (function.block.take i).length = i := by
          rw [List.length_take]
          have : i < function.block.length := by
            rcases Nat.lt_or_ge i function.block.length with h | h
            · exact h
            · rw [List.getElem?_eq_none h] at hs
              cases hs
          omega
        rw [hblock, List.take_succ, hs, Option.toList_some, List.append_assoc,
          List.singleton_append]
        have hmod := modify_statement_append_cons_length (function.block.take i) header
          (function.block.drop erasedEnd) (fun s => { s with block := body })
        rw [hlen] at hmod
        rw [hmod, blocks_under_loops_append, blocks_under_loops_cons]
        refine ⟨hpre, ?_, hpost⟩
        rcases hheader header hs with hh | ⟨hlast, hextra⟩
        · exact Or.inr hh
        · left
          subst hlast
          have hempty : (function.block.take (i + 1)).drop (i + 1) = [] := by
            rw [List.drop_eq_nil_iff]
            exact List.length_take_le _ _
          rw [hempty] at hbody
          simp only [build_break_statements, List.map_nil, hextra] at hbody
          exact build_local_scopes_nil ast _ function₁ body hbody

theorem modify_statement_eq_set (block : List Statement) (n : Nat)
    (f : Statement → Statement) (statement : Statement) (hs : block[n]? = some statement) :
    modify_statement block n f = block.set n (f statement) := by
  unfold modify_statement
  rw [List.modify_eq_set_get?, List.get?_eq_getElem?, hs]
  rfl

/-- The block of `build_loops` after the header at `i` has its loop kind and the statement at
`t`, the end of the loop, is emptied: what `extract_loop_body` needs of it. -/
theorem emptied_block_under_loops (block : List Statement) (i t erasedEnd last : Nat)
    (header statement : Statement) (extra : List Statement → List Statement)
    (hf : blocks_under_loops block) (hs : block[i]? = some statement)
    (hh : holds_block header.type = true) (hit : i ≤ t) (hte : t < erasedEnd)
    (hlast : t = i → last = i + 1 ∧ extra [] = []) :
    blocks_under_loops ((modify_statement (block.set i header) t (fun s =>
        { s with type := AST_STATEMENT_EMPTY })).take i)
      ∧ blocks_under_loops ((modify_statement (block.set i header) t (fun s =>
        { s with type := AST_STATEMENT_EMPTY })).drop erasedEnd)
      ∧ ∀ h', (modify_statement (block.set i header) t (fun s =>
          { s with type := AST_STATEMENT_EMPTY }))[i]? = some h' →
        holds_block h'.type = true ∨ (last = i + 1 ∧ extra [] = []) := by
  have hlt : i < block.length := by
    rcases Nat.lt_or_ge i block.length with h | h
    · exact h
    · rw [List.getElem?_eq_none h] at hs
      cases hs
  refine ⟨?_, ?_, ?_⟩
  · rw [take_modify_statement_of_le _ _ _ _ hit, take_set_self]
    exact blocks_under_loops_take _ _ hf
  · rw [drop_modify_statement_of_lt _ _ _ _ hte, List.drop_set_of_lt _ _ (by omega)]
    exact blocks_under_loops_drop _ _ hf
  · intro h' hh'
    unfold modify_statement at hh'
    rw [List.getElem?_modify, List.getElem?_set] at hh'
    simp only [if_true, List.length_set, hlt, Option.map_eq_map, Option.map_some',
      Option.some.injEq] at hh'
    by_cases hti : t = i
    · exact Or.inr (hlast hti)
    · simp only [hti, if_false] at hh'
      rw [← hh']
      exact Or.inl hh

theorem build_loops_step_blocks_under_loops (ast : Ast) (function function' : Function)
    (i : Nat) (hf : blocks_under_loops function.block)
    (h : build_loops_step ast function i = Except.ok function') :
    blocks_under_loops function'.block := by
  unfold build_loops_step at h
  simp only [] at h
  split at h
  · cases h
  · rename_i statement hs
    have hst := hf statement (List.getElem?_mem hs)
    have hgeneric : ∀ (iterator back : Statement) (t : Nat) (breakTarget : Nat),
        extract_loop_body ast
          { function with
            block := modify_statement (function.block.set i
              { statement with
                type := AST_STATEMENT_GENERIC_FOR,
                instruction := { iterator.instruction with
                  id := (back.instruction.target + 4294967295) % 4294967296,
                  target := (back.instruction.id + 1) % 4294967296 } }) t (fun s =>
              { s with type := AST_STATEMENT_EMPTY }) }
          i (t + 1) (t + 2) breakTarget id = Except.ok function' →
        blocks_under_loops function'.block := by
      intro iterator back t breakTarget hx
      have hb := (extract_loop_body_bounds ast _ function' _ _ _ _ _ hx).1
      obtain ⟨h1, h2, h3⟩ := emptied_block_under_loops function.block i t (t + 2) (t + 1)
        { statement with
          type := AST_STATEMENT_GENERIC_FOR,
          instruction := { iterator.instruction with
            id := (back.instruction.target + 4294967295) % 4294967296,
            target := (back.instruction.id + 1) % 4294967296 } } statement id hf hs rfl
        (by omega) (by omega) (fun hti => ⟨by omega, rfl⟩)
      exact extract_loop_body_blocks_under_loops ast _ function' _ _ _ _ _ h1 h2 h3 hx
    split at h
    · cases h
      exact hf
    · rename_i hinstr
      split at h
      · split at h
        · exact hgeneric _ _ _ _ h
        · cases h
      · split at h
        · exact hgeneric _ _ _ _ h
        · cases h
      · split at h
        · split at h
          · cases h
          · rename_i after hafter hzero
            have hb := (extract_loop_body_bounds ast _ function' _ _ _ _ _ h).1
            obtain ⟨h1, h2, h3⟩ := emptied_block_under_loops function.block i
              (get_block_index_from_id function.block statement.instruction.target - 1)
              (get_block_index_from_id function.block statement.instruction.target)
              (get_block_index_from_id function.block statement.instruction.target)
              { statement with type := AST_STATEMENT_NUMERIC_FOR } statement id hf hs rfl
              (by omega) (by omega) (fun hti => ⟨by omega, rfl⟩)
            exact extract_loop_body_blocks_under_loops ast _ function' _ _ _ _ _ h1 h2 h3 h
        · cases h
      · split at h
        · cases h
        · split at h
          · split at h
            · split at h
              · cases h
                have hblock : (function.remove_jump statement.instruction.id
                    statement.instruction.target).block = function.block :=
                  remove_jump_block _ _ _
                simp only [hblock]
                refine blocks_under_loops_modify _ _ _ (fun _ hs => hs) ?_
                rw [modify_statement_eq_set _ _ _ statement hs]
                refine blocks_under_loops_set _ _ _ hf (Or.inl ?_)
                rcases hst with hst | hst
                · exact hst
                · rw [not_not.1 hinstr] at hst
                  cases hst
              · cases h
            · cases h
          · split at h
            · have hb := extract_loop_body_bounds ast _ function' _ _ _ _ _ h
              have hblock : (function.remove_jump statement.instruction.id
                  statement.instruction.target).block = function.block :=
                remove_jump_block _ _ _
              simp only [hblock] at h hb
              refine extract_loop_body_blocks_under_loops ast _ function' _ _ _ _ _
                ?_ ?_ ?_ h
              · simp only []
                rw [take_set_self]
                exact blocks_under_loops_take _ _ hf
              · simp only []
                rw [List.drop_set_of_lt _ _ (by omega)]
                exact blocks_under_loops_drop _ _ hf
              · intro header hheader
                simp only [] at hheader
                rw [List.getElem?_set] at hheader
                simp only [if_true] at hheader
                split at hheader
                · cases hheader
                  exact Or.inl rfl
                · cases hheader
            · cases h
      · cases h
        exact hf

theorem build_loops_loop_blocks_under_loops (ast : Ast) :
    ∀ (i : Nat) (function function' : Function), blocks_under_loops function.block →
      build_loops_loop ast i function = Except.ok function' →
      blocks_under_loops function'.block := by
  intro i
  induction i with
  | zero =>
    intro function function' hf h
    cases h
    exact hf
  | succ i ih =>
    intro function function' hf h
    rw [build_loops_loop] at h
    split at h
    · cases h
    · rename_i function₁ hstep
      exact ih function₁ function'
        (build_loops_step_blocks_under_loops ast function function₁ i hf hstep) h

theorem build_loops_blocks_under_loops (ast : Ast) (function function' : Function)
    (hf : blocks_under_loops function.block)
    (h : build_loops ast function = Except.ok function') :
    blocks_under_loops function'.block := by
  unfold build_loops at h
  split at h
  · cases h
  · rename_i function₁ hloop
    split at h
    · cases h
    · rename_i function₂ block hscopes
      cases h
      exact build_local_scopes_blocks_under_loops ast function₁ function₂ _ block
        (build_loops_loop_blocks_under_loops ast _ function function₁ hf hloop) hscopes

/-- After `build_instructions` has run its chain of passes (P1 to P6), the statements of the
function's block that hold a nested block are loops and declarations. -/
theorem build_instructions_blocks_under_loops (ast ast' : Ast) (function function' : Function)
    (h : build_instructions ast function = Except.ok (ast', function')) :
    blocks_under_loops function'.block := by
  obtain ⟨grouped, hflat, hloops⟩ := build_instructions_chain ast ast' function function' h
  exact build_loops_blocks_under_loops ast' grouped function'
    (blocks_under_loops_of_flat _ hflat) hloops

/-! #### The passes P7 to P9, as far as they are modelled, keep kinds and nested blocks -/

theorem kinds_kept_refl (block : List Statement) : kinds_kept block block :=
  fun s hs => ⟨s, hs, rfl, rfl⟩

theorem kinds_kept_trans (a b c : List Statement) (hab : kinds_kept a b)
    (hbc : kinds_kept b c) : kinds_kept a c := by
  intro s hs
  obtain ⟨t, ht, h1, h2⟩ := hbc s hs
  obtain ⟨u, hu, h3, h4⟩ := hab t ht
  exact ⟨u, hu, h1.trans h3, h2.trans h4⟩

theorem kinds_kept_eraseIdx (block block' : List Statement) (n : Nat)
    (h : kinds_kept block block') : kinds_kept block (block'.eraseIdx n) :=
  fun s hs => h s (List.mem_of_mem_eraseIdx hs)

theorem kinds_kept_set (block block' : List Statement) (n : Nat) (statement : Statement)
    (h : kinds_kept block block')
    (hs : ∃ s ∈ block, statement.type = s.type ∧ statement.block = s.block) :
    kinds_kept block (block'.set n statement) := by
  intro s hmem
  rcases List.mem_or_eq_of_mem_set hmem with hmem | rfl
  · exact h s hmem
  · exact hs

theorem blocks_under_loops_of_kinds_kept (block block' : List Statement)
    (h : kinds_kept block block') (hb : blocks_under_loops block) :
    blocks_under_loops block' := by
  intro s hs
  obtain ⟨t, ht, h1, h2⟩ := h s hs
  rw [h1, h2]
  exact hb t ht

theorem free_of_kinds_kept (kind : AST_STATEMENT) (block block' : List Statement)
    (h : kinds_kept block block') (hb : block_free_of kind block = true) :
    block_free_of kind block' = true := by
  rw [block_free_of_iff] at hb ⊢
  intro s hs
  obtain ⟨t, ht, h1, h2⟩ := h s hs
  have := hb t ht
  rw [Statement.free_of_eq] at this ⊢
  rw [h1, h2]
  exact this

theorem collect_slot_scopes_step_kinds_kept (ast : Ast) (function function' : Function)
    (block block' : List Statement) (previousBlocks : List BlockInfo) (i : Nat)
    (h : collect_slot_scopes_step ast function block previousBlocks i
      = Except.ok (function', block')) :
    kinds_kept block block' := by
  unfold collect_slot_scopes_step at h
  simp only [] at h
  split at h
  · cases h
  · rename_i statement hs
    repeat' split at h
    all_goals first
      | (exfalso; cases h; done)
      | (cases h
         exact kinds_kept_set _ _ _ _ (kinds_kept_refl _)
           ⟨statement, List.getElem?_mem hs, rfl, rfl⟩)

theorem collect_slot_scopes_loop_kinds_kept (ast : Ast) (previousBlocks : List BlockInfo) :
    ∀ (i : Nat) (function function' : Function) (block block' : List Statement),
      collect_slot_scopes_loop ast previousBlocks i function block
        = Except.ok (function', block') →
      kinds_kept block block' := by
  intro i
  induction i with
  | zero =>
    intro function function' block block' h
    cases h
    exact kinds_kept_refl _
  | succ i ih =>
    intro function function' block block' h
    rw [collect_slot_scopes_loop] at h
    split at h
    · cases h
    · rename_i function₁ block₁ hstep
      exact kinds_kept_trans _ _ _
        (collect_slot_scopes_step_kinds_kept ast function function₁ block block₁ _ i hstep)
        (ih function₁ function' block₁ block' h)

theorem eliminate_slots_swap_kinds_kept (function : Function) (block : List Statement)
    (i : Nat) : kinds_kept block (eliminate_slots_swap function block i) := by
  unfold eliminate_slots_swap
  split
  · rename_i statement previous hs hp
    split
    · exact kinds_kept_set _ _ _ _ (kinds_kept_refl _)
        ⟨statement, List.getElem?_mem hs, rfl, rfl⟩
    · exact kinds_kept_refl _
  · exact kinds_kept_refl _

theorem eliminate_slots_table_setter_kinds_kept (platform : Platform) (function : Function)
    (block block' : List Statement) (i : Nat)
    (h : eliminate_slots_table_setter platform function block i = Except.ok block') :
    kinds_kept block block' := by
  unfold eliminate_slots_table_setter at h
  split at h
  · cases h
  · rename_i statement hs
    repeat' split at h
    all_goals first
      | (exfalso; cases h; done)
      | (cases h; exact kinds_kept_refl _)
      | (cases h
         exact kinds_kept_set _ _ _ _ (kinds_kept_refl _)
           ⟨statement, List.getElem?_mem hs, rfl, rfl⟩)

theorem fuse_method_call_kinds_kept (function : Function) (block : List Statement)
    (i j : Nat) (statement load copy : Statement) (hs : statement ∈ block)
    (hl : load ∈ block) :
    kinds_kept block (fuse_method_call function block i j statement load copy).2 := by
  unfold fuse_method_call
  simp only []
  refine kinds_kept_eraseIdx _ _ _ (kinds_kept_set _ _ _ _
    (kinds_kept_set _ _ _ _ (kinds_kept_refl _) ⟨statement, hs, rfl, rfl⟩)
    ⟨load, hl, rfl, rfl⟩)

theorem eliminate_slots_inline_kinds_kept (platform : Platform) :
    ∀ (j : Nat) (function function' : Function) (block block' : List Statement) (i i' : Nat),
      eliminate_slots_inline platform j function block i = Except.ok (function', block', i') →
      kinds_kept block block' := by
  intro j
  induction j with
  | zero =>
    intro function function' block block' i i' h
    rw [eliminate_slots_inline] at h
    cases h
    exact kinds_kept_refl _
  | succ j ih =>
    intro function function' block block' i i' h
    rw [eliminate_slots_inline] at h
    split at h
    · rename_i statement previous hs hp
      split at h
      · cases h
        exact kinds_kept_refl _
      · have hrest : ∀ (function₁ : Function) (block₁ : List Statement) (i₁ : Nat),
            kinds_kept block block₁ →
            (match block₁[i₁]?, block₁[i₁ - 1]? with
              | some statement, some previous =>
                match statement.assignment.openSlots[j]? with
                | none => Except.error Error.outOfRange
                | some handle =>
                  let read := (statement.assignment.get? handle).getD Expression.null
                  if previous.target_slot ≠ read.slot then
                    eliminate_slots_inline platform j function₁ block₁ i₁
                  else if (previous.assignment.variables_.getLast?.getD {}).isMultres
                      ≠ read.isMultres then
                    Except.error
                      (Error.assertion "Multres type mismatch when trying to eliminate slot")
                  else
                    let inlined := statement.assignment.set handle previous.last_expression
                    if j = 0
                        ∧ statement.assignment.allowedConstantType
                          ≠ CONSTANT_TYPE.NUMBER_CONSTANT
                        ∧ (get_constant_type platform
                            (inlined.expressions.getLast?.getD Expression.null)).val
                          > statement.assignment.allowedConstantType.val then
                      Except.ok (function₁, block₁, i₁)
                    else
                      let collector :=
                        function₁.slotScopeCollector.remove_scope previous.target_slot
                          (previous.assignment.variables_.getLast?.getD {}).slotScope
                      let statement := { statement with
                        assignment := { inlined with
                          usedSlots := inlined.usedSlots ++ previous.assignment.usedSlots },
                        instruction := { statement.instruction with
                          attachedLabel := previous.instruction.attachedLabel } }
                      eliminate_slots_inline platform j
                        { function₁ with slotScopeCollector := collector }
                        ((block₁.set i₁ statement).eraseIdx (i₁ - 1)) (i₁ - 1)
              | _, _ => Except.error Error.outOfRange)
              = Except.ok (function', block', i') →
            kinds_kept block block' := by
          intro function₁ block₁ i₁ hkept hx
          split at hx
          · rename_i statement₁ previous₁ hs₁ hp₁
            simp only [] at hx
            repeat' split at hx
            all_goals first
              | (exfalso; cases hx; done)
              | (cases hx; exact hkept)
              | exact kinds_kept_trans _ _ _ hkept (ih _ _ _ _ _ _ hx)
              | (refine kinds_kept_trans _ _ _ hkept
                  (kinds_kept_trans _ _ _ ?_ (ih _ _ _ _ _ _ hx))
                 exact kinds_kept_eraseIdx _ _ _ (kinds_kept_set _ _ _ _ (kinds_kept_refl _)
                   ⟨statement₁, List.getElem?_mem hs₁, rfl, rfl⟩))
          · cases hx
        by_cases hc : j = 1 ∧ statement.assignment.isPotentialMethod = true ∧ i ≥ 2
        · obtain ⟨rfl, hpm, hi2⟩ := hc
          have hcond : 1 = 1 ∧ statement.assignment.isPotentialMethod = true ∧ i ≥ 2 :=
            ⟨rfl, hpm, hi2⟩
          cases hcopy : block[i - 2]? with
          | none =>
            simp only [hcond, if_true, hcopy, Option.getD_none] at h
            exact hrest _ _ _ (kinds_kept_refl _) h
          | some copy =>
            by_cases hidiom : is_method_call_idiom function statement previous copy = true
            · simp only [hcond, if_true, hcopy, hidiom, Option.getD_some] at h
              exact hrest _ _ _ (fuse_method_call_kinds_kept function block i 1 statement
                previous copy (List.getElem?_mem hs) (List.getElem?_mem hp)) h
            · simp only [hcond, if_true, hcopy, hidiom, if_false, Option.getD_none] at h
              exact hrest _ _ _ (kinds_kept_refl _) h
        · simp only [hc, if_false, Option.getD_none] at h
          exact hrest _ _ _ (kinds_kept_refl _) h
    · cases h
      exact kinds_kept_refl _
    · cases h

theorem eliminate_slots_table_index_kinds_kept (platform : Platform)
    (function function' : Function) (block block' : List Statement) (i i' : Nat)
    (h : eliminate_slots_table_index platform function block i
      = Except.ok (function', block', i')) :
    kinds_kept block block' := by
  unfold eliminate_slots_table_index at h
  split at h
  · rename_i statement previous hs hp
    have hset : ∀ (s' : Statement), s'.type = statement.type → s'.block = statement.block →
        kinds_kept block (block.set i s') := by
      intro s' h1 h2
      exact kinds_kept_set _ _ _ _ (kinds_kept_refl _)
        ⟨statement, List.getElem?_mem hs, h1, h2⟩
    simp only [] at h
    repeat' split at h
    all_goals first
      | (exfalso; cases h; done)
      | (cases h; exact kinds_kept_refl _)
      | (cases h; exact hset _ rfl rfl)
      | (cases h
         exact kinds_kept_eraseIdx _ _ _ (kinds_kept_set _ _ _ _ (hset _ rfl rfl)
           ⟨previous, List.getElem?_mem hp, rfl, rfl⟩))
      | (cases h
         exact kinds_kept_eraseIdx _ _ _ (kinds_kept_set _ _ _ _ (hset _ rfl rfl)
           ⟨statement, List.getElem?_mem hs, rfl, rfl⟩))
  · split at h
    · cases h
    · cases h
      exact kinds_kept_refl _
  · cases h

theorem eliminate_slots_step_kinds_kept (platform : Platform) (function function' : Function)
    (block block' : List Statement) (previousBlocks : List BlockInfo) (i i' : Nat)
    (h : eliminate_slots_step platform function block previousBlocks i
      = Except.ok (function', block', i')) :
    kinds_kept block block' := by
  unfold eliminate_slots_step at h
  split at h
  · cases h
  · rename_i statement hs
    simp only [] at h
    split at h
    · cases h
    · rename_i prepared hprepared
      have hprep : kinds_kept block prepared := by
        repeat' split at hprepared
        all_goals first
          | (exfalso; cases hprepared; done)
          | (cases hprepared; exact kinds_kept_refl _)
          | (cases hprepared; exact eliminate_slots_swap_kinds_kept _ _ _)
          | exact eliminate_slots_table_setter_kinds_kept platform function block prepared i
              hprepared
      split at h
      · cases h
      · rename_i function₁ block₁ i₁ hinline
        have hinl := kinds_kept_trans _ _ _ hprep
          (eliminate_slots_inline_kinds_kept platform _ _ _ _ _ _ _ hinline)
        repeat' split at h
        all_goals first
          | (exfalso; cases h; done)
          | (cases h; exact hinl)
          | exact kinds_kept_trans _ _ _ hinl
              (eliminate_slots_table_index_kinds_kept platform _ _ _ _ _ _ h)

theorem eliminate_slots_loop_kinds_kept (platform : Platform)
    (previousBlocks : List BlockInfo) :
    ∀ (remaining i : Nat) (function function' : Function) (block block' : List Statement),
      eliminate_slots_loop platform previousBlocks remaining i function block
        = Except.ok (function', block') →
      kinds_kept block block' := by
  intro remaining
  induction remaining with
  | zero =>
    intro i function function' block block' h
    cases h
    exact kinds_kept_refl _
  | succ remaining ih =>
    intro i function function' block block' h
    rw [eliminate_slots_loop] at h
    split at h
    · split at h
      · cases h
      · rename_i function₁ block₁ i₁ hstep
        exact kinds_kept_trans _ _ _
          (eliminate_slots_step_kinds_kept platform function function₁ block block₁ _ i i₁
            hstep)
          (ih _ function₁ function' block₁ block' h)
    · cases h
      exact kinds_kept_refl _

theorem eliminate_conditions_second_loop_kinds (block : List Statement) :
    ∀ (i : Nat), eliminate_conditions_second_loop block i = Except.ok () →
      ∀ j, j < i → ∀ s, block[j]? = some s →
        s.type ≠ AST_STATEMENT_CONDITION ∧ holds_block s.type = false := by
  intro i
  induction i with
  | zero =>
    intro _ j hj
    omega
  | succ i ih =>
    intro h j hj s hs
    rw [eliminate_conditions_second_loop] at h
    split at h
    · cases h
    · rename_i statement hsi
      rcases Nat.lt_succ_iff_lt_or_eq.1 hj with hlt | rfl
      · cases hty : statement.type <;> simp only [hty] at h <;>
          first
            | (exfalso; cases h)
            | exact ih h j hlt s hs
      · rw [hs] at hsi
        cases hsi
        cases hty : s.type <;> simp only [hty] at h <;>
          first
            | (exfalso; cases h)
            | exact ⟨by decide, rfl⟩

/-- The modelled part of `eliminate_conditions` completes only on a block without `Condition`,
loop and declaration statements, and returns it as it is. -/
theorem eliminate_conditions_kinds (function function' : Function)
    (block block' : List Statement) (previousBlocks : List BlockInfo)
    (h : eliminate_conditions function block previousBlocks = Except.ok (function', block')) :
    block' = block
      ∧ ∀ s ∈ block, s.type ≠ AST_STATEMENT_CONDITION ∧ holds_block s.type = false := by
  unfold eliminate_conditions at h
  split at h
  · cases h
  · split at h
    · cases h
    · rename_i hsecond
      cases h
      refine ⟨rfl, ?_⟩
      intro s hs
      obtain ⟨j, hj⟩ := List.mem_iff_getElem?.1 hs
      have hlt : j < block.length := by
        rcases Nat.lt_or_ge j block.length with h | h
        · exact h
        · rw [List.getElem?_eq_none h] at hj
          cases hj
      exact eliminate_conditions_second_loop_kinds block _ hsecond j hlt s hj

/-- The passes of `build_functions` on one function node: when they complete, the block is free
of `Condition` and of `Instruction` at every depth. -/
theorem build_functions_body_framed (platform : Platform) (ast ast' : Ast)
    (function function' : Function)
    (h : build_functions_body platform ast function = Except.ok (ast', function')) :
    block_free_of AST_STATEMENT_CONDITION function'.block = true
      ∧ block_free_of AST_STATEMENT_INSTRUCTION function'.block = true := by
  unfold build_functions_body at h
  split at h
  · cases h
  · rename_i ast₆ function₆ hinstructions
    have hfree₆ := build_instructions_free ast ast₆ function function₆ hinstructions
    have hunder₆ := build_instructions_blocks_under_loops ast ast₆ function function₆
      hinstructions
    split at h
    · cases h
    · split at h
      · cases h
      · rename_i function₇ block₇ hcollect
        have hkept₇ := collect_slot_scopes_loop_kinds_kept ast₆ [] _ function₆ function₇
          function₆.block block₇ hcollect
        split at h
        · split at h <;> cases h
        · split at h
          · cases h
          · rename_i function₈ block₈ heliminate
            have hkept₈ := kinds_kept_trans _ _ _ hkept₇
              (eliminate_slots_loop_kinds_kept platform [] _ _ function₇ function₈ block₇
                block₈ heliminate)
            split at h
            · cases h
            · rename_i function₉ block₉ hconditions
              obtain ⟨rfl, hkinds⟩ := eliminate_conditions_kinds function₈ function₉ block₈
                block₉ [] hconditions
              split at h
              · cases h
              · rename_i function₁₀ block₁₀ hif
                cases h
                have hfree₈ := free_of_kinds_kept AST_STATEMENT_INSTRUCTION _ _ hkept₈ hfree₆
                have hunder₈ := blocks_under_loops_of_kinds_kept _ _ hkept₈ hunder₆
                refine build_if_statements_framed function₉ function₁₀ block₉ block₁₀ []
                  ?_ hfree₈ hif
                rw [block_conditions_in_reach_iff]
                intro s hs
                rw [Statement.conditions_in_reach_eq, (hkinds s hs).2]
                simp only [Bool.false_eq_true, if_false]
                rcases hunder₈ s hs with hflat | hloop
                · rw [hflat]
                  rfl
                · rw [(hkinds s hs).2] at hloop
                  cases hloop

/-- The block `guarded_block`, with a condition, is framed into `framed_block`, which holds
neither a `Condition` nor an `Instruction`. -/
theorem build_if_statements_guarded_block :
    build_if_statements guarded_function guarded_block []
      = Except.ok ({ guarded_function with labels := [{ target := 5, jumpIds := [] }] },
          framed_block)
    ∧ block_free_of AST_STATEMENT_CONDITION framed_block = true
    ∧ block_free_of AST_STATEMENT_INSTRUCTION framed_block = true :=
  ⟨rfl, build_if_statements_framed guarded_function
    { guarded_function with labels := [{ target := 5, jumpIds := [] }] }
    guarded_block framed_block [] (by decide) (by decide) rfl⟩

/-! ### Jump targets of instruction import -/

theorem build_instructions_step_target (ast : Ast) (function : Function) (i : Nat) :
    (build_instructions_step ast function i).2.2.instruction.target =
      if is_jump_kind (function.prototype.instructions.getD i { type := BC_OP.INVALID }).type
      then (i + (((function.prototype.instructions.getD i { type := BC_OP.INVALID }).d
          + (4294967296 - BC_OP_JMP_BIAS) + 1) % 4294967296)) % 4294967296
      else INVALID_ID := by
  unfold build_instructions_step
  simp only [new_function, new_statement, Statement.new]
  split <;> simp_all [is_jump_kind]

theorem build_instructions_loop_target (n : Nat) :
    ∀ (ast : Ast) (function : Function),
      (build_instructions_loop n ast function).2.prototype = function.prototype ∧
      (∀ i, i < n → ∃ s, (build_instructions_loop n ast function).2.block[i]? = some s ∧
        s.carries (function.prototype.instructions.getD i { type := BC_OP.INVALID }) i ∧
        s.instruction.target =
          if is_jump_kind (function.prototype.instructions.getD i { type := BC_OP.INVALID }).type
          then (i + (((function.prototype.instructions.getD i { type := BC_OP.INVALID }).d
              + (4294967296 - BC_OP_JMP_BIAS) + 1) % 4294967296)) % 4294967296
          else INVALID_ID) ∧
      (∀ j, (build_instructions_loop n ast function).2.block[n + j]? = function.block[j]?) := by
  induction n with
  | zero =>
    intro ast function
    simp [build_instructions_loop]
  | succ n ih =>
    intro ast function
    obtain ⟨hp, hb⟩ := build_instructions_step_prototype ast function n
    have hc := build_instructions_step_target ast function n
    have hid := build_instructions_step_carries ast function n
    simp only [build_instructions_loop]
    generalize build_instructions_step ast function n = r at hp hb hc hid
    obtain ⟨ast1, function1, statement⟩ := r
    simp only at hp hb hc hid ⊢
    obtain ⟨h1, h3, h4⟩ := ih ast1 { function1 with block := statement :: function1.block }
    simp only at h1 h3 h4
    rw [← hp, ← hb]
    rw [← hp] at hc hid
    refine ⟨h1, ?_, ?_⟩
    · intro i hi
      rcases Nat.lt_succ_iff_lt_or_eq.mp hi with hlt | heq
      · exact h3 i hlt
      · subst heq
        have := h4 0
        simp only [Nat.add_zero, List.getElem?_cons_zero] at this
        exact ⟨statement, this, hid, hc⟩
    · intro j
      have := h4 (j + 1)
      simp only [List.getElem?_cons_succ] at this
      rw [← this]
      congr 1
      omega

theorem build_instructions_body_target (ast : Ast) (function : Function) (i : Nat)
    (raw : BytecodeInstruction) (hraw : function.prototype.instructions[i]? = some raw) :
    ∃ s, (build_instructions_body ast function).2.block[i]? = some s ∧
      s.carries raw i ∧
      s.instruction.target =
        if is_jump_kind raw.type
        then (i + ((raw.d + (4294967296 - BC_OP_JMP_BIAS) + 1) % 4294967296)) % 4294967296
        else INVALID_ID := by
  obtain ⟨_, h3, _⟩ :=
    build_instructions_loop_target function.prototype.instructions.length ast
      { function with block := [] }
  have hi : i < function.prototype.instructions.length := by
    rcases Nat.lt_or_ge i function.prototype.instructions.length with h | h
    · exact h
    · rw [List.getElem?_eq_none h] at hraw
      cases hraw
  obtain ⟨s, hs, hid, hc⟩ := h3 i hi
  have hget : function.prototype.instructions.getD i { type := BC_OP.INVALID } = raw := by
    simp [List.getD, hraw]
  simp only [hget] at hc hid
  exact ⟨s, by simpa [build_instructions_body] using hs, hid, hc⟩

theorem jump_target_int (i d : Nat) :
    (((i + ((d + (4294967296 - BC_OP_JMP_BIAS) + 1) % 4294967296)) % 4294967296 : Nat) : Int)
      = ((i : Int) + d + 1 - BC_OP_JMP_BIAS) % 4294967296 := by
  unfold BC_OP_JMP_BIAS
  omega

theorem jump_target_exact (i d : Nat) (hlow : BC_OP_JMP_BIAS ≤ i + d + 1)
    (hhigh : i + d + 1 < 4294967296 + BC_OP_JMP_BIAS) :
    (i + ((d + (4294967296 - BC_OP_JMP_BIAS) + 1) % 4294967296)) % 4294967296
      = i + d + 1 - BC_OP_JMP_BIAS := by
  unfold BC_OP_JMP_BIAS at *
  omega

/-- Counterexample to claim C12 as stated: in a prototype of `2^32 - 1` instructions the jump at
id `4294967294` with `d = 65535` has `id + d + 1 >= JMP_BIAS`, and its target is `32766`, not the
integer `id + d + 1 - JMP_BIAS = 4295000062`. -/
theorem C12_counterexample_target_wraps :
    ∃ s, (build_instructions_body {} (Function.new far_jumps)).2.block[4294967294]? = some s
      ∧ is_jump_kind s.instruction.type = true
      ∧ s.instruction.id = 4294967294
      ∧ s.instruction.d = 65535
      ∧ BC_OP_JMP_BIAS ≤ s.instruction.id + s.instruction.d + 1
      ∧ s.instruction.target = 32766
      ∧ s.instruction.id + s.instruction.d + 1 - BC_OP_JMP_BIAS = 4295000062 := by
  have hraw : (Function.new far_jumps).prototype.instructions[4294967294]?
      = some { type := BC_OP.JMP, d := 65535 } := by
    show (List.replicate 4294967295 _)[4294967294]? = _
    rw [List.getElem?_replicate]
    simp
  obtain ⟨s, hs, ⟨htype, _, _, _, hd, hid⟩, ht⟩ := build_instructions_body_target {} _ _ _ hraw
  simp only at htype hd hid ht
  refine ⟨s, hs, by rw [htype]; rfl, hid, hd, ?_, ?_, ?_⟩
  · rw [hid, hd]
    decide
  · rw [ht]
    decide
  · rw [hid, hd]
    decide

/-- Claim C12, amended. Instruction import gives the statement of instruction `i` the target
`(i + d + 1 - JMP_BIAS) mod 2^32` when the opcode is UCLO, ISNEXT, FORI, FORL, ITERL, LOOP or
JMP; that is the integer `i + d + 1 - JMP_BIAS` whenever
`JMP_BIAS <= i + d + 1 < 2^32 + JMP_BIAS`. For every other opcode the target stays `INVALID_ID`,
the value of a fresh statement. -/
theorem C12_build_instructions_jump_target (ast : Ast) (function : Function) (i : Nat)
    (raw : BytecodeInstruction) (hraw : function.prototype.instructions[i]? = some raw) :
    ∃ s, (build_instructions_body ast function).2.block[i]? = some s
      ∧ s.instruction.id = i ∧ s.instruction.d = raw.d
      ∧ (is_jump_kind raw.type = true →
          (s.instruction.target : Int)
              = ((i : Int) + raw.d + 1 - BC_OP_JMP_BIAS) % 4294967296
            ∧ (BC_OP_JMP_BIAS ≤ i + raw.d + 1 → i + raw.d + 1 < 4294967296 + BC_OP_JMP_BIAS →
                s.instruction.target = i + raw.d + 1 - BC_OP_JMP_BIAS))
      ∧ (is_jump_kind raw.type = false → s.instruction.target = INVALID_ID) := by
  obtain ⟨s, hs, ⟨_, _, _, _, hd, hid⟩, ht⟩ := build_instructions_body_target ast function i raw hraw
  refine ⟨s, hs, hid, hd, ?_, ?_⟩
  · intro hk
    rw [if_pos hk] at ht
    refine ⟨?_, ?_⟩
    · rw [ht]
      exact jump_target_int i raw.d
    · intro hlow hhigh
      rw [ht]
      exact jump_target_exact i raw.d hlow hhigh
  · intro hk
    rw [hk] at ht
    simpa using ht

/-- Witness for claim C12: the jump `JMP` with `d = 32770` at id `0` gets target `3`. -/
theorem C12_witness :
    short_jump.instructions[0]? = some { type := BC_OP.JMP, d := 32770 }
    ∧ ∃ s, (build_instructions_body {} (Function.new short_jump)).2.block[0]? = some s
      ∧ s.instruction.id = 0 ∧ s.instruction.target = 3 := by
  refine ⟨rfl, ?_⟩
  obtain ⟨s, hs, hid, _, hjump, _⟩ :=
    C12_build_instructions_jump_target {} (Function.new short_jump) 0
      { type := BC_OP.JMP, d := 32770 } rfl
  exact ⟨s, hs, hid, (hjump rfl).2 (by decide) (by decide)⟩

/-! ### The scope-overlap assertion of `assign_debug_info` -/

theorem pop_to_base_slot_error (baseSlot scopeEnd : Nat) (activeLocalScopes : List Nat)
    (e : Error) (h : pop_to_base_slot baseSlot scopeEnd activeLocalScopes = Except.error e) :
    e = Error.assertion "Unable to build variable scope" := by
  induction activeLocalScopes with
  | nil =>
    unfold pop_to_base_slot at h
    split at h
    · cases h
    · cases h
      rfl
  | cons back rest ih =>
    unfold pop_to_base_slot at h
    split at h
    · cases h
    · split at h
      · exact ih h
      · cases h
        rfl

theorem assign_debug_info_zero_span_error (function : Function) (info : VariableInfo)
    (activeLocalScopes : List Nat) (e : Error)
    (h : assign_debug_info_zero_span function info activeLocalScopes = Except.error e) :
    e = Error.assertion "Unable to build variable scope" ∨ e = Error.outOfRange := by
  unfold assign_debug_info_zero_span at h
  simp only [] at h
  repeat' split at h
  all_goals first
    | (exfalso; cases h; done)
    | (cases h; exact Or.inr rfl)
    | (rename_i hp; cases h; exact Or.inl (pop_to_base_slot_error _ _ _ _ hp))

/-- Claim C15. For a non-parameter variable record, the iteration of `assign_debug_info` fails
with the assertion "Illegal variable scope border overlap" exactly when the stack of active scope
ends is not empty, the record's `scopeBegin` is strictly less than the scope end on top of the
stack and the record's `scopeEnd` is strictly greater than it; in every other case the record
passes that check. -/
theorem C15_assign_debug_info_illegal_overlap_iff (function : Function) (info : VariableInfo)
    (activeLocalScopes : List Nat) :
    assign_debug_info_step function info activeLocalScopes
        = Except.error (Error.assertion "Illegal variable scope border overlap")
      ↔ ∃ back rest, activeLocalScopes = back :: rest
          ∧ info.scopeBegin < back ∧ back < info.scopeEnd := by
  constructor
  · intro h
    unfold assign_debug_info_step at h
    simp only [] at h
    split at h
    · rename_i hlegal
      cases activeLocalScopes with
      | nil => simp at hlegal
      | cons back rest =>
        simp only [decide_eq_false_iff_not, not_or] at hlegal
        exact ⟨back, rest, rfl, by omega, by omega⟩
    · exfalso
      split at h
      · cases h
      · split at h
        · rename_i e hz
          cases h
          rcases assign_debug_info_zero_span_error _ _ _ _ hz with he | he <;>
            exact absurd he (by decide)
        · cases h
  · rintro ⟨back, rest, rfl, hb, he⟩
    unfold assign_debug_info_step
    have : decide (info.scopeBegin > back ∨ info.scopeEnd ≤ back ∨ info.scopeBegin = back)
        = false := by
      simp only [decide_eq_false_iff_not, not_or]
      omega
    simp [this]

/-! ### The errors of `build_loops`

The passes that `build_loops` calls raise other errors than its assertion on the target of a
`LOOP`. -/

theorem check_special_number_error (expression : Expression) (isCdata : Bool) (e : Error)
    (h : check_special_number expression isCdata = Except.error e) :
    e ≠ Error.assertion "LOOP instruction has invalid jump target" := by
  unfold check_special_number at h
  simp only [] at h
  repeat' split at h
  all_goals first
    | (exfalso; cases h; done)
    | (cases h; decide)

theorem new_number_error (function : Function) (index : Nat) (e : Error)
    (h : new_number function index = Except.error e) :
    e ≠ Error.assertion "LOOP instruction has invalid jump target" := by
  unfold new_number at h
  simp only [] at h
  split at h
  · cases h
  · exact check_special_number_error _ _ _ h

theorem new_table_constant_error (constant : TableConstant) (e : Error)
    (h : new_table_constant constant = Except.error e) :
    e ≠ Error.assertion "LOOP instruction has invalid jump target" := by
  unfold new_table_constant at h
  split at h
  all_goals first
    | (exfalso; cases h)
    | exact check_special_number_error _ _ _ h

theorem new_table_list_error (constants : List TableConstant) (e : Error)
    (h : new_table_list constants = Except.error e) :
    e ≠ Error.assertion "LOOP instruction has invalid jump target" := by
  induction constants with
  | nil => cases h
  | cons constant rest ih =>
    unfold new_table_list at h
    split at h
    · rename_i e' hr
      cases h
      exact ih hr
    · split at h
      · rename_i e' hc
        cases h
        exact new_table_constant_error _ _ hc
      · cases h

theorem new_table_fields_error (fields : List (TableConstant × TableConstant)) (e : Error)
    (h : new_table_fields fields = Except.error e) :
    e ≠ Error.assertion "LOOP instruction has invalid jump target" := by
  induction fields with
  | nil => cases h
  | cons field rest ih =>
    obtain ⟨key, value⟩ := field
    unfold new_table_fields at h
    split at h
    · rename_i e' hr
      cases h
      exact ih hr
    · split at h
      · rename_i e' hc
        cases h
        exact new_table_constant_error _ _ hc
      · split at h
        · rename_i e' hc
          cases h
          exact new_table_constant_error _ _ hc
        · cases h

theorem new_table_error (function : Function) (index : Nat) (e : Error)
    (h : new_table function index = Except.error e) :
    e ≠ Error.assertion "LOOP instruction has invalid jump target" := by
  unfold new_table at h
  split at h
  · rename_i e' hc
    cases h
    exact new_table_list_error _ _ hc
  · split at h
    · rename_i e' hc
      cases h
      exact new_table_fields_error _ _ hc
    · cases h

theorem new_cdata_error (function : Function) (index : Nat) (e : Error)
    (h : new_cdata function index = Except.error e) :
    e ≠ Error.assertion "LOOP instruction has invalid jump target" := by
  unfold new_cdata at h
  simp only [] at h
  split at h
  all_goals first
    | (exfalso; cases h)
    | exact check_special_number_error _ _ _ h

theorem build_call_error (ast : Ast) (assignment : Assignment) (a count : Nat)
    (isMultresCall : Bool) (returnCount : Nat) (e : Error)
    (h : build_call ast assignment a count isMultresCall returnCount = Except.error e) :
    e ≠ Error.assertion "LOOP instruction has invalid jump target" := by
  unfold build_call at h
  simp only [] at h
  repeat' split at h
  all_goals first
    | (exfalso; cases h; done)
    | (cases h; decide)

set_option maxHeartbeats 4000000 in
theorem build_instruction_expression_error (ast : Ast) (function : Function)
    (statement : Statement) (e : Error)
    (h : build_instruction_expression ast function statement = Except.error e) :
    e ≠ Error.assertion "LOOP instruction has invalid jump target" := by
  unfold build_instruction_expression at h
  simp only [] at h
  repeat' split at h
  all_goals first
    | (exfalso; cases h; done)
    | (cases h; decide)
    | (cases h; exact new_number_error _ _ _ (by assumption))
    | (cases h; exact new_cdata_error _ _ _ (by assumption))
    | (cases h; exact new_table_error _ _ _ (by assumption))
    | (cases h; exact build_call_error _ _ _ _ _ _ _ (by assumption))

theorem build_return_values_error (assignment : Assignment) (instruction : Instruction)
    (e : Error) (h : build_return_values assignment instruction = Except.error e) :
    e ≠ Error.assertion "LOOP instruction has invalid jump target" := by
  unfold build_return_values at h
  simp only [] at h
  repeat' split at h
  all_goals first
    | (exfalso; cases h; done)
    | (cases h; decide)

theorem build_return_expression_error (ast : Ast) (statement : Statement) (e : Error)
    (h : build_return_expression ast statement = Except.error e) :
    e ≠ Error.assertion "LOOP instruction has invalid jump target" := by
  unfold build_return_expression at h
  simp only [] at h
  repeat' split at h
  all_goals first
    | (exfalso; cases h; done)
    | (cases h; exact build_call_error _ _ _ _ _ _ _ (by assumption))
    | (cases h; exact build_return_values_error _ _ _ (by assumption))

theorem build_condition_expression_error (function : Function) (statement : Statement)
    (e : Error) (h : build_condition_expression function statement = Except.error e) :
    e ≠ Error.assertion "LOOP instruction has invalid jump target" := by
  unfold build_condition_expression at h
  simp only [] at h
  repeat' split at h
  all_goals first
    | (exfalso; cases h; done)
    | (cases h; exact new_number_error _ _ _ (by assumption))

theorem build_numeric_for_expression_error (function : Function) (statement : Statement)
    (e : Error) (h : build_numeric_for_expression function statement = Except.error e) :
    e ≠ Error.assertion "LOOP instruction has invalid jump target" := by
  unfold build_numeric_for_expression at h
  simp only [] at h
  repeat' split at h
  all_goals first
    | (exfalso; cases h; done)
    | (cases h; decide)

theorem build_generic_for_expression_error (function : Function) (statement : Statement)
    (e : Error) (h : build_generic_for_expression function statement = Except.error e) :
    e ≠ Error.assertion "LOOP instruction has invalid jump target" := by
  unfold build_generic_for_expression at h
  simp only [] at h
  repeat' split at h
  all_goals first
    | (exfalso; cases h; done)
    | (cases h; decide)

theorem build_declaration_expression_error (function : Function) (statement : Statement)
    (e : Error) (h : build_declaration_expression function statement = Except.error e) :
    e ≠ Error.assertion "LOOP instruction has invalid jump target" := by
  unfold build_declaration_expression at h
  simp only [] at h
  repeat' split at h
  all_goals first
    | (exfalso; cases h; done)
    | (cases h; decide)

theorem build_expressions_step_error (ast : Ast) (function : Function) (block : List Statement)
    (i : Nat) (e : Error) (h : build_expressions_step ast function block i = Except.error e) :
    e ≠ Error.assertion "LOOP instruction has invalid jump target" := by
  unfold build_expressions_step at h
  simp only [] at h
  repeat' split at h
  all_goals first
    | (exfalso; cases h; done)
    | (cases h; decide)
    | (cases h; exact build_instruction_expression_error _ _ _ _ (by assumption))
    | (cases h; exact build_return_expression_error _ _ _ (by assumption))
    | (cases h; exact build_condition_expression_error _ _ _ (by assumption))
    | (cases h; exact build_numeric_for_expression_error _ _ _ (by assumption))
    | (cases h; exact build_generic_for_expression_error _ _ _ (by assumption))
    | (cases h; exact build_declaration_expression_error _ _ _ (by assumption))

theorem build_expressions_loop_error (ast : Ast) (fuel : Nat) :
    ∀ (i : Nat) (function : Function) (block : List Statement) (e : Error),
      build_expressions_loop ast fuel i function block = Except.error e →
      e ≠ Error.assertion "LOOP instruction has invalid jump target" := by
  induction fuel with
  | zero =>
    intro i function block e h
    unfold build_expressions_loop at h
    cases h
    decide
  | succ fuel ih =>
    intro i function block e h
    cases i with
    | zero =>
      unfold build_expressions_loop at h
      cases h
    | succ i =>
      unfold build_expressions_loop at h
      split at h
      · rename_i e' hs
        cases h
        exact build_expressions_step_error _ _ _ _ _ hs
      · exact ih _ _ _ _ h

theorem build_expressions_error (ast : Ast) (function : Function) (block : List Statement)
    (e : Error) (h : build_expressions ast function block = Except.error e) :
    e ≠ Error.assertion "LOOP instruction has invalid jump target" :=
  build_expressions_loop_error ast _ _ _ _ _ h

theorem build_local_scopes_step_error (ast : Ast) (function : Function)
    (block : List Statement) (i : Nat) (e : Error)
    (h : build_local_scopes_step ast function block i = Except.error e) :
    e ≠ Error.assertion "LOOP instruction has invalid jump target" := by
  unfold build_local_scopes_step at h
  simp only [] at h
  repeat' split at h
  all_goals first
    | (exfalso; cases h; done)
    | (cases h; decide)
    | (cases h; exact build_expressions_error _ _ _ _ (by assumption))

theorem build_local_scopes_loop_error (ast : Ast) (n : Nat) :
    ∀ (function : Function) (block : List Statement) (e : Error),
      build_local_scopes_loop ast n function block = Except.error e →
      e ≠ Error.assertion "LOOP instruction has invalid jump target" := by
  induction n with
  | zero =>
    intro function block e h
    cases h
  | succ n ih =>
    intro function block e h
    unfold build_local_scopes_loop at h
    split at h
    · rename_i e' hs
      cases h
      exact build_local_scopes_step_error _ _ _ _ _ hs
    · exact ih _ _ _ h

theorem build_local_scopes_error (ast : Ast) (function : Function) (block : List Statement)
    (e : Error) (h : build_local_scopes ast function block = Except.error e) :
    e ≠ Error.assertion "LOOP instruction has invalid jump target" := by
  unfold build_local_scopes at h
  split at h
  · exact build_expressions_error _ _ _ _ h
  · split at h
    · rename_i e' hs
      cases h
      exact build_local_scopes_loop_error _ _ _ _ _ hs
    · exact build_expressions_error _ _ _ _ h

theorem extract_loop_body_error (ast : Ast) (function : Function)
    (i last erasedEnd breakTarget : Nat) (extra : List Statement → List Statement) (e : Error)
    (h : extract_loop_body ast function i last erasedEnd breakTarget extra = Except.error e) :
    e ≠ Error.assertion "LOOP instruction has invalid jump target" := by
  unfold extract_loop_body at h
  simp only [] at h
  repeat' split at h
  all_goals first
    | (exfalso; cases h; done)
    | (cases h; decide)
    | (cases h; exact build_local_scopes_error _ _ _ _ (by assumption))

theorem build_loops_step_invalid_target_iff (ast : Ast) (function : Function) (i : Nat) :
    build_loops_step ast function i
        = Except.error (Error.assertion "LOOP instruction has invalid jump target")
      ↔ ∃ statement, function.block[i]? = some statement
          ∧ statement.type = AST_STATEMENT_INSTRUCTION
          ∧ statement.instruction.type = BC_OP.LOOP
          ∧ statement.instruction.target < statement.instruction.id := by
  constructor
  · intro h
    unfold build_loops_step at h
    simp only [] at h
    repeat' split at h
    all_goals first
      | (exfalso; cases h; done)
      | (exfalso; revert h; simp; done)
      | (exfalso; exact extract_loop_body_error _ _ _ _ _ _ _ _ h rfl)
      | exact ⟨_, ‹_ = some _›, Decidable.of_not_not ‹_›, ‹_›, ‹_›⟩
  · rintro ⟨statement, hs, htype, hop, hlt⟩
    unfold build_loops_step
    simp [hs, htype, hop, hlt]

theorem build_loops_loop_invalid_target_iff (ast : Ast) (n : Nat) :
    ∀ function : Function,
      build_loops_loop ast n function
          = Except.error (Error.assertion "LOOP instruction has invalid jump target")
        ↔ ∃ i last statement, build_loops_reaches ast n function (i + 1) last
            ∧ last.block[i]? = some statement
            ∧ statement.type = AST_STATEMENT_INSTRUCTION
            ∧ statement.instruction.type = BC_OP.LOOP
            ∧ statement.instruction.target < statement.instruction.id := by
  induction n with
  | zero =>
    intro function
    constructor
    · intro h
      cases h
    · rintro ⟨i, last, statement, hr, _⟩
      cases hr
  | succ n ih =>
    intro function
    unfold build_loops_loop
    constructor
    · intro h
      split at h
      · rename_i e hs
        cases h
        exact ⟨n, function, (build_loops_step_invalid_target_iff ast function n).1 hs |>.choose,
          build_loops_reaches.here _ _,
          (build_loops_step_invalid_target_iff ast function n).1 hs |>.choose_spec⟩
      · rename_i function' hs
        obtain ⟨i, last, statement, hr, hrest⟩ := (ih function').1 h
        exact ⟨i, last, statement, build_loops_reaches.next _ _ _ _ _ hs hr, hrest⟩
    · rintro ⟨i, last, statement, hr, hrest⟩
      cases hr with
      | here =>
        rw [(build_loops_step_invalid_target_iff ast function n).2 ⟨statement, hrest⟩]
      | next _ _ function' _ _ hs hr =>
        rw [hs]
        exact (ih function').2 ⟨i, last, statement, hr, hrest⟩

/-- Claim C16. `build_loops` raises the fatal error "LOOP instruction has invalid jump target" if
and only if its loop reaches a statement that is still an `Instruction` statement, with opcode
`LOOP`, whose target is strictly smaller than its own instruction id; this holds for every
single iteration (first part) and for the whole function, whose later passes raise other errors
(second part). -/
theorem C16_build_loops_invalid_loop_target_iff (ast : Ast) (function : Function) :
    (∀ i : Nat,
      build_loops_step ast function i
          = Except.error (Error.assertion "LOOP instruction has invalid jump target")
        ↔ ∃ statement, function.block[i]? = some statement
            ∧ statement.type = AST_STATEMENT_INSTRUCTION
            ∧ statement.instruction.type = BC_OP.LOOP
            ∧ statement.instruction.target < statement.instruction.id)
    ∧ (build_loops ast function
          = Except.error (Error.assertion "LOOP instruction has invalid jump target")
        ↔ ∃ i last statement,
            build_loops_reaches ast function.block.length function (i + 1) last
            ∧ last.block[i]? = some statement
            ∧ statement.type = AST_STATEMENT_INSTRUCTION
            ∧ statement.instruction.type = BC_OP.LOOP
            ∧ statement.instruction.target < statement.instruction.id) := by
  refine ⟨build_loops_step_invalid_target_iff ast function, ?_⟩
  rw [← build_loops_loop_invalid_target_iff]
  unfold build_loops
  constructor
  · intro h
    split at h
    · rename_i e hs
      cases h
      exact hs
    · exfalso
      split at h
      · rename_i e hs
        cases h
        exact build_local_scopes_error _ _ _ _ hs rfl
      · cases h
  · intro h
    rw [h]

/-! ### The arguments of a call -/

theorem register_open_slots_fields (handles : List OpenSlot) :
    ∀ assignment : Assignment,
      (assignment.register_open_slots handles).expressions = assignment.expressions
      ∧ (assignment.register_open_slots handles).variables_ = assignment.variables_
      ∧ (assignment.register_open_slots handles).openSlots = assignment.openSlots ++ handles
      ∧ (assignment.register_open_slots handles).allowedConstantType
          = assignment.allowedConstantType
      ∧ (assignment.register_open_slots handles).multresReturn = assignment.multresReturn := by
  induction handles with
  | nil =>
    intro assignment
    simp [Assignment.register_open_slots]
  | cons handle rest ih =>
    intro assignment
    have h := ih (assignment.register_open_slot handle)
    simp only [Assignment.register_open_slots, List.foldl_cons] at h ⊢
    obtain ⟨h1, h2, h3, h4, h5⟩ := h
    refine ⟨h1, h2, ?_, h4, h5⟩
    rw [h3]
    simp [Assignment.register_open_slot]

theorem operator_call_begin_FR2 (bytecode : Bytecode) :
    (operator_call_begin bytecode).1.isFR2Enabled = true
      ↔ bytecode.isVersion2 = true ∧ bytecode.flags &&& BC_F_FR2 ≠ 0 := by
  unfold operator_call_begin
  simp only [new_function]
  cases h : bytecode.isVersion2 <;> simp

theorem build_instructions_step_FR2 (ast : Ast) (function : Function) (i : Nat) :
    (build_instructions_step ast function i).1.isFR2Enabled = ast.isFR2Enabled := by
  unfold build_instructions_step
  simp only [new_function]
  split <;> rfl

theorem build_instructions_loop_FR2 (n : Nat) :
    ∀ (ast : Ast) (function : Function),
      (build_instructions_loop n ast function).1.isFR2Enabled = ast.isFR2Enabled := by
  induction n with
  | zero =>
    intro ast function
    rfl
  | succ n ih =>
    intro ast function
    have hs := build_instructions_step_FR2 ast function n
    simp only [build_instructions_loop]
    generalize build_instructions_step ast function n = r at hs
    obtain ⟨ast1, function1, statement⟩ := r
    simp only at hs ⊢
    rw [ih, hs]

theorem call_arguments_spec (base count : Nat) :
    (call_arguments base count).1.length = count
      ∧ ∀ j, j < count → (call_arguments base count).1[j]? = some (new_slot (base + j)) := by
  unfold call_arguments
  refine ⟨by simp, ?_⟩
  intro j hj
  simp [List.getElem?_map, List.getElem?_range hj]

theorem build_call_arguments (ast : Ast) (assignment assignment' : Assignment) (a count : Nat)
    (isMultresCall : Bool) (returnCount : Nat)
    (h : build_call ast assignment a count isMultresCall returnCount = Except.ok assignment') :
    ∃ callee arguments multresArgument isMethod returnCount',
      assignment'.expressions
        = [Expression.functionCall callee arguments multresArgument isMethod returnCount']
      ∧ arguments.length = (if isMultresCall then count else count - 1)
      ∧ ∀ j, j < arguments.length →
          arguments[j]? = some (new_slot (a + (if ast.isFR2Enabled then 2 else 1) + j)) := by
  unfold build_call at h
  by_cases hc : count = 0 ∧ isMultresCall = false
  · rw [if_pos hc] at h
    cases h
  · rw [if_neg hc] at h
    simp only [] at h
    by_cases hn : (if isMultresCall then count else count - 1) > 255
    · rw [if_pos hn] at h
      cases h
    · rw [if_neg hn] at h
      obtain ⟨hlen, hargs⟩ := call_arguments_spec (a + (if ast.isFR2Enabled then 2 else 1))
        (if isMultresCall then count else count - 1)
      have hexp : assignment'.expressions = [Expression.functionCall (new_slot a)
          (call_arguments (a + (if ast.isFR2Enabled then 2 else 1))
            (if isMultresCall then count else count - 1)).1
          (if isMultresCall then
            (new_slot (a + (if ast.isFR2Enabled then 2 else 1) + count)).setMultres
           else Expression.null) false returnCount] := by
        cases h
        cases isMultresCall <;>
          simp only [Bool.false_eq_true, if_false, if_true, (register_open_slots_fields _ _).1] <;>
          split <;> simp only [(register_open_slots_fields _ _).1]
      refine ⟨_, _, _, _, _, hexp, hlen, ?_⟩
      intro j hj
      rw [hlen] at hj
      exact hargs j hj

theorem build_call_no_error (ast : Ast) (assignment : Assignment) (a count : Nat)
    (isMultresCall : Bool) (returnCount : Nat) (e : Error)
    (h : build_call ast assignment a count isMultresCall returnCount = Except.error e)
    (hcount : (isMultresCall = true ∧ count ≤ 255)
      ∨ (isMultresCall = false ∧ 1 ≤ count ∧ count ≤ 256)) : False := by
  unfold build_call at h
  rcases hcount with ⟨hm, hc⟩ | ⟨hm, h1, hc⟩
  · subst hm
    simp only [Bool.true_eq_false, and_false, if_false, if_true] at h
    rw [if_neg (by omega)] at h
    cases h
  · subst hm
    rw [if_neg (by omega)] at h
    simp only [Bool.false_eq_true, if_false] at h
    rw [if_neg (by omega)] at h
    cases h

theorem build_instruction_expression_call (ast : Ast) (function function' : Function)
    (statement statement' : Statement) (exit : Exit)
    (hop : statement.instruction.type = BC_OP.CALL ∨ statement.instruction.type = BC_OP.CALLM)
    (h : build_instruction_expression ast function statement
      = Except.ok (function', statement', exit)) :
    ∃ targets returnCount,
      build_call ast targets statement.instruction.a statement.instruction.c
        (decide (statement.instruction.type = BC_OP.CALLM)) returnCount
      = Except.ok statement'.assignment := by
  unfold build_instruction_expression at h
  rcases hop with hop | hop <;> simp only [hop] at h <;> split at h
  all_goals first
    | (exfalso; cases h; done)
    | (rename_i hb; cases h; exact ⟨_, _, (by rw [hop]; exact hb)⟩)

theorem build_return_expression_call (ast : Ast) (statement statement' : Statement)
    (hop : statement.instruction.type = BC_OP.CALLT ∨ statement.instruction.type = BC_OP.CALLMT)
    (h : build_return_expression ast statement = Except.ok statement') :
    build_call ast statement.assignment statement.instruction.a statement.instruction.d
        (decide (statement.instruction.type = BC_OP.CALLMT)) 0
      = Except.ok statement'.assignment := by
  unfold build_return_expression at h
  rcases hop with hop | hop <;> simp only [hop] at h <;> split at h
  all_goals first
    | (exfalso; cases h; done)
    | (rename_i hb; cases h; rw [hop]; exact hb)

/-- Counterexample to claim C11 as stated. First part: for a module of the first bytecode version
whose header flags have the FR2 bit set, FR2 is not enabled, and argument 0 of `CALL 0 2 2` reads
slot 1, not slot 2. Second part: argument 0 of `CALL 255 2 2`, FR2 disabled, reads slot 0, not
slot 256. -/
theorem C11_counterexample_version_one_and_slot_wrap :
    (version_one_with_FR2_bit.flags &&& BC_F_FR2 ≠ 0
      ∧ (operator_call_begin version_one_with_FR2_bit).1.isFR2Enabled = false
      ∧ (build_instruction_expression (operator_call_begin version_one_with_FR2_bit).1
            (Function.new {}) (instruction_statement BC_OP.CALL 0 2 2 0)).toOption.map
          (fun result => result.2.1.argument_slots) = some [1])
    ∧ (build_instruction_expression {} (Function.new {})
          (instruction_statement BC_OP.CALL 255 2 2 0)).toOption.map
        (fun result => result.2.1.argument_slots) = some [0] := by
  decide!

/-- Claim C11, amended. FR2 is enabled exactly when the header's version is the second bytecode
version and the FR2 bit of the header's flags is set, and instruction import leaves the setting as
it is. For every CALL, CALLM, CALLT and CALLMT instruction that `build_expressions` turns into a
call expression, the number of fixed arguments is C - 1 for CALL, C for CALLM, D - 1 for CALLT
and D for CALLMT, and argument j is the slot read `new_slot (A + 1 + j)` when FR2 is disabled and
`new_slot (A + 2 + j)` when FR2 is enabled, whose slot is that sum modulo 256. The call
expression is built whenever the operand gives at least zero and at most 255 fixed arguments. -/
theorem C11_call_arguments_follow_FR2 :
    (∀ bytecode : Bytecode,
      (operator_call_begin bytecode).1.isFR2Enabled = true
        ↔ bytecode.isVersion2 = true ∧ bytecode.flags &&& BC_F_FR2 ≠ 0)
    ∧ (∀ (ast : Ast) (function : Function),
      (build_instructions_body ast function).1.isFR2Enabled = ast.isFR2Enabled)
    ∧ (∀ (ast : Ast) (function function' : Function) (statement statement' : Statement)
        (exit : Exit),
      statement.instruction.type = BC_OP.CALL ∨ statement.instruction.type = BC_OP.CALLM →
      build_instruction_expression ast function statement
        = Except.ok (function', statement', exit) →
      ∃ callee arguments multresArgument isMethod returnCount,
        statement'.assignment.expressions
          = [Expression.functionCall callee arguments multresArgument isMethod returnCount]
        ∧ arguments.length
          = (if statement.instruction.type = BC_OP.CALLM then statement.instruction.c
             else statement.instruction.c - 1)
        ∧ ∀ j, j < arguments.length → ∃ argument, arguments[j]? = some argument
            ∧ argument = new_slot
                (statement.instruction.a + (if ast.isFR2Enabled then 2 else 1) + j)
            ∧ argument.slot
              = (statement.instruction.a + (if ast.isFR2Enabled then 2 else 1) + j) % 256)
    ∧ (∀ (ast : Ast) (statement statement' : Statement),
      statement.instruction.type = BC_OP.CALLT ∨ statement.instruction.type = BC_OP.CALLMT →
      build_return_expression ast statement = Except.ok statement' →
      ∃ callee arguments multresArgument isMethod returnCount,
        statement'.assignment.expressions
          = [Expression.functionCall callee arguments multresArgument isMethod returnCount]
        ∧ arguments.length
          = (if statement.instruction.type = BC_OP.CALLMT then statement.instruction.d
             else statement.instruction.d - 1)
        ∧ ∀ j, j < arguments.length → ∃ argument, arguments[j]? = some argument
            ∧ argument = new_slot
                (statement.instruction.a + (if ast.isFR2Enabled then 2 else 1) + j)
            ∧ argument.slot
              = (statement.instruction.a + (if ast.isFR2Enabled then 2 else 1) + j) % 256)
    ∧ (∀ (ast : Ast) (function : Function) (statement : Statement),
      (statement.instruction.type = BC_OP.CALL
          ∧ 1 ≤ statement.instruction.c ∧ statement.instruction.c ≤ 256)
        ∨ (statement.instruction.type = BC_OP.CALLM ∧ statement.instruction.c ≤ 255) →
      ∃ result, build_instruction_expression ast function statement = Except.ok result)
    ∧ (∀ (ast : Ast) (statement : Statement),
      (statement.instruction.type = BC_OP.CALLT
          ∧ 1 ≤ statement.instruction.d ∧ statement.instruction.d ≤ 256)
        ∨ (statement.instruction.type = BC_OP.CALLMT ∧ statement.instruction.d ≤ 255) →
      ∃ result, build_return_expression ast statement = Except.ok result) := by
  refine ⟨operator_call_begin_FR2, ?_, ?_, ?_, ?_, ?_⟩
  · intro ast function
    exact build_instructions_loop_FR2 _ _ _
  · intro ast function function' statement statement' exit hop h
    obtain ⟨targets, returnCount, hb⟩ :=
      build_instruction_expression_call ast function function' statement statement' exit hop h
    obtain ⟨callee, arguments, multresArgument, isMethod, returnCount', hexp, hlen, hargs⟩ :=
      build_call_arguments _ _ _ _ _ _ _ hb
    refine ⟨callee, arguments, multresArgument, isMethod, returnCount', hexp, ?_, ?_⟩
    · rw [hlen]
      simp
    · intro j hj
      exact ⟨_, hargs j hj, rfl, rfl⟩
  · intro ast statement statement' hop h
    have hb := build_return_expression_call ast statement statement' hop h
    obtain ⟨callee, arguments, multresArgument, isMethod, returnCount', hexp, hlen, hargs⟩ :=
      build_call_arguments _ _ _ _ _ _ _ hb
    refine ⟨callee, arguments, multresArgument, isMethod, returnCount', hexp, ?_, ?_⟩
    · rw [hlen]
      simp
    · intro j hj
      exact ⟨_, hargs j hj, rfl, rfl⟩
  · intro ast function statement hop
    unfold build_instruction_expression
    rcases hop with ⟨hop, h1, h2⟩ | ⟨hop, h2⟩
    · simp only [hop]
      split
      · rename_i e heq
        exact (build_call_no_error _ _ _ _ _ _ _ heq (Or.inr ⟨by decide, h1, h2⟩)).elim
      · exact ⟨_, rfl⟩
    · simp only [hop]
      split
      · rename_i e heq
        exact (build_call_no_error _ _ _ _ _ _ _ heq (Or.inl ⟨by decide, h2⟩)).elim
      · exact ⟨_, rfl⟩
  · intro ast statement hop
    unfold build_return_expression
    rcases hop with ⟨hop, h1, h2⟩ | ⟨hop, h2⟩
    · simp only [hop]
      split
      · rename_i e heq
        exact (build_call_no_error _ _ _ _ _ _ _ heq (Or.inr ⟨by decide, h1, h2⟩)).elim
      · exact ⟨_, rfl⟩
    · simp only [hop]
      split
      · rename_i e heq
        exact (build_call_no_error _ _ _ _ _ _ _ heq (Or.inl ⟨by decide, h2⟩)).elim
      · exact ⟨_, rfl⟩

/-- Witness for claim C11: `CALLM 3 1 2` with FR2 enabled has the two fixed arguments
`slot 5` and `slot 6`. -/
theorem C11_witness :
    ∃ result, build_instruction_expression { isFR2Enabled := true } (Function.new {})
        (instruction_statement BC_OP.CALLM 3 1 2 0) = Except.ok result
      ∧ result.2.1.argument_slots = [5, 6] := by
  obtain ⟨result, h⟩ := C11_call_arguments_follow_FR2.2.2.2.2.1 { isFR2Enabled := true }
    (Function.new {}) (instruction_statement BC_OP.CALLM 3 1 2 0)
    (Or.inr ⟨rfl, by decide⟩)
  refine ⟨result, h, ?_⟩
  have hr : (Except.ok result : Except Error _).toOption.map
      (fun result => result.2.1.argument_slots) = some [5, 6] := by
    rw [← h]
    decide!
  simpa [Except.toOption] using hr

/-! ### The constant-type guard of the inlining loop -/

theorem get_constant_type_immediate (platform : Platform) (kind : AST_BINARY)
    (slotOnLeft : Bool) (constant immediate : Constant)
    (hkind : kind = AST_BINARY_ADDITION ∨ kind = AST_BINARY_SUBTRACTION
      ∨ kind = AST_BINARY_MULTIPLICATION ∨ kind = AST_BINARY_DIVISION
      ∨ kind = AST_BINARY_MODULO)
    (hnumber : constant.type = AST_CONSTANT_NUMBER)
    (himmediate : immediate.type = AST_CONSTANT_NUMBER) :
    get_constant_type platform (immediate_operation kind slotOnLeft
        (Expression.constant constant) (Expression.constant immediate))
      = match immediate_fold platform kind slotOnLeft constant.number immediate.number with
        | some number =>
          if is_valid_number_constant number then CONSTANT_TYPE.NUMBER_CONSTANT
          else CONSTANT_TYPE.INVALID_CONSTANT
        | none => CONSTANT_TYPE.INVALID_CONSTANT := by
  cases slotOnLeft <;>
    rcases hkind with h | h | h | h | h <;>
      simp [h, immediate_operation, immediate_fold, get_constant_type, hnumber, himmediate,
        Expression.number, binary_number]

theorem immediate_fold_isSome (platform : Platform) (kind : AST_BINARY) (slotOnLeft : Bool)
    (constant immediate : Nat)
    (hkind : kind = AST_BINARY_ADDITION ∨ kind = AST_BINARY_SUBTRACTION
      ∨ kind = AST_BINARY_MULTIPLICATION ∨ kind = AST_BINARY_DIVISION
      ∨ kind = AST_BINARY_MODULO) :
    ∃ number, immediate_fold platform kind slotOnLeft constant immediate = some number := by
  cases slotOnLeft <;>
    rcases hkind with h | h | h | h | h <;>
      simp [h, immediate_fold, binary_number]

theorem assignment_set_immediate (assignment : Assignment) (kind : AST_BINARY)
    (slotOnLeft : Bool) (read immediate value : Expression)
    (hexp : assignment.expressions = [immediate_operation kind slotOnLeft read immediate]) :
    assignment.get? (immediate_handle slotOnLeft) = some read
      ∧ assignment.set (immediate_handle slotOnLeft) value
        = { assignment with
            expressions := [immediate_operation kind slotOnLeft value immediate] } := by
  cases slotOnLeft <;>
    simp [Assignment.get?, Assignment.set, immediate_handle, expression_handle, hexp,
      immediate_operation, Expression.get?, Expression.set, Expression.child?,
      Expression.setChild, List.modify_zero_cons]

theorem eliminate_slots_inline_immediate (platform : Platform) (function : Function)
    (block : List Statement) (i : Nat) (statement previous : Statement) (kind : AST_BINARY)
    (slotOnLeft : Bool) (read : Expression) (constant immediate : Constant)
    (hi : i ≠ 0) (hs : block[i]? = some statement) (hp : block[i - 1]? = some previous)
    (hlabel : function.is_valid_label statement.instruction.attachedLabel = false)
    (hsingle : is_single_use_slot_assignment function previous = true)
    (hconstant : previous.last_expression = Expression.constant constant)
    (hnumber : constant.type = AST_CONSTANT_NUMBER)
    (hplain : (previous.assignment.variables_.getLast?.getD {}).isMultres = read.isMultres)
    (hkind : kind = AST_BINARY_ADDITION ∨ kind = AST_BINARY_SUBTRACTION
      ∨ kind = AST_BINARY_MULTIPLICATION ∨ kind = AST_BINARY_DIVISION
      ∨ kind = AST_BINARY_MODULO)
    (himmediate : immediate.type = AST_CONSTANT_NUMBER)
    (hexp : statement.assignment.expressions
      = [immediate_operation kind slotOnLeft read (Expression.constant immediate)])
    (hopen : statement.assignment.openSlots = [immediate_handle slotOnLeft])
    (hallowed : statement.assignment.allowedConstantType = CONSTANT_TYPE.BOOL_CONSTANT)
    (hslot : previous.target_slot = read.slot) :
    eliminate_slots_inline platform 1 function block i
      = match immediate_fold platform kind slotOnLeft constant.number immediate.number with
        | some number =>
          if is_valid_number_constant number then Except.ok (function, block, i)
          else
            Except.ok
              ({ function with
                  slotScopeCollector := function.slotScopeCollector.remove_scope
                    previous.target_slot
                    (previous.assignment.variables_.getLast?.getD {}).slotScope },
                (block.set i { statement with
                  assignment := { statement.assignment with
                    expressions := [immediate_operation kind slotOnLeft
                      (Expression.constant constant) (Expression.constant immediate)],
                    usedSlots := statement.assignment.usedSlots
                      ++ previous.assignment.usedSlots },
                  instruction := { statement.instruction with
                    attachedLabel := previous.instruction.attachedLabel } }).eraseIdx (i - 1),
                i - 1)
        | none => Except.ok (function, block, i) := by
  obtain ⟨hget, hset⟩ := assignment_set_immediate statement.assignment kind slotOnLeft read
    (Expression.constant immediate) (Expression.constant constant) hexp
  have htype := get_constant_type_immediate platform kind slotOnLeft constant immediate hkind
    hnumber himmediate
  obtain ⟨number, hfold⟩ := immediate_fold_isSome platform kind slotOnLeft constant.number
    immediate.number hkind
  rw [hfold] at htype ⊢
  unfold eliminate_slots_inline
  simp only [hs, hp, hi, hlabel, hsingle, false_or, Bool.false_eq_true, Bool.true_eq_false,
    if_false, zero_ne_one, false_and, Option.getD_none, hopen, List.getElem?_cons_zero,
    hget, Option.getD_some, hslot, ne_eq, not_true_eq_false, hplain, hconstant, hset, hallowed,
    List.getLast?_singleton, htype, true_and]
  by_cases hvalid : is_valid_number_constant number = true
  · simp [hvalid, CONSTANT_TYPE.val]
  · simp [hvalid, CONSTANT_TYPE.val, eliminate_slots_inline]

theorem build_instruction_expression_immediate (ast : Ast) (function function' : Function)
    (statement statement' : Statement) (exit : Exit) (slotOnLeft : Bool)
    (hop : (if slotOnLeft then is_VN_op statement.instruction.type
      else is_NV_op statement.instruction.type) = true)
    (h : build_instruction_expression ast function statement
      = Except.ok (function', statement', exit)) :
    ∃ immediate, new_number function statement.instruction.c = Except.ok immediate
      ∧ statement'.assignment.expressions
        = [immediate_operation (binary_kind_of_op statement.instruction.type) slotOnLeft
            (new_slot statement.instruction.b) immediate]
      ∧ statement'.assignment.openSlots
        = statement.assignment.openSlots ++ [immediate_handle slotOnLeft]
      ∧ statement'.assignment.allowedConstantType = CONSTANT_TYPE.BOOL_CONSTANT
      ∧ (binary_kind_of_op statement.instruction.type = AST_BINARY_ADDITION
        ∨ binary_kind_of_op statement.instruction.type = AST_BINARY_SUBTRACTION
        ∨ binary_kind_of_op statement.instruction.type = AST_BINARY_MULTIPLICATION
        ∨ binary_kind_of_op statement.instruction.type = AST_BINARY_DIVISION
        ∨ binary_kind_of_op statement.instruction.type = AST_BINARY_MODULO) := by
  unfold build_instruction_expression at h
  cases slotOnLeft <;> simp only [Bool.false_eq_true, if_false, if_true] at hop <;>
    cases hty : statement.instruction.type <;>
      simp only [hty, is_VN_op, is_NV_op, Bool.false_eq_true] at hop <;>
        simp only [hty] at h <;> split at h
  all_goals first
    | (exfalso; cases h; done)
    | (rename_i number hn
       cases h
       refine ⟨number, hn, ?_, ?_, ?_, ?_⟩
       · simp [(register_open_slots_fields _ _).1, immediate_operation]
       · simp [(register_open_slots_fields _ _).2.2.1, immediate_handle]
       · simp [(register_open_slots_fields _ _).2.2.2.1]
       · simp [binary_kind_of_op])

/-- Counterexample to claim C20 as stated: lifting `KSHORT 0, 0 ; MULVN 1, 0, -1 ; RET1 1, 2`
yields the one statement `return 0 * -1`: the number constant `0` of the single-use definition
has been inlined into the slot operand of the `MULVN` statement. -/
theorem C20_counterexample_zero_times_minus_one_inlined :
    lift Platform.sample scenario_zero_times_minus_one
      = Except.ok lifted_zero_times_minus_one :=
  eq_of_returns_block _ _ (by decide!)

/-- Claim C20, amended. A statement built from ADDVN, SUBVN, MULVN, DIVVN, MODVN or an NV form
has the one open slot of its slot operand and `allowedConstantType = BOOL_CONSTANT` (first part).
When the statement before it is the single-use definition of that slot by a number constant, the
inlining loop of `eliminate_slots` leaves the block and the function node unchanged if the
operation on the constant and the immediate number folds to a valid number constant, and inlines
the constant if the folded value is not one, that is NaN or negative zero (second part). -/
theorem C20_number_constant_inlined_unless_fold_valid :
    (∀ (ast : Ast) (function function' : Function) (statement statement' : Statement)
        (exit : Exit) (slotOnLeft : Bool),
      (if slotOnLeft then is_VN_op statement.instruction.type
        else is_NV_op statement.instruction.type) = true →
      build_instruction_expression ast function statement
        = Except.ok (function', statement', exit) →
      ∃ immediate, new_number function statement.instruction.c = Except.ok immediate
        ∧ statement'.assignment.expressions
          = [immediate_operation (binary_kind_of_op statement.instruction.type) slotOnLeft
              (new_slot statement.instruction.b) immediate]
        ∧ statement'.assignment.openSlots
          = statement.assignment.openSlots ++ [immediate_handle slotOnLeft]
        ∧ statement'.assignment.allowedConstantType = CONSTANT_TYPE.BOOL_CONSTANT
        ∧ (binary_kind_of_op statement.instruction.type = AST_BINARY_ADDITION
          ∨ binary_kind_of_op statement.instruction.type = AST_BINARY_SUBTRACTION
          ∨ binary_kind_of_op statement.instruction.type = AST_BINARY_MULTIPLICATION
          ∨ binary_kind_of_op statement.instruction.type = AST_BINARY_DIVISION
          ∨ binary_kind_of_op statement.instruction.type = AST_BINARY_MODULO))
    ∧ (∀ (platform : Platform) (function : Function) (block : List Statement) (i : Nat)
        (statement previous : Statement) (kind : AST_BINARY) (slotOnLeft : Bool)
        (read : Expression) (constant immediate : Constant),
      i ≠ 0 → block[i]? = some statement → block[i - 1]? = some previous →
      function.is_valid_label statement.instruction.attachedLabel = false →
      is_single_use_slot_assignment function previous = true →
      previous.last_expression = Expression.constant constant →
      constant.type = AST_CONSTANT_NUMBER →
      (previous.assignment.variables_.getLast?.getD {}).isMultres = read.isMultres →
      (kind = AST_BINARY_ADDITION ∨ kind = AST_BINARY_SUBTRACTION
        ∨ kind = AST_BINARY_MULTIPLICATION ∨ kind = AST_BINARY_DIVISION
        ∨ kind = AST_BINARY_MODULO) →
      immediate.type = AST_CONSTANT_NUMBER →
      statement.assignment.expressions
        = [immediate_operation kind slotOnLeft read (Expression.constant immediate)] →
      statement.assignment.openSlots = [immediate_handle slotOnLeft] →
      statement.assignment.allowedConstantType = CONSTANT_TYPE.BOOL_CONSTANT →
      previous.target_slot = read.slot →
      ∃ number,
        immediate_fold platform kind slotOnLeft constant.number immediate.number = some number
        ∧ (is_valid_number_constant number = true →
            eliminate_slots_inline platform 1 function block i
              = Except.ok (function, block, i))
        ∧ (is_valid_number_constant number = false →
            eliminate_slots_inline platform 1 function block i
              = Except.ok
                ({ function with
                    slotScopeCollector := function.slotScopeCollector.remove_scope
                      previous.target_slot
                      (previous.assignment.variables_.getLast?.getD {}).slotScope },
                  (block.set i { statement with
                    assignment := { statement.assignment with
                      expressions := [immediate_operation kind slotOnLeft
                        (Expression.constant constant) (Expression.constant immediate)],
                      usedSlots := statement.assignment.usedSlots
                        ++ previous.assignment.usedSlots },
                    instruction := { statement.instruction with
                      attachedLabel := previous.instruction.attachedLabel }
                    }).eraseIdx (i - 1),
                  i - 1))) := by
  refine ⟨build_instruction_expression_immediate, ?_⟩
  intro platform function block i statement previous kind slotOnLeft read constant immediate
    hi hs hp hlabel hsingle hconstant hnumber hplain hkind himmediate hexp hopen hallowed hslot
  have h := eliminate_slots_inline_immediate platform function block i statement previous kind
    slotOnLeft read constant immediate hi hs hp hlabel hsingle hconstant hnumber hplain hkind
    himmediate hexp hopen hallowed hslot
  obtain ⟨number, hfold⟩ := immediate_fold_isSome platform kind slotOnLeft constant.number
    immediate.number hkind
  rw [hfold] at h
  refine ⟨number, hfold, ?_, ?_⟩
  · intro hvalid
    rw [h]
    simp [hvalid]
  · intro hvalid
    rw [h]
    simp [hvalid]

/-- Witness for claim C20: before `slot1 = slot0 + 3` the definition `slot0 = 5` stays, `5 + 3`
being the valid number `8`; before `slot1 = slot0 * -1` the definition `slot0 = 0` is inlined,
`0 * -1` being negative zero. -/
theorem C20_witness :
    eliminate_slots_inline Platform.sample 1 single_use_function
        [constant_definition 0x4014000000000000,
          immediate_statement AST_BINARY_ADDITION 0x4008000000000000] 1
      = Except.ok (single_use_function,
          [constant_definition 0x4014000000000000,
            immediate_statement AST_BINARY_ADDITION 0x4008000000000000], 1)
    ∧ (eliminate_slots_inline Platform.sample 1 single_use_function
        [constant_definition 0,
          immediate_statement AST_BINARY_MULTIPLICATION 0xBFF0000000000000] 1).toOption.map
        (fun result => (result.2.1.length, result.2.2)) = some (1, 0) := by
  constructor
  · obtain ⟨number, hfold, hvalid, _⟩ :=
      C20_number_constant_inlined_unless_fold_valid.2 Platform.sample single_use_function
        [constant_definition 0x4014000000000000,
          immediate_statement AST_BINARY_ADDITION 0x4008000000000000] 1
        (immediate_statement AST_BINARY_ADDITION 0x4008000000000000)
        (constant_definition 0x4014000000000000) AST_BINARY_ADDITION true (slot_read 0 0)
        { type := AST_CONSTANT_NUMBER, number := 0x4014000000000000 }
        { type := AST_CONSTANT_NUMBER, number := 0x4008000000000000 }
        (by decide) rfl rfl (by decide) (by decide) rfl rfl rfl (Or.inl rfl) rfl rfl rfl rfl rfl
    apply hvalid
    have h8 : number = 0x4020000000000000 := by
      have : immediate_fold Platform.sample AST_BINARY_ADDITION true 0x4014000000000000
          0x4008000000000000 = some 0x4020000000000000 := by
        simp [immediate_fold, binary_number, add_five_three]
      rw [this] at hfold
      exact (Option.some.inj hfold).symm
    rw [h8]
    decide
  · obtain ⟨number, hfold, _, hinvalid⟩ :=
      C20_number_constant_inlined_unless_fold_valid.2 Platform.sample single_use_function
        [constant_definition 0,
          immediate_statement AST_BINARY_MULTIPLICATION 0xBFF0000000000000] 1
        (immediate_statement AST_BINARY_MULTIPLICATION 0xBFF0000000000000)
        (constant_definition 0) AST_BINARY_MULTIPLICATION true (slot_read 0 0)
        { type := AST_CONSTANT_NUMBER, number := 0 }
        { type := AST_CONSTANT_NUMBER, number := 0xBFF0000000000000 }
        (by decide) rfl rfl (by decide) (by decide) rfl rfl rfl (Or.inr (Or.inr (Or.inl rfl)))
        rfl rfl rfl rfl rfl
    have h0 : number = 0x8000000000000000 := by
      have : immediate_fold Platform.sample AST_BINARY_MULTIPLICATION true 0
          0xBFF0000000000000 = some 0x8000000000000000 := by
        decide!
      rw [this] at hfold
      exact (Option.some.inj hfold).symm
    rw [hinvalid (by rw [h0]; decide)]
    rfl

/-! ### One iteration of the inlining loop of `eliminate_slots` -/

theorem expression_child?_setChild (e : Expression) (step : Step) (child value : Expression)
    (h : e.child? step = some child) : (e.setChild step value).child? step = some value := by
  cases e <;> cases step <;> simp [Expression.child?] at h <;>
    simp [Expression.setChild, Expression.child?]
  rename_i arguments _ _ _ j
  have hlt : j < arguments.length := by
    rcases Nat.lt_or_ge j arguments.length with hlt | hge
    · exact hlt
    · rw [List.getElem?_eq_none hge] at h
      cases h
  simp [List.getElem?_set, hlt]

theorem expression_get?_set (path : List Step) :
    ∀ (e read value : Expression), e.get? path = some read →
      (e.set path value).get? path = some value := by
  induction path with
  | nil =>
    intro e read value _
    simp [Expression.set, Expression.get?]
  | cons step path ih =>
    intro e read value h
    simp only [Expression.get?] at h
    cases hc : e.child? step with
    | none => simp [hc] at h
    | some child =>
      simp only [hc] at h
      simp only [Expression.set, hc, Expression.get?,
        expression_child?_setChild e step child _ hc]
      exact ih child read value h

theorem assignment_get?_set (assignment : Assignment) (handle : OpenSlot)
    (read value : Expression) (h : assignment.get? handle = some read) :
    (assignment.set handle value).get? handle = some value := by
  unfold Assignment.get? at h ⊢
  unfold Assignment.set
  cases hroot : handle.root with
  | expression k =>
    simp only [hroot] at h ⊢
    cases hk : assignment.expressions[k]? with
    | none => simp [hk] at h
    | some e =>
      simp only [hk] at h
      simp only [List.getElem?_modify, hk, if_true, Option.map_some']
      exact expression_get?_set _ _ _ _ h
  | variableTable k =>
    simp only [hroot] at h ⊢
    cases hk : assignment.variables_[k]? with
    | none => simp [hk] at h
    | some v =>
      simp only [hk] at h
      simp only [List.getElem?_modify, hk, if_true, Option.map_some']
      exact expression_get?_set _ _ _ _ h
  | variableTableIndex k =>
    simp only [hroot] at h ⊢
    cases hk : assignment.variables_[k]? with
    | none => simp [hk] at h
    | some v =>
      simp only [hk] at h
      simp only [List.getElem?_modify, hk, if_true, Option.map_some']
      exact expression_get?_set _ _ _ _ h
  | multresReturn =>
    simp only [hroot] at h ⊢
    exact expression_get?_set _ _ _ _ h

theorem assignment_set_usedSlots (assignment : Assignment) (handle : OpenSlot)
    (value : Expression) :
    (assignment.set handle value).usedSlots = assignment.usedSlots
      ∧ (assignment.set handle value).openSlots = assignment.openSlots := by
  unfold Assignment.set
  cases handle.root <;> simp

theorem eliminate_slots_inline_step (platform : Platform) (function : Function)
    (block : List Statement) (i j : Nat) (statement previous : Statement) (handle : OpenSlot)
    (hi : i ≠ 0) (hs : block[i]? = some statement) (hp : block[i - 1]? = some previous)
    (hlabel : function.is_valid_label statement.instruction.attachedLabel = false)
    (hsingle : is_single_use_slot_assignment function previous = true)
    (hfusion : ¬ (j = 1 ∧ statement.assignment.isPotentialMethod = true ∧ i ≥ 2
      ∧ ∃ copy, block[i - 2]? = some copy
        ∧ is_method_call_idiom function statement previous copy = true))
    (hhandle : statement.assignment.openSlots[j]? = some handle) :
    eliminate_slots_inline platform (j + 1) function block i
      = (let read := (statement.assignment.get? handle).getD Expression.null
         if previous.target_slot ≠ read.slot then
           eliminate_slots_inline platform j function block i
         else if (previous.assignment.variables_.getLast?.getD {}).isMultres
             ≠ read.isMultres then
           Except.error (Error.assertion "Multres type mismatch when trying to eliminate slot")
         else if j = 0
             ∧ statement.assignment.allowedConstantType ≠ CONSTANT_TYPE.NUMBER_CONSTANT
             ∧ (get_constant_type platform
                 ((statement.assignment.set handle previous.last_expression).expressions.getLast?.getD
                   Expression.null)).val
               > statement.assignment.allowedConstantType.val then
           Except.ok (function, block, i)
         else
           eliminate_slots_inline platform j
             { function with
               slotScopeCollector := function.slotScopeCollector.remove_scope
                 previous.target_slot
                 (previous.assignment.variables_.getLast?.getD {}).slotScope }
             ((block.set i { statement with
               assignment := { statement.assignment.set handle previous.last_expression with
                 usedSlots := statement.assignment.usedSlots ++ previous.assignment.usedSlots },
               instruction := { statement.instruction with
                 attachedLabel := previous.instruction.attachedLabel } }).eraseIdx (i - 1))
             (i - 1)) := by
  rw [eliminate_slots_inline]
  simp only [hs, hp, hi, hlabel, hsingle, false_or, Bool.false_eq_true, Bool.true_eq_false,
    if_false]
  by_cases hc : j = 1 ∧ statement.assignment.isPotentialMethod = true ∧ i ≥ 2
  · obtain ⟨rfl, hpm, hi2⟩ := hc
    cases hcopy : block[i - 2]? with
    | none =>
      simp only [hpm, hi2, and_self, if_true, hcopy, Option.getD_none, hs, hp, hhandle,
        (assignment_set_usedSlots _ _ _).1]
    | some copy =>
      have hidiom : is_method_call_idiom function statement previous copy = false := by
        cases h : is_method_call_idiom function statement previous copy
        · rfl
        · exact absurd ⟨rfl, hpm, hi2, copy, hcopy, h⟩ hfusion
      simp only [hpm, hi2, and_self, if_true, hcopy, hidiom, Bool.false_eq_true, if_false,
        Option.getD_none, hs, hp, hhandle, (assignment_set_usedSlots _ _ _).1]
  · simp only [hc, if_false, Option.getD_none, hs, hp, hhandle,
      (assignment_set_usedSlots _ _ _).1]

theorem set_eraseIdx_pred_spec {α : Type} (block : List α) (i : Nat) (x y : α)
    (hi : i ≠ 0) (hs : block[i]? = some x) :
    ((block.set i y).eraseIdx (i - 1)).length + 1 = block.length
      ∧ (∀ k, k < i - 1 → ((block.set i y).eraseIdx (i - 1))[k]? = block[k]?)
      ∧ ((block.set i y).eraseIdx (i - 1))[i - 1]? = some y
      ∧ (∀ k, i ≤ k → ((block.set i y).eraseIdx (i - 1))[k]? = block[k + 1]?) := by
  have hlt : i < block.length := by
    rcases Nat.lt_or_ge i block.length with h | h
    · exact h
    · rw [List.getElem?_eq_none h] at hs
      cases hs
  refine ⟨?_, ?_, getElem?_set_eraseIdx_pred block i x y hi hs, ?_⟩
  · rw [List.length_eraseIdx]
    simp only [List.length_set]
    rw [if_pos (by omega)]
    omega
  · intro k hk
    rw [List.getElem?_eraseIdx, if_pos hk, List.getElem?_set]
    rw [if_neg (by omega)]
  · intro k hk
    rw [List.getElem?_eraseIdx, if_neg (by omega), List.getElem?_set]
    rw [if_neg (by omega)]

/-- Counterexample to claim C19 as stated. First part: the definition `slot0 = ...` of a multres
variable before `slot1 = slot0` meets the conditions of the claim (no label, an assignment to one
slot variable with one usage, the slot of the open slot, no constant-type guard), and the
inlining loop stops with the assertion "Multres type mismatch when trying to eliminate slot"; so
does the whole lifting of `VARG 0, 0, 0 ; MOV 1, 0 ; RET0`. Second part: the method load
`slot1 = slot0.m` before the call `slot1(slot2)` meets the conditions of the claim for the callee
slot, and after the iteration two statements have left the block and the call carries the label
0 of the receiver copy, not the label `INVALID_ID` of its predecessor. -/
theorem C19_counterexample_multres_mismatch_and_fusion :
    (single_use_function.is_valid_label move_statement.instruction.attachedLabel = false
      ∧ is_single_use_slot_assignment single_use_function multres_definition = true
      ∧ move_statement.assignment.openSlots[0]? = some (expression_handle 0)
      ∧ (move_statement.assignment.get? (expression_handle 0)).map Expression.slot
          = some multres_definition.target_slot
      ∧ move_statement.assignment.allowedConstantType = CONSTANT_TYPE.NUMBER_CONSTANT
      ∧ raised_error (eliminate_slots_inline Platform.sample 1 single_use_function
            [multres_definition, move_statement] 1)
          = some (Error.assertion "Multres type mismatch when trying to eliminate slot")
      ∧ raised_error (lift Platform.sample multres_move)
          = some (Error.assertion "Multres type mismatch when trying to eliminate slot"))
    ∧ (method_function.is_valid_label method_call.instruction.attachedLabel = false
      ∧ is_single_use_slot_assignment method_function method_load = true
      ∧ method_call.assignment.openSlots[0]? = some (expression_handle 0 [Step.function])
      ∧ (method_call.assignment.get? (expression_handle 0 [Step.function])).map Expression.slot
          = some method_load.target_slot
      ∧ method_call.assignment.allowedConstantType = CONSTANT_TYPE.NUMBER_CONSTANT
      ∧ method_load.instruction.attachedLabel = INVALID_ID
      ∧ (eliminate_slots_inline Platform.sample 2 method_function
            [method_copy, method_load, method_call] 2).toOption.map
          (fun result => (attached_labels result.2.1, result.2.2)) = some ([0], 0)) := by
  decide!

/-- Claim C19, amended. In the inlining loop of `eliminate_slots`, at the open slot `j` of the
statement at index `i`: when the statement has no valid attached label, its predecessor is an
Assignment to exactly one slot variable whose scope has `usages == 1`, the method-call fusion
does not apply in this iteration, the slot of the predecessor's variable equals the slot read at
open slot `j`, the multres flags of that variable and of that read agree, and the constant-type
guard does not reject, then the iteration removes the predecessor from the block (the statement
moves to index `i - 1`, the statements before and after keep their order), the open-slot location
holds the predecessor's last expression, the statement takes the predecessor's attached label,
the predecessor's `usedSlots` are appended to the statement's, and the loop goes on with open slot
`j - 1` (first part). When the two slots differ, the iteration changes nothing (second part). -/
theorem C19_inlining_iteration (platform : Platform) (function : Function)
    (block : List Statement) (i j : Nat) (statement previous : Statement) (handle : OpenSlot)
    (read : Expression)
    (hi : i ≠ 0) (hs : block[i]? = some statement) (hp : block[i - 1]? = some previous)
    (hlabel : function.is_valid_label statement.instruction.attachedLabel = false)
    (hsingle : is_single_use_slot_assignment function previous = true)
    (hfusion : ¬ (j = 1 ∧ statement.assignment.isPotentialMethod = true ∧ i ≥ 2
      ∧ ∃ copy, block[i - 2]? = some copy
        ∧ is_method_call_idiom function statement previous copy = true))
    (hhandle : statement.assignment.openSlots[j]? = some handle)
    (hread : statement.assignment.get? handle = some read) :
    (previous.target_slot = read.slot →
      (previous.assignment.variables_.getLast?.getD {}).isMultres = read.isMultres →
      ¬ (j = 0 ∧ statement.assignment.allowedConstantType ≠ CONSTANT_TYPE.NUMBER_CONSTANT
        ∧ (get_constant_type platform
            ((statement.assignment.set handle previous.last_expression).expressions.getLast?.getD
              Expression.null)).val
          > statement.assignment.allowedConstantType.val) →
      eliminate_slots_inline platform (j + 1) function block i
          = eliminate_slots_inline platform j
              { function with
                slotScopeCollector := function.slotScopeCollector.remove_scope
                  previous.target_slot
                  (previous.assignment.variables_.getLast?.getD {}).slotScope }
              ((block.set i (inlined_statement statement previous handle)).eraseIdx (i - 1))
              (i - 1)
        ∧ ((block.set i (inlined_statement statement previous handle)).eraseIdx
            (i - 1)).length + 1 = block.length
        ∧ (∀ k, k < i - 1 →
            ((block.set i (inlined_statement statement previous handle)).eraseIdx (i - 1))[k]?
              = block[k]?)
        ∧ ((block.set i (inlined_statement statement previous handle)).eraseIdx (i - 1))[i - 1]?
            = some (inlined_statement statement previous handle)
        ∧ (∀ k, i ≤ k →
            ((block.set i (inlined_statement statement previous handle)).eraseIdx (i - 1))[k]?
              = block[k + 1]?)
        ∧ (inlined_statement statement previous handle).assignment.get? handle
            = some previous.last_expression
        ∧ (inlined_statement statement previous handle).instruction.attachedLabel
            = previous.instruction.attachedLabel
        ∧ (inlined_statement statement previous handle).assignment.usedSlots
            = statement.assignment.usedSlots ++ previous.assignment.usedSlots)
    ∧ (previous.target_slot ≠ read.slot →
      eliminate_slots_inline platform (j + 1) function block i
        = eliminate_slots_inline platform j function block i) := by
  have h := eliminate_slots_inline_step platform function block i j statement previous handle
    hi hs hp hlabel hsingle hfusion hhandle
  simp only [hread, Option.getD_some] at h
  constructor
  · intro hslot hmultres hguard
    obtain ⟨h1, h2, h3, h4⟩ := set_eraseIdx_pred_spec block i statement
      (inlined_statement statement previous handle) hi hs
    refine ⟨?_, h1, h2, h3, h4, ?_, rfl, rfl⟩
    · rw [h]
      simp only [hslot, ne_eq, not_true_eq_false, if_false, hmultres]
      rw [if_neg hguard]
      rfl
    · exact assignment_get?_set statement.assignment handle read previous.last_expression hread
  · intro hslot
    rw [h, if_pos hslot]

/-- Witness for claim C19: before `slot1 = slot0` the definition `slot0 = 5` is inlined. -/
theorem C19_witness :
    (eliminate_slots_inline Platform.sample 1 single_use_function
        [constant_definition 0x4014000000000000, move_statement] 1).toOption.map
        (fun result => (result.2.1.map Statement.last_expression, result.2.2))
      = some ([number_constant 0x4014000000000000], 0)
    ∧ ((inlined_statement move_statement (constant_definition 0x4014000000000000)
        (expression_handle 0)).assignment.get? (expression_handle 0)).isSome = true := by
  have h := (C19_inlining_iteration Platform.sample single_use_function
    [constant_definition 0x4014000000000000, move_statement] 1 0 move_statement
    (constant_definition 0x4014000000000000) (expression_handle 0) (slot_read 0 0)
    (by decide) rfl rfl (by decide) (by decide) (by decide) rfl rfl).1 rfl rfl (by decide)
  refine ⟨?_, by rw [h.2.2.2.2.2.1]; rfl⟩
  rw [h.1]
  rfl

/-! ### The body of an `If` statement -/

theorem get_label_from_next_statement_set (function : Function) (block : List Statement)
    (previousBlocks : List BlockInfo) (i index : Nat) (statement : Statement) (extended : Bool)
    (hindex : i ≤ index) :
    get_label_from_next_statement function { index := index, block := block.set i statement }
        previousBlocks extended false
      = get_label_from_next_statement function { index := index, block := block }
          previousBlocks extended false := by
  have hne : i ≠ index + 1 := by omega
  cases previousBlocks <;>
    simp only [get_label_from_next_statement, List.length_set, Bool.false_eq_true, false_and,
      if_false, List.getElem?_set_ne hne]

theorem find_if_end_spec (function : Function) (block : List Statement)
    (previousBlocks : List BlockInfo) (target : Nat) (count : Nat) :
    ∀ (index targetLabel : Nat),
      let result := find_if_end function block previousBlocks target count index targetLabel
      (result.1 < index + count ∧ index ≤ result.1
          ∧ result.2 = get_label_from_next_statement function
              { index := result.1, block := block } previousBlocks true false
          ∧ is_if_end function block previousBlocks target result.1
          ∧ ∀ k, index ≤ k → k < result.1 → ¬ is_if_end function block previousBlocks target k)
        ∨ (result.1 = index + count
          ∧ (∀ k, index ≤ k → k < index + count →
              ¬ is_if_end function block previousBlocks target k)
          ∧ (count = 0 → result.2 = targetLabel)
          ∧ (count ≠ 0 → result.2 = get_label_from_next_statement function
              { index := index + count - 1, block := block } previousBlocks true false)) := by
  induction count with
  | zero =>
    intro index targetLabel
    right
    simp only [find_if_end]
    exact ⟨rfl, fun k h1 h2 => absurd h2 (by omega), fun _ => trivial, fun h => absurd rfl h⟩
  | succ count ih =>
    intro index targetLabel
    simp only [find_if_end]
    by_cases hend : is_if_end function block previousBlocks target index
    · left
      have hend' := hend
      unfold is_if_end at hend'
      rw [if_pos hend']
      exact ⟨by omega, le_refl _, rfl, hend, fun k h1 h2 => absurd h2 (by omega)⟩
    · have hend' := hend
      unfold is_if_end at hend'
      rw [if_neg hend']
      rcases ih (index + 1) (get_label_from_next_statement function
          { index := index, block := block } previousBlocks true false) with h | h
      · left
        obtain ⟨h1, h2, h3, h4, h5⟩ := h
        refine ⟨by omega, by omega, h3, h4, ?_⟩
        intro k hk1 hk2
        rcases Nat.eq_or_lt_of_le hk1 with heq | hlt
        · rw [← heq]
          exact hend
        · exact h5 k hlt hk2
      · right
        obtain ⟨h1, h2, h3, h4⟩ := h
        refine ⟨by omega, ?_, fun h => absurd h (by omega), ?_⟩
        · intro k hk1 hk2
          rcases Nat.eq_or_lt_of_le hk1 with heq | hlt
          · rw [← heq]
            exact hend
          · exact h2 k hlt (by omega)
        · intro _
          by_cases hc : count = 0
          · subst hc
            rw [h3 rfl]
            simp
          · rw [h4 hc]
            have hidx : index + 1 + count - 1 = index + (count + 1) - 1 := by omega
            rw [hidx]

theorem is_if_end_set (function : Function) (block : List Statement)
    (previousBlocks : List BlockInfo) (target i index : Nat) (statement : Statement)
    (hindex : i ≤ index) :
    is_if_end function (block.set i statement) previousBlocks target index
      ↔ is_if_end function block previousBlocks target index := by
  unfold is_if_end
  rw [get_label_from_next_statement_set _ _ _ _ _ _ _ hindex]

theorem if_block_shape (block : List Statement) (i index : Nat) (statement : Statement)
    (hs : block[i]? = some statement) (hindex : i ≤ index) :
    modify_statement
        ((block.set i { statement with type := AST_STATEMENT_IF }).take (i + 1)
          ++ (block.set i { statement with type := AST_STATEMENT_IF }).drop (index + 1)) i
        (fun s => { s with
          block := ((block.set i { statement with type := AST_STATEMENT_IF }).take
            (index + 1)).drop (i + 1) ++ s.block })
      = block.take i
          ++ { statement with
                type := AST_STATEMENT_IF,
                block := (block.take (index + 1)).drop (i + 1) ++ statement.block }
            :: block.drop (index + 1) := by
  have hi : i < block.length := by
    rcases Nat.lt_or_ge i block.length with h | h
    · exact h
    · rw [List.getElem?_eq_none h] at hs
      cases hs
  have hget : block[i] = statement := by
    rw [List.getElem?_eq_getElem hi] at hs
    exact Option.some.inj hs
  apply List.ext_getElem?
  intro n
  unfold modify_statement
  rw [List.getElem?_modify]
  simp only [List.getElem?_append, List.length_take, List.length_set, List.getElem?_take,
    List.getElem?_drop, List.getElem?_set, List.getElem?_cons]
  by_cases h1 : n < i
  · have h2 : ¬ i = n := by omega
    have h3 : n < i + 1 := by omega
    have h4 : n < min (i + 1) block.length := by omega
    have h5 : n < min i block.length := by omega
    simp [h1, h2, h3, h4, h5]
  · by_cases h2 : n = i
    · subst h2
      have h4 : n < min (n + 1) block.length := by omega
      have h5 : ¬ n < min n block.length := by omega
      have h6 : min n block.length = n := by omega
      simp [h4, h5, h6, hi]
      apply List.ext_getElem?
      intro m
      simp only [List.getElem?_append, List.getElem?_drop, List.getElem?_take,
        List.getElem?_set, List.length_drop, List.length_take, List.length_set]
      have h7 : ¬ n = n + 1 + m := by omega
      simp [h7]
    · have h3 : ¬ i = n := by omega
      have h4 : ¬ n < min (i + 1) block.length := by omega
      have h5 : ¬ n < min i block.length := by omega
      have h6 : min i block.length = i := by omega
      have h7 : min (i + 1) block.length = i + 1 := by omega
      have h8 : ¬ n - i = 0 := by omega
      have h9 : ¬ i = index + 1 + (n - (i + 1)) := by omega
      simp [h3, h4, h5, h6, h7, h8, h9]
      have h10 : n - i = (n - (i + 1)) + 1 := by omega
      rw [h10]
      simp
      rw [if_neg (by omega), if_neg (by omega)]

/-- Claim C17. When `build_if_statements` reaches a `Condition` at index `i` of a block, the
iteration ends either with the assertion `Failed to build if statement` or with the condition
turned into an `If`. The theorem has three parts. First: when the iteration returns, there is
an index `index` with `i ≤ index < block.length` such that the statement after `index` is the
first one from `i + 1` on whose extended label targets the target of the condition (the statement
after the last index of the block being the one that follows the block in the enclosing blocks);
the block returned is the statements before `i`, then the `If`, then the statements after
`index`, so the delimiting statement at `index + 1` stays and is the next statement after the
`If`; the nested block of the `If` is the run `i + 1 .. index` of the old block, put in front of
what the statement held before, and the jump of the condition is removed from its label. Second:
when the condition holds no block, which is how `build_instructions` leaves every condition, the
nested block is exactly that run. Third: the iteration returns exactly when such an index
exists. -/
theorem C17_if_block_is_run_up_to_delimiter
    (recurse : Function → List Statement → List BlockInfo →
      Except Error (Function × List Statement))
    (function : Function) (block : List Statement) (previousBlocks : List BlockInfo) (i : Nat)
    (statement : Statement) (hs : block[i]? = some statement)
    (htype : statement.type = AST_STATEMENT_CONDITION) :
    (∀ (function' : Function) (block' : List Statement),
      build_if_statements_step recurse function block previousBlocks i
          = Except.ok (function', block') →
      ∃ index, i ≤ index ∧ index < block.length
        ∧ is_if_end function block previousBlocks statement.instruction.target index
        ∧ (∀ k, i ≤ k → k < index →
            ¬ is_if_end function block previousBlocks statement.instruction.target k)
        ∧ block' = block.take i
            ++ { statement with
                  type := AST_STATEMENT_IF,
                  block := (block.take (index + 1)).drop (i + 1) ++ statement.block }
              :: block.drop (index + 1)
        ∧ block'[i + 1]? = block[index + 1]?
        ∧ (statement.block = [] →
            (block'[i]?).map (fun s => s.block) = some ((block.take (index + 1)).drop (i + 1)))
        ∧ function' = function.remove_jump statement.instruction.id statement.instruction.target)
    ∧ ((∃ index, i ≤ index ∧ index < block.length
          ∧ is_if_end function block previousBlocks statement.instruction.target index)
        ↔ ∃ result, build_if_statements_step recurse function block previousBlocks i
            = Except.ok result)
    ∧ ((¬ ∃ index, i ≤ index ∧ index < block.length
          ∧ is_if_end function block previousBlocks statement.instruction.target index)
        ↔ build_if_statements_step recurse function block previousBlocks i
            = Except.error (Error.assertion "Failed to build if statement")) := by
  have hi : i < block.length := by
    rcases Nat.lt_or_ge i block.length with h | h
    · exact h
    · rw [List.getElem?_eq_none h] at hs
      cases hs
  have hspec := find_if_end_spec function (block.set i { statement with type := AST_STATEMENT_IF })
    previousBlocks statement.instruction.target
    ((block.set i { statement with type := AST_STATEMENT_IF }).length - i) i INVALID_ID
  have hstep : build_if_statements_step recurse function block previousBlocks i
      = (if (find_if_end function (block.set i { statement with type := AST_STATEMENT_IF })
              previousBlocks statement.instruction.target
              ((block.set i { statement with type := AST_STATEMENT_IF }).length - i) i
              INVALID_ID).2 ≠ INVALID_ID
            ∧ (function.labels.getD
                (find_if_end function (block.set i { statement with type := AST_STATEMENT_IF })
                  previousBlocks statement.instruction.target
                  ((block.set i { statement with type := AST_STATEMENT_IF }).length - i) i
                  INVALID_ID).2 { target := INVALID_ID }).target
              = statement.instruction.target then
          Except.ok (function.remove_jump statement.instruction.id statement.instruction.target,
            modify_statement
              ((block.set i { statement with type := AST_STATEMENT_IF }).take (i + 1)
                ++ (block.set i { statement with type := AST_STATEMENT_IF }).drop
                  ((find_if_end function
                    (block.set i { statement with type := AST_STATEMENT_IF })
                    previousBlocks statement.instruction.target
                    ((block.set i { statement with type := AST_STATEMENT_IF }).length - i) i
                    INVALID_ID).1 + 1)) i
              (fun s => { s with
                block := ((block.set i { statement with type := AST_STATEMENT_IF }).take
                  ((find_if_end function
                    (block.set i { statement with type := AST_STATEMENT_IF })
                    previousBlocks statement.instruction.target
                    ((block.set i { statement with type := AST_STATEMENT_IF }).length - i) i
                    INVALID_ID).1 + 1)).drop (i + 1) ++ s.block }))
        else Except.error (Error.assertion "Failed to build if statement")) := by
    unfold build_if_statements_step
    simp only [hs, htype]
  generalize hres : find_if_end function (block.set i { statement with type := AST_STATEMENT_IF })
    previousBlocks statement.instruction.target
    ((block.set i { statement with type := AST_STATEMENT_IF }).length - i) i INVALID_ID
    = result at hspec hstep
  simp only [List.length_set] at hspec
  have hfound : (result.2 ≠ INVALID_ID
        ∧ (function.labels.getD result.2 { target := INVALID_ID }).target
          = statement.instruction.target)
      ↔ ∃ index, i ≤ index ∧ index < block.length
          ∧ is_if_end function block previousBlocks statement.instruction.target index := by
    constructor
    · intro hlabel
      rcases hspec with ⟨h1, h2, h3, h4, h5⟩ | ⟨h1, h2, h3, h4⟩
      · exact ⟨result.1, h2, by omega, (is_if_end_set _ _ _ _ _ _ _ h2).1 h4⟩
      · exfalso
        have hcount : block.length - i ≠ 0 := by omega
        have hlast := h4 hcount
        refine h2 (i + (block.length - i) - 1) (by omega) (by omega) ?_
        unfold is_if_end
        rw [← hlast]
        exact hlabel
    · rintro ⟨index, hle, hlt, hend⟩
      rcases hspec with ⟨h1, h2, h3, h4, h5⟩ | ⟨h1, h2, h3, h4⟩
      · unfold is_if_end at h4
        rw [h3]
        exact h4
      · exact absurd ((is_if_end_set _ _ _ _ _ _ _ hle).2 hend) (h2 index hle (by omega))
  refine ⟨?_, ?_, ?_⟩
  · intro function' block' h
    rw [hstep] at h
    split at h
    · rename_i hlabel
      cases h
      rcases hspec with ⟨h1, h2, h3, h4, h5⟩ | ⟨h1, h2, h3, h4⟩
      · have hshape := if_block_shape block i result.1 statement hs h2
        refine ⟨result.1, h2, by omega, (is_if_end_set _ _ _ _ _ _ _ h2).1 h4, ?_, hshape, ?_,
          ?_, rfl⟩
        · intro k hk1 hk2 hk
          exact h5 k hk1 hk2 ((is_if_end_set _ _ _ _ _ _ _ hk1).2 hk)
        · rw [hshape]
          rw [List.getElem?_append_right (by simp)]
          simp only [List.length_take]
          have hmin : i + 1 - min i block.length = 1 := by omega
          rw [hmin]
          simp
        · intro hempty
          rw [hshape]
          rw [List.getElem?_append_right (by simp)]
          simp only [List.length_take]
          have hmin : i - min i block.length = 0 := by omega
          rw [hmin]
          simp [hempty]
      · exfalso
        have hcount : block.length - i ≠ 0 := by omega
        have hlast := h4 hcount
        refine h2 (i + (block.length - i) - 1) (by omega) (by omega) ?_
        unfold is_if_end
        rw [← hlast]
        exact hlabel
    · cases h
  · rw [← hfound, hstep]
    constructor
    · intro hlabel
      rw [if_pos hlabel]
      exact ⟨_, rfl⟩
    · rintro ⟨r, hr⟩
      by_contra hlabel
      rw [if_neg hlabel] at hr
      cases hr
  · rw [← hfound, hstep]
    constructor
    · intro hlabel
      rw [if_neg hlabel]
    · intro hr hlabel
      rw [if_pos hlabel] at hr
      cases hr

/-- The iteration on the condition of `guarded_block`: the `If` holds the assignment, the
return that carries the label stays behind it. -/
theorem C17_witness :
    (∃ index, 0 ≤ index ∧ index < guarded_block.length
        ∧ is_if_end guarded_function guarded_block [] 5 index)
      ∧ build_if_statements_step (fun function block _ => Except.ok (function, block))
          guarded_function guarded_block [] 0
        = Except.ok ({ guarded_function with labels := [{ target := 5, jumpIds := [] }] },
            framed_block) :=
  ⟨((C17_if_block_is_run_up_to_delimiter (fun function block _ => Except.ok (function, block))
      guarded_function guarded_block [] 0
      { new_statement AST_STATEMENT_CONDITION with
        instruction := { type := BC_OP.IST, a := 0, d := 0, id := 1, target := 5 } }
      rfl rfl).2.1).2 ⟨_, rfl⟩, rfl⟩

/-! ### Running `build_if_statements` on a framed tree -/

theorem modify_statement_same (block : List Statement) (i : Nat) (statement : Statement)
    (hs : block[i]? = some statement) :
    modify_statement block i (fun s => { s with block := statement.block }) = block := by
  apply List.ext_getElem?
  intro n
  unfold modify_statement
  rw [List.getElem?_modify]
  by_cases h : i = n
  · subst h
    simp only [if_true, hs]
    cases statement
    rfl
  · simp only [if_neg h]
    cases block[n]? <;> rfl

theorem statement_depth_eq (statement : Statement) :
    statement.depth = block_depth statement.block + 1 := by
  cases statement
  rfl

theorem depth_le_block_depth (block : List Statement) :
    ∀ s ∈ block, s.depth ≤ block_depth block := by
  induction block with
  | nil =>
    intro s hs
    cases hs
  | cons statement rest ih =>
    intro s hs
    rw [block_depth]
    rcases List.mem_cons.1 hs with h | h
    · rw [h]
      exact Nat.le_max_left _ _
    · exact Nat.le_trans (ih s h) (Nat.le_max_right _ _)

theorem build_if_statements_step_same
    (recurse : Function → List Statement → List BlockInfo →
      Except Error (Function × List Statement))
    (function : Function) (block : List Statement) (previousBlocks : List BlockInfo) (i : Nat)
    (statement : Statement) (hs : block[i]? = some statement)
    (htype : statement.type ≠ AST_STATEMENT_CONDITION)
    (hrec : ∀ (f : Function) (p : List BlockInfo),
      ∃ f', recurse f statement.block p = Except.ok (f', statement.block)
        ∧ (block_free_of AST_STATEMENT_BREAK statement.block = true → f' = f)) :
    ∃ function', build_if_statements_step recurse function block previousBlocks i
        = Except.ok (function', block)
      ∧ (statement.free_of AST_STATEMENT_BREAK = true → function' = function) := by
  unfold build_if_statements_step
  simp only [hs]
  rw [Statement.free_of_eq]
  obtain ⟨f', hf', hsame⟩ := hrec function ({ index := i, block := block } :: previousBlocks)
  split
  · rename_i h
    exact absurd h htype
  · rename_i h
    refine ⟨_, rfl, ?_⟩
    intro hfree
    rw [h] at hfree
    simp at hfree
  all_goals first
    | (rw [hf']
       simp only []
       rw [modify_statement_same block i statement hs]
       refine ⟨_, rfl, ?_⟩
       intro hfree
       simp only [Bool.and_eq_true] at hfree
       exact hsame hfree.2)
    | exact ⟨_, rfl, fun _ => rfl⟩

theorem build_if_statements_loop_same
    (recurse : Function → List Statement → List BlockInfo →
      Except Error (Function × List Statement))
    (block : List Statement) (previousBlocks : List BlockInfo)
    (htype : ∀ s ∈ block, s.type ≠ AST_STATEMENT_CONDITION)
    (hrec : ∀ s ∈ block, ∀ (f : Function) (p : List BlockInfo),
      ∃ f', recurse f s.block p = Except.ok (f', s.block)
        ∧ (block_free_of AST_STATEMENT_BREAK s.block = true → f' = f)) :
    ∀ (n : Nat) (function : Function), n ≤ block.length →
      ∃ function', build_if_statements_loop recurse previousBlocks n function block
          = Except.ok (function', block)
        ∧ (block_free_of AST_STATEMENT_BREAK block = true → function' = function) := by
  intro n
  induction n with
  | zero =>
    intro function _
    exact ⟨function, rfl, fun _ => rfl⟩
  | succ n ih =>
    intro function hn
    have hlt : n < block.length := by omega
    have hs : block[n]? = some block[n] := List.getElem?_eq_getElem hlt
    have hmem : block[n] ∈ block := List.getElem_mem hlt
    obtain ⟨f₁, h₁, hsame₁⟩ := build_if_statements_step_same recurse function block
      previousBlocks n block[n] hs (htype _ hmem) (hrec _ hmem)
    obtain ⟨f₂, h₂, hsame₂⟩ := ih f₁ (by omega)
    refine ⟨f₂, ?_, ?_⟩
    · rw [build_if_statements_loop, h₁]
      exact h₂
    · intro hfree
      rw [hsame₂ hfree, hsame₁ ((block_free_of_iff _ _).1 hfree _ hmem)]

theorem build_if_statements_depth_same :
    ∀ (depth : Nat) (function : Function) (block : List Statement)
      (previousBlocks : List BlockInfo),
      block_depth block < depth →
      block_free_of AST_STATEMENT_CONDITION block = true →
      ∃ function', build_if_statements_depth depth function block previousBlocks
          = Except.ok (function', block)
        ∧ (block_free_of AST_STATEMENT_BREAK block = true → function' = function) := by
  intro depth
  induction depth with
  | zero =>
    intro function block previousBlocks hdepth
    exact absurd hdepth (Nat.not_lt_zero _)
  | succ depth ih =>
    intro function block previousBlocks hdepth hfree
    rw [build_if_statements_depth]
    refine build_if_statements_loop_same (build_if_statements_depth depth) block previousBlocks
      ?_ ?_ block.length function (le_refl _)
    · intro s hs
      have := (block_free_of_iff _ _).1 hfree s hs
      rw [Statement.free_of_eq] at this
      simp only [Bool.and_eq_true, decide_eq_true_eq] at this
      exact this.1
    · intro s hs f p
      have hfree_s := (block_free_of_iff _ _).1 hfree s hs
      rw [Statement.free_of_eq] at hfree_s
      simp only [Bool.and_eq_true, decide_eq_true_eq] at hfree_s
      have hle := depth_le_block_depth block s hs
      rw [statement_depth_eq] at hle
      exact ih f s.block p (by omega) hfree_s.2

/-- Claim C14. Running `build_if_statements` once more is a no-op on the tree. The theorem has
three parts. First: on a block whose tree holds no `Condition`, which is what a framed tree is,
`build_if_statements` returns, and the block it returns is the block it was given, so every
block and statement of the tree is unchanged. Second: when the tree holds no `Break` either, the
function node is returned unchanged as well; with a `Break` the only effect is that `remove_jump`
is called for it again. Third: when `build_if_statements` has framed a block without
`Instruction` whose conditions were in reach, a second run on the function node and the block it
returned returns that same block. -/
theorem C14_build_if_statements_on_framed_tree (function : Function) (block : List Statement)
    (previousBlocks : List BlockInfo) :
    (block_free_of AST_STATEMENT_CONDITION block = true →
      ∃ result, build_if_statements function block previousBlocks
        = Except.ok (result, block))
    ∧ (block_free_of AST_STATEMENT_CONDITION block = true →
      block_free_of AST_STATEMENT_BREAK block = true →
        build_if_statements function block previousBlocks = Except.ok (function, block))
    ∧ (∀ (framed : Function) (block' : List Statement),
        block_conditions_in_reach block = true →
        block_free_of AST_STATEMENT_INSTRUCTION block = true →
        build_if_statements function block previousBlocks = Except.ok (framed, block') →
        ∃ result, build_if_statements framed block' previousBlocks
          = Except.ok (result, block')) := by
  refine ⟨?_, ?_, ?_⟩
  · intro hframed
    obtain ⟨result, hresult, _⟩ := build_if_statements_depth_same (block_depth block + 1)
      function block previousBlocks (Nat.lt_succ_self _) hframed
    exact ⟨result, hresult⟩
  · intro hframed hbreak
    obtain ⟨result, hresult, hsame⟩ := build_if_statements_depth_same (block_depth block + 1)
      function block previousBlocks (Nat.lt_succ_self _) hframed
    rw [hsame hbreak] at hresult
    exact hresult
  · intro framed block' hreach hfree h
    have hframed := (build_if_statements_framed function framed block block' previousBlocks
      hreach hfree h).1
    obtain ⟨result, hresult, _⟩ := build_if_statements_depth_same (block_depth block' + 1)
      framed block' previousBlocks (Nat.lt_succ_self _) hframed
    exact ⟨result, hresult⟩

/-- The second run of `build_if_statements` on `framed_block`, the result of the first run on
`guarded_block`, returns `framed_block`. -/
theorem C14_witness :
    block_conditions_in_reach guarded_block = true
      ∧ block_free_of AST_STATEMENT_INSTRUCTION guarded_block = true
      ∧ ∃ result, build_if_statements
            { guarded_function with labels := [{ target := 5, jumpIds := [] }] } framed_block []
          = Except.ok (result, framed_block) :=
  ⟨by decide, by decide,
    (C14_build_if_statements_on_framed_tree guarded_function guarded_block []).2.2
      { guarded_function with labels := [{ target := 5, jumpIds := [] }] } framed_block
      (by decide) (by decide) rfl⟩

/-- Claim C14, counterexample. The other passes are not no-ops on a lifted block. First:
`build_expressions`, run on the lifted body `return 0 * -1` of `scenario_zero_times_minus_one`,
returns the block `return slot1`: it overwrites the expression of the return with a fresh read
of slot `A` and registers a second open slot (ast.cpp:825-830). Second: `collect_slot_scopes`,
run on the lifted body of `scenario_copied_local`, opens new slot scopes and binds the slot
variables of the three statements to them, so the scope handles 0 and 1 become 2 and 3. -/
theorem C14_counterexample_rerun_changes_lifted_block :
    run_on_block (fun function block => Except.ok (function, block))
        (lift_function Platform.sample scenario_zero_times_minus_one)
      = Except.ok lifted_zero_times_minus_one
    ∧ run_on_block (build_expressions {})
        (lift_function Platform.sample scenario_zero_times_minus_one)
      = Except.ok reread_zero_times_minus_one
    ∧ Statement.beq_list reread_zero_times_minus_one lifted_zero_times_minus_one = false
    ∧ (run_on_block (fun function block => Except.ok (function, block))
        (lift_function Platform.sample scenario_copied_local)).toOption.map scope_handles
      = some [([some 0], [none]), ([some 1], [some 0]), ([], [some 0])]
    ∧ (run_on_block (collect_slot_scopes {})
        (lift_function Platform.sample scenario_copied_local)).toOption.map scope_handles
      = some [([some 2], [none]), ([some 3], [some 2]), ([], [some 2])] :=
  ⟨eq_of_returns_block _ _ (by decide!), eq_of_returns_block _ _ (by decide!), by decide!,
    by decide!, by decide!⟩

/-! ### The passes keep the id and the child functions of a function node -/

theorem get_extended_id_eq (statement : Statement) :
    get_extended_id_from_statement statement
      = if (statement.type = AST_STATEMENT_GOTO ∨ statement.type = AST_STATEMENT_BREAK)
            ∧ statement.instruction.type = BC_OP.JMP then
          statement.instruction.target
        else statement.instruction.id := by
  unfold get_extended_id_from_statement
  split
  · by_cases h : statement.instruction.type = BC_OP.JMP
    · simp [*]
    · simp [*]
  · by_cases h : statement.instruction.type = BC_OP.JMP
    · simp [*]
    · simp [*]
  · rename_i h₁ h₂
    rw [if_neg]
    rintro ⟨h | h, _⟩
    · exact h₁ h
    · exact h₂ h

/-- Counterexample to claim C26 as stated: the `Goto` statement that `group_jumps` makes of the
instruction `UCLO 0 => 5` at id 1 has the extended id 1, its own instruction id, not its jump
target 5. -/
theorem C26_counterexample_goto_of_uclo_keeps_id :
    (uclo_goto 1 0 5).type = AST_STATEMENT_GOTO
      ∧ (uclo_goto 1 0 5).instruction.target = 5
      ∧ get_extended_id_from_statement (uclo_goto 1 0 5) = 1 := by
  decide

/-- Claim C26, amended. `get_extended_id_from_statement` returns the jump target of the statement
when the statement is of kind `Goto` or `Break` and its opcode is `JMP`, and the instruction id
of the statement in every other case: for a `Goto` or `Break` with another opcode, and for every
statement of another kind. -/
theorem C26_get_extended_id_from_statement (statement : Statement) :
    get_extended_id_from_statement statement
      = if (statement.type = AST_STATEMENT_GOTO ∨ statement.type = AST_STATEMENT_BREAK)
            ∧ statement.instruction.type = BC_OP.JMP then
          statement.instruction.target
        else statement.instruction.id :=
  get_extended_id_eq statement

/-! ### The break pass -/

/-- Claim C29. The break pass on a loop body with a given `breakTarget` keeps the length and the
order of the body: the statement at each index is the statement that was there, with the kind
`Break` in place of `Goto` when it was a `Goto` whose target is `breakTarget`, and unchanged
otherwise. In both cases every other field, the nested block included, is the one the statement
had, so the statements inside nested blocks are unchanged; and a statement changes its kind
exactly when it is such a `Goto`. -/
theorem C29_build_break_statements_frame (block : List Statement) (breakTarget : Nat) :
    (build_break_statements block breakTarget).length = block.length
      ∧ (∀ (k : Nat) (statement : Statement), block[k]? = some statement →
          ∃ result, (build_break_statements block breakTarget)[k]? = some result
            ∧ result.instruction = statement.instruction
            ∧ result.assignment = statement.assignment
            ∧ result.condition = statement.condition
            ∧ result.block = statement.block
            ∧ result.locals = statement.locals
            ∧ result.function = statement.function
            ∧ (statement.type = AST_STATEMENT_GOTO
                ∧ statement.instruction.target = breakTarget →
                result = { statement with type := AST_STATEMENT_BREAK })
            ∧ (¬ (statement.type = AST_STATEMENT_GOTO
                ∧ statement.instruction.target = breakTarget) → result = statement)
            ∧ (result.type ≠ statement.type
                ↔ statement.type = AST_STATEMENT_GOTO
                  ∧ statement.instruction.target = breakTarget)) := by
  unfold build_break_statements
  refine ⟨List.length_map _ _, ?_⟩
  intro k statement hk
  rw [List.getElem?_map, hk]
  by_cases h : statement.type = AST_STATEMENT_GOTO ∧ statement.instruction.target = breakTarget
  · have hne : ¬ (statement.type ≠ AST_STATEMENT_GOTO
        ∨ statement.instruction.target ≠ breakTarget) := by
      rintro (h' | h')
      · exact h' h.1
      · exact h' h.2
    refine ⟨{ statement with type := AST_STATEMENT_BREAK }, by simp [hne], rfl, rfl, rfl, rfl,
      rfl, rfl, fun _ => rfl, fun h' => absurd h h', ?_⟩
    constructor
    · intro _
      exact h
    · intro _
      rw [h.1]
      show AST_STATEMENT_BREAK ≠ AST_STATEMENT_GOTO
      decide
  · have hor : statement.type ≠ AST_STATEMENT_GOTO
        ∨ statement.instruction.target ≠ breakTarget := by
      by_cases h₁ : statement.type = AST_STATEMENT_GOTO
      · right
        intro h₂
        exact h ⟨h₁, h₂⟩
      · left
        exact h₁
    refine ⟨statement, by simp [hor], rfl, rfl, rfl, rfl, rfl, rfl,
      fun h' => absurd h' h, fun _ => rfl, ?_⟩
    constructor
    · intro h'
      exact absurd rfl h'
    · intro h'
      exact absurd h' h

/-- Witness for claim C29: in the body `goto 7; goto 9` with break target 7 the first statement
becomes a `Break` and the second stays as it is. -/
theorem C29_witness :
    (∃ result, (build_break_statements [jmp_goto 3 7, jmp_goto 4 9] 7)[0]? = some result
        ∧ result = { jmp_goto 3 7 with type := AST_STATEMENT_BREAK })
      ∧ ∃ result, (build_break_statements [jmp_goto 3 7, jmp_goto 4 9] 7)[1]? = some result
        ∧ result = jmp_goto 4 9 := by
  constructor
  · obtain ⟨result, h, _, _, _, _, _, _, hbreak, _, _⟩ :=
      (C29_build_break_statements_frame [jmp_goto 3 7, jmp_goto 4 9] 7).2 0 (jmp_goto 3 7) rfl
    exact ⟨result, h, hbreak ⟨rfl, rfl⟩⟩
  · obtain ⟨result, h, _, _, _, _, _, _, _, hkeep, _⟩ :=
      (C29_build_break_statements_frame [jmp_goto 3 7, jmp_goto 4 9] 7).2 1 (jmp_goto 4 9) rfl
    exact ⟨result, h, hkeep (by decide)⟩

/-! ### The elision of `UCLO` in the second loop of `group_jumps` -/

/-- Counterexample to claim C25 as stated: in `UCLO 0 => 0001 ; JMP => 0003 ; RET0 ; RET0` the
`UCLO` statement at id 0 has the target 1, the instruction id after its own, and after the loops
of `group_jumps` it is still a `Goto` and the jump edge from 0 to 1 is still registered: the
statement after it is a jump, whose extended id is its target 3. -/
theorem C25_counterexample_uclo_before_jump_kept :
    (kinds_and_targets (build_instructions_body {} (Function.new scenario_uclo_before_jump)).2.block
        = [(AST_STATEMENT_INSTRUCTION, 0, 1), (AST_STATEMENT_INSTRUCTION, 1, 3),
            (AST_STATEMENT_RETURN, 2, INVALID_ID), (AST_STATEMENT_RETURN, 3, INVALID_ID)])
      ∧ (group_jumps_body
          (build_instructions_body {} (Function.new scenario_uclo_before_jump)).2).toOption.map
          (fun function => (kinds_and_targets function.block, jump_edges function))
        = some ([(AST_STATEMENT_GOTO, 0, 1), (AST_STATEMENT_GOTO, 1, 3),
            (AST_STATEMENT_RETURN, 2, INVALID_ID), (AST_STATEMENT_EMPTY, 3, INVALID_ID)],
          [(3, [1]), (1, [0])]) := by
  decide!

/-- Claim C25, amended. In the second loop of `group_jumps`, the iteration at an `UCLO` statement
followed by a statement `next` returns, and it gives the statement its attached label. When the
target of the `UCLO` equals the extended id of `next` the statement is reclassified as `Empty`
and the jump edge `(id, target)` is removed from the labels; otherwise the statement keeps its
kind and the labels are unchanged. When `next` is not a `Goto` or `Break` with opcode `JMP` and
carries the instruction id after that of the `UCLO`, the elision takes place exactly when
`target = id + 1`. -/
theorem C25_uclo_elided_iff_target_is_extended_id (function : Function) (i : Nat)
    (statement next : Statement)
    (hs : function.block[i]? = some statement)
    (hop : statement.instruction.type = BC_OP.UCLO)
    (hn : function.block[i + 1]? = some next) :
    ∃ function', group_jumps_second_step function i = Except.ok function'
      ∧ (statement.instruction.target = get_extended_id_from_statement next →
          function'.block = function.block.set i
              { statement with
                type := AST_STATEMENT_EMPTY,
                instruction := { statement.instruction with
                  attachedLabel := function.get_label_from_id statement.instruction.id } }
            ∧ function'.labels
              = (function.remove_jump statement.instruction.id
                  statement.instruction.target).labels)
      ∧ (statement.instruction.target ≠ get_extended_id_from_statement next →
          function'.block = function.block.set i
              { statement with
                instruction := { statement.instruction with
                  attachedLabel := function.get_label_from_id statement.instruction.id } }
            ∧ function'.labels = function.labels)
      ∧ (¬ ((next.type = AST_STATEMENT_GOTO ∨ next.type = AST_STATEMENT_BREAK)
              ∧ next.instruction.type = BC_OP.JMP) →
          next.instruction.id = statement.instruction.id + 1 →
          (statement.instruction.target = get_extended_id_from_statement next
            ↔ statement.instruction.target = statement.instruction.id + 1)) := by
  have hi : i < function.block.length := by
    rcases Nat.lt_or_ge i function.block.length with h | h
    · exact h
    · rw [List.getElem?_eq_none h] at hs
      cases hs
  have hset : modify_statement function.block i (fun s =>
        { s with instruction := { s.instruction with
            attachedLabel := function.get_label_from_id statement.instruction.id } })
      = function.block.set i { statement with
          instruction := { statement.instruction with
            attachedLabel := function.get_label_from_id statement.instruction.id } } :=
    modify_statement_eq_set _ _ _ _ hs
  have hnext : (function.block.set i { statement with
          instruction := { statement.instruction with
            attachedLabel := function.get_label_from_id statement.instruction.id } })[i + 1]?
      = some next := by
    rw [List.getElem?_set_ne (by omega)]
    exact hn
  have hstep : group_jumps_second_step function i
      = if statement.instruction.target = get_extended_id_from_statement next then
          Except.ok (Function.remove_jump { function with
            block := modify_statement (function.block.set i { statement with
                instruction := { statement.instruction with
                  attachedLabel := function.get_label_from_id statement.instruction.id } }) i
              (fun s => { s with type := AST_STATEMENT_EMPTY }) }
            statement.instruction.id statement.instruction.target)
        else Except.ok { function with
          block := function.block.set i { statement with
            instruction := { statement.instruction with
              attachedLabel := function.get_label_from_id statement.instruction.id } } } := by
    unfold group_jumps_second_step
    simp only [hs, hset]
    split
    · simp only [hnext]
    all_goals first
      | (rename_i heq
         rw [hop] at heq
         cases heq)
      | (rename_i h₁ h₂ h₃
         exact absurd hop h₁)
  rw [hstep]
  by_cases h : statement.instruction.target = get_extended_id_from_statement next
  · rw [if_pos h]
    refine ⟨_, rfl, ?_, fun h' => absurd h h', ?_⟩
    · intro _
      constructor
      · rw [remove_jump_block]
        simp only []
        rw [modify_statement_eq_set _ _ _ _ (List.getElem?_set_self hi)]
        rw [List.set_set]
      · simp only [Function.remove_jump]
        cases function.labels.findIdx?
          (fun label => label.target == statement.instruction.target) <;> rfl
    · intro hkind hid
      rw [get_extended_id_eq, if_neg hkind, hid]
  · rw [if_neg h]
    refine ⟨_, rfl, fun h' => absurd h' h, ?_, ?_⟩
    · intro _
      exact ⟨rfl, rfl⟩
    · intro hkind hid
      rw [get_extended_id_eq, if_neg hkind, hid]

/-- Witness for claim C25: the `UCLO` at id 0 with target 1, followed by the return at id 1, is
reclassified as `Empty` and its jump edge is removed. -/
theorem C25_witness :
    ∃ function', group_jumps_second_step uclo_before_return 0 = Except.ok function'
      ∧ kinds_and_targets function'.block
        = [(AST_STATEMENT_EMPTY, 0, 1), (AST_STATEMENT_RETURN, 1, INVALID_ID)]
      ∧ jump_edges function' = [(1, [])] := by
  obtain ⟨function', h, helided, _, _⟩ :=
    C25_uclo_elided_iff_target_is_extended_id uclo_before_return 0 (uclo_goto 0 0 1)
      { new_statement AST_STATEMENT_RETURN with instruction := { type := BC_OP.RET0, id := 1 } }
      rfl rfl rfl
  obtain ⟨hblock, hlabels⟩ := helided (by decide)
  refine ⟨function', h, ?_, ?_⟩
  · rw [hblock]
    decide
  · unfold jump_edges
    rw [hlabels]
    decide

/-! ### The first loop of `group_jumps` folds each compare with the jump behind it -/

theorem not_condition_of_jump_kind (op : BC_OP) (h : is_jump_kind op = true) :
    is_condition_op op = false := by
  cases op <;> first | rfl | (exfalso; revert h; decide)

theorem jumps_follow_tail (statement : Statement) (rest : List Statement)
    (h : jumps_follow (statement :: rest)) : jumps_follow rest := by
  intro k s hk hs
  obtain ⟨next, hn, hj⟩ := h (k + 1) s (by simpa using hk) hs
  exact ⟨next, by simpa using hn, hj⟩

theorem retype_jump_instruction (statement : Statement) :
    (retype_jump statement).instruction = statement.instruction := by
  unfold retype_jump
  split <;> rfl

theorem fold_jumps_of_jump (next : Statement) (rest : List Statement)
    (h : is_jump_kind next.instruction.type = true) :
    fold_jumps (next :: rest) = retype_jump next :: fold_jumps rest := by
  rw [fold_jumps, if_neg]
  rw [not_condition_of_jump_kind _ h]
  decide

theorem fold_jumps_of_condition (statement next : Statement) (rest : List Statement)
    (hs : is_condition_op statement.instruction.type = true)
    (h : is_jump_kind next.instruction.type = true) :
    fold_jumps (statement :: next :: rest) = fold_condition statement next :: fold_jumps rest := by
  rw [fold_jumps, if_pos hs, fold_jumps_of_jump next rest h]
  simp only [fold_condition, retype_jump_instruction]

theorem fold_jumps_length :
    ∀ (n : Nat) (block : List Statement), block.length = n → jumps_follow block →
      (fold_jumps block).length
          + (block.filter (fun s => is_condition_op s.instruction.type)).length
        = block.length := by
  intro n
  induction n using Nat.strong_induction_on with
  | _ n ih =>
    intro block hn hjump
    cases block with
    | nil => rfl
    | cons statement rest =>
      by_cases hs : is_condition_op statement.instruction.type = true
      · obtain ⟨next, hnext, hj⟩ := hjump 0 statement (by simp) hs
        cases rest with
        | nil => cases hnext
        | cons next' rest' =>
          simp only [zero_add, List.getElem?_cons_succ, List.getElem?_cons_zero,
            Option.some.injEq] at hnext
          subst hnext
          rw [fold_jumps_of_condition _ _ _ hs hj]
          have hrest := ih rest'.length (by simp at hn; omega) rest' rfl
            (jumps_follow_tail _ _ (jumps_follow_tail _ _ hjump))
          simp only [List.filter_cons, hs, not_condition_of_jump_kind _ hj, if_true,
            Bool.false_eq_true, if_false, List.length_cons]
          omega
      · rw [fold_jumps, if_neg hs]
        have hrest := ih rest.length (by simp at hn; omega) rest rfl (jumps_follow_tail _ _ hjump)
        simp only [List.filter_cons, hs, Bool.false_eq_true, if_false, List.length_cons]
        omega

theorem fold_jumps_mem_condition :
    ∀ (n : Nat) (block : List Statement), block.length = n → jumps_follow block →
      ∀ (k : Nat) (statement next : Statement), block[k]? = some statement →
        is_condition_op statement.instruction.type = true → block[k + 1]? = some next →
        fold_condition statement next ∈ fold_jumps block := by
  intro n
  induction n using Nat.strong_induction_on with
  | _ n ih =>
    intro block hn hjump k statement next hk hs hnext
    cases block with
    | nil => cases hk
    | cons first rest =>
      by_cases hf : is_condition_op first.instruction.type = true
      · obtain ⟨second, hsecond, hj⟩ := hjump 0 first (by simp) hf
        cases rest with
        | nil => cases hsecond
        | cons second' rest' =>
          simp only [zero_add, List.getElem?_cons_succ, List.getElem?_cons_zero,
            Option.some.injEq] at hsecond
          subst hsecond
          rw [fold_jumps_of_condition _ _ _ hf hj]
          cases k with
          | zero =>
            simp only [List.getElem?_cons_zero, Option.some.injEq] at hk
            simp only [zero_add, List.getElem?_cons_succ, List.getElem?_cons_zero,
              Option.some.injEq] at hnext
            subst hk
            subst hnext
            exact List.mem_cons_self _ _
          | succ k =>
            cases k with
            | zero =>
              simp only [zero_add, List.getElem?_cons_succ, List.getElem?_cons_zero,
                Option.some.injEq] at hk
              subst hk
              rw [not_condition_of_jump_kind _ hj] at hs
              cases hs
            | succ k =>
              refine List.mem_cons_of_mem _ (ih rest'.length (by simp at hn; omega) rest' rfl
                (jumps_follow_tail _ _ (jumps_follow_tail _ _ hjump)) k statement next
                (by simpa using hk) hs (by simpa using hnext))
      · rw [fold_jumps, if_neg hf]
        cases k with
        | zero =>
          simp only [List.getElem?_cons_zero, Option.some.injEq] at hk
          subst hk
          exact absurd hs hf
        | succ k =>
          refine List.mem_cons_of_mem _ (ih rest.length (by simp at hn; omega) rest rfl
            (jumps_follow_tail _ _ hjump) k statement next (by simpa using hk) hs
            (by simpa using hnext))

theorem fold_jumps_survivor :
    ∀ (n : Nat) (block : List Statement), block.length = n → jumps_follow block →
      ∀ result ∈ fold_jumps block,
        ∃ (k : Nat) (statement : Statement), block[k]? = some statement
          ∧ (∀ (previous : Statement), k ≠ 0 → block[k - 1]? = some previous →
              is_condition_op previous.instruction.type = false)
          ∧ ((is_condition_op statement.instruction.type = true
                ∧ ∃ next, block[k + 1]? = some next ∧ result = fold_condition statement next)
              ∨ (is_condition_op statement.instruction.type = false
                ∧ result = retype_jump statement)) := by
  intro n
  induction n using Nat.strong_induction_on with
  | _ n ih =>
    intro block hn hjump result hresult
    cases block with
    | nil => cases hresult
    | cons first rest =>
      by_cases hf : is_condition_op first.instruction.type = true
      · obtain ⟨second, hsecond, hj⟩ := hjump 0 first (by simp) hf
        cases rest with
        | nil => cases hsecond
        | cons second' rest' =>
          simp only [zero_add, List.getElem?_cons_succ, List.getElem?_cons_zero,
            Option.some.injEq] at hsecond
          subst hsecond
          rw [fold_jumps_of_condition _ _ _ hf hj] at hresult
          rcases List.mem_cons.1 hresult with h | h
          · exact ⟨0, first, by simp, fun _ h0 => absurd rfl h0,
              Or.inl ⟨hf, second', by simp, h⟩⟩
          · obtain ⟨k, statement, hk, hprev, hshape⟩ := ih rest'.length (by simp at hn; omega)
              rest' rfl (jumps_follow_tail _ _ (jumps_follow_tail _ _ hjump)) result h
            refine ⟨k + 2, statement, by simpa using hk, ?_, ?_⟩
            · intro previous _ hp
              cases k with
              | zero =>
                simp only [zero_add, Nat.add_one_sub_one, List.getElem?_cons_succ,
                  List.getElem?_cons_zero, Option.some.injEq] at hp
                rw [← hp]
                exact not_condition_of_jump_kind _ hj
              | succ k =>
                exact hprev previous (by omega) (by simpa using hp)
            · rcases hshape with ⟨hc, next, hnext, hr⟩ | hshape
              · exact Or.inl ⟨hc, next, by simpa using hnext, hr⟩
              · exact Or.inr hshape
      · rw [fold_jumps, if_neg hf] at hresult
        rcases List.mem_cons.1 hresult with h | h
        · exact ⟨0, first, by simp, fun _ h0 => absurd rfl h0, Or.inr ⟨by simpa using hf, h⟩⟩
        · obtain ⟨k, statement, hk, hprev, hshape⟩ := ih rest.length (by simp at hn; omega)
            rest rfl (jumps_follow_tail _ _ hjump) result h
          refine ⟨k + 1, statement, by simpa using hk, ?_, ?_⟩
          · intro previous _ hp
            cases k with
            | zero =>
              simp only [zero_add, Nat.add_one_sub_one, List.getElem?_cons_zero,
                Option.some.injEq] at hp
              rw [← hp]
              simpa using hf
            | succ k =>
              exact hprev previous (by omega) (by simpa using hp)
          · rcases hshape with ⟨hc, next, hnext, hr⟩ | hshape
            · exact Or.inl ⟨hc, next, by simpa using hnext, hr⟩
            · exact Or.inr hshape

theorem fold_jumps_survivor_id (block : List Statement) (hjump : jumps_follow block)
    (hids : ∀ (k : Nat) (statement : Statement), block[k]? = some statement →
      statement.instruction.id = k)
    (result : Statement) (hresult : result ∈ fold_jumps block) :
    ∃ statement, block[result.instruction.id]? = some statement
      ∧ (∀ (previous : Statement), result.instruction.id ≠ 0 →
          block[result.instruction.id - 1]? = some previous →
          is_condition_op previous.instruction.type = false)
      ∧ ((is_condition_op statement.instruction.type = true
            ∧ ∃ next, block[result.instruction.id + 1]? = some next
              ∧ result = fold_condition statement next)
          ∨ (is_condition_op statement.instruction.type = false
            ∧ result = retype_jump statement)) := by
  obtain ⟨k, statement, hk, hprev, hshape⟩ :=
    fold_jumps_survivor block.length block rfl hjump result hresult
  have hid : result.instruction.id = k := by
    rcases hshape with ⟨_, next, _, hr⟩ | ⟨_, hr⟩
    · rw [hr]; exact hids k statement hk
    · rw [hr, retype_jump_instruction]; exact hids k statement hk
  rw [hid]
  exact ⟨statement, hk, hprev, hshape⟩

theorem group_jumps_first_step_fold (function : Function) (pre : List Statement)
    (statement : Statement) (rest : List Statement)
    (hblock : function.block = pre ++ statement :: fold_jumps rest)
    (hjump : jumps_follow (pre ++ statement :: rest)) :
    ∃ function', group_jumps_first_step function pre.length = Except.ok function'
      ∧ function'.block = pre ++ fold_jumps (statement :: rest) := by
  have hs : function.block[pre.length]? = some statement := by
    rw [hblock]; exact getElem?_append_cons_length _ _ _
  by_cases hc : is_condition_op statement.instruction.type = true
  · obtain ⟨next, hnext, hj⟩ := hjump pre.length statement (getElem?_append_cons_length _ _ _) hc
    cases rest with
    | nil =>
      rw [List.getElem?_append_right (by omega)] at hnext
      simp at hnext
    | cons next' rest' =>
      rw [List.getElem?_append_right (by omega)] at hnext
      simp only [Nat.add_sub_cancel_left, List.getElem?_cons_succ, List.getElem?_cons_zero,
        Option.some.injEq] at hnext
      subst hnext
      rw [fold_jumps_of_jump _ _ hj] at hblock
      have hn : ∀ (g : Function), g.block = function.block →
          g.block[pre.length + 1]? = some (retype_jump next') := by
        intro g hg
        rw [hg, hblock, List.getElem?_append_right (by omega)]
        simp
      have hmod : (modify_statement function.block pre.length (fun s =>
            { s with type := AST_STATEMENT_CONDITION,
                     instruction := { s.instruction with
                       target := (retype_jump next').instruction.target } })).eraseIdx
              (pre.length + 1)
          = pre ++ fold_jumps (statement :: next' :: rest') := by
        rw [hblock, modify_statement_append_cons_length, fold_jumps_of_condition _ _ _ hc hj,
          List.eraseIdx_append_of_length_le (by omega)]
        simp only [Nat.add_sub_cancel_left, List.eraseIdx_cons_succ, List.eraseIdx_cons_zero,
          fold_condition, retype_jump_instruction]
      unfold group_jumps_first_step
      simp only [hs, hc, if_true]
      by_cases hop : statement.instruction.type = BC_OP.ISTC
          ∨ statement.instruction.type = BC_OP.ISFC
      · rw [if_pos hop]
        simp only [add_jump_block, hn function rfl]
        exact ⟨_, rfl, hmod⟩
      · rw [if_neg hop]
        simp only [hn function rfl]
        exact ⟨_, rfl, hmod⟩
  · have hfold : fold_jumps (statement :: rest) = retype_jump statement :: fold_jumps rest := by
      rw [fold_jumps, if_neg hc]
    rw [hfold]
    unfold group_jumps_first_step
    simp only [hs, hc, Bool.false_eq_true, if_false]
    unfold retype_jump
    split
    · refine ⟨_, rfl, ?_⟩
      rw [add_jump_block]
      show modify_statement function.block pre.length _ = _
      rw [hblock, modify_statement_append_cons_length]
      rename_i heq
      simp only [heq]
    · refine ⟨_, rfl, ?_⟩
      rw [add_jump_block]
      show modify_statement function.block pre.length _ = _
      rw [hblock, modify_statement_append_cons_length]
      rename_i heq
      simp only [heq]
    · refine ⟨_, rfl, ?_⟩
      rw [add_jump_block]
      rename_i heq
      simp only [hblock, heq]
    · refine ⟨_, rfl, ?_⟩
      rename_i h1 h2 h3
      rw [hblock]
      split
      · rename_i heq; exact absurd heq h1
      · rename_i heq; exact absurd heq h2
      · rfl

theorem group_jumps_first_loop_fold :
    ∀ (i : Nat) (function : Function) (pre rest : List Statement),
      function.block = pre ++ fold_jumps rest → pre.length = i → jumps_follow (pre ++ rest) →
      ∃ function', group_jumps_first_loop i function = Except.ok function'
        ∧ function'.block = fold_jumps (pre ++ rest) := by
  intro i
  induction i with
  | zero =>
    intro function pre rest hblock hlen _
    have hpre : pre = [] := List.length_eq_zero.1 hlen
    subst hpre
    exact ⟨function, rfl, hblock⟩
  | succ i ih =>
    intro function pre rest hblock hlen hjump
    obtain ⟨pre', statement, rfl⟩ : ∃ pre' statement, pre = pre' ++ [statement] := by
      rcases List.eq_nil_or_concat pre with h | ⟨pre', statement, h⟩
      · subst h; cases hlen
      · exact ⟨pre', statement, by simpa using h⟩
    have hlen' : pre'.length = i := by simpa using hlen
    rw [List.append_assoc, List.singleton_append] at hblock hjump ⊢
    obtain ⟨function₁, hstep, hblock₁⟩ :=
      group_jumps_first_step_fold function pre' statement rest hblock hjump
    rw [hlen'] at hstep
    obtain ⟨function', hloop, hresult⟩ :=
      ih function₁ pre' (statement :: rest) hblock₁ hlen' hjump
    refine ⟨function', ?_, hresult⟩
    rw [group_jumps_first_loop, hstep]
    exact hloop

/-- Claim C24. Take a block in which the statement at index `k` carries the instruction with id
`k` (the block `build_instructions` makes) and every compare or test statement is immediately
followed by a jump. The first loop of `group_jumps` returns, and the block it leaves is
`fold_jumps` of the block: the statement that carries the id of a compare or test is that
statement with kind `Condition` and the target of the jump that followed it, and it is in the
block; no statement carries the id of that jump any more; and the length of the block is the
number of statements before minus the number of compares and tests. -/
theorem C24_group_jumps_first_loop_folds_compares (function : Function)
    (hjump : jumps_follow function.block)
    (hids : ∀ (k : Nat) (statement : Statement), function.block[k]? = some statement →
      statement.instruction.id = k) :
    ∃ function', group_jumps_first_loop function.block.length function = Except.ok function'
      ∧ function'.block = fold_jumps function.block
      ∧ (∀ (k : Nat) (statement next : Statement), function.block[k]? = some statement →
          is_condition_op statement.instruction.type = true →
          function.block[k + 1]? = some next →
          { statement with
              type := AST_STATEMENT_CONDITION,
              instruction := { statement.instruction with target := next.instruction.target } }
            ∈ function'.block
          ∧ (∀ result ∈ function'.block,
              result.instruction.id = statement.instruction.id →
              result.type = AST_STATEMENT_CONDITION
                ∧ result.instruction.target = next.instruction.target
                ∧ result = { statement with
                    type := AST_STATEMENT_CONDITION,
                    instruction :=
                      { statement.instruction with target := next.instruction.target } })
          ∧ ∀ result ∈ function'.block, result.instruction.id ≠ next.instruction.id)
      ∧ function'.block.length
          = function.block.length
            - (function.block.filter (fun s => is_condition_op s.instruction.type)).length := by
  obtain ⟨function', hloop, hblock⟩ :=
    group_jumps_first_loop_fold function.block.length function function.block []
      (by rw [fold_jumps, List.append_nil]) rfl
      (by simpa using hjump)
  rw [List.append_nil] at hblock
  refine ⟨function', hloop, hblock, ?_, ?_⟩
  · intro k statement next hk hc hnext
    rw [hblock]
    refine ⟨fold_jumps_mem_condition _ _ rfl hjump k statement next hk hc hnext, ?_, ?_⟩
    · intro result hresult hid
      obtain ⟨statement', hk', _, hshape⟩ :=
        fold_jumps_survivor_id function.block hjump hids result hresult
      rw [hid, hids k statement hk, hk] at hk'
      cases hk'
      rw [hid, hids k statement hk, hnext] at hshape
      rcases hshape with ⟨_, next', hnext', hr⟩ | ⟨hn, _⟩
      · cases hnext'
        rw [hr]
        exact ⟨rfl, rfl, rfl⟩
      · rw [hc] at hn
        cases hn
    · intro result hresult hid
      obtain ⟨statement', _, hprev, _⟩ :=
        fold_jumps_survivor_id function.block hjump hids result hresult
      rw [hid, hids (k + 1) next hnext] at hprev
      have hp := hprev statement (by omega) (by simpa using hk)
      rw [hc] at hp
      cases hp
  · have hlength := fold_jumps_length _ function.block rfl hjump
    rw [hblock]
    omega

/-- Witness for claim C24, on the statements of `ISGE 0 1 ; JMP => 0003 ; KSHORT 2 1 ; RET1 2 2`:
the first loop returns a block of three statements, the compare with kind `Condition` and the
target `3` of the jump, and the statements of `KSHORT` and `RET1`. -/
theorem C24_witness :
    ∃ function', group_jumps_first_loop 4 compare_and_jump = Except.ok function'
      ∧ kinds_and_targets function'.block
        = [(AST_STATEMENT_CONDITION, 0, 3), (AST_STATEMENT_INSTRUCTION, 2, INVALID_ID),
            (AST_STATEMENT_RETURN, 3, INVALID_ID)] := by
  have hblock : ∀ (k : Nat) (statement : Statement),
      compare_and_jump.block[k]? = some statement →
      statement.instruction.id = k ∧ (is_condition_op statement.instruction.type = true →
        ∃ next, compare_and_jump.block[k + 1]? = some next
          ∧ is_jump_kind next.instruction.type = true) := by
    intro k statement hk
    match k, hk with
    | 0, hk => cases hk; exact ⟨rfl, fun _ => ⟨_, rfl, rfl⟩⟩
    | 1, hk => cases hk; exact ⟨rfl, fun h => absurd h (by decide)⟩
    | 2, hk => cases hk; exact ⟨rfl, fun h => absurd h (by decide)⟩
    | 3, hk => cases hk; exact ⟨rfl, fun h => absurd h (by decide)⟩
    | k + 4, hk => cases hk
  obtain ⟨function', h, hfold, _, _⟩ :=
    C24_group_jumps_first_loop_folds_compares compare_and_jump
      (fun k statement hk hc => (hblock k statement hk).2 hc)
      (fun k statement hk => (hblock k statement hk).1)
  refine ⟨function', h, ?_⟩
  rw [hfold]
  decide

/-! ### The numeric `for` of `build_loops` -/

theorem numeric_for_lists (block : List Statement) (i t : Nat) (header : Statement)
    (hlt : i + 1 < t) (ht : t < block.length) :
    (modify_statement (block.set i header) (t - 1)
        (fun s => { s with type := AST_STATEMENT_EMPTY }))[i]? = some header
      ∧ ((modify_statement (block.set i header) (t - 1)
          (fun s => { s with type := AST_STATEMENT_EMPTY })).take t).drop (i + 1)
        = former_loop_body block i t
      ∧ (modify_statement (block.set i header) (t - 1)
          (fun s => { s with type := AST_STATEMENT_EMPTY })).take (i + 1)
          ++ (modify_statement (block.set i header) (t - 1)
            (fun s => { s with type := AST_STATEMENT_EMPTY })).drop t
        = block.take i ++ header :: block.drop t
      ∧ (modify_statement (block.set i header) (t - 1)
          (fun s => { s with type := AST_STATEMENT_EMPTY })).length = block.length := by
  have hi : i < block.length := by omega
  refine ⟨?_, ?_, ?_, ?_⟩
  · unfold modify_statement
    rw [List.getElem?_modify, List.getElem?_set_self hi]
    have e : (t - 1 = i) = False := eq_false (by omega)
    simp only [e, if_false, Option.map_eq_map, Option.map_some']
  · unfold former_loop_body modify_statement
    apply List.ext_getElem?
    intro k
    simp only [List.getElem?_drop, List.getElem?_take, List.getElem?_modify]
    by_cases hk : i + 1 + k < t
    · simp only [hk, if_true]
      rw [List.getElem?_set_ne (by omega)]
      have e : (t - 1 = i + 1 + k) = (t - 2 - i = k) := by
        apply propext; constructor <;> intro h <;> omega
      simp only [e]
    · simp only [hk, if_false, Option.map_eq_map, Option.map_none']
  · unfold modify_statement
    apply List.ext_getElem?
    intro k
    by_cases hk : k < i
    · have e : (t - 1 = k) = False := eq_false (by omega)
      rw [List.getElem?_append_left (by simp; omega),
        List.getElem?_append_left (by simp; omega)]
      simp only [List.getElem?_take, List.getElem?_modify, e, if_false,
        show k < i + 1 from by omega, hk, if_true]
      rw [List.getElem?_set_ne (by omega)]
      simp
    · by_cases hk' : k = i
      · subst hk'
        have e : (t - 1 = k) = False := eq_false (by omega)
        rw [List.getElem?_append_left (by simp; omega),
          List.getElem?_append_right (by simp)]
        simp only [List.getElem?_take, List.getElem?_modify, e, if_false,
          show k < k + 1 from by omega, if_true, List.getElem?_set_self hi, List.length_take,
          Nat.min_eq_left (le_of_lt hi), Nat.sub_self, List.getElem?_cons_zero]
        simp
      · rw [List.getElem?_append_right (by simp; omega),
          List.getElem?_append_right (by simp; omega)]
        simp only [List.length_take, List.length_modify, List.length_set,
          Nat.min_eq_left (le_of_lt hi), Nat.min_eq_left (Nat.succ_le_of_lt hi)]
        obtain ⟨j, rfl⟩ : ∃ j, k = i + 1 + j := ⟨k - (i + 1), by omega⟩
        have e : (t - 1 = t + j) = False := eq_false (by omega)
        rw [show i + 1 + j - (i + 1) = j by omega, show i + 1 + j - i = j + 1 by omega,
          List.getElem?_cons_succ, List.getElem?_drop, List.getElem?_drop,
          List.getElem?_modify, List.getElem?_set_ne (by omega)]
        simp only [e, if_false]
        simp
  · simp [modify_statement]

theorem build_loops_step_fori (ast : Ast) (function : Function) (i t : Nat)
    (statement after : Statement)
    (hs : function.block[i]? = some statement)
    (hkind : statement.type = AST_STATEMENT_INSTRUCTION)
    (hop : statement.instruction.type = BC_OP.FORI)
    (ht : get_block_index_from_id function.block statement.instruction.target = t)
    (hafter : function.block[t]? = some after)
    (hlt : i + 1 < t) :
    build_loops_step ast function i
      = match build_local_scopes ast
            { function with
              block := function.block.take i
                ++ { statement with type := AST_STATEMENT_NUMERIC_FOR } :: function.block.drop t,
              slotScopeCollector := function.slotScopeCollector.add_loop
                statement.instruction.id statement.instruction.target }
            (build_break_statements (former_loop_body function.block i t)
              (get_extended_id_from_statement after)) with
        | Except.error e => Except.error e
        | Except.ok (function₁, body) =>
          Except.ok { function₁ with
            block := function.block.take i
              ++ { statement with type := AST_STATEMENT_NUMERIC_FOR, block := body }
                :: function.block.drop t } := by
  have htlen : t < function.block.length := by
    rcases Nat.lt_or_ge t function.block.length with h | h
    · exact h
    · rw [List.getElem?_eq_none h] at hafter
      cases hafter
  obtain ⟨hheader, hbody, hparent, hlength⟩ :=
    numeric_for_lists function.block i t { statement with type := AST_STATEMENT_NUMERIC_FOR }
      hlt htlen
  have hstep : build_loops_step ast function i
      = extract_loop_body ast
          { function with
            block := modify_statement
              (function.block.set i { statement with type := AST_STATEMENT_NUMERIC_FOR })
              (t - 1) (fun s => { s with type := AST_STATEMENT_EMPTY }) }
          i t t (get_extended_id_from_statement after) id := by
    unfold build_loops_step
    simp only [hs, hkind, ne_eq, not_true_eq_false, if_false]
    split
    · rename_i heq; rw [hop] at heq; cases heq
    · rename_i heq; rw [hop] at heq; cases heq
    · simp only [ht, hafter]
      rw [if_neg (by omega)]
    · rename_i heq; rw [hop] at heq; cases heq
    · rename_i h₁ h₂ h₃ h₄
      exact absurd hop h₃
  rw [hstep]
  unfold extract_loop_body
  simp only [hheader, hbody, hparent, hlength, id]
  rw [if_neg (by omega)]
  cases hlocal : build_local_scopes ast
      { function with
        block := function.block.take i
          ++ { statement with type := AST_STATEMENT_NUMERIC_FOR } :: function.block.drop t,
        slotScopeCollector := function.slotScopeCollector.add_loop
          statement.instruction.id statement.instruction.target }
      (build_break_statements (former_loop_body function.block i t)
        (get_extended_id_from_statement after)) with
  | error e => rfl
  | ok result =>
    obtain ⟨function₁, body⟩ := result
    have hblock := build_local_scopes_block ast _ function₁ _ body hlocal
    simp only [hblock]
    have hi : (function.block.take i).length = i := by
      rw [List.length_take]; omega
    have hmodify := modify_statement_append_cons_length (function.block.take i)
      { statement with type := AST_STATEMENT_NUMERIC_FOR } (function.block.drop t)
      (fun s => { s with block := body })
    rw [hi] at hmodify
    rw [hmodify]

/-- Claim C30 fails as stated. In
`KSHORT 0 1 ; KSHORT 1 3 ; KSHORT 2 1 ; FORI 0 => 0006 ; KNIL 4 5 ; FORL 0 => 0004 ; RET0` the
`FORI` is at index 3 of the block that `group_jumps` leaves and its target at index 6, so the
former statements 4 and 5 are the two statements of `KNIL` and `FORL`. The iteration of
`build_loops` at index 3 leaves a parent block of 5 statements and a nested block of 3: the
`KNIL` over two slots has become two assignments, since the body has gone through
`build_local_scopes` and `build_expressions`. The parent length plus the body length is 8, not
the 7 of the parent before. -/
theorem C30_counterexample_body_is_rewritten :
    (group_jumps_body
        (build_instructions_body {} (Function.new scenario_for_with_knil)).2).toOption.map
        (fun function => (kinds_and_ids function.block,
          get_block_index_from_id function.block 6,
          kinds_and_ids (former_loop_body function.block 3 6)))
      = some ([(AST_STATEMENT_INSTRUCTION, 0), (AST_STATEMENT_INSTRUCTION, 1),
            (AST_STATEMENT_INSTRUCTION, 2), (AST_STATEMENT_INSTRUCTION, 3),
            (AST_STATEMENT_INSTRUCTION, 4), (AST_STATEMENT_INSTRUCTION, 5),
            (AST_STATEMENT_EMPTY, 6)],
          6, [(AST_STATEMENT_INSTRUCTION, 4), (AST_STATEMENT_EMPTY, 5)])
    ∧ (group_jumps_body (build_instructions_body {} (Function.new scenario_for_with_knil)).2
          >>= fun function => build_loops_step {} function 3).toOption.map
        (fun function => (function.block.length,
          function.block.map (fun statement => kinds_and_ids statement.block)))
      = some (5, [[], [], [],
          [(AST_STATEMENT_ASSIGNMENT, 4), (AST_STATEMENT_ASSIGNMENT, INVALID_ID),
            (AST_STATEMENT_EMPTY, 5)], []])
    ∧ 5 + 3 ≠ 7 := by
  decide!

/-- Claim C30, amended. Take a `FORI` statement at index `i` of the block whose target id is
found at index `t`, with at least one statement between them. The iteration of `build_loops`
at `i` hands the former statements `i + 1 .. t - 1` in their order, the last of them
reclassified as `Empty`, to the break pass and to `build_local_scopes` (which ends in
`build_expressions`). When these return a body, statement `i` becomes a `NumericFor` with that
body as its nested block; when they raise an error, the iteration raises it. Exactly those
`t - 1 - i` statements leave the parent block: the parent length afterwards plus `t - 1 - i`
is the parent length before. -/
theorem C30_build_loops_numeric_for_body (ast : Ast) (function : Function) (i t : Nat)
    (statement after : Statement)
    (hs : function.block[i]? = some statement)
    (hkind : statement.type = AST_STATEMENT_INSTRUCTION)
    (hop : statement.instruction.type = BC_OP.FORI)
    (ht : get_block_index_from_id function.block statement.instruction.target = t)
    (hafter : function.block[t]? = some after)
    (hlt : i + 1 < t) :
    build_loops_step ast function i
      = (match build_local_scopes ast
            { function with
              block := function.block.take i
                ++ { statement with type := AST_STATEMENT_NUMERIC_FOR } :: function.block.drop t,
              slotScopeCollector := function.slotScopeCollector.add_loop
                statement.instruction.id statement.instruction.target }
            (build_break_statements (former_loop_body function.block i t)
              (get_extended_id_from_statement after)) with
        | Except.error e => Except.error e
        | Except.ok (function₁, body) =>
          Except.ok { function₁ with
            block := function.block.take i
              ++ { statement with type := AST_STATEMENT_NUMERIC_FOR, block := body }
                :: function.block.drop t })
      ∧ (∀ (k : Nat), k < t - 1 - i →
          (former_loop_body function.block i t)[k]?
            = (function.block[i + 1 + k]?).map (fun s =>
                if t - 2 - i = k then { s with type := AST_STATEMENT_EMPTY } else s))
      ∧ (former_loop_body function.block i t).length = t - 1 - i
      ∧ (function.block.take i
          ++ { statement with type := AST_STATEMENT_NUMERIC_FOR } :: function.block.drop t).length
          + (t - 1 - i) = function.block.length := by
  have htlen : t < function.block.length := by
    rcases Nat.lt_or_ge t function.block.length with h | h
    · exact h
    · rw [List.getElem?_eq_none h] at hafter
      cases hafter
  refine ⟨build_loops_step_fori ast function i t statement after hs hkind hop ht hafter hlt,
    ?_, ?_, ?_⟩
  · intro k hk
    unfold former_loop_body modify_statement
    simp only [List.getElem?_modify, List.getElem?_drop, List.getElem?_take,
      show i + 1 + k < t from by omega, if_true, Option.map_eq_map]
  · unfold former_loop_body modify_statement
    simp only [List.length_modify, List.length_drop, List.length_take]
    omega
  · simp only [List.length_append, List.length_cons, List.length_take, List.length_drop]
    omega

/-- Witness for claim C30, on the statements of
`FORI 0 => 0003 ; KSHORT 4 1 ; FORL 0 => 0001 ; RET0`: the `FORI` at index 0 becomes a
`NumericFor` whose nested block is the assignment made of `KSHORT` and the `Empty` made of
`FORL`, and the parent block keeps the loop statement and the return. -/
theorem C30_witness :
    (build_loops_step {} numeric_for_of_one_statement 0).toOption.map
        (fun function => (kinds_and_ids function.block,
          function.block.map (fun statement => kinds_and_ids statement.block)))
      = some ([(AST_STATEMENT_NUMERIC_FOR, 0), (AST_STATEMENT_RETURN, 3)],
          [[(AST_STATEMENT_ASSIGNMENT, 1), (AST_STATEMENT_EMPTY, 2)], []]) := by
  rw [(C30_build_loops_numeric_for_body {} numeric_for_of_one_statement 0 3
    { new_statement AST_STATEMENT_INSTRUCTION with
      instruction := { type := BC_OP.FORI, a := 0, d := 32770, id := 0, target := 3 } }
    { new_statement AST_STATEMENT_RETURN with
      instruction := { type := BC_OP.RET0, a := 0, d := 1, id := 3 } }
    rfl rfl rfl (by decide) rfl (by decide)).1]
  decide!

/-! ### The local groups of `assign_debug_info` -/

theorem pop_to_base_slot_length (baseSlot scopeEnd : Nat) :
    ∀ (active active' : List Nat),
      pop_to_base_slot baseSlot scopeEnd active = Except.ok active' →
      active'.length = baseSlot := by
  intro active
  induction active with
  | nil =>
    intro active' h
    unfold pop_to_base_slot at h
    split at h
    · cases h; rename_i hb; exact hb.symm
    · cases h
  | cons back rest ih =>
    intro active' h
    unfold pop_to_base_slot at h
    split at h
    · cases h; rename_i hb; exact hb
    · split at h
      · exact ih active' h
      · cases h

theorem zero_span_of_not_applies (function : Function) (info : VariableInfo)
    (active : List Nat)
    (hrange : info.scopeBegin = info.scopeEnd →
      (function.block[get_block_index_from_id function.block info.scopeBegin]?).isSome = true)
    (hzero : zero_span_applies function info active = false) :
    assign_debug_info_zero_span function info active = Except.ok (active, function.locals) := by
  unfold assign_debug_info_zero_span
  unfold zero_span_applies at hzero
  cases hlast : function.locals.getLast? with
  | none => rfl
  | some last =>
    simp only [hlast] at hzero ⊢
    by_cases hguard : info.scopeBegin = info.scopeEnd ∧ last.scopeEnd = info.scopeEnd
    · rw [if_pos hguard] at hzero ⊢
      cases hstatement :
          function.block[get_block_index_from_id function.block info.scopeBegin]? with
      | none =>
        have := hrange hguard.1
        rw [hstatement] at this
        cases this
      | some statement =>
        simp only [hstatement] at hzero ⊢
        exact if_neg (fun h => Bool.noConfusion (h.symm.trans hzero))
    · rw [if_neg hguard]

theorem zero_span_of_applies (function : Function) (info : VariableInfo)
    (active : List Nat) (last : Local)
    (hlast : function.locals.getLast? = some last)
    (hzero : zero_span_applies function info active = true) :
    assign_debug_info_zero_span function info active
      = match pop_to_base_slot last.baseSlot info.scopeEnd active with
        | Except.error e => Except.error e
        | Except.ok active' =>
          Except.ok (active', function.locals ++ [{
            baseSlot := active'.length,
            scopeBegin := info.scopeBegin,
            scopeEnd := info.scopeEnd,
            excludeBlock :=
              if last.scopeBegin = last.scopeEnd then last.excludeBlock else true }]) := by
  unfold assign_debug_info_zero_span
  unfold zero_span_applies at hzero
  simp only [hlast] at hzero ⊢
  by_cases hguard : info.scopeBegin = info.scopeEnd ∧ last.scopeEnd = info.scopeEnd
  · rw [if_pos hguard] at hzero ⊢
    cases hstatement :
        function.block[get_block_index_from_id function.block info.scopeBegin]? with
    | none =>
      rw [hstatement] at hzero
      cases hzero
    | some statement =>
      simp only [hstatement] at hzero ⊢
      exact if_pos hzero
  · rw [if_neg hguard] at hzero
    cases hzero

theorem legal_of_border (info : VariableInfo) (active : List Nat) :
    (∀ (back : Nat) (rest : List Nat), active = back :: rest →
      info.scopeBegin > back ∨ info.scopeEnd ≤ back ∨ info.scopeBegin = back) →
    (match active with
      | [] => true
      | back :: _ =>
        decide (info.scopeBegin > back ∨ info.scopeEnd ≤ back ∨ info.scopeBegin = back))
      = true := by
  intro hlegal
  cases active with
  | nil => rfl
  | cons back rest => exact decide_eq_true (hlegal back rest rfl)

theorem modify_append_singleton {α : Type} (pre : List α) (x : α) (f : α → α) :
    (pre ++ [x]).modify f pre.length = pre ++ [f x] := by
  induction pre with
  | nil => rfl
  | cons a pre ih => simpa [List.modify] using ih

theorem modify_last {α : Type} (l : List α) (last : α) (f : α → α)
    (hlast : l.getLast? = some last) :
    l.modify f (l.length - 1) = l.dropLast ++ [f last] := by
  have hsplit : l.dropLast ++ [last] = l := List.dropLast_append_getLast? last (by simp [hlast])
  have hlen : l.length - 1 = l.dropLast.length := by simp
  have hmodify := modify_append_singleton l.dropLast last f
  rw [hsplit] at hmodify
  rw [hlen]
  exact hmodify

/-- The iteration of `assign_debug_info` at a `VARNAME_STR` record when the zero-span phase has
left the active stack `active₁` and the groups `locals`. -/
theorem assign_debug_info_step_after_zero_span (function : Function) (info : VariableInfo)
    (active active₁ : List Nat) (locals : List Local)
    (hstr : info.type = BC_VAR.BC_VAR_STR)
    (hlegal : ∀ (back : Nat) (rest : List Nat), active = back :: rest →
      info.scopeBegin > back ∨ info.scopeEnd ≤ back ∨ info.scopeBegin = back)
    (hzero : assign_debug_info_zero_span function info (pop_ended_scopes info.scopeEnd active)
      = Except.ok (active₁, locals)) :
    (∀ last, locals.getLast? = some last →
        info.scopeBegin = last.scopeBegin ∧ info.scopeEnd = last.scopeEnd →
        assign_debug_info_step function info active
          = Except.ok ({ function with
              locals := locals.dropLast
                ++ [{ last with names := last.names ++ [info.name] }] },
            info.scopeEnd :: active₁))
      ∧ ((∀ last, locals.getLast? = some last →
            ¬(info.scopeBegin = last.scopeBegin ∧ info.scopeEnd = last.scopeEnd)) →
          assign_debug_info_step function info active
            = Except.ok ({ function with
                locals := locals ++ [{
                  baseSlot := active₁.length,
                  scopeBegin := info.scopeBegin, scopeEnd := info.scopeEnd,
                  names := [info.name] }] },
              info.scopeEnd :: active₁)) := by
  have hstep : assign_debug_info_step function info active
      = Except.ok ({ function with
          locals := (if (match locals.getLast? with
                | none => true
                | some last =>
                  decide (info.scopeBegin ≠ last.scopeBegin ∨ info.scopeEnd ≠ last.scopeEnd))
                = true then
              locals ++ [{ baseSlot := active₁.length, scopeBegin := info.scopeBegin,
                           scopeEnd := info.scopeEnd }]
            else locals).modify (fun group =>
              { group with names := group.names ++ [info.name] })
              ((if (match locals.getLast? with
                | none => true
                | some last =>
                  decide (info.scopeBegin ≠ last.scopeBegin ∨ info.scopeEnd ≠ last.scopeEnd))
                = true then
              locals ++ [{ baseSlot := active₁.length, scopeBegin := info.scopeBegin,
                           scopeEnd := info.scopeEnd }]
            else locals).length - 1) },
        (((if (match locals.getLast? with
                | none => true
                | some last =>
                  decide (info.scopeBegin ≠ last.scopeBegin ∨ info.scopeEnd ≠ last.scopeEnd))
                = true then
              locals ++ [{ baseSlot := active₁.length, scopeBegin := info.scopeBegin,
                           scopeEnd := info.scopeEnd }]
            else locals).modify (fun group =>
              { group with names := group.names ++ [info.name] })
              ((if (match locals.getLast? with
                | none => true
                | some last =>
                  decide (info.scopeBegin ≠ last.scopeBegin ∨ info.scopeEnd ≠ last.scopeEnd))
                = true then
              locals ++ [{ baseSlot := active₁.length, scopeBegin := info.scopeBegin,
                           scopeEnd := info.scopeEnd }]
            else locals).length - 1)).getLast?.getD {}).scopeEnd :: active₁) := by
    have hl := legal_of_border info active hlegal
    unfold assign_debug_info_step
    simp only []
    split
    · rename_i h
      exact Bool.noConfusion (hl.symm.trans h)
    · simp only [hstr, hzero, ne_eq, not_true_eq_false, if_false]
  rw [hstep]
  constructor
  · intro last hlast hpair
    simp only [hlast]
    rw [if_neg (by simp [hpair.1, hpair.2]), modify_last _ last _ hlast]
    simp [hpair.2]
  · intro hpair
    cases hlast : locals.getLast? with
    | none =>
      simp only [if_true]
      have := modify_append_singleton locals
        ({ baseSlot := active₁.length, scopeBegin := info.scopeBegin,
           scopeEnd := info.scopeEnd } : Local)
        (fun group => { group with names := group.names ++ [info.name] })
      simp only [List.length_append, List.length_singleton, Nat.add_sub_cancel]
      rw [this]
      simp
    | some last =>
      have hne := hpair last hlast
      simp only []
      rw [if_pos (by
        apply decide_eq_true
        by_cases h₁ : info.scopeBegin = last.scopeBegin
        · exact Or.inr (fun h₂ => hne ⟨h₁, h₂⟩)
        · exact Or.inl h₁)]
      have := modify_append_singleton locals
        ({ baseSlot := active₁.length, scopeBegin := info.scopeBegin,
           scopeEnd := info.scopeEnd } : Local)
        (fun group => { group with names := group.names ++ [info.name] })
      simp only [List.length_append, List.length_singleton, Nat.add_sub_cancel]
      rw [this]
      simp

theorem assign_debug_info_step_zero_span_error (function : Function) (info : VariableInfo)
    (active : List Nat) (e : Error)
    (hstr : info.type = BC_VAR.BC_VAR_STR)
    (hlegal : ∀ (back : Nat) (rest : List Nat), active = back :: rest →
      info.scopeBegin > back ∨ info.scopeEnd ≤ back ∨ info.scopeBegin = back)
    (hzero : assign_debug_info_zero_span function info (pop_ended_scopes info.scopeEnd active)
      = Except.error e) :
    assign_debug_info_step function info active = Except.error e := by
  have hl := legal_of_border info active hlegal
  unfold assign_debug_info_step
  simp only []
  split
  · rename_i h
    exact Bool.noConfusion (hl.symm.trans h)
  · simp only [hstr, hzero, ne_eq, not_true_eq_false, if_false]

/-- Claim C27 fails as stated. In `KSHORT 0 1 ; KPRI 1 nil ; KPRI 1 nil ; RET0` with the records
`x` over (1, 3), `a` over (2, 2) and `b` over (2, 2), the last group before the record `b` is
the group of `a`, whose pair (2, 2) is the pair of `b`; the zero-span special case applies to
`b`, and its name is not appended to the group of `a`: a third group is opened for it. -/
theorem C27_counterexample_equal_pair_opens_group :
    ((assign_debug_info_step
          (build_instructions_body {} (Function.new scenario_two_zero_span_records)).2
          { type := BC_VAR.BC_VAR_STR, name := "x", scopeBegin := 1, scopeEnd := 3 } []
        >>= fun state => assign_debug_info_step state.1
          { type := BC_VAR.BC_VAR_STR, name := "a", scopeBegin := 2, scopeEnd := 2 }
          state.2).toOption.map
        fun state => (state.1.locals, state.2,
          zero_span_applies state.1
            { type := BC_VAR.BC_VAR_STR, name := "b", scopeBegin := 2, scopeEnd := 2 }
            (pop_ended_scopes 2 state.2)))
      = some ([{ baseSlot := 0, scopeBegin := 1, scopeEnd := 3, names := ["x"] },
            { baseSlot := 1, scopeBegin := 2, scopeEnd := 2, names := ["a"] }],
          [2, 3], true)
    ∧ (assign_debug_info_body
          (build_instructions_body {} (Function.new scenario_two_zero_span_records)).2).toOption.map
        (fun function => function.locals)
      = some [{ baseSlot := 0, scopeBegin := 1, scopeEnd := 3, names := ["x"] },
          { baseSlot := 1, scopeBegin := 2, scopeEnd := 2, names := ["a"] },
          { baseSlot := 1, scopeBegin := 2, scopeEnd := 2, names := ["b"] }] := by
  decide!

/-- Claim C27, amended. Take a non-parameter `VARNAME_STR` record that passes the scope-overlap
assertion and for which the zero-span special case does not apply. When its pair
`(scopeBegin, scopeEnd)` equals the pair of the group that was last before the record, its name
is appended to that group and no group is opened; when there is no group or the pairs differ,
the groups before are unchanged and a new group is opened whose `baseSlot` is the size of the
active stack after the ended scopes were popped, whose endpoints are those of the record and
whose only name is the name of the record. In both cases the `scopeEnd` of the record is pushed
on the active stack. -/
theorem C27_assign_debug_info_group_coalescing (function : Function) (info : VariableInfo)
    (active : List Nat)
    (hstr : info.type = BC_VAR.BC_VAR_STR)
    (hlegal : ∀ (back : Nat) (rest : List Nat), active = back :: rest →
      info.scopeBegin > back ∨ info.scopeEnd ≤ back ∨ info.scopeBegin = back)
    (hrange : info.scopeBegin = info.scopeEnd →
      (function.block[get_block_index_from_id function.block info.scopeBegin]?).isSome = true)
    (hzero : zero_span_applies function info (pop_ended_scopes info.scopeEnd active) = false) :
    (∀ last, function.locals.getLast? = some last →
        info.scopeBegin = last.scopeBegin ∧ info.scopeEnd = last.scopeEnd →
        assign_debug_info_step function info active
          = Except.ok ({ function with
              locals := function.locals.dropLast
                ++ [{ last with names := last.names ++ [info.name] }] },
            info.scopeEnd :: pop_ended_scopes info.scopeEnd active))
      ∧ ((∀ last, function.locals.getLast? = some last →
            ¬(info.scopeBegin = last.scopeBegin ∧ info.scopeEnd = last.scopeEnd)) →
          assign_debug_info_step function info active
            = Except.ok ({ function with
                locals := function.locals ++ [{
                  baseSlot := (pop_ended_scopes info.scopeEnd active).length,
                  scopeBegin := info.scopeBegin, scopeEnd := info.scopeEnd,
                  names := [info.name] }] },
              info.scopeEnd :: pop_ended_scopes info.scopeEnd active)) :=
  assign_debug_info_step_after_zero_span function info active _ _ hstr hlegal
    (zero_span_of_not_applies function info _ hrange hzero)

/-- Witness for claim C27: with the one group `x` over (1, 3) and the active stack `[3]`, the
record `y` over (1, 3) joins the group. -/
theorem C27_witness :
    assign_debug_info_step one_group_function
        { type := BC_VAR.BC_VAR_STR, name := "y", scopeBegin := 1, scopeEnd := 3 } [3]
      = Except.ok ({ one_group_function with
          locals := [{ baseSlot := 0, scopeBegin := 1, scopeEnd := 3, names := ["x", "y"] }] },
        [3, 3]) :=
  (C27_assign_debug_info_group_coalescing one_group_function
    { type := BC_VAR.BC_VAR_STR, name := "y", scopeBegin := 1, scopeEnd := 3 } [3] rfl
    (fun back rest h => by cases h; exact Or.inr (Or.inl (by decide)))
    (fun h => absurd h (by decide)) (by decide)).1
    { baseSlot := 0, scopeBegin := 1, scopeEnd := 3, names := ["x"] } rfl ⟨rfl, rfl⟩

/-- Claim C28 fails as stated. In `KPRI 0 nil ; KPRI 0 nil ; RET0` with the records `a` over
(1, 1) and `b` over (1, 1), the zero-span special case applies to `b`; the last group before it,
the group of `a`, has `scopeBegin == scopeEnd`, so the new group inherits its `excludeBlock`,
which is `false`. -/
theorem C28_counterexample_exclude_block_inherited :
    ((assign_debug_info_step
          (build_instructions_body {} (Function.new scenario_zero_span_after_zero_span)).2
          { type := BC_VAR.BC_VAR_STR, name := "a", scopeBegin := 1, scopeEnd := 1 }
          []).toOption.map
        fun state => (state.1.locals, state.2,
          zero_span_applies state.1
            { type := BC_VAR.BC_VAR_STR, name := "b", scopeBegin := 1, scopeEnd := 1 }
            (pop_ended_scopes 1 state.2)))
      = some ([{ baseSlot := 0, scopeBegin := 1, scopeEnd := 1, names := ["a"] }], [1], true)
    ∧ (assign_debug_info_body
          (build_instructions_body {} (Function.new scenario_zero_span_after_zero_span)).2
        ).toOption.map (fun function => function.locals)
      = some [{ baseSlot := 0, scopeBegin := 1, scopeEnd := 1, names := ["a"] },
          { baseSlot := 0, scopeBegin := 1, scopeEnd := 1, names := ["b"],
            excludeBlock := false }] := by
  decide!

/-- Claim C28, amended. Take a non-parameter `VARNAME_STR` record that passes the scope-overlap
assertion and to which the zero-span special case applies, `last` being the last group before
it. When the active stack can be popped back to the base slot of `last`, the iteration opens a
new group for the name of the record whose `baseSlot` is the `baseSlot` of `last` and whose
`excludeBlock` is `true` unless `last` has `scopeBegin == scopeEnd`, in which case it is the
`excludeBlock` of `last`; when the stack cannot be popped back, the iteration raises the error
of the pop. -/
theorem C28_zero_span_group (function : Function) (info : VariableInfo)
    (active : List Nat) (last : Local)
    (hstr : info.type = BC_VAR.BC_VAR_STR)
    (hlegal : ∀ (back : Nat) (rest : List Nat), active = back :: rest →
      info.scopeBegin > back ∨ info.scopeEnd ≤ back ∨ info.scopeBegin = back)
    (hlast : function.locals.getLast? = some last)
    (hzero : zero_span_applies function info (pop_ended_scopes info.scopeEnd active) = true) :
    (∀ active₁,
        pop_to_base_slot last.baseSlot info.scopeEnd (pop_ended_scopes info.scopeEnd active)
          = Except.ok active₁ →
        assign_debug_info_step function info active
          = Except.ok ({ function with
              locals := function.locals ++ [{
                baseSlot := last.baseSlot,
                scopeBegin := info.scopeBegin, scopeEnd := info.scopeEnd,
                names := [info.name],
                excludeBlock :=
                  if last.scopeBegin = last.scopeEnd then last.excludeBlock else true }] },
            info.scopeEnd :: active₁))
      ∧ (∀ e,
          pop_to_base_slot last.baseSlot info.scopeEnd (pop_ended_scopes info.scopeEnd active)
            = Except.error e →
          assign_debug_info_step function info active = Except.error e) := by
  have hspan := zero_span_of_applies function info _ last hlast hzero
  constructor
  · intro active₁ hpop
    rw [hpop] at hspan
    have hlength := pop_to_base_slot_length _ _ _ _ hpop
    have hstep := (assign_debug_info_step_after_zero_span function info active _ _ hstr hlegal
      hspan).1 _ (List.getLast?_concat _) ⟨rfl, rfl⟩
    rw [hstep, hlength]
    simp
  · intro e hpop
    rw [hpop] at hspan
    exact assign_debug_info_step_zero_span_error function info active e hstr hlegal hspan

/-- Witness for claim C28: after the group `a` over (0, 1), the record `b` over (1, 1) at the
statement of `KPRI 0 nil` opens a group at base slot 0 with `excludeBlock` set. -/
theorem C28_witness :
    assign_debug_info_step nil_after_group_function
        { type := BC_VAR.BC_VAR_STR, name := "b", scopeBegin := 1, scopeEnd := 1 } [1]
      = Except.ok ({ nil_after_group_function with
          locals := [{ baseSlot := 0, scopeBegin := 0, scopeEnd := 1, names := ["a"] },
            { baseSlot := 0, scopeBegin := 1, scopeEnd := 1, names := ["b"],
              excludeBlock := true }] },
        [1]) :=
  (C28_zero_span_group nil_after_group_function
    { type := BC_VAR.BC_VAR_STR, name := "b", scopeBegin := 1, scopeEnd := 1 } [1]
    { baseSlot := 0, scopeBegin := 0, scopeEnd := 1, names := ["a"] } rfl
    (fun back rest h => by cases h; exact Or.inr (Or.inl (by decide)))
    rfl (by decide)).1 [] rfl

/-! ### The operand swap of an ordered compare -/

theorem build_condition_expression_condition (function : Function) (fresh built : Statement)
    (h : build_condition_expression function fresh = Except.ok built) :
    built.condition
        = (if is_ordered_compare fresh.instruction.type = true then
            { fresh.condition with allowSlotSwap := true }
          else fresh.condition)
      ∧ built.instruction = fresh.instruction := by
  unfold build_condition_expression at h
  simp only [] at h
  split at h
  all_goals first
    | (rename_i heq
       cases h
       rw [heq]
       exact ⟨rfl, rfl⟩)
    | (rename_i heq
       split at h
       · cases h
       · cases h
         rw [heq]
         exact ⟨rfl, rfl⟩)
    | (cases h
       refine ⟨?_, rfl⟩
       rw [if_neg]
       intro hordered
       unfold is_ordered_compare at hordered
       split at hordered
       all_goals first
         | (cases hordered; done)
         | contradiction)

/-- Claim C23. Take a condition statement `fresh` whose `condition` record is as created, let
`built` be what `build_expressions` makes of it, and let `statement` be a statement at index `i`
of a block handed to `eliminate_slots` that carries the `condition` record of `built`.
When the opcode is `ISLT`, `ISGE`, `ISLE` or `ISGT`, `i` is not 0, the statement carries no
valid label, and the statement before it is an assignment to exactly one slot variable with
`usages == 1` whose slot is the slot of the left operand, the first switch of `eliminate_slots`
exchanges the expressions 0 and 1 of the statement and sets `swapped`, and changes nothing
else. For every other opcode the block is unchanged and `swapped` is `false`. -/
theorem C23_ordered_compare_operand_swap (function₀ function : Function)
    (fresh built statement : Statement) (block : List Statement) (i : Nat)
    (hfresh : fresh.condition = {})
    (hbuilt : build_condition_expression function₀ fresh = Except.ok built)
    (hs : block[i]? = some statement)
    (hkept : statement.condition = built.condition) :
    (is_ordered_compare fresh.instruction.type = true →
        ∀ previous, block[i - 1]? = some previous →
        i ≠ 0 →
        function.is_valid_label statement.instruction.attachedLabel = false →
        is_single_use_slot_assignment function previous = true →
        previous.target_slot
          = (statement.assignment.expressions.getD 0 Expression.null).slot →
        eliminate_slots_swap function block i
            = block.set i { statement with
                assignment := { statement.assignment with
                  expressions :=
                    (statement.assignment.expressions.set 0
                      (statement.assignment.expressions.getD 1 Expression.null)).set 1
                      (statement.assignment.expressions.getD 0 Expression.null) },
                condition := { allowSlotSwap := true, swapped := true } }
          ∧ ∀ left right, statement.assignment.expressions = [left, right] →
              (statement.assignment.expressions.set 0
                (statement.assignment.expressions.getD 1 Expression.null)).set 1
                (statement.assignment.expressions.getD 0 Expression.null)
              = [right, left])
      ∧ (is_ordered_compare fresh.instruction.type = false →
          eliminate_slots_swap function block i = block
            ∧ statement.condition = { allowSlotSwap := false, swapped := false }) := by
  have hcondition := (build_condition_expression_condition function₀ fresh built hbuilt).1
  rw [← hkept, hfresh] at hcondition
  constructor
  · intro hordered previous hp hi hlabel hsingle hslot
    rw [if_pos hordered] at hcondition
    constructor
    · unfold eliminate_slots_swap
      simp only [hs, hp]
      rw [if_pos ⟨by rw [hcondition], hi, hlabel, hsingle, hslot⟩, hcondition]
    · intro left right hexpressions
      rw [hexpressions]
      rfl
  · intro hordered
    rw [if_neg (by rw [hordered]; decide)] at hcondition
    refine ⟨?_, hcondition⟩
    have hi : i - 1 < block.length := by
      have := (List.getElem?_eq_some_iff.1 hs).1
      omega
    unfold eliminate_slots_swap
    simp only [hs, List.getElem?_eq_getElem hi]
    rw [if_neg]
    intro h
    rw [hcondition] at h
    exact absurd h.1 (by decide)

/-- Witness for claim C23: after the single-use assignment `slot0 = 5`, the condition
`slot0 < slot1` built from `ISLT 0 1` becomes `slot1 < slot0` with `swapped` set. -/
theorem C23_witness :
    eliminate_slots_swap single_use_function
        [constant_definition 5, built_compare BC_OP.ISLT true] 1
      = [constant_definition 5,
          { built_compare BC_OP.ISLT true with
            assignment := { (built_compare BC_OP.ISLT true).assignment with
              expressions := [new_slot 1, new_slot 0] },
            condition := { allowSlotSwap := true, swapped := true } }] :=
  ((C23_ordered_compare_operand_swap (Function.new {}) single_use_function
    (compare_statement BC_OP.ISLT) (built_compare BC_OP.ISLT true)
    (built_compare BC_OP.ISLT true)
    [constant_definition 5, built_compare BC_OP.ISLT true] 1 rfl rfl rfl rfl).1
    rfl (constant_definition 5) rfl (by decide) rfl rfl rfl).1

/-! ### The table-constructor fold of `eliminate_slots` -/

theorem trim_used_slots_eq_nil_iff (tableSlot : Nat) (usedSlots : List Nat) :
    trim_used_slots tableSlot usedSlots = [] ↔ tableSlot ∉ usedSlots := by
  induction usedSlots with
  | nil => simp [trim_used_slots]
  | cons slot rest ih =>
    unfold trim_used_slots
    by_cases h : slot = tableSlot
    · rw [if_neg (not_not.2 h)]
      simp [h]
    · rw [if_pos h, ih]
      simp [Ne.symm h]

theorem decrement_usages_usages (collector : SlotScopeCollector) (handle : Nat)
    (scope : SlotScope) (hhandle : collector.scopes[handle]? = some scope)
    (hlow : 1 ≤ scope.usages) (hhigh : scope.usages < 4294967296) :
    (collector.decrement_usages (some handle)).usages (some handle) + 1
        = collector.usages (some handle)
      ∧ ∀ other, other ≠ handle →
          (collector.decrement_usages (some handle)).usages (some other)
            = collector.usages (some other) := by
  unfold SlotScopeCollector.decrement_usages SlotScopeCollector.usages
  simp only [List.getD_eq_getElem?_getD, List.getElem?_modify, hhandle]
  constructor
  · simp only [if_true, Option.map_eq_map, Option.map_some', Option.getD_some]
    omega
  · intro other hne
    have e : (handle = other) = False := eq_false (Ne.symm hne)
    simp only [e, if_false]
    cases collector.scopes[other]? <;> rfl

theorem set_set_pred_eraseIdx {α : Type} (block : List α) (i : Nat) (x y : α)
    (hi : i ≠ 0) (hlen : i < block.length) :
    ((block.set i x).set (i - 1) y).eraseIdx i
      = block.take (i - 1) ++ y :: block.drop (i + 1) := by
  apply List.ext_getElem?
  intro k
  rw [List.getElem?_eraseIdx]
  by_cases hk : k < i
  · rw [if_pos hk, List.getElem?_set]
    by_cases hk' : i - 1 = k
    · rw [if_pos hk']
      simp only [List.length_set]
      rw [if_pos (by omega), List.getElem?_append_right (by simp; omega)]
      simp only [List.length_take]
      rw [show k - min (i - 1) block.length = 0 by omega, List.getElem?_cons_zero]
    · rw [if_neg hk', List.getElem?_set_ne (by omega),
        List.getElem?_append_left (by simp; omega), List.getElem?_take]
      rw [if_pos (by omega)]
  · rw [if_neg hk, List.getElem?_set_ne (by omega), List.getElem?_set_ne (by omega),
      List.getElem?_append_right (by simp; omega)]
    simp only [List.length_take]
    rw [show k - min (i - 1) block.length = (k - i) + 1 by omega, List.getElem?_cons_succ,
      List.getElem?_drop]
    congr 1
    omega

/-- Claim C22. Take the `AST_VARIABLE_TABLE_INDEX` case of the last switch of `eliminate_slots`
at a setter at index `i` that carries no valid label, whose last target is `target`, and let
the statement before it be an assignment to exactly one slot variable, the table slot of the
setter, flagged as a table constructor whose table has no multres field. When the used slots of
the setter do not hold the table slot, and the setter is multres or its key is no constant or
the nil constant or its value is no constant, the case returns with the setter erased from the
block (the index steps back by one); the constructor has got the pair of the key and the value
of the setter as the last entry of its fields, or for a multres setter the value as its
`multresField` with the `multresIndex` of the target; and the usages of the scope of the
constructor have decreased by exactly one, the usages of every other scope being unchanged. -/
theorem C22_table_constructor_fold (platform : Platform) (function : Function)
    (block : List Statement) (i : Nat) (statement previous : Statement)
    (target constructorTarget : Variable) (handle : Nat) (scope : SlotScope)
    (hs : block[i]? = some statement)
    (hp : block[i - 1]? = some previous)
    (hi : i ≠ 0)
    (hlabel : function.is_valid_label statement.instruction.attachedLabel = false)
    (htarget : statement.assignment.variables_.getLast? = some target)
    (hkind : previous.type = AST_STATEMENT_ASSIGNMENT)
    (hvariables : previous.assignment.variables_ = [constructorTarget])
    (hslotkind : constructorTarget.type = AST_VARIABLE_SLOT)
    (hslot : constructorTarget.slot = target.table.slot)
    (hconstructor : previous.assignment.isTableConstructor = true)
    (hnomultres : previous.last_expression.multresField.isNull = true)
    (hused : target.table.slot ∉ statement.assignment.usedSlots)
    (hfoldable : target.isMultres = true
      ∨ get_constant_type platform target.tableIndex = CONSTANT_TYPE.INVALID_CONSTANT
      ∨ get_constant_type platform target.tableIndex = CONSTANT_TYPE.NIL_CONSTANT
      ∨ get_constant_type platform statement.last_expression = CONSTANT_TYPE.INVALID_CONSTANT)
    (hscope : constructorTarget.slotScope = some handle)
    (hhandle : function.slotScopeCollector.scopes[handle]? = some scope)
    (hlow : 1 ≤ scope.usages) (hhigh : scope.usages < 4294967296) :
    ∃ function' block',
      eliminate_slots_table_index platform function block i
          = Except.ok (function', block', i - 1)
        ∧ block' = (block.take (i - 1)) ++
            { previous with
              assignment := { previous.assignment with
                expressions := previous.assignment.expressions.set
                  (previous.assignment.expressions.length - 1)
                  (if target.isMultres = true then
                    previous.last_expression.set_multres_field target.multresIndex
                      statement.last_expression
                  else
                    previous.last_expression.add_field target.tableIndex
                      statement.last_expression) } }
            :: block.drop (i + 1)
        ∧ block'.length + 1 = block.length
        ∧ (∀ list constantFields fields multresField multresIndex,
            previous.last_expression
              = Expression.table list constantFields fields multresField multresIndex →
            (if target.isMultres = true then
                previous.last_expression.set_multres_field target.multresIndex
                  statement.last_expression
              else
                previous.last_expression.add_field target.tableIndex
                  statement.last_expression)
              = if target.isMultres = true then
                  Expression.table list constantFields fields statement.last_expression
                    target.multresIndex
                else
                  Expression.table list constantFields
                    (fields ++ [(target.tableIndex, statement.last_expression)])
                    multresField multresIndex)
        ∧ function'.slotScopeCollector.usages (some handle) + 1
            = function.slotScopeCollector.usages (some handle)
        ∧ (∀ other, other ≠ handle →
            function'.slotScopeCollector.usages (some other)
              = function.slotScopeCollector.usages (some other)) := by
  have hilen : i < block.length := (List.getElem?_eq_some_iff.1 hs).1
  have htrim : (trim_used_slots target.table.slot statement.assignment.usedSlots.reverse).reverse
      = [] := by
    rw [List.reverse_eq_nil_iff, trim_used_slots_eq_nil_iff]
    simpa using hused
  have hprevious : previous.assignment.variables_.getLast?.getD {} = constructorTarget := by
    rw [hvariables]
    rfl
  have hone : previous.assignment.variables_.length = 1 := by
    rw [hvariables, List.length_singleton]
  have hfold : target.isMultres = true
      ∨ (get_constant_type platform target.tableIndex).val ≤ CONSTANT_TYPE.NIL_CONSTANT.val
      ∨ get_constant_type platform statement.last_expression
          = CONSTANT_TYPE.INVALID_CONSTANT := by
    rcases hfoldable with h | h | h | h
    · exact Or.inl h
    · exact Or.inr (Or.inl (by rw [h]; decide))
    · exact Or.inr (Or.inl (by rw [h]))
    · exact Or.inr (Or.inr h)
  have hdecrement := decrement_usages_usages function.slotScopeCollector handle scope hhandle
    hlow hhigh
  refine ⟨{ function with
      slotScopeCollector := function.slotScopeCollector.decrement_usages (some handle) },
    _, ?_, rfl, ?_, ?_, hdecrement.1, hdecrement.2⟩
  · unfold eliminate_slots_table_index
    simp only [hs, hp, htarget, Option.getD_some, Statement.target_slot, hprevious]
    rw [if_pos ⟨hi, hlabel, hkind, hone, hslotkind, hslot⟩]
    simp only [if_pos (And.intro hconstructor (And.intro hnomultres hfold)), htrim, if_true,
      hscope]
    rw [set_set_pred_eraseIdx _ _ _ _ hi hilen]
    rfl
  · simp only [List.length_append, List.length_cons, List.length_take, List.length_drop]
    omega
  · intro list constantFields fields multresField multresIndex hexpression
    rw [hexpression]
    cases target.isMultres <;>
      simp [Expression.add_field, Expression.set_multres_field]

/-- Witness for claim C22: the setter `slot0[slot1] = 5` behind the constructor `slot0 = {}`
is erased, the constructor gets the field `[slot1] = 5`, and the usages of scope 0 go from 2
to 1. -/
theorem C22_witness :
    ∃ function' block',
      eliminate_slots_table_index Platform.sample table_function
          [table_constructor, table_setter] 1
        = Except.ok (function', block', 0)
      ∧ block' = [{ table_constructor with
          assignment := { table_constructor.assignment with
            expressions :=
              [Expression.table [] [] [(slot_read 1 1, number_constant 5)] Expression.null 0] } }]
      ∧ table_function.slotScopeCollector.usages (some 0) = 2
      ∧ function'.slotScopeCollector.usages (some 0) = 1 := by
  obtain ⟨function', block', h, hblock, _, _, husages, _⟩ :=
    C22_table_constructor_fold Platform.sample table_function
      [table_constructor, table_setter] 1 table_setter table_constructor
      { type := AST_VARIABLE_TABLE_INDEX, table := slot_read 0 0, tableIndex := slot_read 1 1 }
      { type := AST_VARIABLE_SLOT, slot := 0, slotScope := some 0 } 0 { usages := 2 }
      rfl rfl (by decide) rfl rfl rfl rfl rfl rfl rfl rfl (by simp [table_setter, new_statement])
      (Or.inr (Or.inl rfl)) rfl rfl (by decide) (by decide)
  refine ⟨function', block', h, ?_, rfl, ?_⟩
  · rw [hblock]
    rfl
  · have h2 : table_function.slotScopeCollector.usages (some 0) = 2 := rfl
    omega

/-! ### The method-call fusion of `eliminate_slots` -/

theorem char_eq_iff_toNat (c d : Char) : c = d ↔ c.toNat = d.toNat := by
  constructor
  · intro h
    rw [h]
  · intro h
    rw [← Char.ofNat_toNat c, ← Char.ofNat_toNat d, h]

theorem is_name_char_eq (c : Char) :
    is_name_char c = is_identifier_char c
      ∧ (decide ('A'.toNat ≤ c.toNat) && is_name_char c) = is_identifier_start c := by
  have h58 : (c == ':') = decide (c.toNat = 58) := by
    rw [Bool.eq_iff_iff]; simp [char_eq_iff_toNat]
  have h59 : (c == ';') = decide (c.toNat = 59) := by
    rw [Bool.eq_iff_iff]; simp [char_eq_iff_toNat]
  have h60 : (c == '<') = decide (c.toNat = 60) := by
    rw [Bool.eq_iff_iff]; simp [char_eq_iff_toNat]
  have h61 : (c == '=') = decide (c.toNat = 61) := by
    rw [Bool.eq_iff_iff]; simp [char_eq_iff_toNat]
  have h62 : (c == '>') = decide (c.toNat = 62) := by
    rw [Bool.eq_iff_iff]; simp [char_eq_iff_toNat]
  have h63 : (c == '?') = decide (c.toNat = 63) := by
    rw [Bool.eq_iff_iff]; simp [char_eq_iff_toNat]
  have h64 : (c == '@') = decide (c.toNat = 64) := by
    rw [Bool.eq_iff_iff]; simp [char_eq_iff_toNat]
  have h91 : (c == '[') = decide (c.toNat = 91) := by
    rw [Bool.eq_iff_iff]; simp [char_eq_iff_toNat]
  have h92 : (c == '\\') = decide (c.toNat = 92) := by
    rw [Bool.eq_iff_iff]; simp [char_eq_iff_toNat]
  have h93 : (c == ']') = decide (c.toNat = 93) := by
    rw [Bool.eq_iff_iff]; simp [char_eq_iff_toNat]
  have h94 : (c == '^') = decide (c.toNat = 94) := by
    rw [Bool.eq_iff_iff]; simp [char_eq_iff_toNat]
  have h96 : (c == Char.ofNat 96) = decide (c.toNat = 96) := by
    rw [Bool.eq_iff_iff]; simp [char_eq_iff_toNat]
  unfold is_name_char is_identifier_char is_identifier_start
  simp only [h58, h59, h60, h61, h62, h63, h64, h91, h92, h93, h94, h96]
  have e0 : '0'.toNat = 48 := rfl
  have e9 : '9'.toNat = 57 := rfl
  have eA : 'A'.toNat = 65 := rfl
  have eZ : 'Z'.toNat = 90 := rfl
  have ea : 'a'.toNat = 97 := rfl
  have ez : 'z'.toNat = 122 := rfl
  have eu : '_'.toNat = 95 := rfl
  rw [e0, e9, eA, eZ, ea, ez, eu]
  generalize c.toNat = n
  constructor
  · rw [Bool.eq_iff_iff]
    by_cases h : n < 48 ∨ n > 122
    · rw [if_pos h]
      simp only [Bool.false_eq_true, false_iff, Bool.or_eq_true, decide_eq_true_eq]
      omega
    · rw [if_neg h]
      simp only [Bool.not_eq_true', Bool.or_eq_false_iff, decide_eq_false_iff_not,
        Bool.or_eq_true, decide_eq_true_eq]
      omega
  · rw [Bool.eq_iff_iff]
    by_cases h : n < 48 ∨ n > 122
    · rw [if_pos h]
      simp only [Bool.and_false, Bool.false_eq_true, false_iff, decide_eq_true_eq]
      omega
    · rw [if_neg h]
      simp only [Bool.and_eq_true, Bool.not_eq_true', Bool.or_eq_false_iff,
        decide_eq_false_iff_not, decide_eq_true_eq]
      omega


/-- Claim C31. `check_valid_name` sets the `isName` flag of a constant if and only if its
string matches the identifier pattern `[A-Za-z_][A-Za-z0-9_]*` and is not one of the 21 reserved
words; in every other case, the empty string included, it returns the constant unchanged. -/
theorem C31_check_valid_name (constant : Constant) :
    check_valid_name constant
        = (if matches_identifier_pattern constant.string = true
              ∧ constant.string ∉ KEYWORDS then
            { constant with isName := true }
          else constant)
      ∧ KEYWORDS
        = ["and", "break", "do", "else", "elseif", "end", "false", "for", "function", "if", "in",
            "local", "nil", "not", "or", "repeat", "return", "then", "true", "until", "while"]
      ∧ KEYWORDS.length = 21
      ∧ (constant.string = "" → check_valid_name constant = constant) := by
  have hname : is_name_char = is_identifier_char := funext fun c => (is_name_char_eq c).1
  have hequation : check_valid_name constant
      = (if matches_identifier_pattern constant.string = true
            ∧ constant.string ∉ KEYWORDS then
          { constant with isName := true }
        else constant) := by
    unfold check_valid_name matches_identifier_pattern
    cases constant.string.toList with
    | nil => simp
    | cons front rest =>
      have hstart := (is_name_char_eq front).2
      simp only [List.all_cons, hname] at hstart ⊢
      by_cases hfront : front.toNat < 'A'.toNat
      · have hnot : is_identifier_start front = false := by
          rw [← hstart, decide_eq_false (Nat.not_le_of_lt hfront), Bool.false_and]
        rw [if_pos hfront, if_neg]
        rw [hnot]
        simp
      · rw [if_neg hfront]
        have hstart' : is_identifier_char front = is_identifier_start front := by
          rw [← hstart, decide_eq_true (Nat.le_of_not_lt hfront), Bool.true_and]
        rw [hstart']
        by_cases hall : (is_identifier_start front && rest.all is_identifier_char) = true
        · simp only [hall, Bool.not_true, Bool.false_eq_true, if_false, true_and]
          by_cases hkey : constant.string ∈ KEYWORDS
          · simp [hkey]
          · simp [hkey]
        · simp [hall]
  refine ⟨hequation, rfl, rfl, ?_⟩
  intro hempty
  rw [hequation, if_neg]
  rw [hempty]
  simp [matches_identifier_pattern]


/-- Witness for claim C31: the flag is set for `foo_1`, and it is left unset for the reserved
word `end`, for `1a`, which starts with a digit, and for the empty string. -/
theorem C31_witness :
    (check_valid_name { type := AST_CONSTANT_STRING, string := "foo_1" }).isName = true
      ∧ (check_valid_name { type := AST_CONSTANT_STRING, string := "end" }).isName = false
      ∧ (check_valid_name { type := AST_CONSTANT_STRING, string := "1a" }).isName = false
      ∧ check_valid_name { type := AST_CONSTANT_STRING, string := "" }
        = { type := AST_CONSTANT_STRING, string := "" } := by
  refine ⟨?_, ?_, ?_,
    (C31_check_valid_name { type := AST_CONSTANT_STRING, string := "" }).2.2.2 rfl⟩
  · rw [(C31_check_valid_name { type := AST_CONSTANT_STRING, string := "foo_1" }).1]
    decide
  · rw [(C31_check_valid_name { type := AST_CONSTANT_STRING, string := "end" }).1]
    decide
  · rw [(C31_check_valid_name { type := AST_CONSTANT_STRING, string := "1a" }).1]
    decide

/-! ### Infinities in `check_special_number` -/

/-- Claim C32. For a constant whose number is an infinity (exponent bits all ones, fraction
zero), `check_special_number` outside cdata returns the binary division whose left operand is
the number constant `1`, or `-1` when the sign bit is set, and whose right operand is the number
constant `0`; in a cdata context it returns the constant unchanged. A constant whose number is
finite and not negative zero is returned unchanged in both contexts. The patterns of `1`, `-1`
and `0` are `0x3FF0000000000000`, `0xBFF0000000000000` and `0`. -/
theorem C32_check_special_number_infinity (c : Constant) :
    (Double.isInfinite c.number = true →
      check_special_number (Expression.constant c) false
          = Except.ok (Expression.binaryOperation AST_BINARY_DIVISION
              (Expression.constant {
                type := AST_CONSTANT_NUMBER,
                number := if Double.sign c.number = 1 then 0xBFF0000000000000
                          else 0x3FF0000000000000 })
              (Expression.constant { type := AST_CONSTANT_NUMBER, number := 0 }))
        ∧ check_special_number (Expression.constant c) true
          = Except.ok (Expression.constant c))
      ∧ (Double.exponent c.number ≠ 2047 → c.number ≠ DOUBLE_NEGATIVE_ZERO →
          ∀ isCdata, check_special_number (Expression.constant c) isCdata
            = Except.ok (Expression.constant c))
      ∧ Double.ofInt 1 = 0x3FF0000000000000
      ∧ Double.ofInt (-1) = 0xBFF0000000000000
      ∧ Double.ofInt 0 = 0
      ∧ Double.isInfinite 0x7FF0000000000000 = true
      ∧ Double.sign 0x7FF0000000000000 = 0
      ∧ Double.isInfinite 0xFFF0000000000000 = true
      ∧ Double.sign 0xFFF0000000000000 = 1 := by
  refine ⟨?_, ?_, ofInt_one, ofInt_neg_one, ofInt_zero, by decide, by decide, by decide,
    by decide⟩
  · intro hinfinite
    have hfields : Double.exponent c.number = 2047 ∧ Double.fraction c.number = 0 := by
      simpa [Double.isInfinite] using hinfinite
    have hsign : Double.sign c.number = 0 ∨ Double.sign c.number = 1 := by
      unfold Double.sign
      omega
    constructor
    · rw [check_special_number_constant]
      rcases hsign with hs | hs <;>
        simp [hfields.1, hfields.2, hs, ofInt_one, ofInt_neg_one, ofInt_zero]
    · rw [check_special_number_constant]
      simp [hfields.1, hfields.2]
  · intro hfinite hzero isCdata
    rw [check_special_number_constant]
    simp [hfinite, hzero]

/-- Witness for claim C32: negative infinity outside cdata becomes `-1 / 0`, and `2.0` is kept
in both contexts. -/
theorem C32_witness :
    check_special_number
        (Expression.constant { type := AST_CONSTANT_NUMBER, number := 0xFFF0000000000000 }) false
      = Except.ok (Expression.binaryOperation AST_BINARY_DIVISION
          (Expression.constant { type := AST_CONSTANT_NUMBER, number := 0xBFF0000000000000 })
          (Expression.constant { type := AST_CONSTANT_NUMBER, number := 0 }))
    ∧ ∀ isCdata, check_special_number
        (Expression.constant { type := AST_CONSTANT_NUMBER, number := 0x4000000000000000 })
        isCdata
      = Except.ok
          (Expression.constant { type := AST_CONSTANT_NUMBER, number := 0x4000000000000000 }) :=
  ⟨((C32_check_special_number_infinity
      { type := AST_CONSTANT_NUMBER, number := 0xFFF0000000000000 }).1 (by decide)).1,
    (C32_check_special_number_infinity
      { type := AST_CONSTANT_NUMBER, number := 0x4000000000000000 }).2.1 (by decide) (by decide)⟩

/-! ### The constant type of constants and of unary operations -/

/-- Claim C33. On a constant expression `get_constant_type` returns `NIL_CONSTANT` for nil,
`BOOL_CONSTANT` for false, true and every string constant, `NUMBER_CONSTANT` for every number
constant and `INVALID_CONSTANT` for every cdata constant; it returns `INVALID_CONSTANT` for
every variable, function call, table, vararg and function expression; and the enumerators are
ordered `INVALID_CONSTANT < NIL_CONSTANT < BOOL_CONSTANT < NUMBER_CONSTANT`. -/
theorem C33_get_constant_type_of_constants (platform : Platform) :
    (∀ c : Constant,
      get_constant_type platform (Expression.constant c)
        = match c.type with
          | AST_CONSTANT_NIL => CONSTANT_TYPE.NIL_CONSTANT
          | AST_CONSTANT_FALSE => CONSTANT_TYPE.BOOL_CONSTANT
          | AST_CONSTANT_TRUE => CONSTANT_TYPE.BOOL_CONSTANT
          | AST_CONSTANT_STRING => CONSTANT_TYPE.BOOL_CONSTANT
          | AST_CONSTANT_NUMBER => CONSTANT_TYPE.NUMBER_CONSTANT
          | AST_CONSTANT_CDATA_SIGNED => CONSTANT_TYPE.INVALID_CONSTANT
          | AST_CONSTANT_CDATA_UNSIGNED => CONSTANT_TYPE.INVALID_CONSTANT
          | AST_CONSTANT_CDATA_IMAGINARY => CONSTANT_TYPE.INVALID_CONSTANT)
      ∧ (∀ type slot slotScope name table tableIndex isMultres multresIndex,
          get_constant_type platform
              (Expression.variable type slot slotScope name table tableIndex isMultres
                multresIndex)
            = CONSTANT_TYPE.INVALID_CONSTANT)
      ∧ (∀ function arguments multresArgument isMethod returnCount,
          get_constant_type platform
              (Expression.functionCall function arguments multresArgument isMethod returnCount)
            = CONSTANT_TYPE.INVALID_CONSTANT)
      ∧ (∀ list constantFields fields multresField multresIndex,
          get_constant_type platform
              (Expression.table list constantFields fields multresField multresIndex)
            = CONSTANT_TYPE.INVALID_CONSTANT)
      ∧ (∀ returnCount,
          get_constant_type platform (Expression.vararg returnCount)
            = CONSTANT_TYPE.INVALID_CONSTANT)
      ∧ (∀ child,
          get_constant_type platform (Expression.function child)
            = CONSTANT_TYPE.INVALID_CONSTANT)
      ∧ CONSTANT_TYPE.INVALID_CONSTANT.val < CONSTANT_TYPE.NIL_CONSTANT.val
      ∧ CONSTANT_TYPE.NIL_CONSTANT.val < CONSTANT_TYPE.BOOL_CONSTANT.val
      ∧ CONSTANT_TYPE.BOOL_CONSTANT.val < CONSTANT_TYPE.NUMBER_CONSTANT.val := by
  refine ⟨?_, ?_, ?_, ?_, ?_, ?_, by decide, by decide, by decide⟩
  · intro c
    rw [get_constant_type]
    cases c.type <;> rfl
  · intros
    rw [get_constant_type] <;> (intros; exact Expression.noConfusion ‹_›)
  · intros
    rw [get_constant_type] <;> (intros; exact Expression.noConfusion ‹_›)
  · intros
    rw [get_constant_type] <;> (intros; exact Expression.noConfusion ‹_›)
  · intros
    rw [get_constant_type] <;> (intros; exact Expression.noConfusion ‹_›)
  · intros
    rw [get_constant_type] <;> (intros; exact Expression.noConfusion ‹_›)

theorem is_valid_number_constant_iff (number : Nat) :
    is_valid_number_constant number = true
      ↔ Double.isNaN number = false ∧ number ≠ DOUBLE_NEGATIVE_ZERO := by
  unfold is_valid_number_constant
  simp only [exponent_special_iff, and_DOUBLE_FRACTION]
  by_cases he : Double.exponent number = 2047
  · have hz : number ≠ DOUBLE_NEGATIVE_ZERO := by
      intro h
      rw [h, exponent_DOUBLE_NEGATIVE_ZERO] at he
      cases he
    by_cases hf : Double.fraction number = 0
    · simp [he, hf, hz, Double.isNaN]
    · simp [he, hf, Double.isNaN]
  · simp [he, Double.isNaN]

theorem neg_fields (x : Nat) (hx : x < 2 ^ 64) :
    Double.sign (Double.neg x) = 1 - Double.sign x
      ∧ Double.exponent (Double.neg x) = Double.exponent x
      ∧ Double.fraction (Double.neg x) = Double.fraction x
      ∧ Double.neg x < 2 ^ 64
      ∧ (Double.neg x = DOUBLE_NEGATIVE_ZERO ↔ x = 0) := by
  unfold Double.neg Double.sign Double.exponent Double.fraction DOUBLE_NEGATIVE_ZERO DOUBLE_SIGN
  norm_num at hx ⊢
  by_cases hs : x / 9223372036854775808 % 2 = 1
  · rw [if_pos hs]
    refine ⟨?_, ?_, ?_, ?_, ?_⟩ <;> omega
  · rw [if_neg hs]
    refine ⟨?_, ?_, ?_, ?_, ?_⟩ <;> omega


/-- Claim C34. For a unary minus whose operand is a number constant with the 64-bit pattern
`x`, `get_constant_type` returns `NUMBER_CONSTANT` if and only if the pattern of `-x`, which is
`x` with the sign bit flipped and the exponent and the fraction kept, is neither a NaN nor
negative zero; that is, if and only if `x` is neither a NaN nor `+0.0`. For a cdata constant
operand it returns `NUMBER_CONSTANT`. For a `not` it returns `BOOL_CONSTANT` if and only if the
constant type of the operand is not `INVALID_CONSTANT`. -/
theorem C34_get_constant_type_of_unary (platform : Platform) :
    (∀ c : Constant, c.type = AST_CONSTANT_NUMBER → c.number < 2 ^ 64 →
      (get_constant_type platform
            (Expression.unaryOperation AST_UNARY_MINUS (Expression.constant c))
          = CONSTANT_TYPE.NUMBER_CONSTANT
        ↔ Double.isNaN (Double.neg c.number) = false
          ∧ Double.neg c.number ≠ DOUBLE_NEGATIVE_ZERO)
      ∧ (get_constant_type platform
            (Expression.unaryOperation AST_UNARY_MINUS (Expression.constant c))
          ≠ CONSTANT_TYPE.NUMBER_CONSTANT
        → get_constant_type platform
            (Expression.unaryOperation AST_UNARY_MINUS (Expression.constant c))
          = CONSTANT_TYPE.INVALID_CONSTANT)
      ∧ Double.sign (Double.neg c.number) = 1 - Double.sign c.number
      ∧ Double.exponent (Double.neg c.number) = Double.exponent c.number
      ∧ Double.fraction (Double.neg c.number) = Double.fraction c.number
      ∧ (get_constant_type platform
            (Expression.unaryOperation AST_UNARY_MINUS (Expression.constant c))
          = CONSTANT_TYPE.NUMBER_CONSTANT
        ↔ Double.isNaN c.number = false ∧ c.number ≠ 0))
      ∧ (∀ c : Constant,
          c.type = AST_CONSTANT_CDATA_SIGNED ∨ c.type = AST_CONSTANT_CDATA_UNSIGNED
            ∨ c.type = AST_CONSTANT_CDATA_IMAGINARY →
          get_constant_type platform
              (Expression.unaryOperation AST_UNARY_MINUS (Expression.constant c))
            = CONSTANT_TYPE.NUMBER_CONSTANT)
      ∧ (∀ operand : Expression,
          (get_constant_type platform (Expression.unaryOperation AST_UNARY_NOT operand)
              = CONSTANT_TYPE.BOOL_CONSTANT
            ↔ get_constant_type platform operand ≠ CONSTANT_TYPE.INVALID_CONSTANT)
          ∧ (get_constant_type platform operand = CONSTANT_TYPE.INVALID_CONSTANT →
              get_constant_type platform (Expression.unaryOperation AST_UNARY_NOT operand)
                = CONSTANT_TYPE.INVALID_CONSTANT)) := by
  refine ⟨?_, ?_, ?_⟩
  · intro c hc hx
    obtain ⟨hsign, hexponent, hfraction, _, hzero⟩ := neg_fields c.number hx
    have hminus : get_constant_type platform
        (Expression.unaryOperation AST_UNARY_MINUS (Expression.constant c))
        = if is_valid_number_constant (Double.neg c.number) = true then
            CONSTANT_TYPE.NUMBER_CONSTANT
          else CONSTANT_TYPE.INVALID_CONSTANT := by
      rw [get_constant_type]
      simp only [hc]
    have hnan : Double.isNaN (Double.neg c.number) = Double.isNaN c.number := by
      unfold Double.isNaN
      rw [hexponent, hfraction]
    have hiff : get_constant_type platform
        (Expression.unaryOperation AST_UNARY_MINUS (Expression.constant c))
        = CONSTANT_TYPE.NUMBER_CONSTANT
        ↔ Double.isNaN (Double.neg c.number) = false
          ∧ Double.neg c.number ≠ DOUBLE_NEGATIVE_ZERO := by
      rw [hminus, ← is_valid_number_constant_iff]
      by_cases hv : is_valid_number_constant (Double.neg c.number) = true
      · simp [hv]
      · simp [hv]
    refine ⟨hiff, ?_, hsign, hexponent, hfraction, ?_⟩
    · intro hne
      rw [hminus] at hne ⊢
      by_cases hv : is_valid_number_constant (Double.neg c.number) = true
      · rw [if_pos hv] at hne
        exact absurd rfl hne
      · rw [if_neg hv]
    · rw [hiff, hnan, Ne, hzero]
  · intro c hc
    rw [get_constant_type]
    rcases hc with h | h | h <;> simp only [h]
  · intro operand
    have hnot : get_constant_type platform (Expression.unaryOperation AST_UNARY_NOT operand)
        = if get_constant_type platform operand ≠ CONSTANT_TYPE.INVALID_CONSTANT then
            CONSTANT_TYPE.BOOL_CONSTANT
          else CONSTANT_TYPE.INVALID_CONSTANT := by
      rw [get_constant_type]
    rw [hnot]
    by_cases h : get_constant_type platform operand = CONSTANT_TYPE.INVALID_CONSTANT
    · simp [h]
    · simp [h]

/-- Witness for claim C34: the negation of `+0.0` and of the quiet NaN are no constants, the
negation of `1.0` is a number constant. -/
theorem C34_witness :
    get_constant_type Platform.sample
        (Expression.unaryOperation AST_UNARY_MINUS
          (Expression.constant { type := AST_CONSTANT_NUMBER, number := 0 }))
      = CONSTANT_TYPE.INVALID_CONSTANT
    ∧ get_constant_type Platform.sample
        (Expression.unaryOperation AST_UNARY_MINUS
          (Expression.constant { type := AST_CONSTANT_NUMBER, number := Double.nan }))
      = CONSTANT_TYPE.INVALID_CONSTANT
    ∧ get_constant_type Platform.sample
        (Expression.unaryOperation AST_UNARY_MINUS
          (Expression.constant { type := AST_CONSTANT_NUMBER, number := 0x3FF0000000000000 }))
      = CONSTANT_TYPE.NUMBER_CONSTANT := by
  have hzero := (C34_get_constant_type_of_unary Platform.sample).1
    { type := AST_CONSTANT_NUMBER, number := 0 } rfl (by decide)
  have hnan := (C34_get_constant_type_of_unary Platform.sample).1
    { type := AST_CONSTANT_NUMBER, number := Double.nan } rfl (by decide)
  have hone := (C34_get_constant_type_of_unary Platform.sample).1
    { type := AST_CONSTANT_NUMBER, number := 0x3FF0000000000000 } rfl (by decide)
  refine ⟨hzero.2.1 ?_, hnan.2.1 ?_, hone.2.2.2.2.2.2 ⟨by decide, by decide⟩⟩
  · intro h
    exact (hzero.2.2.2.2.2.1 h).2 rfl
  · intro h
    exact absurd (hnan.2.2.2.2.2.1 h).1 (by decide)

/-! ### Integers of 16 bits as doubles -/

theorem dropBits_step (u den target t step : Nat)
    (hfits : u < den * 2 ^ (53 + target))
    (hleast : target ≠ 0 → ¬ u < den * 2 ^ (53 + (target - 1)))
    (hstep : 0 < step) (hlow : t ≤ target) (hhigh : target < t + 2 * step) :
    (if u < den * 2 ^ (53 + (t + step - 1)) then t else t + step) ≤ target
      ∧ target < (if u < den * 2 ^ (53 + (t + step - 1)) then t else t + step) + step := by
  by_cases hle : target ≤ t + step - 1
  · have hmono : den * 2 ^ (53 + target) ≤ den * 2 ^ (53 + (t + step - 1)) :=
      Nat.mul_le_mul_left _ (Nat.pow_le_pow_right (by decide) (by omega))
    rw [if_pos (lt_of_lt_of_le hfits hmono)]
    omega
  · have hmono : den * 2 ^ (53 + (t + step - 1)) ≤ den * 2 ^ (53 + (target - 1)) :=
      Nat.mul_le_mul_left _ (Nat.pow_le_pow_right (by decide) (by omega))
    have hnot : ¬ u < den * 2 ^ (53 + (t + step - 1)) := by
      intro h
      exact hleast (by omega) (lt_of_lt_of_le h hmono)
    rw [if_neg hnot]
    omega

/-- The binary descent of `dropBits` finds the least `t` with `u < den * 2 ^ (53 + t)`. -/
theorem dropBits_eq (u den target : Nat) (htarget : target < 4096)
    (hfits : u < den * 2 ^ (53 + target))
    (hleast : target ≠ 0 → ¬ u < den * 2 ^ (53 + (target - 1))) :
    Double.dropBits u den = target := by
  unfold Double.dropBits
  simp only [List.foldl]
  have h₁ := dropBits_step u den target 0 2048 hfits hleast (by decide) (Nat.zero_le _)
    (by omega)
  have h₂ := dropBits_step u den target _ 1024 hfits hleast (by decide) h₁.1 (by omega)
  have h₃ := dropBits_step u den target _ 512 hfits hleast (by decide) h₂.1 (by omega)
  have h₄ := dropBits_step u den target _ 256 hfits hleast (by decide) h₃.1 (by omega)
  have h₅ := dropBits_step u den target _ 128 hfits hleast (by decide) h₄.1 (by omega)
  have h₆ := dropBits_step u den target _ 64 hfits hleast (by decide) h₅.1 (by omega)
  have h₇ := dropBits_step u den target _ 32 hfits hleast (by decide) h₆.1 (by omega)
  have h₈ := dropBits_step u den target _ 16 hfits hleast (by decide) h₇.1 (by omega)
  have h₉ := dropBits_step u den target _ 8 hfits hleast (by decide) h₈.1 (by omega)
  have h₁₀ := dropBits_step u den target _ 4 hfits hleast (by decide) h₉.1 (by omega)
  have h₁₁ := dropBits_step u den target _ 2 hfits hleast (by decide) h₁₀.1 (by omega)
  have h₁₂ := dropBits_step u den target _ 1 hfits hleast (by decide) h₁₁.1 (by omega)
  omega


/-- Rounding of `b * 2 ^ e` units with `2 ^ 52 ≤ b < 2 ^ 53` is exact: the result has the sign
bit `s`, the biased exponent `e + 1` and the same magnitude. -/
theorem round_scaled (s b e : Nat) (hs : s ≤ 1) (he : e ≤ 2045) (hb_lo : 2 ^ 52 ≤ b)
    (hb_hi : b < 2 ^ 53) :
    Double.round s (b * 2 ^ e) 1 < 2 ^ 64
      ∧ Double.sign (Double.round s (b * 2 ^ e) 1) = s
      ∧ Double.exponent (Double.round s (b * 2 ^ e) 1) = e + 1
      ∧ Double.units (Double.round s (b * 2 ^ e) 1) = b * 2 ^ e := by
  have hpos : 0 < (2 : Nat) ^ e := Nat.two_pow_pos _
  have hdrop : Double.dropBits (b * 2 ^ e) 1 = e := by
    apply dropBits_eq
    · omega
    · rw [pow_add, one_mul]
      exact Nat.mul_lt_mul_of_pos_right hb_hi hpos
    · intro hne
      obtain ⟨e', rfl⟩ : ∃ e', e = e' + 1 := ⟨e - 1, by omega⟩
      rw [show 53 + (e' + 1 - 1) = 52 + (e' + 1) by omega, pow_add 2 52, one_mul, not_lt]
      exact Nat.mul_le_mul_right _ hb_lo
  have hquotient : b * 2 ^ e / (1 * 2 ^ e) = b := by
    rw [one_mul, Nat.mul_div_cancel _ hpos]
  have hremainder : b * 2 ^ e % (1 * 2 ^ e) = 0 := by
    rw [one_mul, Nat.mul_mod_left]
  have hinner : ∀ Q, 0 < Q →
      (if 2 * 0 > Q ∨ 2 * 0 = Q ∧ b % 2 = 1 then b + 1 else b) = b := by
    intro Q hQ
    rw [if_neg]
    omega
  have hround : Double.round s (b * 2 ^ e) 1 = s * 2 ^ 63 + (e * 2 ^ 52 + b) := by
    unfold Double.round
    simp only [hdrop, hquotient, hremainder]
    rw [hinner _ (by rw [one_mul]; exact hpos)]
    rw [if_neg (by
      norm_num at hb_hi ⊢
      omega)]
  rw [hround]
  have hexponent : Double.exponent (s * 2 ^ 63 + (e * 2 ^ 52 + b)) = e + 1 := by
    unfold Double.exponent
    norm_num at hb_lo hb_hi ⊢
    omega
  have hfraction : Double.fraction (s * 2 ^ 63 + (e * 2 ^ 52 + b)) = b - 2 ^ 52 := by
    unfold Double.fraction
    norm_num at hb_lo hb_hi ⊢
    omega
  refine ⟨?_, ?_, hexponent, ?_⟩
  · norm_num at hb_lo hb_hi ⊢
    omega
  · unfold Double.sign
    norm_num at hb_lo hb_hi ⊢
    omega
  · unfold Double.units
    rw [hexponent, hfraction, if_neg (by omega), Nat.add_sub_cancel' hb_lo,
      Nat.add_sub_cancel]


/-- Conversion of a non-zero integer of magnitude below `2 ^ 53` is exact: the result is a
normal double with the sign of the integer and its magnitude. -/
theorem ofInt_exact (n : Int) (hne : n ≠ 0) (hfits : n.natAbs < 2 ^ 53) :
    Double.ofInt n < 2 ^ 64
      ∧ Double.sign (Double.ofInt n) = (if n < 0 then 1 else 0)
      ∧ Double.exponent (Double.ofInt n) ≠ 2047
      ∧ Double.exponent (Double.ofInt n) ≠ 0
      ∧ Double.units (Double.ofInt n) = n.natAbs * 2 ^ 1074 := by
  have hm : n.natAbs ≠ 0 := Int.natAbs_ne_zero.2 hne
  have hlow : 2 ^ n.natAbs.log2 ≤ n.natAbs := Nat.log2_self_le hm
  have hhigh : n.natAbs < 2 ^ (n.natAbs.log2 + 1) := Nat.lt_log2_self
  have hk : n.natAbs.log2 ≤ 52 := by
    have h := lt_of_le_of_lt hlow hfits
    have h' := (Nat.pow_lt_pow_iff_right (by decide : 1 < 2)).1 h
    omega
  generalize n.natAbs.log2 = k at hlow hhigh hk
  have hpower : (2 : Nat) ^ 1074 = 2 ^ (52 - k) * 2 ^ (1022 + k) := by
    rw [← pow_add]
    exact congrArg (fun t => 2 ^ t) (by omega : 1074 = 52 - k + (1022 + k))
  have hsplit : n.natAbs * 2 ^ 1074 = n.natAbs * 2 ^ (52 - k) * 2 ^ (1022 + k) := by
    rw [hpower, Nat.mul_assoc]
  have hlo : 2 ^ 52 ≤ n.natAbs * 2 ^ (52 - k) := by
    have h : (2 : Nat) ^ 52 = 2 ^ k * 2 ^ (52 - k) := by
      rw [← pow_add]
      exact congrArg (fun t => 2 ^ t) (by omega : 52 = k + (52 - k))
    rw [h]
    exact Nat.mul_le_mul_right _ hlow
  have hhi : n.natAbs * 2 ^ (52 - k) < 2 ^ 53 := by
    have h : (2 : Nat) ^ 53 = 2 ^ (k + 1) * 2 ^ (52 - k) := by
      rw [← pow_add]
      exact congrArg (fun t => 2 ^ t) (by omega : 53 = k + 1 + (52 - k))
    rw [h]
    exact Nat.mul_lt_mul_of_pos_right hhigh (Nat.two_pow_pos _)
  have hs : (if n < 0 then 1 else 0) ≤ 1 := by split <;> omega
  have h := round_scaled (if n < 0 then 1 else 0) (n.natAbs * 2 ^ (52 - k)) (1022 + k) hs
    (by omega) hlo hhi
  unfold Double.ofInt
  rw [hsplit]
  refine ⟨h.1, h.2.1, ?_, ?_, h.2.2.2⟩
  · rw [h.2.2.1]
    omega
  · rw [h.2.2.1]
    omega

/-- The signed magnitude of the double made from an integer of magnitude below `2 ^ 53` is
that integer, in units of `2 ^ -1074`. -/
theorem signed_units_ofInt (n : Int) (hfits : n.natAbs < 2 ^ 53) :
    Double.ofInt n < 2 ^ 64
      ∧ Double.sign (Double.ofInt n) = (if n < 0 then 1 else 0)
      ∧ Double.exponent (Double.ofInt n) ≠ 2047
      ∧ Double.signed_units (Double.ofInt n) = n * ((2 ^ 1074 : Nat) : Int) := by
  by_cases hne : n = 0
  · subst hne
    rw [ofInt_zero]
    refine ⟨by decide, by decide, by decide, ?_⟩
    rw [Int.zero_mul]
    decide
  · have h := ofInt_exact n hne hfits
    refine ⟨h.1, h.2.1, h.2.2.1, ?_⟩
    unfold Double.signed_units
    rw [h.2.1, h.2.2.2.2, Nat.cast_mul]
    by_cases hneg : n < 0
    · rw [if_pos hneg, if_pos rfl, ← Int.neg_mul]
      congr 1
      omega
    · rw [if_neg hneg, if_neg (by decide)]
      congr 1
      omega

/-- C35: for every 16-bit operand `d`, `new_signed_literal d` is a number constant holding the
finite double whose value is the two's-complement interpretation of `d` (its sign bit is set
exactly for the negative values and its magnitude, in units of `2 ^ -1074`, is that of the
integer); this is the expression `build_expressions` gives a `KSHORT`; and the values reached
are exactly the integers `-32768 .. 32767`. -/
theorem C35_new_signed_literal (d : Nat) (hd : d < 65536) :
    (∃ c : Constant, new_signed_literal d = Expression.constant c
      ∧ c.type = AST_CONSTANT_NUMBER
      ∧ c.number = Double.ofInt (twos_complement_16 d)
      ∧ c.number < 2 ^ 64
      ∧ Double.exponent c.number ≠ 2047
      ∧ Double.sign c.number = (if twos_complement_16 d < 0 then 1 else 0)
      ∧ Double.signed_units c.number = twos_complement_16 d * ((2 ^ 1074 : Nat) : Int))
    ∧ twos_complement_16 d = (if d < 32768 then (d : Int) else (d : Int) - 65536)
    ∧ (∀ (ast : Ast) (function : Function) (statement : Statement),
        statement.instruction.type = BC_OP.KSHORT → statement.instruction.d = d →
        ∃ built, build_instruction_expression ast function statement
            = Except.ok (function, built, Exit.break_)
          ∧ built.assignment.expressions = [new_signed_literal d])
    ∧ (∀ z : Int, (∃ operand, operand < 65536 ∧ twos_complement_16 operand = z)
        ↔ (-32768 ≤ z ∧ z ≤ 32767)) := by
  have hvalue : new_signed_literal d = Expression.constant
      { type := AST_CONSTANT_NUMBER, number := Double.ofInt (twos_complement_16 d) } := by
    unfold new_signed_literal twos_complement_16
    simp only [Nat.mod_eq_of_lt hd]
  have hfits : (twos_complement_16 d).natAbs < 2 ^ 53 := by
    unfold twos_complement_16
    split <;> omega
  have h := signed_units_ofInt (twos_complement_16 d) hfits
  refine ⟨⟨_, hvalue, rfl, ?_, ?_, ?_, ?_, ?_⟩, ?_, ?_, ?_⟩
  · dsimp only
  · dsimp only
    exact h.1
  · dsimp only
    exact h.2.2.1
  · dsimp only
    exact h.2.1
  · dsimp only
    exact h.2.2.2
  · unfold twos_complement_16
    split <;> rfl
  · intro ast function statement htype hd'
    unfold build_instruction_expression
    simp only [htype, hd']
    exact ⟨_, rfl, rfl⟩
  · intro z
    unfold twos_complement_16
    constructor
    · rintro ⟨operand, hoperand, hz⟩
      split at hz <;> omega
    · rintro ⟨hlow, hhigh⟩
      by_cases hz : 0 ≤ z
      · refine ⟨z.toNat, by omega, ?_⟩
        rw [if_pos (by omega)]
        omega
      · refine ⟨(z + 65536).toNat, by omega, ?_⟩
        rw [if_neg (by omega)]
        omega

/-- Witness for claim C35: the operand `65535` gives the number `-1.0`. -/
theorem C35_witness :
    (65535 : Nat) < 65536
      ∧ ∃ c : Constant, new_signed_literal 65535 = Expression.constant c
        ∧ c.type = AST_CONSTANT_NUMBER
        ∧ c.number = Double.ofInt (twos_complement_16 65535)
        ∧ c.number < 2 ^ 64
        ∧ Double.exponent c.number ≠ 2047
        ∧ Double.sign c.number = (if twos_complement_16 65535 < 0 then 1 else 0)
        ∧ Double.signed_units c.number
            = twos_complement_16 65535 * ((2 ^ 1074 : Nat) : Int) :=
  ⟨by decide, (C35_new_signed_literal 65535 (by decide)).1⟩


/-! ### The concatenation chain -/

theorem concatenation_leaf_handles_succ (depth nodes : Nat) :
    concatenation_leaf_handles depth (nodes + 1)
      = expression_handle 0 (List.replicate depth Step.rightOperand ++ [Step.leftOperand])
        :: concatenation_leaf_handles (depth + 1) nodes := by
  unfold concatenation_leaf_handles
  rw [List.range_succ_eq_map, List.map_cons, List.map_map, List.cons_append]
  congr 2
  · apply List.map_congr_left
    intro k _
    simp only [Function.comp, Nat.succ_eq_add_one]
    rw [show depth + (k + 1) = depth + 1 + k by omega]
  · rw [show depth + (nodes + 1) = depth + 1 + nodes by omega]

/-- The loop of the `CAT` case ends after `n + 1` nodes when it starts `n + 1` slots below
`c`. -/
theorem cat_chain_eq (c : Nat) (hc : c < 256) :
    ∀ (n fuel slot depth : Nat), slot + n + 1 = c → n < fuel →
      cat_chain c fuel slot depth
        = some (right_nested_concatenation (new_slot slot)
            ((List.range (n + 1)).map (fun k => new_slot (slot + 1 + k))),
          concatenation_leaf_handles depth (n + 1)) := by
  intro n
  induction n with
  | zero =>
    intro fuel slot depth hslot hfuel
    obtain ⟨fuel, rfl⟩ : ∃ f, fuel = f + 1 := ⟨fuel - 1, by omega⟩
    have hmod : slot % 256 = slot := Nat.mod_eq_of_lt (by omega)
    rw [cat_chain]
    simp only [hmod]
    rw [if_pos (by omega)]
    have hcs : c = slot + 1 := by omega
    subst hcs
    simp [right_nested_concatenation, concatenation_leaf_handles, List.range_succ,
      List.replicate_succ']
  | succ n ih =>
    intro fuel slot depth hslot hfuel
    obtain ⟨fuel, rfl⟩ : ∃ f, fuel = f + 1 := ⟨fuel - 1, by omega⟩
    have hmod : slot % 256 = slot := Nat.mod_eq_of_lt (by omega)
    have hmod' : (slot + 1) % 256 = slot + 1 := Nat.mod_eq_of_lt (by omega)
    rw [cat_chain]
    simp only [hmod, hmod']
    rw [if_neg (by omega), ih fuel (slot + 1) (depth + 1) (by omega) (by omega)]
    simp only []
    rw [concatenation_leaf_handles_succ depth (n + 1), List.range_succ_eq_map (n + 1),
      List.map_cons, List.map_map, right_nested_concatenation]
    congr 4
    apply List.map_congr_left
    intro k _
    simp only [Function.comp, Nat.succ_eq_add_one]
    rw [show slot + 1 + (k + 1) = slot + 1 + 1 + k by omega]

/-- Reading a right-nested tree through the handles of its leaves gives the leaves in order. -/
theorem right_nested_concatenation_get (rest : List Expression) :
    ∀ (first : Expression),
      (∀ k, k < rest.length →
        (right_nested_concatenation first rest).get?
            (List.replicate k Step.rightOperand ++ [Step.leftOperand])
          = (first :: rest)[k]?)
      ∧ (right_nested_concatenation first rest).get?
            (List.replicate rest.length Step.rightOperand)
          = (first :: rest)[rest.length]? := by
  induction rest with
  | nil =>
    intro first
    refine ⟨fun k hk => absurd hk (Nat.not_lt_zero k), ?_⟩
    simp [right_nested_concatenation, Expression.get?]
  | cons next rest ih =>
    intro first
    obtain ⟨hleft, hlast⟩ := ih next
    constructor
    · intro k hk
      cases k with
      | zero =>
        simp [right_nested_concatenation, Expression.get?, Expression.child?]
      | succ k =>
        have h := hleft k (by simpa using hk)
        simp only [right_nested_concatenation, List.replicate_succ, List.cons_append,
          Expression.get?, Expression.child?, List.getElem?_cons_succ]
        exact h
    · simp only [right_nested_concatenation, List.length_cons, List.replicate_succ,
        Expression.get?, Expression.child?, List.getElem?_cons_succ]
      exact hlast

theorem concatenation_leaf_handles_getElem (nodes k : Nat) :
    (k < nodes → (concatenation_leaf_handles 0 nodes)[k]?
      = some (expression_handle 0 (List.replicate k Step.rightOperand ++ [Step.leftOperand])))
    ∧ (concatenation_leaf_handles 0 nodes)[nodes]?
      = some (expression_handle 0 (List.replicate nodes Step.rightOperand)) := by
  unfold concatenation_leaf_handles
  constructor
  · intro hk
    rw [List.getElem?_append_left (by simpa using hk), List.getElem?_map,
      List.getElem?_range hk]
    simp
  · rw [List.getElem?_append_right (by simp)]
    simp

theorem concatenation_leaf_handles_nodup (nodes : Nat) :
    (concatenation_leaf_handles 0 nodes).Nodup := by
  unfold concatenation_leaf_handles
  rw [List.nodup_append]
  refine ⟨?_, List.nodup_singleton _, ?_⟩
  · apply List.Nodup.map _ (List.nodup_range nodes)
    intro j k hjk
    have h := congrArg (fun handle => handle.path.length) hjk
    simpa [expression_handle] using h
  · intro handle hleft hright
    rw [List.mem_singleton] at hright
    subst hright
    rw [List.mem_map] at hleft
    obtain ⟨k, _, hk⟩ := hleft
    have h := congrArg (fun handle => Step.leftOperand ∈ handle.path) hk
    simp [expression_handle, List.mem_replicate] at h

/-- C36: for a `CAT` instruction with operands `B < C` (8-bit), the chain-building loop of
`build_expressions` ends and the statement is built; its expression is the right-nested tree
of `C - B` concatenation nodes whose leaves, read left to right, are the slot variables
`B, B+1, ..., C`; the open slots registered are the handles of these leaves in that order, each
once. -/
theorem C36_concatenation_chain (ast : Ast) (function : Function) (statement : Statement)
    (htype : statement.instruction.type = BC_OP.CAT)
    (hbc : statement.instruction.b < statement.instruction.c)
    (hc : statement.instruction.c < 256) :
    ∃ built, build_instruction_expression ast function statement
        = Except.ok (function, built, Exit.break_)
      ∧ built.assignment.expressions
        = [right_nested_concatenation (new_slot statement.instruction.b)
            ((List.range (statement.instruction.c - statement.instruction.b)).map
              (fun k => new_slot (statement.instruction.b + 1 + k)))]
      ∧ ((List.range (statement.instruction.c - statement.instruction.b)).map
              (fun k => new_slot (statement.instruction.b + 1 + k))).length
          = statement.instruction.c - statement.instruction.b
      ∧ built.assignment.openSlots
        = statement.assignment.openSlots
          ++ concatenation_leaf_handles 0 (statement.instruction.c - statement.instruction.b)
      ∧ (concatenation_leaf_handles 0
          (statement.instruction.c - statement.instruction.b)).length
          = statement.instruction.c - statement.instruction.b + 1
      ∧ (concatenation_leaf_handles 0
          (statement.instruction.c - statement.instruction.b)).Nodup
      ∧ ∀ k, k ≤ statement.instruction.c - statement.instruction.b →
          ∃ handle, (concatenation_leaf_handles 0
              (statement.instruction.c - statement.instruction.b))[k]? = some handle
            ∧ built.assignment.get? handle = some (new_slot (statement.instruction.b + k))
            ∧ (new_slot (statement.instruction.b + k)).slot = statement.instruction.b + k := by
  obtain ⟨n, hn⟩ : ∃ n, statement.instruction.c - statement.instruction.b = n + 1 :=
    ⟨statement.instruction.c - statement.instruction.b - 1, by omega⟩
  have hchain := cat_chain_eq statement.instruction.c hc n 256 statement.instruction.b 0
    (by omega) (by omega)
  rw [hn]
  have hbody : build_instruction_expression ast function statement
      = Except.ok (function, { statement with
          type := AST_STATEMENT_ASSIGNMENT,
          assignment :=
            ({ ({ statement.assignment with expressions := [Expression.null] } : Assignment) with
              expressions := [right_nested_concatenation (new_slot statement.instruction.b)
                ((List.range (n + 1)).map
                  (fun k => new_slot (statement.instruction.b + 1 + k)))]
              }).register_open_slots (concatenation_leaf_handles 0 (n + 1)) },
          Exit.break_) := by
    unfold build_instruction_expression
    simp only [htype, hchain]
  rw [hbody]
  refine ⟨_, rfl, ?_, ?_, ?_, ?_, concatenation_leaf_handles_nodup _, ?_⟩
  · simp only [(register_open_slots_fields _ _).1]
  · rw [List.length_map, List.length_range]
  · simp only [(register_open_slots_fields _ _).2.2.1]
  · simp [concatenation_leaf_handles]
  · intro k hk
    have hread := right_nested_concatenation_get
      ((List.range (n + 1)).map (fun k => new_slot (statement.instruction.b + 1 + k)))
      (new_slot statement.instruction.b)
    rw [List.length_map, List.length_range] at hread
    have hleaf : (new_slot statement.instruction.b
        :: (List.range (n + 1)).map
          (fun k => new_slot (statement.instruction.b + 1 + k)))[k]?
        = some (new_slot (statement.instruction.b + k)) := by
      cases k with
      | zero => rw [List.getElem?_cons_zero, Nat.add_zero]
      | succ k =>
        rw [List.getElem?_cons_succ, List.getElem?_map, List.getElem?_range (by omega)]
        simp only [Option.map_some']
        rw [show statement.instruction.b + 1 + k = statement.instruction.b + (k + 1) by omega]
    have hslot : (new_slot (statement.instruction.b + k)).slot
        = statement.instruction.b + k := by
      simp only [new_slot, Expression.slot]
      exact Nat.mod_eq_of_lt (by omega)
    by_cases hlast : k = n + 1
    · subst hlast
      refine ⟨_, (concatenation_leaf_handles_getElem (n + 1) (n + 1)).2, ?_, hslot⟩
      simp only [Assignment.get?, expression_handle, (register_open_slots_fields _ _).1,
        List.getElem?_cons_zero]
      rw [hread.2, hleaf]
    · have hlt : k < n + 1 := by omega
      refine ⟨_, (concatenation_leaf_handles_getElem (n + 1) k).1 hlt, ?_, hslot⟩
      simp only [Assignment.get?, expression_handle, (register_open_slots_fields _ _).1,
        List.getElem?_cons_zero]
      rw [hread.1 k hlt, hleaf]

/-- Witness for claim C36: `CAT 0, 1, 3` builds `slot1 .. (slot2 .. slot3)` with the three
leaves registered from left to right. -/
theorem C36_witness :
    ∃ built, build_instruction_expression {} (Function.new {}) concatenation_of_three
        = Except.ok (Function.new {}, built, Exit.break_)
      ∧ built.assignment.expressions
        = [Expression.binaryOperation AST_BINARY_CONCATENATION (new_slot 1)
            (Expression.binaryOperation AST_BINARY_CONCATENATION (new_slot 2) (new_slot 3))]
      ∧ built.assignment.openSlots
        = [expression_handle 0 [Step.leftOperand],
           expression_handle 0 [Step.rightOperand, Step.leftOperand],
           expression_handle 0 [Step.rightOperand, Step.rightOperand]] := by
  obtain ⟨built, hbuilt, hexpressions, _, hslots, _⟩ :=
    C36_concatenation_chain {} (Function.new {}) concatenation_of_three rfl (by decide)
      (by decide)
  exact ⟨built, hbuilt, hexpressions, hslots⟩


/-! ### Operand order of the arithmetic opcodes -/

/-- C37: for the binary arithmetic opcodes, `build_expressions` keeps the operand order. The
`VN` forms build `(slot B) op number` and the `NV` forms build `number op (slot B)`, where
`number` is what `new_number` makes of number constant `C` (the statement is built whenever
`new_number` yields an expression, which for an integer constant and for a finite non-zero
double constant is the number constant itself); the `VV` forms and `POW` always build
`(slot B) op (slot C)`. The operator kind follows the `ADD`/`SUB`/`MUL`/`DIV`/`MOD` prefix in
all three forms. -/
theorem C37_arithmetic_operand_order (ast : Ast) (function : Function) (statement : Statement) :
    (statement.instruction.type ∈
        [BC_OP.ADDVN, BC_OP.SUBVN, BC_OP.MULVN, BC_OP.DIVVN, BC_OP.MODVN] →
      ∀ number, new_number function statement.instruction.c = Except.ok number →
        ∃ built, build_instruction_expression ast function statement
            = Except.ok (function, built, Exit.break_)
          ∧ built.assignment.expressions
            = [Expression.binaryOperation (binary_kind_of_op statement.instruction.type)
                (new_slot statement.instruction.b) number])
    ∧ (statement.instruction.type ∈
        [BC_OP.ADDNV, BC_OP.SUBNV, BC_OP.MULNV, BC_OP.DIVNV, BC_OP.MODNV] →
      ∀ number, new_number function statement.instruction.c = Except.ok number →
        ∃ built, build_instruction_expression ast function statement
            = Except.ok (function, built, Exit.break_)
          ∧ built.assignment.expressions
            = [Expression.binaryOperation (binary_kind_of_op statement.instruction.type)
                number (new_slot statement.instruction.b)])
    ∧ (statement.instruction.type ∈
        [BC_OP.ADDVV, BC_OP.SUBVV, BC_OP.MULVV, BC_OP.DIVVV, BC_OP.MODVV, BC_OP.POW] →
        ∃ built, build_instruction_expression ast function statement
            = Except.ok (function, built, Exit.break_)
          ∧ built.assignment.expressions
            = [Expression.binaryOperation (binary_kind_of_op statement.instruction.type)
                (new_slot statement.instruction.b) (new_slot statement.instruction.c)])
    ∧ ([BC_OP.ADDVN, BC_OP.ADDNV, BC_OP.ADDVV].map binary_kind_of_op
        = [AST_BINARY_ADDITION, AST_BINARY_ADDITION, AST_BINARY_ADDITION]
      ∧ [BC_OP.SUBVN, BC_OP.SUBNV, BC_OP.SUBVV].map binary_kind_of_op
        = [AST_BINARY_SUBTRACTION, AST_BINARY_SUBTRACTION, AST_BINARY_SUBTRACTION]
      ∧ [BC_OP.MULVN, BC_OP.MULNV, BC_OP.MULVV].map binary_kind_of_op
        = [AST_BINARY_MULTIPLICATION, AST_BINARY_MULTIPLICATION, AST_BINARY_MULTIPLICATION]
      ∧ [BC_OP.DIVVN, BC_OP.DIVNV, BC_OP.DIVVV].map binary_kind_of_op
        = [AST_BINARY_DIVISION, AST_BINARY_DIVISION, AST_BINARY_DIVISION]
      ∧ [BC_OP.MODVN, BC_OP.MODNV, BC_OP.MODVV].map binary_kind_of_op
        = [AST_BINARY_MODULO, AST_BINARY_MODULO, AST_BINARY_MODULO]
      ∧ binary_kind_of_op BC_OP.POW = AST_BINARY_EXPONENTATION)
    ∧ (∀ index, (function.get_number_constant index).type = BC_KNUM.BC_KNUM_INT →
        new_number function index = Except.ok (Expression.constant {
          type := AST_CONSTANT_NUMBER,
          number := Double.ofInt (int32_of_bits (function.get_number_constant index).integer) }))
    ∧ (∀ index, (function.get_number_constant index).type = BC_KNUM.BC_KNUM_NUM →
        Double.exponent (function.get_number_constant index).number ≠ 2047 →
        (function.get_number_constant index).number ≠ DOUBLE_NEGATIVE_ZERO →
        new_number function index = Except.ok (Expression.constant {
          type := AST_CONSTANT_NUMBER,
          number := (function.get_number_constant index).number })) := by
  refine ⟨?_, ?_, ?_, by decide, ?_, ?_⟩
  · intro htype number hnumber
    unfold build_instruction_expression
    simp only [List.mem_cons, List.mem_singleton, List.not_mem_nil, or_false] at htype
    rcases htype with h | h | h | h | h <;> simp only [h, hnumber] <;> exact ⟨_, rfl, rfl⟩
  · intro htype number hnumber
    unfold build_instruction_expression
    simp only [List.mem_cons, List.mem_singleton, List.not_mem_nil, or_false] at htype
    rcases htype with h | h | h | h | h <;> simp only [h, hnumber] <;> exact ⟨_, rfl, rfl⟩
  · intro htype
    unfold build_instruction_expression
    simp only [List.mem_cons, List.mem_singleton, List.not_mem_nil, or_false] at htype
    rcases htype with h | h | h | h | h | h <;> simp only [h] <;> exact ⟨_, rfl, rfl⟩
  · intro index htype
    unfold new_number
    simp only [htype]
  · intro index htype hfinite hzero
    unfold new_number
    simp only [htype]
    rw [check_special_number_constant]
    simp [hfinite, hzero]

/-- Witness for claim C37: `SUBNV 2, 1, 0` with number constant `7` builds `7 - slot1`. -/
theorem C37_witness :
    ∃ built, build_instruction_expression {} function_with_numbers subtract_from_number
        = Except.ok (function_with_numbers, built, Exit.break_)
      ∧ built.assignment.expressions
        = [Expression.binaryOperation AST_BINARY_SUBTRACTION
            (Expression.constant {
              type := AST_CONSTANT_NUMBER, number := Double.ofInt (int32_of_bits 7) })
            (new_slot 1)] :=
  (C37_arithmetic_operand_order {} function_with_numbers subtract_from_number).2.1
    (by decide) _
    ((C37_arithmetic_operand_order {} function_with_numbers subtract_from_number).2.2.2.2.1
      0 rfl)


/-! ### The results of a call -/

/-- With a non-zero operand in the form without multres, and an 8-bit operand, `build_call`
returns; it keeps the variables and stores one call expression with the given return count. -/
theorem build_call_returns (ast : Ast) (assignment : Assignment) (a count : Nat)
    (isMultresCall : Bool) (returnCount : Nat) (hcount : count < 256)
    (hcall : isMultresCall = false → count ≠ 0) :
    ∃ built, build_call ast assignment a count isMultresCall returnCount = Except.ok built
      ∧ built.variables_ = assignment.variables_
      ∧ ∃ arguments multresArgument, built.expressions
          = [Expression.functionCall (new_slot a) arguments multresArgument false returnCount] := by
  unfold build_call
  rw [if_neg (fun h => hcall h.2 h.1)]
  have hfits : ¬ (if isMultresCall = true then count else count - 1) > 255 := by
    split <;> omega
  simp only [if_neg hfits]
  refine ⟨_, rfl, ?_, ?_⟩
  · split <;> split <;>
      simp only [(register_open_slots_fields _ _).2.1]
  · split <;> split <;>
      simp only [(register_open_slots_fields _ _).1] <;> exact ⟨_, _, rfl⟩

/-- C38: for a `CALL` or `CALLM` instruction with an 8-bit operand `C` (non-zero for `CALL`),
`build_expressions` builds the statement: with `B = 0` an assignment to the single variable
slot `A` flagged `isMultres`; with `B = 1` a function-call statement without variables; with
`B >= 2` an assignment to the `B - 1` slot variables `A, A+1, ..., A+B-2` in that order, whose
call has `returnCount = B - 1`. -/
theorem C38_call_results (ast : Ast) (function : Function) (statement : Statement)
    (htype : statement.instruction.type = BC_OP.CALL ∨ statement.instruction.type = BC_OP.CALLM)
    (hc : statement.instruction.c < 256)
    (hcall : statement.instruction.type = BC_OP.CALL → statement.instruction.c ≠ 0) :
    ∃ built, build_instruction_expression ast function statement
        = Except.ok (function, built, Exit.continue_)
      ∧ (statement.instruction.b = 0 →
          built.type = AST_STATEMENT_ASSIGNMENT
          ∧ built.assignment.variables_
            = [{ slot_variable statement.instruction.a with isMultres := true }])
      ∧ (statement.instruction.b = 1 →
          built.type = AST_STATEMENT_FUNCTION_CALL ∧ built.assignment.variables_ = [])
      ∧ (2 ≤ statement.instruction.b →
          built.type = AST_STATEMENT_ASSIGNMENT
          ∧ built.assignment.variables_
            = (List.range (statement.instruction.b - 1)).map
                (fun j => slot_variable (statement.instruction.a + j))
          ∧ built.assignment.variables_.length = statement.instruction.b - 1
          ∧ (∀ j, j < statement.instruction.b - 1 → statement.instruction.a + j < 256 →
              built.assignment.variables_[j]?
                = some { type := AST_VARIABLE_SLOT, slot := statement.instruction.a + j })
          ∧ ∃ callee arguments multresArgument, built.assignment.expressions
              = [Expression.functionCall callee arguments multresArgument false
                  (statement.instruction.b - 1)]) := by
  have hmultres : decide (statement.instruction.type = BC_OP.CALLM) = false →
      statement.instruction.c ≠ 0 := by
    intro h
    rcases htype with h' | h'
    · exact hcall h'
    · rw [h'] at h
      exact absurd h (by decide)
  have hbody : build_instruction_expression ast function statement
      = match build_call ast
          { ({ statement.assignment with expressions := [Expression.null] } : Assignment) with
            variables_ :=
              (if statement.instruction.b ≠ 0 then
                if statement.instruction.b = 1 then (AST_STATEMENT_FUNCTION_CALL, [], 0)
                else
                  (AST_STATEMENT_ASSIGNMENT,
                    result_variables statement.instruction.a (statement.instruction.b - 1),
                    statement.instruction.b - 1)
              else
                (AST_STATEMENT_ASSIGNMENT,
                  [{ slot_variable statement.instruction.a with isMultres := true }], 0)).2.1 }
          statement.instruction.a statement.instruction.c
          (decide (statement.instruction.type = BC_OP.CALLM))
          (if statement.instruction.b ≠ 0 then
                if statement.instruction.b = 1 then
                  (AST_STATEMENT_FUNCTION_CALL, ([] : List Variable), 0)
                else
                  (AST_STATEMENT_ASSIGNMENT,
                    result_variables statement.instruction.a (statement.instruction.b - 1),
                    statement.instruction.b - 1)
              else
                (AST_STATEMENT_ASSIGNMENT,
                  [{ slot_variable statement.instruction.a with isMultres := true }], 0)).2.2 with
        | Except.error e => Except.error e
        | Except.ok assignment =>
          Except.ok (function, { statement with
            type := (if statement.instruction.b ≠ 0 then
                if statement.instruction.b = 1 then
                  (AST_STATEMENT_FUNCTION_CALL, ([] : List Variable), 0)
                else
                  (AST_STATEMENT_ASSIGNMENT,
                    result_variables statement.instruction.a (statement.instruction.b - 1),
                    statement.instruction.b - 1)
              else
                (AST_STATEMENT_ASSIGNMENT,
                  [{ slot_variable statement.instruction.a with isMultres := true }], 0)).1,
            assignment := assignment }, Exit.continue_) := by
    unfold build_instruction_expression
    rcases htype with h | h <;> simp only [h]
  rw [hbody]
  obtain ⟨result, hresult, hvariables, arguments, multresArgument, hexpressions⟩ :=
    build_call_returns ast
      { ({ statement.assignment with expressions := [Expression.null] } : Assignment) with
        variables_ :=
          (if statement.instruction.b ≠ 0 then
            if statement.instruction.b = 1 then (AST_STATEMENT_FUNCTION_CALL, [], 0)
            else
              (AST_STATEMENT_ASSIGNMENT,
                result_variables statement.instruction.a (statement.instruction.b - 1),
                statement.instruction.b - 1)
          else
            (AST_STATEMENT_ASSIGNMENT,
              [{ slot_variable statement.instruction.a with isMultres := true }], 0)).2.1 }
      statement.instruction.a statement.instruction.c
      (decide (statement.instruction.type = BC_OP.CALLM))
      (if statement.instruction.b ≠ 0 then
            if statement.instruction.b = 1 then
              (AST_STATEMENT_FUNCTION_CALL, ([] : List Variable), 0)
            else
              (AST_STATEMENT_ASSIGNMENT,
                result_variables statement.instruction.a (statement.instruction.b - 1),
                statement.instruction.b - 1)
          else
            (AST_STATEMENT_ASSIGNMENT,
              [{ slot_variable statement.instruction.a with isMultres := true }], 0)).2.2
      hc hmultres
  rw [hresult]
  refine ⟨_, rfl, ?_, ?_, ?_⟩
  · intro hb
    simp only [hvariables, hb, ne_eq, not_true_eq_false, if_false, and_self]
  · intro hb
    simp only [hvariables, hb, ne_eq, one_ne_zero, not_false_eq_true, if_true, and_self]
  · intro hb
    have h0 : statement.instruction.b ≠ 0 := by omega
    have h1 : statement.instruction.b ≠ 1 := by omega
    simp only [ne_eq, h0, not_false_eq_true, if_true, h1, if_false] at hvariables hexpressions ⊢
    refine ⟨trivial, ?_, ?_, ?_, _, _, _, hexpressions⟩
    · rw [hvariables]
      rfl
    · rw [hvariables, result_variables, List.length_map, List.length_range]
    · intro j hj hslot
      rw [hvariables, result_variables, List.getElem?_map, List.getElem?_range hj]
      simp only [Option.map_some', slot_variable, Nat.mod_eq_of_lt hslot]

/-- Witness for claim C38: `CALL 1, 3, 2` assigns the two results to slots 1 and 2. -/
theorem C38_witness :
    ∃ built, build_instruction_expression {} (Function.new {}) (call_with_results 3)
        = Except.ok (Function.new {}, built, Exit.continue_)
      ∧ built.type = AST_STATEMENT_ASSIGNMENT
      ∧ built.assignment.variables_
        = [{ type := AST_VARIABLE_SLOT, slot := 1 }, { type := AST_VARIABLE_SLOT, slot := 2 }]
      ∧ ∃ callee arguments multresArgument, built.assignment.expressions
          = [Expression.functionCall callee arguments multresArgument false 2] := by
  obtain ⟨built, hbuilt, _, _, hmany⟩ :=
    C38_call_results {} (Function.new {}) (call_with_results 3) (Or.inl rfl) (by decide)
      (fun _ => by decide)
  obtain ⟨htype, hvariables, _, _, hcall⟩ := hmany (by decide)
  exact ⟨built, hbuilt, htype, hvariables, hcall⟩


/-! ### The order of the inlined definitions -/

/-- The loop with a record of its inlinings is the inlining loop: without the record, the two
give the same result. -/
theorem eliminate_slots_inline_trace_result (platform : Platform) :
    ∀ (j : Nat) (function : Function) (block : List Statement) (i : Nat) (origins : List Nat)
      (events : List Inlining),
      (eliminate_slots_inline_trace platform j function block i origins events).map Prod.fst
        = eliminate_slots_inline platform j function block i := by
  intro j
  induction j with
  | zero =>
    intro function block i origins events
    rfl
  | succ j ih =>
    intro function block i origins events
    rw [eliminate_slots_inline_trace, eliminate_slots_inline]
    cases hs : block[i]? with
    | none => rfl
    | some statement =>
      cases hp : block[i - 1]? with
      | none => rfl
      | some previous =>
        simp only []
        by_cases hexit : i = 0 ∨ function.is_valid_label statement.instruction.attachedLabel = true
            ∨ is_single_use_slot_assignment function previous = false
        · rw [if_pos hexit, if_pos hexit]
          rfl
        · rw [if_neg hexit, if_neg hexit]
          generalize (@ite (Option (Function × List Statement × Nat))
            (j = 1 ∧ statement.assignment.isPotentialMethod = true ∧ i ≥ 2) _ _ _) = fused
          generalize (if fused.isSome = true then origins.eraseIdx (i - 2) else origins)
            = origins1
          generalize fused.getD _ = state
          obtain ⟨function1, block1, i1⟩ := state
          simp only []
          cases hs1 : block1[i1]? with
          | none => rfl
          | some statement1 =>
            cases hp1 : block1[i1 - 1]? with
            | none => rfl
            | some previous1 =>
              simp only []
              cases hhandle : statement1.assignment.openSlots[j]? with
              | none => rfl
              | some handle =>
                simp only []
                split
                · exact ih _ _ _ _ _
                · split
                  · rfl
                  · split
                    · rfl
                    · exact ih _ _ _ _ _


theorem inlining_invariant_weaken (original : List Statement) (bound count : Nat)
    (block : List Statement) (i : Nat) (origins : List Nat) (j : Nat) (events : List Inlining)
    (h : inlining_invariant original bound count block i origins (j + 1) events) :
    inlining_invariant original bound count block i origins j events := by
  obtain ⟨h1, h2, h3, h4⟩ := h
  refine ⟨h1, h2, ?_, h4⟩
  intro event hevent
  obtain ⟨g1, g2⟩ := h3 event hevent
  exact ⟨by omega, g2⟩

theorem inlining_invariant_fusion (original : List Statement) (bound count : Nat)
    (block : List Statement) (i : Nat) (origins : List Nat) (j : Nat) (events : List Inlining)
    (load x y : Statement)
    (h : inlining_invariant original bound count block i origins j events)
    (hi : 2 ≤ i) (hload : block[i - 1]? = some load)
    (hy : y.last_expression = load.last_expression) :
    inlining_invariant original bound count
      (((block.set i x).set (i - 1) y).eraseIdx (i - 2)) (i - 1) (origins.eraseIdx (i - 2)) j
      events := by
  obtain ⟨h1, h2, h3, h4⟩ := h
  have hlen : i - 1 < block.length := (List.getElem?_eq_some_iff.1 hload).1
  refine ⟨List.Pairwise.sublist (List.eraseIdx_sublist _ _) h1, ?_, ?_, h4⟩
  · intro k statement hk hstatement
    rw [List.getElem?_eraseIdx] at hstatement ⊢
    by_cases hlow : k < i - 2
    · rw [if_pos hlow] at hstatement ⊢
      rw [List.getElem?_set_ne (by omega), List.getElem?_set_ne (by omega)] at hstatement
      exact h2 k statement (by omega) hstatement
    · rw [if_neg hlow] at hstatement ⊢
      have hk' : k + 1 = i - 1 := by omega
      rw [hk', List.getElem?_set_self (by simpa using hlen)] at hstatement
      cases hstatement
      rw [hk', hy]
      exact h2 (i - 1) load (by omega) hload
  · intro event hevent
    obtain ⟨g1, g2, g3, g4, g5⟩ := h3 event hevent
    refine ⟨g1, g2, g3, g4, ?_⟩
    intro k origin hk horigin
    rw [List.getElem?_eraseIdx] at horigin
    split at horigin
    · exact g5 k origin (by omega) horigin
    · exact g5 (k + 1) origin (by omega) horigin

theorem inlining_invariant_inline (original : List Statement) (bound count : Nat)
    (block : List Statement) (i : Nat) (origins : List Nat) (j : Nat) (events : List Inlining)
    (previous x : Statement)
    (h : inlining_invariant original bound count block i origins (j + 1) events)
    (hcount : j < count) (hi : i ≠ 0) (hprevious : block[i - 1]? = some previous) :
    inlining_invariant original bound count
      ((block.set i x).eraseIdx (i - 1)) (i - 1) (origins.eraseIdx (i - 1)) j
      (events ++ [{ openSlot := j, position := origins.getD (i - 1) 0,
                    definition := previous.last_expression }]) := by
  obtain ⟨h1, h2, h3, h4⟩ := h
  obtain ⟨origin, source, horigin, hbound, hsource, hlast⟩ :=
    h2 (i - 1) previous (by omega) hprevious
  have hposition : origins.getD (i - 1) 0 = origin := by
    rw [List.getD_eq_getElem?_getD, horigin]
    rfl
  rw [hposition]
  have hbefore : ∀ k other, k < i - 1 → origins[k]? = some other → other < origin := by
    intro k other hk hother
    obtain ⟨hk', hother'⟩ := List.getElem?_eq_some_iff.1 hother
    obtain ⟨hi', horigin'⟩ := List.getElem?_eq_some_iff.1 horigin
    have h := List.pairwise_iff_getElem.1 h1 k (i - 1) hk' hi' hk
    rw [hother', horigin'] at h
    exact h
  refine ⟨List.Pairwise.sublist (List.eraseIdx_sublist _ _) h1, ?_, ?_, ?_⟩
  · intro k statement hk hstatement
    rw [List.getElem?_eraseIdx, if_pos hk] at hstatement ⊢
    rw [List.getElem?_set_ne (by omega)] at hstatement
    exact h2 k statement (by omega) hstatement
  · intro event hevent
    rw [List.mem_append, List.mem_singleton] at hevent
    rcases hevent with hevent | hevent
    · obtain ⟨g1, g2, g3, g4, g5⟩ := h3 event hevent
      refine ⟨by omega, g2, g3, g4, ?_⟩
      intro k other hk hother
      rw [List.getElem?_eraseIdx, if_pos hk] at hother
      exact g5 k other (by omega) hother
    · subst hevent
      refine ⟨Nat.le_refl _, hcount, hbound, ⟨source, hsource, hlast⟩, ?_⟩
      intro k other hk hother
      rw [List.getElem?_eraseIdx, if_pos hk] at hother
      exact hbefore k other hk hother
  · rw [List.pairwise_append]
    refine ⟨h4, List.pairwise_singleton _ _, ?_⟩
    intro event hevent new hnew
    rw [List.mem_singleton] at hnew
    subst hnew
    obtain ⟨g1, g2, g3, g4, g5⟩ := h3 event hevent
    exact ⟨Nat.lt_of_lt_of_le (Nat.lt_succ_self j) g1, g5 (i - 1) origin (by omega) horigin⟩

/-- Every run of the loop that returns keeps the state described by `inlining_invariant`. -/
theorem eliminate_slots_inline_trace_invariant (platform : Platform)
    (original : List Statement) (bound count : Nat) :
    ∀ (j : Nat) (function : Function) (block : List Statement) (i : Nat) (origins : List Nat)
      (events : List Inlining) (result : Function × List Statement × Nat)
      (trace : List Inlining),
      j ≤ count →
      inlining_invariant original bound count block i origins j events →
      eliminate_slots_inline_trace platform j function block i origins events
        = Except.ok (result, trace) →
      ∃ origins1, inlining_invariant original bound count result.2.1 result.2.2 origins1 0 trace := by
  intro j
  induction j with
  | zero =>
    intro function block i origins events result trace _ hinv hrun
    rw [eliminate_slots_inline_trace] at hrun
    cases hrun
    exact ⟨origins, hinv⟩
  | succ j ih =>
    intro function block i origins events result trace hcount hinv hrun
    have hstop : ∀ origins1,
        inlining_invariant original bound count block i origins1 (j + 1) events →
        ∃ origins2, inlining_invariant original bound count block i origins2 0 events := by
      intro origins1 h
      obtain ⟨h1, h2, h3, h4⟩ := h
      exact ⟨origins1, h1, h2, fun event hevent =>
        ⟨Nat.zero_le _, (h3 event hevent).2⟩, h4⟩
    rw [eliminate_slots_inline_trace] at hrun
    cases hs : block[i]? with
    | none =>
      rw [hs] at hrun
      cases hrun
    | some statement =>
      cases hp : block[i - 1]? with
      | none =>
        rw [hs, hp] at hrun
        cases hrun
        exact hstop origins hinv
      | some previous =>
        rw [hs, hp] at hrun
        simp only [] at hrun
        by_cases hexit : i = 0 ∨ function.is_valid_label statement.instruction.attachedLabel = true
            ∨ is_single_use_slot_assignment function previous = false
        · rw [if_pos hexit] at hrun
          cases hrun
          exact hstop origins hinv
        · rw [if_neg hexit] at hrun
          have hi : i ≠ 0 := fun h => hexit (Or.inl h)
          generalize hfused : (@ite (Option (Function × List Statement × Nat))
            (j = 1 ∧ statement.assignment.isPotentialMethod = true ∧ i ≥ 2) _ _ _) = fused
            at hrun
          have hstate : ∃ function1 block1 i1,
              fused.getD (function, block, i) = (function1, block1, i1) ∧ i1 ≠ 0
              ∧ inlining_invariant original bound count block1 i1
                  (if fused.isSome = true then origins.eraseIdx (i - 2) else origins)
                  (j + 1) events := by
            rw [← hfused]
            by_cases hc : j = 1 ∧ statement.assignment.isPotentialMethod = true ∧ i ≥ 2
            · rw [if_pos hc]
              cases hcopy : block[i - 2]? with
              | none => exact ⟨function, block, i, rfl, hi, hinv⟩
              | some copy =>
                simp only []
                by_cases hidiom : is_method_call_idiom function statement previous copy = true
                · simp only [if_pos hidiom, Option.getD_some, Option.isSome_some, if_true]
                  refine ⟨_, _, i - 1, rfl, by omega, ?_⟩
                  exact inlining_invariant_fusion original bound count block i origins
                    (j + 1) events previous _ _ hinv hc.2.2 hp rfl
                · simp only [if_neg hidiom, Option.getD_none, Option.isSome_none,
                    Bool.false_eq_true, if_false]
                  exact ⟨function, block, i, rfl, hi, hinv⟩
            · rw [if_neg hc]
              exact ⟨function, block, i, rfl, hi, hinv⟩
          obtain ⟨function1, block1, i1, hstate, hi1, hinv1⟩ := hstate
          rw [hstate] at hrun
          generalize (if fused.isSome = true then origins.eraseIdx (i - 2) else origins)
            = origins1 at hrun hinv1
          simp only [] at hrun
          cases hs1 : block1[i1]? with
          | none =>
            rw [hs1] at hrun
            cases hrun
          | some statement1 =>
            cases hp1 : block1[i1 - 1]? with
            | none =>
              rw [hs1, hp1] at hrun
              cases hrun
            | some previous1 =>
              rw [hs1, hp1] at hrun
              simp only [] at hrun
              cases hhandle : statement1.assignment.openSlots[j]? with
              | none =>
                rw [hhandle] at hrun
                cases hrun
              | some handle =>
                rw [hhandle] at hrun
                simp only [] at hrun
                split at hrun
                · exact ih _ _ _ _ _ _ _ (by omega)
                    (inlining_invariant_weaken _ _ _ _ _ _ _ _ hinv1) hrun
                · split at hrun
                  · cases hrun
                  · split at hrun
                    · cases hrun
                      obtain ⟨h1, h2, h3, h4⟩ := hinv1
                      exact ⟨origins1, h1, h2, fun event hevent =>
                        ⟨Nat.zero_le _, (h3 event hevent).2⟩, h4⟩
                    · exact ih _ _ _ _ _ _ _ (by omega)
                        (inlining_invariant_inline original bound count block1 i1 origins1 j
                          events previous1 _ hinv1 (by omega) hi1 hp1) hrun


theorem inlined_in_order_of_mem (trace : List Inlining)
    (h : trace.Pairwise inlined_in_order) (first second : Inlining)
    (hfirst : first ∈ trace) (hsecond : second ∈ trace)
    (hslot : first.openSlot < second.openSlot) :
    first.position < second.position := by
  have hsymmetric : Symmetric
      (fun a b : Inlining => inlined_in_order a b ∨ inlined_in_order b a) :=
    fun _ _ hab => hab.symm
  have hne : first ≠ second := by
    intro heq
    rw [heq] at hslot
    exact Nat.lt_irrefl _ hslot
  have hpair := List.Pairwise.forall hsymmetric (h.imp (fun hab => Or.inl hab)) hfirst hsecond
    hne
  rcases hpair with hpair | hpair
  · exact absurd hpair.1 (by omega)
  · exact hpair.2

/-- C39: in one run of the inlining loop of `eliminate_slots` for the statement at index `i`,
with the inlinings recorded in the order in which they happen (the record does not change the
result of the loop): every inlining takes the last expression of a statement that stood before
index `i` in the block at loop entry; a later inlining fills an open slot of smaller index with
a definition that stood earlier in the block; so of two open slots `j < j'` that both received
a definition, the one inlined into `j` stood before the one inlined into `j'`. -/
theorem C39_inlining_order (platform : Platform) (function : Function)
    (block : List Statement) (i count : Nat) (result : Function × List Statement × Nat)
    (trace : List Inlining)
    (hrun : eliminate_slots_inline_trace platform count function block i
      (List.range block.length) [] = Except.ok (result, trace)) :
    eliminate_slots_inline platform count function block i = Except.ok result
      ∧ trace.Pairwise inlined_in_order
      ∧ (∀ first ∈ trace, ∀ second ∈ trace, first.openSlot < second.openSlot →
          first.position < second.position)
      ∧ (∀ event ∈ trace, event.openSlot < count ∧ event.position < i
          ∧ ∃ source, block[event.position]? = some source
            ∧ source.last_expression = event.definition) := by
  have hresult := eliminate_slots_inline_trace_result platform count function block i
    (List.range block.length) []
  rw [hrun] at hresult
  have hstart : inlining_invariant block i count block i (List.range block.length) count [] := by
    refine ⟨List.pairwise_lt_range _, ?_, ?_, List.Pairwise.nil⟩
    · intro k statement hk hstatement
      have hlen : k < block.length := (List.getElem?_eq_some_iff.1 hstatement).1
      exact ⟨k, statement, List.getElem?_range hlen, hk, hstatement, rfl⟩
    · intro event hevent
      cases hevent
  obtain ⟨origins, _, _, hevents, hpairwise⟩ :=
    eliminate_slots_inline_trace_invariant platform block i count count function block i
      (List.range block.length) [] result trace (Nat.le_refl _) hstart hrun
  refine ⟨hresult.symm, hpairwise, ?_, ?_⟩
  · intro first hfirst second hsecond hslot
    exact inlined_in_order_of_mem trace hpairwise first second hfirst hsecond hslot
  · intro event hevent
    obtain ⟨_, g2, g3, g4, _⟩ := hevents event hevent
    exact ⟨g2, g3, g4⟩

/-- Witness for claim C39: in `slot0 = 5 ; slot1 = g ; slot2 = slot0 + slot1` the loop first
inlines `g`, from position 1, into open slot 1 and then `5`, from position 0, into open
slot 0. -/
theorem C39_witness :
    ∃ result trace,
      eliminate_slots_inline_trace Platform.sample 2 two_definitions_function block_of_sum 2
          (List.range block_of_sum.length) [] = Except.ok (result, trace)
        ∧ trace.map (fun event => (event.openSlot, event.position)) = [(1, 1), (0, 0)]
        ∧ eliminate_slots_inline Platform.sample 2 two_definitions_function block_of_sum 2
            = Except.ok result
        ∧ ∀ first ∈ trace, ∀ second ∈ trace, first.openSlot < second.openSlot →
            first.position < second.position :=
  ⟨_, _, rfl, rfl,
    (C39_inlining_order Platform.sample two_definitions_function block_of_sum 2 2 _ _ rfl).1,
    (C39_inlining_order Platform.sample two_definitions_function block_of_sum 2 2 _ _
      rfl).2.2.1⟩

/-! ### The search of `get_block_index_from_id` -/

theorem get_block_index_from_id_loop_sound (block : List Statement) (id : Nat) :
    ∀ (n : Nat), get_block_index_from_id_loop block id n ≠ INVALID_ID →
      get_block_index_from_id_loop block id n < n
        ∧ ∃ statement, block[get_block_index_from_id_loop block id n]? = some statement
          ∧ statement.instruction.id = id := by
  intro n
  induction n with
  | zero =>
    intro h
    exact absurd rfl h
  | succ n ih =>
    intro h
    unfold get_block_index_from_id_loop at h ⊢
    cases hs : block[n]? with
    | none =>
      simp only [hs] at h
      exact absurd rfl h
    | some statement =>
      simp only [hs] at h ⊢
      by_cases hc : statement.instruction.id = INVALID_ID ∨ statement.instruction.id ≥ id
      · rw [if_pos hc] at h ⊢
        by_cases he : statement.instruction.id = id
        · rw [if_pos he]
          exact ⟨Nat.lt_succ_self n, statement, hs, he⟩
        · rw [if_neg he] at h ⊢
          obtain ⟨hlt, hfound⟩ := ih h
          exact ⟨Nat.lt_succ_of_lt hlt, hfound⟩
      · rw [if_neg hc] at h
        exact absurd rfl h

theorem get_block_index_from_id_loop_complete (block : List Statement) (id : Nat)
    (hincreasing : valid_ids_increasing block) (hid : id ≠ INVALID_ID)
    (k : Nat) (carrier : Statement) (hk : block[k]? = some carrier)
    (hcarrier : carrier.instruction.id = id) :
    ∀ (n : Nat), k < n → n ≤ block.length →
      get_block_index_from_id_loop block id n = k := by
  intro n
  induction n with
  | zero =>
    intro h
    exact absurd h (Nat.not_lt_zero k)
  | succ n ih =>
    intro hkn hlen
    have hn : n < block.length := hlen
    unfold get_block_index_from_id_loop
    simp only [List.getElem?_eq_getElem hn]
    have hs : block[n]? = some block[n] := List.getElem?_eq_getElem hn
    by_cases hkn' : k = n
    · subst hkn'
      rw [hs] at hk
      cases hk
      rw [if_pos (Or.inr (le_of_eq hcarrier.symm)), if_pos hcarrier]
    · have hlt : k < n := by omega
      by_cases hinvalid : block[n].instruction.id = INVALID_ID
      · rw [if_pos (Or.inl hinvalid), if_neg (by rw [hinvalid]; exact Ne.symm hid)]
        exact ih hlt (le_of_lt hn)
      · have hless : carrier.instruction.id < block[n].instruction.id :=
          hincreasing k n carrier block[n] hlt hk hs (by rw [hcarrier]; exact hid) hinvalid
        rw [hcarrier] at hless
        rw [if_pos (Or.inr (le_of_lt hless)), if_neg (Nat.ne_of_gt hless)]
        exact ih hlt (le_of_lt hn)

/-- Claim C40. If the valid instruction ids of the statements of a block are strictly
increasing with the position, then for every valid id `get_block_index_from_id` returns the
index of every statement that carries the id (so there is at most one) and `INVALID_ID` when no
statement carries it. For every block and every id, an index it returns other than `INVALID_ID`
is the index of a statement whose instruction id is the requested id. -/
theorem C40_get_block_index_from_id (block : List Statement) (id : Nat) :
    (valid_ids_increasing block → id ≠ INVALID_ID →
      (∀ (k : Nat) (carrier : Statement), block[k]? = some carrier →
          carrier.instruction.id = id → get_block_index_from_id block id = k)
        ∧ ((∀ (k : Nat) (statement : Statement), block[k]? = some statement →
            statement.instruction.id ≠ id) →
          get_block_index_from_id block id = INVALID_ID))
      ∧ (get_block_index_from_id block id ≠ INVALID_ID →
          ∃ statement, block[get_block_index_from_id block id]? = some statement
            ∧ statement.instruction.id = id) := by
  refine ⟨fun hincreasing hid => ⟨?_, ?_⟩, ?_⟩
  · intro k carrier hk hcarrier
    exact get_block_index_from_id_loop_complete block id hincreasing hid k carrier hk hcarrier
      block.length (List.getElem?_eq_some_iff.1 hk).1 (le_refl _)
  · intro hnone
    by_contra h
    obtain ⟨_, statement, hs, hcarries⟩ :=
      get_block_index_from_id_loop_sound block id block.length h
    exact hnone _ statement hs hcarries
  · intro h
    exact (get_block_index_from_id_loop_sound block id block.length h).2

/-- Witness for claim C40: in a block whose statements carry the ids 2, none, 5, 7, none, the
id 5 is found at index 2 and the id 6, which no statement carries, gives `INVALID_ID`. -/
theorem C40_witness :
    get_block_index_from_id block_with_gaps 5 = 2
      ∧ get_block_index_from_id block_with_gaps 6 = INVALID_ID := by
  have hincreasing : valid_ids_increasing block_with_gaps := by
    intro i j first second hij hi hj hfirst hsecond
    match i, j, hi, hj with
    | 0, 1, hi, hj => cases hj; exact absurd rfl hsecond
    | 0, 2, hi, hj => cases hi; cases hj; decide
    | 0, 3, hi, hj => cases hi; cases hj; decide
    | 0, 4, hi, hj => cases hj; exact absurd rfl hsecond
    | 1, _, hi, hj => cases hi; exact absurd rfl hfirst
    | 2, 3, hi, hj => cases hi; cases hj; decide
    | 2, 4, hi, hj => cases hj; exact absurd rfl hsecond
    | 3, 4, hi, hj => cases hj; exact absurd rfl hsecond
    | 4, _, hi, hj => cases hi; exact absurd rfl hfirst
    | i + 5, _, hi, hj => cases hi
    | 0, 0, _, _ => omega
    | 2, 0, _, _ => omega
    | 2, 1, _, _ => omega
    | 2, 2, _, _ => omega
    | 3, 0, _, _ => omega
    | 3, 1, _, _ => omega
    | 3, 2, _, _ => omega
    | 3, 3, _, _ => omega
    | 0, j + 5, hi, hj => cases hj
    | 2, j + 5, hi, hj => cases hj
    | 3, j + 5, hi, hj => cases hj
  have hnone : ∀ (k : Nat) (statement : Statement), block_with_gaps[k]? = some statement →
      statement.instruction.id ≠ 6 := by
    intro k statement hk
    match k, hk with
    | 0, hk => cases hk; decide
    | 1, hk => cases hk; decide
    | 2, hk => cases hk; decide
    | 3, hk => cases hk; decide
    | 4, hk => cases hk; decide
    | k + 5, hk => cases hk
  exact ⟨((C40_get_block_index_from_id block_with_gaps 5).1 hincreasing (by decide)).1 2
      (statement_with_id 5) rfl rfl,
    ((C40_get_block_index_from_id block_with_gaps 6).1 hincreasing (by decide)).2 hnone⟩

/-! ### Instruction ids through the passes -/

theorem instruction_ids_cons (s : Statement) (l : List Statement) :
    instruction_ids (s :: l) = s.instruction.id :: instruction_ids l := by
  simp [instruction_ids]

end Decompiler
